import Mathlib

/-! # Glimpse device capture and buffer life-cycle

A shallow embedding of the reference counting, memory pool, request/ready
mask and frame claiming code of `src/glimpse_context.h`,
`src/glimpse_device.cc` and `src/glimpse_viewer.cc`.

Pointers are natural-number addresses (`Option Nat`, `none` for `NULL`) into
two heaps, one of `gm_device_buffer` and one of `gm_device_frame`.  A routine
is a function from the world (device plus heaps) to an outcome that is either
a normal return or an assertion abort; both keep the memory as it was at that
point, so that the state at an abort can be inspected.

`int` reference counts are mathematical integers (signed overflow is
undefined in C and is not modelled); `uint64_t` masks are naturals, with the
complement taken on 64 bits.
-/

namespace Glimpse

/-! ## Data model (`glimpse_context.h`, `glimpse_device.h`) -/

/-- Pixel formats of `enum gm_format`. -/
inductive gm_format where
  | GM_FORMAT_UNKNOWN
  | GM_FORMAT_Z_U16_MM
  | GM_FORMAT_Z_F32_M
  | GM_FORMAT_Z_F16_M
  | GM_FORMAT_LUMINANCE_U8
  | GM_FORMAT_RGB_U8
  | GM_FORMAT_RGBX_U8
  | GM_FORMAT_RGBA_U8
  | GM_FORMAT_POINTS_XYZC_F32_M
  | GM_FORMAT_BGR_U8
  | GM_FORMAT_BGRX_U8
  | GM_FORMAT_BGRA_U8
  deriving DecidableEq, Repr

/-- Camera intrinsics.  Only `width` and `height` are inspected by the code
embedded here; the floating point calibration (`fx`, `fy`, `cx`, `cy`, the
distortion model and its coefficients) is carried as an uninterpreted
payload that is copied with the struct. -/
structure gm_intrinsics where
  width : Nat
  height : Nat
  calibration : List Int
  deriving DecidableEq, Repr

/-- Pose: validity flag plus uninterpreted orientation and translation. -/
structure gm_pose where
  valid : Bool
  orientation : List Int
  translation : List Int
  deriving DecidableEq, Repr

/-- Bit of the depth kind in a buffers mask: `1ULL<<0`. -/
def GM_REQUEST_FRAME_DEPTH : Nat := 1 <<< 0

/-- Bit of the video kind in a buffers mask: `1ULL<<1`. -/
def GM_REQUEST_FRAME_VIDEO : Nat := 1 <<< 1

/-- Bitwise complement of a `uint64_t`. -/
def not64 (x : Nat) : Nat := (2 ^ 64 - 1) ^^^ x

/-- Fields of `struct gm_buffer` (the vtable pointer is resolved statically:
every buffer of a device has `device_buffer_recycle` and
`device_buffer_add_breadcrumb` installed by its allocator). -/
structure gm_buffer where
  ref : Int
  len : Nat
  data : List Nat
  deriving DecidableEq, Repr

/-- Fields of `struct gm_frame`. -/
structure gm_frame where
  ref : Int
  timestamp : Nat
  pose : gm_pose
  camera_rotation : Int
  depth : Option Nat
  depth_format : gm_format
  depth_intrinsics : gm_intrinsics
  video : Option Nat
  video_format : gm_format
  video_intrinsics : gm_intrinsics
  deriving DecidableEq, Repr

/-- The pools a device owns; a pool pointer is one of these names. -/
inductive pool_id where
  | video_buf_pool
  | depth_buf_pool
  | frame_pool
  deriving DecidableEq, Repr

/-- A `struct gm_device_buffer`: the base buffer, the pool it returns to and
its breadcrumb trail (the tag of each crumb; the captured backtrace is not
modelled). -/
structure gm_device_buffer where
  base : gm_buffer
  pool : pool_id
  trail : List String
  deriving DecidableEq, Repr

/-- A `struct gm_device_frame`. -/
structure gm_device_frame where
  base : gm_frame
  trail : List String
  deriving DecidableEq, Repr

/-- Modelled from the spec: `glimpse_mem_pool.h` is not part of the sources.
A pool holds a free list of resources, a count of the resources ever
allocated and a maximum outstanding count. -/
structure gm_mem_pool where
  available : List Nat
  n_allocated : Nat
  max_size : Nat
  deriving DecidableEq, Repr

/-- Device kinds of `enum gm_device_type`. -/
inductive gm_device_type where
  | GM_DEVICE_KINECT
  | GM_DEVICE_RECORDING
  | GM_DEVICE_TANGO
  | GM_DEVICE_AVF
  deriving DecidableEq, Repr

/-- Event kinds of `enum gm_device_event_type`. -/
inductive gm_device_event_type where
  | GM_DEV_EVENT_READY
  | GM_DEV_EVENT_FRAME_READY
  deriving DecidableEq, Repr

/-- A `struct gm_device_event` as handed to the event callback. -/
structure gm_device_event where
  type : gm_device_event_type
  buffers_mask : Nat
  deriving DecidableEq, Repr

/-- The `recording` member of the device union. -/
structure gm_recording where
  frame : Int
  loop : Bool
  max_frame : Int
  ignore_loop : Bool
  last_camera_rotation : Int
  last_depth_buf : Option Nat
  last_video_buf : Option Nat
  fixed_intrinsics : Bool
  deriving DecidableEq, Repr

/-- The fields of `struct gm_device` used by the capture core.  A
`pthread_mutex_t` is a flag that says whether the mutex is held. -/
structure gm_device where
  type : gm_device_type
  configured : Bool
  running : Bool
  recording : gm_recording
  camera_rotation : Int
  max_depth_pixels : Nat
  max_video_pixels : Nat
  video_intrinsics : gm_intrinsics
  depth_intrinsics : gm_intrinsics
  frame_request_buffers_mask : Nat
  frame_ready_buffers_mask : Nat
  swap_buffers_lock : Bool
  request_buffers_mask_lock : Bool
  depth_format : gm_format
  video_format : gm_format
  video_buf_pool : gm_mem_pool
  video_buf_ready : Option Nat
  video_buf_back : Option Nat
  depth_buf_pool : gm_mem_pool
  depth_buf_ready : Option Nat
  depth_buf_back : Option Nat
  frame_time : Nat
  frame_pose : gm_pose
  frame_pool : gm_mem_pool
  last_frame : Option Nat
  deriving DecidableEq, Repr

/-- The device together with the memory it points into: the heap of device
buffers, the heap of device frames, the next fresh address of each heap (what
`new` returns) and the events delivered so far through `event_callback`. -/
structure World where
  dev : gm_device
  buffers : Nat → gm_device_buffer
  frames : Nat → gm_device_frame
  next_buffer : Nat
  next_frame : Nat
  events : List gm_device_event

/-! ## Control flow: normal return or assertion abort -/

/-- Outcome of running a routine: a value and the memory after it, or the
message of the failed assertion and the memory at the abort. -/
inductive Res (α : Type) where
  | ok : α → World → Res α
  | abort : String → World → Res α

/-- A routine of the device code. -/
def Prog (α : Type) : Type := World → Res α

/-- Sequencing: an abort ends the routine. -/
def Prog.bind {α β : Type} (m : Prog α) (f : α → Prog β) : Prog β :=
  fun w =>
    match m w with
    | .ok a w1 => f a w1
    | .abort msg w1 => .abort msg w1

instance : Monad Prog where
  pure a := fun w => .ok a w
  bind := Prog.bind

/-- Continue with `k` after a normal return; an abort is passed on. -/
def Res.and_then {α β : Type} (r : Res α) (k : α → World → Res β) : Res β :=
  match r with
  | .ok a w1 => k a w1
  | .abort msg w1 => .abort msg w1

/-- Read the world. -/
def get_world : Prog World := fun w => .ok w w

/-- Update the world. -/
def modify_world (f : World → World) : Prog Unit := fun w => .ok () (f w)

/-- Modelled from the spec: the `gm_assert` macro of `glimpse_log.h` is not
part of the sources; a failed assertion is fatal (process abort). -/
def gm_assert (condition : Bool) (msg : String) : Prog Unit :=
  fun w => if condition then .ok () w else .abort msg w

/-- The C `assert` of `<assert.h>`, with assertions enabled. -/
def c_assert (condition : Bool) (msg : String) : Prog Unit :=
  fun w => if condition then .ok () w else .abort msg w

/-- The value a routine returned, if it returned. -/
def Res.value? {α : Type} : Res α → Option α
  | .ok a _ => some a
  | .abort _ _ => none

/-- The memory at the end of the routine (return or abort). -/
def Res.world {α : Type} : Res α → World
  | .ok _ w => w
  | .abort _ w => w

/-- The message of the failed assertion, if the routine aborted. -/
def Res.failure? {α : Type} : Res α → Option String
  | .ok _ _ => none
  | .abort msg _ => some msg

/-- Whether the routine returned normally. -/
def Res.returned {α : Type} : Res α → Bool
  | .ok _ _ => true
  | .abort _ _ => false

/-! ## Heap and pool access -/

/-- Overwrite the buffer at address `b`. -/
def World.set_buffer (w : World) (b : Nat) (v : gm_device_buffer) : World :=
  { w with buffers := Function.update w.buffers b v }

/-- Overwrite the frame at address `f`. -/
def World.set_frame (w : World) (f : Nat) (v : gm_device_frame) : World :=
  { w with frames := Function.update w.frames f v }

/-- Dereference a pool pointer. -/
def World.pool (w : World) : pool_id → gm_mem_pool
  | .video_buf_pool => w.dev.video_buf_pool
  | .depth_buf_pool => w.dev.depth_buf_pool
  | .frame_pool => w.dev.frame_pool

/-- Store through a pool pointer. -/
def World.set_pool (w : World) (p : pool_id) (v : gm_mem_pool) : World :=
  match p with
  | .video_buf_pool => { w with dev := { w.dev with video_buf_pool := v } }
  | .depth_buf_pool => { w with dev := { w.dev with depth_buf_pool := v } }
  | .frame_pool => { w with dev := { w.dev with frame_pool := v } }

/-- Reference count of the buffer at `b`. -/
def World.buffer_ref (w : World) (b : Nat) : Int := (w.buffers b).base.ref

/-- Reference count of the frame at `f`. -/
def World.frame_ref (w : World) (f : Nat) : Int := (w.frames f).base.ref

/-- Apply `f` to the buffer at address `b`. -/
def World.modify_buffer (w : World) (b : Nat)
    (f : gm_device_buffer → gm_device_buffer) : World :=
  w.set_buffer b (f (w.buffers b))

/-- Apply `f` to the frame at address `x`. -/
def World.modify_frame (w : World) (x : Nat)
    (f : gm_device_frame → gm_device_frame) : World :=
  w.set_frame x (f (w.frames x))

/-- Apply `f` to the device struct. -/
def World.modify_dev (w : World) (f : gm_device → gm_device) : World :=
  { w with dev := f w.dev }

/-! ## Resource pool -/

/-- Modelled from the spec: `mem_pool_recycle_resource` of the absent
`glimpse_mem_pool`: pushes the resource back onto the free list. -/
def mem_pool_recycle_resource (pool : pool_id) (resource : Nat) : Prog Unit :=
  modify_world fun w =>
    w.set_pool pool
      { w.pool pool with available := resource :: (w.pool pool).available }

/-- The allocator `device_frame_alloc`: `new gm_device_frame()` at a fresh
address, value-initialised (count 0, null buffers, empty trail). -/
def device_frame_alloc : Prog Nat := fun w =>
  .ok w.next_frame
    { w with
      next_frame := w.next_frame + 1
      frames := Function.update w.frames w.next_frame
        { base :=
            { ref := 0, timestamp := 0, pose := ⟨false, [], []⟩, camera_rotation := 0
              depth := none, depth_format := .GM_FORMAT_UNKNOWN
              depth_intrinsics := ⟨0, 0, []⟩
              video := none, video_format := .GM_FORMAT_UNKNOWN
              video_intrinsics := ⟨0, 0, []⟩ }
          trail := [] } }

/-- The allocator `device_video_buf_alloc`: a fresh buffer large enough for
the device's video format (the `xmalloc`ed bytes are modelled as zeros). -/
def device_video_buf_alloc : Prog Nat := fun w =>
  let len :=
    match w.dev.type with
    | .GM_DEVICE_TANGO => w.dev.max_video_pixels * 3
    | .GM_DEVICE_KINECT => w.dev.max_video_pixels * 3
    | .GM_DEVICE_AVF => w.dev.max_video_pixels * 4
    | .GM_DEVICE_RECORDING => w.dev.max_video_pixels * 4
  .ok w.next_buffer
    { w with
      next_buffer := w.next_buffer + 1
      buffers := Function.update w.buffers w.next_buffer
        { base := { ref := 0, len := len, data := List.replicate len 0 }
          pool := .video_buf_pool
          trail := [] } }

/-- The allocator `device_depth_buf_alloc`. -/
def device_depth_buf_alloc : Prog Nat := fun w =>
  let len :=
    match w.dev.type with
    | .GM_DEVICE_TANGO => w.dev.max_depth_pixels * 16
    | .GM_DEVICE_AVF => w.dev.max_depth_pixels * 16
    | .GM_DEVICE_RECORDING => w.dev.max_depth_pixels * 16
    | .GM_DEVICE_KINECT => w.dev.max_depth_pixels * 2
  .ok w.next_buffer
    { w with
      next_buffer := w.next_buffer + 1
      buffers := Function.update w.buffers w.next_buffer
        { base := { ref := 0, len := len, data := List.replicate len 0 }
          pool := .depth_buf_pool
          trail := [] } }

/-- The allocator callback a pool was created with in `gm_device_open`. -/
def pool_alloc_mem : pool_id → Prog Nat
  | .video_buf_pool => device_video_buf_alloc
  | .depth_buf_pool => device_depth_buf_alloc
  | .frame_pool => device_frame_alloc

/-- Modelled from the spec: `mem_pool_acquire_resource` of the absent
`glimpse_mem_pool`: pops from the free list or invokes the allocator
callback; acquiring beyond the pool's capacity is fatal. -/
def mem_pool_acquire_resource (pool : pool_id) : Prog Nat := do
  let w ← get_world
  match (w.pool pool).available with
  | resource :: rest =>
    modify_world fun w => w.set_pool pool { w.pool pool with available := rest }
    pure resource
  | [] =>
    gm_assert (decide ((w.pool pool).n_allocated < (w.pool pool).max_size))
      "pool exhausted"
    let resource ← pool_alloc_mem pool
    modify_world fun w =>
      w.set_pool pool { w.pool pool with n_allocated := (w.pool pool).n_allocated + 1 }
    pure resource

/-! ## Buffers: breadcrumbs, recycle, ref and unref -/

/-- The hook `device_buffer_add_breadcrumb`. -/
def device_buffer_add_breadcrumb (self : Nat) (tag : String) : Prog Unit := do
  let w ← get_world
  gm_assert (decide ((w.buffers self).base.ref ≥ 0)) "Use of buffer after free"
  modify_world fun w =>
    w.modify_buffer self fun buffer => { buffer with trail := buffer.trail ++ [tag] }

/-- The inline `gm_buffer_add_breadcrumb`: dispatch through the vtable. -/
def gm_buffer_add_breadcrumb (buffer : Nat) (tag : String) : Prog Unit :=
  device_buffer_add_breadcrumb buffer tag

/-- The free hook `device_buffer_recycle`: clear the trail, hand the buffer
back to its pool, then check the count. -/
def device_buffer_recycle (self : Nat) : Prog Unit := do
  let w ← get_world
  let pool := (w.buffers self).pool
  modify_world fun w => w.modify_buffer self fun buf => { buf with trail := [] }
  mem_pool_recycle_resource pool self
  let w ← get_world
  gm_assert ((w.buffers self).base.ref == 0) "Unbalanced buffer unref"

/-- The inline `gm_buffer_ref`. -/
def gm_buffer_ref (buffer : Nat) : Prog Nat := do
  let w ← get_world
  c_assert (decide ((w.buffers buffer).base.ref ≥ 0)) "buffer->ref >= 0"
  gm_buffer_add_breadcrumb buffer "ref"
  modify_world fun w =>
    w.modify_buffer buffer fun b => { b with base := { b.base with ref := b.base.ref + 1 } }
  pure buffer

/-- The inline `gm_buffer_unref`. -/
def gm_buffer_unref (buffer : Nat) : Prog Unit := do
  gm_buffer_add_breadcrumb buffer "unref"
  modify_world fun w =>
    w.modify_buffer buffer fun b => { b with base := { b.base with ref := b.base.ref - 1 } }
  let w ← get_world
  if (w.buffers buffer).base.ref < 1 then
    device_buffer_recycle buffer

/-- The name of a pool, as `mem_pool_get_name` returns it: the name the pool
was created with by `mem_pool_alloc` in `gm_device_open`. -/
def mem_pool_get_name : pool_id → String
  | .video_buf_pool => "video"
  | .depth_buf_pool => "depth"
  | .frame_pool => "frame"

/-- The routine `mem_pool_acquire_buffer`. -/
def mem_pool_acquire_buffer (pool : pool_id) (bread_crumb : String) : Prog Nat := do
  let buffer ← mem_pool_acquire_resource pool
  let w ← get_world
  gm_assert ((w.buffers buffer).base.ref == 0)
    (mem_pool_get_name pool ++ " buffer was used after last free")
  modify_world fun w =>
    w.modify_buffer buffer fun b => { b with base := { b.base with ref := 1 } }
  gm_buffer_add_breadcrumb buffer bread_crumb
  pure buffer

/-! ## Frames: breadcrumbs, recycle, ref and unref -/

/-- The hook `device_frame_add_breadcrumb`. -/
def device_frame_add_breadcrumb (self : Nat) (tag : String) : Prog Unit := do
  let w ← get_world
  gm_assert (decide ((w.frames self).base.ref ≥ 0)) "Use of frame after free"
  modify_world fun w =>
    w.modify_frame self fun frame => { frame with trail := frame.trail ++ [tag] }

/-- The inline `gm_frame_add_breadcrumb`: dispatch through the vtable. -/
def gm_frame_add_breadcrumb (frame : Nat) (tag : String) : Prog Unit :=
  device_frame_add_breadcrumb frame tag

/-- The free hook `device_frame_recycle` (`frame->pool` is the frame pool, the
only pool whose allocator is `device_frame_alloc`). -/
def device_frame_recycle (self : Nat) : Prog Unit := do
  let w ← get_world
  gm_assert ((w.frames self).base.ref == 0) "Unbalanced frame unref"
  match (w.frames self).base.video with
  | some video =>
    gm_buffer_unref video
    modify_world fun w =>
      w.modify_frame self fun fr => { fr with base := { fr.base with video := none } }
  | none => pure ()
  let w ← get_world
  match (w.frames self).base.depth with
  | some depth =>
    gm_buffer_unref depth
    modify_world fun w =>
      w.modify_frame self fun fr => { fr with base := { fr.base with depth := none } }
  | none => pure ()
  modify_world fun w => w.modify_frame self fun fr => { fr with trail := [] }
  mem_pool_recycle_resource .frame_pool self

/-- The inline `gm_frame_ref`. -/
def gm_frame_ref (frame : Nat) : Prog Nat := do
  let w ← get_world
  c_assert (decide ((w.frames frame).base.ref ≥ 0)) "frame->ref >= 0"
  gm_frame_add_breadcrumb frame "ref"
  modify_world fun w =>
    w.modify_frame frame fun fr => { fr with base := { fr.base with ref := fr.base.ref + 1 } }
  pure frame

/-- The inline `gm_frame_unref`. -/
def gm_frame_unref (frame : Nat) : Prog Unit := do
  gm_frame_add_breadcrumb frame "unref"
  modify_world fun w =>
    w.modify_frame frame fun fr => { fr with base := { fr.base with ref := fr.base.ref - 1 } }
  let w ← get_world
  if (w.frames frame).base.ref < 1 then
    device_frame_recycle frame

/-- The routine `mem_pool_acquire_frame`. -/
def mem_pool_acquire_frame (pool : pool_id) (bread_crumb : String) : Prog Nat := do
  let frame ← mem_pool_acquire_resource pool
  let w ← get_world
  gm_assert ((w.frames frame).base.ref == 0) "frame was used after last free"
  modify_world fun w =>
    w.modify_frame frame fun fr =>
      { fr with base :=
          { fr.base with
            ref := 1
            depth := none
            depth_format := .GM_FORMAT_UNKNOWN
            video := none
            video_format := .GM_FORMAT_UNKNOWN } }
  gm_frame_add_breadcrumb frame bread_crumb
  pure frame

/-! ## Mutexes -/

/-- Take `swap_buffers_lock` (single thread of control: the mutex is free). -/
def lock_swap_buffers : Prog Unit :=
  modify_world fun w => w.modify_dev fun d => { d with swap_buffers_lock := true }

/-- Release `swap_buffers_lock`. -/
def unlock_swap_buffers : Prog Unit :=
  modify_world fun w => w.modify_dev fun d => { d with swap_buffers_lock := false }

/-- Take `request_buffers_mask_lock`. -/
def lock_request_buffers_mask : Prog Unit :=
  modify_world fun w => w.modify_dev fun d => { d with request_buffers_mask_lock := true }

/-- Release `request_buffers_mask_lock`. -/
def unlock_request_buffers_mask : Prog Unit :=
  modify_world fun w => w.modify_dev fun d => { d with request_buffers_mask_lock := false }

/-! ## Requests and notification -/

/-- The routine `notify_frame_locked`: deliver a `FRAME_READY` event carrying
the ready mask and clear the satisfied bits of the request mask. -/
def notify_frame_locked : Prog Unit :=
  modify_world fun w =>
    { w with
      dev := { w.dev with
        frame_request_buffers_mask :=
          w.dev.frame_request_buffers_mask &&& not64 w.dev.frame_ready_buffers_mask }
      events := w.events ++
        [{ type := .GM_DEV_EVENT_FRAME_READY
           buffers_mask := w.dev.frame_ready_buffers_mask }] }

/-- The routine `maybe_notify_frame_locked`. -/
def maybe_notify_frame_locked : Prog Unit := do
  let w ← get_world
  if w.dev.frame_request_buffers_mask &&& w.dev.frame_ready_buffers_mask ≠ 0 then
    notify_frame_locked

/-- The routine `gm_device_request_frame`. -/
def gm_device_request_frame (buffers_mask : Nat) : Prog Unit := do
  if buffers_mask = 0 then
    pure ()
  else
    lock_request_buffers_mask
    modify_world fun w => w.modify_dev fun d =>
      { d with frame_request_buffers_mask := d.frame_request_buffers_mask ||| buffers_mask }
    maybe_notify_frame_locked
    unlock_request_buffers_mask

/-- The viewer state of `glimpse_viewer.cc` that `request_device_frame`
touches. -/
structure Data where
  pending_frame_buffers_mask : Nat
  deriving DecidableEq, Repr

/-- The viewer helper `request_device_frame`.  The second component lists the
masks of the `gm_device_request_frame` calls it made on the active device, in
order. -/
def request_device_frame (data : Data) (buffers_mask : Nat) : Data × List Nat :=
  let new_buffers_mask := data.pending_frame_buffers_mask ||| buffers_mask
  if data.pending_frame_buffers_mask ≠ new_buffers_mask then
    ({ data with pending_frame_buffers_mask := new_buffers_mask }, [new_buffers_mask])
  else
    (data, [])

/-! ## Claiming and combining frames -/

/-- The second part of `gm_device_get_latest_frame`, from `dev->last_frame =
&frame->base` to the end: the ready buffers move into `frame`, the ready mask
is cleared, the caller's reference is taken and the count is checked. -/
def gm_device_get_latest_frame_fill (frame : Nat) : Prog Nat := do
  modify_world fun w => w.modify_dev fun d => { d with last_frame := some frame }
  let w ← get_world
  if w.dev.frame_ready_buffers_mask &&& GM_REQUEST_FRAME_DEPTH ≠ 0 then
    modify_world fun w =>
      w.modify_frame frame fun fr =>
        { fr with base := { fr.base with depth := w.dev.depth_buf_ready } }
    modify_world fun w => w.modify_dev fun d => { d with depth_buf_ready := none }
    modify_world fun w =>
      w.modify_frame frame fun fr =>
        { fr with base := { fr.base with depth_format := w.dev.depth_format } }
    let w ← get_world
    gm_assert ((w.frames frame).base.depth != none)
      "Depth ready flag set but buffer missing"
    modify_world fun w =>
      w.modify_frame frame fun fr =>
        { fr with base := { fr.base with depth_intrinsics := w.dev.depth_intrinsics } }
    gm_assert
      (decide (w.dev.depth_intrinsics.width > 0) && decide (w.dev.depth_intrinsics.height > 0))
      "Invalid intrinsics for latest depth buffer"
  let w ← get_world
  if w.dev.frame_ready_buffers_mask &&& GM_REQUEST_FRAME_VIDEO ≠ 0 then
    modify_world fun w =>
      w.modify_frame frame fun fr =>
        { fr with base := { fr.base with video := w.dev.video_buf_ready } }
    modify_world fun w => w.modify_dev fun d => { d with video_buf_ready := none }
    modify_world fun w =>
      w.modify_frame frame fun fr =>
        { fr with base := { fr.base with video_format := w.dev.video_format } }
    let w ← get_world
    gm_assert ((w.frames frame).base.video != none)
      "Video ready flag set but buffer missing"
    gm_assert
      (decide (w.dev.video_intrinsics.width > 0) && decide (w.dev.video_intrinsics.height > 0))
      "Invalid intrinsics for latest video buffer"
    modify_world fun w =>
      w.modify_frame frame fun fr =>
        { fr with base := { fr.base with video_intrinsics := w.dev.video_intrinsics } }
  modify_world fun w =>
    w.modify_frame frame fun fr =>
      { fr with base :=
          { fr.base with
            timestamp := w.dev.frame_time
            pose := w.dev.frame_pose
            camera_rotation := w.dev.camera_rotation } }
  modify_world fun w => w.modify_dev fun d => { d with frame_ready_buffers_mask := 0 }
  let _ ← gm_frame_ref frame
  unlock_swap_buffers
  let w ← get_world
  gm_assert ((w.frames frame).base.ref == 2) "Spurious ref counting for new frame"
  pure frame

/-- The routine `gm_device_get_latest_frame`: acquire a frame, take
`swap_buffers_lock`, drop the reference on the previous `last_frame`, then
fill the new frame. -/
def gm_device_get_latest_frame : Prog Nat := do
  let frame ← mem_pool_acquire_frame .frame_pool "get latest"
  lock_swap_buffers
  let w ← get_world
  match w.dev.last_frame with
  | some last => gm_frame_unref last
  | none => pure ()
  gm_device_get_latest_frame_fill frame

/-- The routine `gm_device_combine_frames`; `master`, `depth` and `video` are
frame addresses. -/
def gm_device_combine_frames (master depth video : Nat) : Prog Nat := do
  let frame ← mem_pool_acquire_frame .frame_pool "combined frame"
  let w ← get_world
  gm_assert ((w.frames depth).base.depth != none)
    "Spurious request to combine frame with depth frame having no depth buffer"
  gm_assert ((w.frames video).base.video != none)
    "Spurious request to combine frame with video frame having no video buffer"
  modify_world fun w =>
    w.modify_frame frame fun fr =>
      { fr with base :=
          { fr.base with
            timestamp := (w.frames master).base.timestamp
            pose := (w.frames master).base.pose
            camera_rotation := (w.frames master).base.camera_rotation } }
  let w ← get_world
  match (w.frames depth).base.depth with
  | some buffer =>
    let referenced ← gm_buffer_ref buffer
    modify_world fun w =>
      w.modify_frame frame fun fr =>
        { fr with base := { fr.base with depth := some referenced } }
  | none => pure ()
  modify_world fun w =>
    w.modify_frame frame fun fr =>
      { fr with base :=
          { fr.base with
            depth_format := (w.frames depth).base.depth_format
            depth_intrinsics := (w.frames depth).base.depth_intrinsics } }
  let w ← get_world
  match (w.frames video).base.video with
  | some buffer =>
    let referenced ← gm_buffer_ref buffer
    modify_world fun w =>
      w.modify_frame frame fun fr =>
        { fr with base := { fr.base with video := some referenced } }
  | none => pure ()
  modify_world fun w =>
    w.modify_frame frame fun fr =>
      { fr with base :=
          { fr.base with
            video_format := (w.frames video).base.video_format
            video_intrinsics := (w.frames video).base.video_intrinsics } }
  pure frame

/-! ## Producers -/

/-- The tail shared by every producer: release `swap_buffers_lock`, then run
`maybe_notify_frame_locked` under `request_buffers_mask_lock`. -/
def unlock_and_notify : Prog Unit := do
  unlock_swap_buffers
  lock_request_buffers_mask
  maybe_notify_frame_locked
  unlock_request_buffers_mask

/-- The statements of `swap_recorded_frame` for one kind of buffer (the body
of `if (depth_buffer)`, resp. `if (video_buffer)`); `depth` selects the
kind. -/
def swap_recorded_buffer (depth : Bool) (buffer : Nat) (intrinsics : gm_intrinsics) :
    Prog Unit := do
  modify_world fun w => w.modify_dev fun d =>
    if depth then { d with depth_intrinsics := intrinsics }
    else { d with video_intrinsics := intrinsics }
  gm_assert (decide (intrinsics.width > 0) && decide (intrinsics.height > 0))
    (if depth then "swapping recorded frame with invalid depth intrinsics"
     else "swapping recorded frame with invalid video intrinsics")
  let w ← get_world
  match (if depth then w.dev.recording.last_depth_buf else w.dev.recording.last_video_buf) with
  | some last => gm_buffer_unref last
  | none => pure ()
  let referenced ← gm_buffer_ref buffer
  modify_world fun w => w.modify_dev fun d =>
    if depth then { d with recording := { d.recording with last_depth_buf := some referenced } }
    else { d with recording := { d.recording with last_video_buf := some referenced } }
  let w ← get_world
  if w.dev.frame_request_buffers_mask &&&
      (if depth then GM_REQUEST_FRAME_DEPTH else GM_REQUEST_FRAME_VIDEO) ≠ 0 then
    let old := if depth then w.dev.depth_buf_ready else w.dev.video_buf_ready
    let referenced ← gm_buffer_ref buffer
    modify_world fun w => w.modify_dev fun d =>
      if depth then
        { d with
          depth_buf_ready := some referenced
          frame_ready_buffers_mask := d.frame_ready_buffers_mask ||| GM_REQUEST_FRAME_DEPTH }
      else
        { d with
          video_buf_ready := some referenced
          frame_ready_buffers_mask := d.frame_ready_buffers_mask ||| GM_REQUEST_FRAME_VIDEO }
    match old with
    | some old => gm_buffer_unref old
    | none => pure ()

/-- The part of `swap_recorded_frame` that runs while `swap_buffers_lock` is
held: from `pthread_mutex_lock` up to, not including, the unlock. -/
def swap_recorded_frame_locked (timestamp : Nat) (pose : gm_pose) (camera_rotation : Int)
    (depth_buffer : Option Nat) (depth_intrinsics : gm_intrinsics)
    (video_buffer : Option Nat) (video_intrinsics : gm_intrinsics) : Prog Unit := do
  lock_swap_buffers
  modify_world fun w => w.modify_dev fun d =>
    { d with
      recording := { d.recording with last_camera_rotation := camera_rotation }
      camera_rotation := camera_rotation
      frame_time := timestamp
      frame_pose := pose }
  match depth_buffer with
  | some buffer => swap_recorded_buffer true buffer depth_intrinsics
  | none => pure ()
  match video_buffer with
  | some buffer => swap_recorded_buffer false buffer video_intrinsics
  | none => pure ()

/-- The routine `swap_recorded_frame`. -/
def swap_recorded_frame (timestamp : Nat) (pose : gm_pose) (camera_rotation : Int)
    (depth_buffer : Option Nat) (depth_intrinsics : gm_intrinsics)
    (video_buffer : Option Nat) (video_intrinsics : gm_intrinsics) : Prog Unit := do
  swap_recorded_frame_locked timestamp pose camera_rotation depth_buffer depth_intrinsics
    video_buffer video_intrinsics
  unlock_and_notify

/-- The part of `kinect_depth_frame_cb` that runs while `swap_buffers_lock` is
held; `time` is the reading of `get_time()`. -/
def kinect_depth_frame_locked (time : Nat) : Prog Unit := do
  lock_swap_buffers
  let w ← get_world
  let old := w.dev.depth_buf_ready
  modify_world fun w => w.modify_dev fun d => { d with depth_buf_ready := d.depth_buf_back }
  let back ← mem_pool_acquire_buffer .depth_buf_pool "kinect depth"
  modify_world fun w => w.modify_dev fun d =>
    { d with
      depth_buf_back := some back
      frame_time := time
      frame_ready_buffers_mask := d.frame_ready_buffers_mask ||| GM_REQUEST_FRAME_DEPTH }
  match old with
  | some old => gm_buffer_unref old
  | none => pure ()

/-- The callback `kinect_depth_frame_cb`. -/
def kinect_depth_frame_cb (time : Nat) : Prog Unit := do
  let w ← get_world
  if w.dev.frame_request_buffers_mask &&& GM_REQUEST_FRAME_DEPTH = 0 then
    pure ()
  else
    kinect_depth_frame_locked time
    unlock_and_notify

/-- The part of `kinect_rgb_frame_cb` that runs while `swap_buffers_lock` is
held. -/
def kinect_rgb_frame_locked (time : Nat) : Prog Unit := do
  lock_swap_buffers
  let w ← get_world
  let old := w.dev.video_buf_ready
  modify_world fun w => w.modify_dev fun d => { d with video_buf_ready := d.video_buf_back }
  let back ← mem_pool_acquire_buffer .video_buf_pool "kinect rgb"
  modify_world fun w => w.modify_dev fun d =>
    { d with
      video_buf_back := some back
      frame_time := time
      frame_ready_buffers_mask := d.frame_ready_buffers_mask ||| GM_REQUEST_FRAME_VIDEO }
  match old with
  | some old => gm_buffer_unref old
  | none => pure ()

/-- The callback `kinect_rgb_frame_cb`. -/
def kinect_rgb_frame_cb (time : Nat) : Prog Unit := do
  let w ← get_world
  if w.dev.frame_request_buffers_mask &&& GM_REQUEST_FRAME_VIDEO = 0 then
    pure ()
  else
    kinect_rgb_frame_locked time
    unlock_and_notify

/-- The effect of `memcpy(buffer->data, src, n)` with `n = src.length`. -/
def World.copy_into (w : World) (buffer : Nat) (src : List Nat) : World :=
  w.modify_buffer buffer fun b =>
    { b with base := { b.base with data := src ++ b.base.data.drop src.length } }

/-- The part of `tango_point_cloud_cb` that runs while `swap_buffers_lock` is
held.  `timestamp` is `(uint64_t)(point_cloud->timestamp * 1e9)` and `pose` is
the converted pose when `TangoSupport_getPoseAtTime` succeeded. -/
def tango_point_cloud_locked (depth_buf_back : Nat) (timestamp : Nat)
    (pose : Option gm_pose) : Prog Unit := do
  lock_swap_buffers
  let w ← get_world
  let old := w.dev.depth_buf_ready
  modify_world fun w => w.modify_dev fun d =>
    { d with
      depth_buf_ready := some depth_buf_back
      frame_time := timestamp
      frame_pose :=
        match pose with
        | some p => p
        | none => { d.frame_pose with valid := false }
      frame_ready_buffers_mask := d.frame_ready_buffers_mask ||| GM_REQUEST_FRAME_DEPTH }
  match old with
  | some old => gm_buffer_unref old
  | none => pure ()

/-- The callback `tango_point_cloud_cb`; `points` are the bytes of the point
cloud (`num_points * 4 * sizeof(float)` of them). -/
def tango_point_cloud_cb (num_points : Nat) (points : List Nat) (timestamp : Nat)
    (pose : Option gm_pose) : Prog Unit := do
  let w ← get_world
  if w.dev.frame_request_buffers_mask &&& GM_REQUEST_FRAME_DEPTH = 0 then
    pure ()
  else if !w.dev.running then
    pure ()
  else
    let depth_buf_back ← mem_pool_acquire_buffer .depth_buf_pool "tango depth"
    gm_assert (decide (num_points ≤ w.dev.max_depth_pixels))
      "Spurious Tango Point Cloud larger than sensor resolution"
    modify_world fun w =>
      (w.copy_into depth_buf_back points).modify_buffer depth_buf_back fun b =>
        { b with base := { b.base with len := num_points * 4 * 4 } }
    tango_point_cloud_locked depth_buf_back timestamp pose
    unlock_and_notify

/-- The part of `tango_frame_available_cb` that runs while `swap_buffers_lock`
is held. -/
def tango_frame_available_locked (video_buf_back : Nat) (timestamp : Nat) : Prog Unit := do
  lock_swap_buffers
  let w ← get_world
  let old := w.dev.video_buf_ready
  modify_world fun w => w.modify_dev fun d =>
    { d with
      video_buf_ready := some video_buf_back
      frame_time := timestamp
      frame_ready_buffers_mask := d.frame_ready_buffers_mask ||| GM_REQUEST_FRAME_VIDEO }
  match old with
  | some old => gm_buffer_unref old
  | none => pure ()

/-- The callback `tango_frame_available_cb`; `format_nv12` says whether
`buffer->format` is `TANGO_HAL_PIXEL_FORMAT_YCrCb_420_SP` and `luminance` are
the first `width * height` bytes of the image. -/
def tango_frame_available_cb (format_nv12 : Bool) (luminance : List Nat)
    (timestamp : Nat) : Prog Unit := do
  let w ← get_world
  if w.dev.frame_request_buffers_mask &&& GM_REQUEST_FRAME_VIDEO = 0 then
    pure ()
  else if !w.dev.running then
    pure ()
  else
    gm_assert format_nv12
      "FIXME: Unhandled Tango Camera Format (only supporting NV12 currently)"
    if !format_nv12 then
      pure ()
    else
      let video_buf_back ← mem_pool_acquire_buffer .video_buf_pool "tango video"
      modify_world fun w => w.copy_into video_buf_back luminance
      tango_frame_available_locked video_buf_back timestamp
      unlock_and_notify

/-- The part of `on_avf_video_cb` that runs while `swap_buffers_lock` is
held. -/
def on_avf_video_locked (intrinsics : gm_intrinsics) (video_buf_back : Nat)
    (time : Nat) : Prog Unit := do
  lock_swap_buffers
  modify_world fun w => w.modify_dev fun d => { d with video_intrinsics := intrinsics }
  let w ← get_world
  let old := w.dev.video_buf_ready
  modify_world fun w => w.modify_dev fun d =>
    { d with
      video_buf_ready := some video_buf_back
      frame_time := time
      frame_ready_buffers_mask := d.frame_ready_buffers_mask ||| GM_REQUEST_FRAME_VIDEO }
  match old with
  | some old => gm_buffer_unref old
  | none => pure ()

/-- The callback `on_avf_video_cb`; `video` are the `stride * height` bytes
of the image. -/
def on_avf_video_cb (intrinsics : gm_intrinsics) (stride : Nat) (video : List Nat)
    (time : Nat) : Prog Unit := do
  let w ← get_world
  if w.dev.frame_request_buffers_mask &&& GM_REQUEST_FRAME_VIDEO = 0 then
    pure ()
  else if !w.dev.running then
    pure ()
  else
    gm_assert
      (intrinsics.width == 640 && intrinsics.height == 480 && stride == intrinsics.width * 4)
      "Unexpected AVF video frame size/format"
    let video_buf_back ← mem_pool_acquire_buffer .video_buf_pool "avf video"
    modify_world fun w => w.copy_into video_buf_back video
    on_avf_video_locked intrinsics video_buf_back time
    unlock_and_notify

/-- The part of `on_avf_depth_cb` that runs while `swap_buffers_lock` is
held. -/
def on_avf_depth_locked (intrinsics : gm_intrinsics) (depth_buf_back : Nat)
    (time : Nat) : Prog Unit := do
  lock_swap_buffers
  modify_world fun w => w.modify_dev fun d => { d with depth_intrinsics := intrinsics }
  let w ← get_world
  let old := w.dev.depth_buf_ready
  modify_world fun w => w.modify_dev fun d =>
    { d with
      depth_buf_ready := some depth_buf_back
      frame_time := time
      frame_ready_buffers_mask := d.frame_ready_buffers_mask ||| GM_REQUEST_FRAME_DEPTH }
  match old with
  | some old => gm_buffer_unref old
  | none => pure ()

/-- The callback `on_avf_depth_cb`; `depth` are the bytes of the
`width * height` floats `1.0f / disparity[off]` (floating point is not
interpreted).  It tests neither the request mask nor `running`. -/
def on_avf_depth_cb (intrinsics : gm_intrinsics) (depth : List Nat) (time : Nat) :
    Prog Unit := do
  let depth_buf_back ← mem_pool_acquire_buffer .depth_buf_pool "avf depth"
  let w ← get_world
  gm_assert
    (decide ((w.buffers depth_buf_back).base.len ≥ intrinsics.width * intrinsics.height * 4))
    "depth buffer too small"
  modify_world fun w => w.copy_into depth_buf_back depth
  on_avf_depth_locked intrinsics depth_buf_back time
  unlock_and_notify

/-! ## Recording playback controls -/

/-- The property callback `recording_playpause`. -/
def recording_playpause (dev : gm_device) : gm_device :=
  if !dev.running then
    dev
  else if dev.recording.loop then
    { dev with recording := { dev.recording with max_frame := dev.recording.frame, loop := false } }
  else if dev.recording.max_frame ≥ dev.recording.frame then
    { dev with recording := { dev.recording with max_frame := -1, loop := true } }
  else
    dev

/-- The property callback `recording_step_back`. -/
def recording_step_back (dev : gm_device) : gm_device :=
  if !dev.running || decide (dev.recording.frame < 1) then
    dev
  else
    let frame := dev.recording.frame - 1
    let max_frame := frame
    let frame := if frame ≠ 0 then frame - 1 else frame
    { dev with
      recording :=
        { dev.recording with
          frame := frame, max_frame := max_frame, loop := false, ignore_loop := true } }

/-- The property callback `recording_step_forward`. -/
def recording_step_forward (dev : gm_device) : gm_device :=
  if !dev.running then
    dev
  else
    { dev with
      recording :=
        { dev.recording with
          max_frame := dev.recording.frame + 1, loop := false, ignore_loop := true } }

/-! ## What the producer and consumer entry points do to the device struct -/

/-- What `swap_recorded_buffer` does to the device struct (the pools apart,
which change when an unreferenced buffer is recycled). -/
def gm_device.buffer_swapped (d : gm_device) (depth : Bool) (B : Nat)
    (intrinsics : gm_intrinsics) : gm_device :=
  if depth then
    if d.frame_request_buffers_mask &&& GM_REQUEST_FRAME_DEPTH ≠ 0 then
      { d with
        depth_intrinsics := intrinsics
        recording := { d.recording with last_depth_buf := some B }
        depth_buf_ready := some B
        frame_ready_buffers_mask := d.frame_ready_buffers_mask ||| GM_REQUEST_FRAME_DEPTH }
    else
      { d with
        depth_intrinsics := intrinsics
        recording := { d.recording with last_depth_buf := some B } }
  else
    if d.frame_request_buffers_mask &&& GM_REQUEST_FRAME_VIDEO ≠ 0 then
      { d with
        video_intrinsics := intrinsics
        recording := { d.recording with last_video_buf := some B }
        video_buf_ready := some B
        frame_ready_buffers_mask := d.frame_ready_buffers_mask ||| GM_REQUEST_FRAME_VIDEO }
    else
      { d with
        video_intrinsics := intrinsics
        recording := { d.recording with last_video_buf := some B } }

/-- What `swap_recorded_frame` does to the device struct for one kind. -/
def gm_device.maybe_swapped (d : gm_device) (depth : Bool) (buffer : Option Nat)
    (intrinsics : gm_intrinsics) : gm_device :=
  match buffer with
  | some B => d.buffer_swapped depth B intrinsics
  | none => d

/-- What the unlock and `maybe_notify_frame_locked` at the end of a producer
update do to the device struct. -/
def gm_device.notified (d : gm_device) : gm_device :=
  if d.frame_request_buffers_mask &&& d.frame_ready_buffers_mask ≠ 0 then
    { d with
      swap_buffers_lock := false
      request_buffers_mask_lock := false
      frame_request_buffers_mask :=
        d.frame_request_buffers_mask &&& not64 d.frame_ready_buffers_mask }
  else
    { d with swap_buffers_lock := false, request_buffers_mask_lock := false }

/-- What the locked section of `swap_recorded_frame` does to the device
struct (the pools apart). -/
def gm_device.frame_swapped (d : gm_device) (timestamp : Nat) (pose : gm_pose)
    (camera_rotation : Int) (depth_buffer : Option Nat) (depth_intrinsics : gm_intrinsics)
    (video_buffer : Option Nat) (video_intrinsics : gm_intrinsics) : gm_device :=
  (({ d with
      swap_buffers_lock := true
      recording := { d.recording with last_camera_rotation := camera_rotation }
      camera_rotation := camera_rotation
      frame_time := timestamp
      frame_pose := pose } : gm_device).maybe_swapped true depth_buffer
    depth_intrinsics).maybe_swapped false video_buffer video_intrinsics

/-- What a returning `swap_recorded_frame` does to the device struct (the
pools apart). -/
def gm_device.swap_recorded (d : gm_device) (timestamp : Nat) (pose : gm_pose)
    (camera_rotation : Int) (depth_buffer : Option Nat) (depth_intrinsics : gm_intrinsics)
    (video_buffer : Option Nat) (video_intrinsics : gm_intrinsics) : gm_device :=
  (d.frame_swapped timestamp pose camera_rotation depth_buffer depth_intrinsics
    video_buffer video_intrinsics).notified

/-- What `gm_device_request_frame` does to the device struct. -/
def gm_device.frame_requested (d : gm_device) (buffers_mask : Nat) : gm_device :=
  if buffers_mask = 0 then d
  else if (d.frame_request_buffers_mask ||| buffers_mask) &&& d.frame_ready_buffers_mask ≠ 0 then
    { d with
      request_buffers_mask_lock := false
      frame_request_buffers_mask :=
        (d.frame_request_buffers_mask ||| buffers_mask) &&& not64 d.frame_ready_buffers_mask }
  else
    { d with
      request_buffers_mask_lock := false
      frame_request_buffers_mask := d.frame_request_buffers_mask ||| buffers_mask }

/-- What a returning `gm_device_get_latest_frame` does to the device struct
(the pools apart); `frame` is the frame it acquired. -/
def gm_device.latest_frame_claimed (d : gm_device) (frame : Nat) : gm_device :=
  { d with
    last_frame := some frame
    depth_buf_ready :=
      if d.frame_ready_buffers_mask &&& GM_REQUEST_FRAME_DEPTH ≠ 0 then none
      else d.depth_buf_ready
    video_buf_ready :=
      if d.frame_ready_buffers_mask &&& GM_REQUEST_FRAME_VIDEO ≠ 0 then none
      else d.video_buf_ready
    frame_ready_buffers_mask := 0
    swap_buffers_lock := false }

/-! ## Recording playback loop (`recording_io_thread_cb`)

The thread's loop is embedded as a function of one iteration on the device
struct.  What the thread reads from outside (the clock, what
`read_frame_buffer` returns, what the UI thread and the consumer of the
frames do meanwhile) is an input of the iteration; each call of
`swap_recorded_frame` is logged with the values of the thread's variables at
the call and changes the device struct as `gm_device.swap_recorded` says.
The buffers themselves, their counts and the assertions of
`swap_recorded_frame`, `gm_buffer_ref`, `gm_buffer_unref` and
`gm_device_get_latest_frame` (which abort the process) belong to the
heap-level routines (`recording_emit`, `pause_tick`,
`gm_device_get_latest_frame`): a run of this model goes on where the process
would have aborted. -/

/-- What the loop reads of one entry of the recording's `frames` array: the
`timestamp` number converted to `uint64_t`, whether a `depth_file` and a
`video_file` string are present, the `camera_rotation` number and the
orientation and translation of the `pose` object, if there is one. -/
structure recorded_frame where
  timestamp : Nat
  depth_file : Bool
  video_file : Bool
  camera_rotation : Int
  pose : Option (List Int × List Int)
  deriving DecidableEq, Repr

/-- Addition of `uint64_t`: `a + b` modulo `2 ^ 64` (the addend is written
first, so that adding a constant to an unknown evaluates lazily). -/
@[irreducible]
def add64 (a b : Nat) : Nat := (b + a) % 2 ^ 64

/-- Subtraction of `uint64_t`: `a - b` modulo `2 ^ 64`, as `a` plus the two's
complement of `b`. -/
@[irreducible]
def sub64 (a b : Nat) : Nat := ((2 ^ 64 - b % 2 ^ 64) + a % 2 ^ 64) % 2 ^ 64

/-- The `timestamp` of entry `i` as a `uint64_t`; `json_array_get_object`
gives `NULL` outside the array and `json_object_get_number` then gives 0. -/
def frame_timestamp_at (frames : List recorded_frame) (i : Int) : Nat :=
  if i < 0 then 0
  else
    match frames.get? i.toNat with
    | some frame => frame.timestamp % 2 ^ 64
    | none => 0

/-- Whether entry `i` has a `depth_file`. -/
def frame_has_depth_file (frames : List recorded_frame) (i : Int) : Bool :=
  if i < 0 then false
  else
    match frames.get? i.toNat with
    | some frame => frame.depth_file
    | none => false

/-- Whether entry `i` has a `video_file`. -/
def frame_has_video_file (frames : List recorded_frame) (i : Int) : Bool :=
  if i < 0 then false
  else
    match frames.get? i.toNat with
    | some frame => frame.video_file
    | none => false

/-- The `camera_rotation` of entry `i`; 0 outside the array. -/
def frame_camera_rotation_at (frames : List recorded_frame) (i : Int) : Int :=
  if i < 0 then 0
  else
    match frames.get? i.toNat with
    | some frame => frame.camera_rotation
    | none => 0

/-- The `pose` object of entry `i`; `NULL` outside the array. -/
def frame_pose_at (frames : List recorded_frame) (i : Int) :
    Option (List Int × List Int) :=
  if i < 0 then none
  else
    match frames.get? i.toNat with
    | some frame => frame.pose
    | none => none

/-- The local `pose` after the statements that read it from entry `i`: with
a `pose` object the orientation and the translation are stored and `valid`
is set, without one only `valid` is cleared. -/
def pose_read (frames : List recorded_frame) (i : Int) (pose : gm_pose) : gm_pose :=
  match frame_pose_at frames i with
  | some p => { valid := true, orientation := p.1, translation := p.2 }
  | none => { pose with valid := false }

/-- The local variables of `recording_io_thread_cb` that live across
iterations. -/
structure playback_locals where
  monotonic_clock : Nat
  loop_start : Nat
  loop_prev_frame_timestamp : Nat
  pose : gm_pose
  deriving DecidableEq, Repr

/-- A call of `swap_recorded_frame` by the playback thread.  `timestamp`,
`pose`, `camera_rotation`, `depth_buffer` and `video_buffer` are the
arguments passed; `frame` and `max_frame` are `dev->recording.frame` and
`dev->recording.max_frame` at the call; `record` is the index of the entry of
`frames` that the local `frame` points to at the call, the entry whose
timestamp, rotation and payload files are passed (-1 in the pause loop, which
reads no entry); `paused` tells the call of the pause
loop from the call at the end of the iteration; `clock_before` and `delta`
are `monotonic_clock` before the addition that precedes the call and the
amount added; `frame_timestamp` and `prev_frame_timestamp` are the locals
`frame_timestamp` and (before its update) `loop_prev_frame_timestamp` (in
the pause loop, where `frame_timestamp` is not in scope, both hold
`loop_prev_frame_timestamp`); `restarted` says whether the iteration went through the loop restart
(`dev->recording.frame = 0`). -/
structure emission where
  paused : Bool
  frame : Int
  record : Int
  max_frame : Int
  timestamp : Nat
  clock_before : Nat
  delta : Nat
  frame_timestamp : Nat
  prev_frame_timestamp : Nat
  restarted : Bool
  pose : gm_pose
  camera_rotation : Int
  depth_buffer : Option Nat
  video_buffer : Option Nat
  deriving DecidableEq, Repr

/-- What another thread does at some point: nothing, one of the recording
property callbacks of the UI, `recording_stop` setting `running = false`, a
call of `gm_device_request_frame` or of `gm_device_get_latest_frame` by the
consumer of the frames (`frame` is the frame that call acquires), or two of
these in sequence. -/
inductive ui_action where
  | nothing
  | playpause
  | step_back
  | step_forward
  | stop
  | request_frame (buffers_mask : Nat)
  | get_latest_frame (frame : Nat)
  | seq (first second : ui_action)
  deriving DecidableEq, Repr

/-- The effect of an action of another thread on the device. -/
def ui_action.apply : ui_action → gm_device → gm_device
  | .nothing, dev => dev
  | .playpause, dev => recording_playpause dev
  | .step_back, dev => recording_step_back dev
  | .step_forward, dev => recording_step_forward dev
  | .stop, dev => { dev with running := false }
  | .request_frame buffers_mask, dev => dev.frame_requested buffers_mask
  | .get_latest_frame frame, dev => dev.latest_frame_claimed frame
  | .seq first second, dev => second.apply (first.apply dev)

/-- The device after the call of `swap_recorded_frame` in a pass of the pause
loop: the copies of the recording's last buffers are swapped in with the
rotation and the intrinsics the device holds.  A copy is named here by the
address of the buffer it copies (the heap-level `pause_tick` makes it in
another buffer). -/
def gm_device.pause_swapped (dev : gm_device) (timestamp : Nat) (pose : gm_pose) : gm_device :=
  dev.swap_recorded timestamp pose dev.recording.last_camera_rotation
    dev.recording.last_depth_buf dev.depth_intrinsics
    dev.recording.last_video_buf dev.video_intrinsics

/-- The expression for `n_frames`. -/
def n_frames_of (dev : gm_device) (n_recorded_frames : Int) : Int :=
  if dev.recording.max_frame ≥ 0 then
    min (dev.recording.max_frame + 1) n_recorded_frames
  else
    n_recorded_frames

/-- The pause loop `while (dev->running && loop == false && ignore_loop ==
false)`.  Each pass advances both clocks by 16 ms, re-emits the last buffers
and sleeps; `actions` lists what the other threads do during the sleep of
each pass.  The last component says whether the thread is still in the loop
when the listed passes are over. -/
def pause_loop : List ui_action → gm_device → playback_locals →
    gm_device × playback_locals × List emission × Bool
  | [], dev, l =>
    (dev, l, [], dev.running && !dev.recording.loop && !dev.recording.ignore_loop)
  | action :: rest, dev, l =>
    if dev.running && !dev.recording.loop && !dev.recording.ignore_loop then
      let l1 : playback_locals :=
        { l with
          monotonic_clock := add64 l.monotonic_clock 16000000
          loop_start := add64 l.loop_start 16000000 }
      let e : emission :=
        { paused := true
          frame := dev.recording.frame
          record := -1
          max_frame := dev.recording.max_frame
          timestamp := l1.monotonic_clock
          clock_before := l.monotonic_clock
          delta := 16000000
          frame_timestamp := l.loop_prev_frame_timestamp
          prev_frame_timestamp := l.loop_prev_frame_timestamp
          restarted := false
          pose := l.pose
          camera_rotation := dev.recording.last_camera_rotation
          depth_buffer := dev.recording.last_depth_buf
          video_buffer := dev.recording.last_video_buf }
      let r := pause_loop rest (action.apply (dev.pause_swapped l1.monotonic_clock l.pose)) l1
      (r.1, r.2.1, e :: r.2.2.1, r.2.2.2)
    else
      (dev, l, [], false)

/-- The catch-up loop `for (i = frame + 1; i < n_frames && recording_progress
< real_progress; i++)`: the state is `(i, record, frame_timestamp,
recording_progress, last_depth)`, where `record` is the index of the entry the
local `frame` points to; `fuel` bounds the number of passes. -/
def catch_up (frames : List recorded_frame) (frame0_timestamp real_progress : Nat)
    (depth_requested : Bool) (n_frames : Int) :
    Nat → Int × Int × Nat × Nat × Int → Int × Int × Nat × Nat × Int
  | 0, st => st
  | fuel + 1, (i, record, frame_timestamp, recording_progress, last_depth) =>
    if i < n_frames ∧ recording_progress < real_progress then
      let record := i
      let frame_timestamp := frame_timestamp_at frames i
      let recording_progress := sub64 frame_timestamp frame0_timestamp
      let last_depth :=
        if depth_requested && frame_has_depth_file frames i then i else last_depth
      catch_up frames frame0_timestamp real_progress depth_requested n_frames fuel
        (i + 1, record, frame_timestamp, recording_progress, last_depth)
    else
      (i, record, frame_timestamp, recording_progress, last_depth)

/-- What the thread reads from outside during one iteration: what the other
threads do during each pass of the pause loop, the reading of `get_time()`
at the loop restart, the reading of `get_time()` before the catch-up
test, and what `read_frame_buffer` returns for the depth and for the video
payload when the entry read names a file of the kind (the buffer and the
intrinsics, or `none` when the file cannot be read). -/
structure iteration_env where
  pause_actions : List ui_action
  restart_time : Nat
  time : Nat
  depth_read : Option (Nat × gm_intrinsics)
  video_read : Option (Nat × gm_intrinsics)
  deriving DecidableEq, Repr

/-- How an iteration of `while (dev->running)` ends: the thread left the loop
(`running` was false), it is still inside the pause loop, or the iteration
completed. -/
inductive iteration_result where
  | exited : iteration_result
  | pausing : gm_device → playback_locals → List emission → iteration_result
  | completed : gm_device → playback_locals → List emission → iteration_result

/-- The test `recording_progress < (real_progress - 33333333)` that guards
the catch-up block, with `frame_timestamp` and `recording_progress` as
assigned just before it from the frame index `frame`. -/
def catch_up_entered (frames : List recorded_frame) (frame : Int)
    (real_progress : Nat) : Bool :=
  decide (sub64 (frame_timestamp_at frames frame) (frame_timestamp_at frames 0) <
    sub64 real_progress 33333333)

/-- The `for` loop of the catch-up block as the block runs it: from
`i = dev->recording.frame + 1` with `last_depth = -1`.  The loop ends after at
most `n_frames - i` passes. -/
def catch_up_scan (frames : List recorded_frame) (n_frames : Int) (dev : gm_device)
    (real_progress : Nat) : Int × Int × Nat × Nat × Int :=
  catch_up frames (frame_timestamp_at frames 0) real_progress
    (decide (dev.frame_request_buffers_mask &&& GM_REQUEST_FRAME_DEPTH ≠ 0)) n_frames
    (n_frames - (dev.recording.frame + 1)).toNat
    (dev.recording.frame + 1, dev.recording.frame,
      frame_timestamp_at frames dev.recording.frame,
      sub64 (frame_timestamp_at frames dev.recording.frame) (frame_timestamp_at frames 0), -1)

/-- The block `if (recording_progress < (real_progress - 33333333)) { ... }`
with the three assignments that precede it: the result is the value of
`dev->recording.frame` after the block, the index of the entry the local
`frame` points to and the local `frame_timestamp`. -/
def skip_frames (frames : List recorded_frame) (n_frames : Int) (dev : gm_device)
    (real_progress : Nat) : Int × Int × Nat :=
  if catch_up_entered frames dev.recording.frame real_progress then
    let r := catch_up_scan frames n_frames dev real_progress
    let i := r.1
    let last_depth := r.2.2.2.2
    if i ≥ n_frames then
      (n_frames - 1, r.2.1, r.2.2.1)
    else if last_depth > 0 ∧ last_depth ≠ i then
      (last_depth, last_depth, frame_timestamp_at frames last_depth)
    else
      (i, r.2.1, r.2.2.1)
  else
    (dev.recording.frame, dev.recording.frame, frame_timestamp_at frames dev.recording.frame)

/-- The buffer `read_frame_buffer` returns for a kind: `NULL` when the entry
names no file of the kind, else what the environment says the read gives. -/
def buffer_read (has_file : Bool) (read : Option (Nat × gm_intrinsics)) : Option Nat :=
  if has_file then read.map Prod.fst else none

/-- The intrinsics passed along with the buffer of `buffer_read`; a local that
`read_frame_buffer` did not write is modelled as zeros (it is not used). -/
def intrinsics_read (has_file : Bool) (read : Option (Nat × gm_intrinsics)) : gm_intrinsics :=
  if has_file then (read.map Prod.snd).getD ⟨0, 0, []⟩ else ⟨0, 0, []⟩

/-- The second half of an iteration, from `dev->recording.ignore_loop =
false` to the call of `swap_recorded_frame`.  The pose is read from the entry
at the frame index before the catch-up block and is not read again; the
timestamp, the rotation and the payload files are those of the entry
`record` the local `frame` points to after the block.  The throttle loop only
sleeps and rereads the clock into locals that are not read again. -/
def playback_emit (frames : List recorded_frame) (env : iteration_env) (n_frames : Int)
    (restarted : Bool) (dev : gm_device) (l : playback_locals) :
    gm_device × playback_locals × emission :=
  let dev : gm_device := { dev with recording := { dev.recording with ignore_loop := false } }
  let real_progress := sub64 env.time l.loop_start
  let pose := pose_read frames dev.recording.frame l.pose
  let skipped := skip_frames frames n_frames dev real_progress
  let dev : gm_device := { dev with recording := { dev.recording with frame := skipped.1 } }
  let frame_timestamp := skipped.2.2
  let frame_delta :=
    if frame_timestamp < l.loop_prev_frame_timestamp then 16000000
    else frame_timestamp - l.loop_prev_frame_timestamp
  let l1 : playback_locals :=
    { l with
      monotonic_clock := add64 l.monotonic_clock frame_delta
      loop_prev_frame_timestamp := frame_timestamp
      pose := pose }
  let depth_buffer := buffer_read (frame_has_depth_file frames skipped.2.1) env.depth_read
  let depth_intrinsics :=
    intrinsics_read (frame_has_depth_file frames skipped.2.1) env.depth_read
  let video_buffer := buffer_read (frame_has_video_file frames skipped.2.1) env.video_read
  let video_intrinsics :=
    intrinsics_read (frame_has_video_file frames skipped.2.1) env.video_read
  let rotation := frame_camera_rotation_at frames skipped.2.1
  (dev.swap_recorded l1.monotonic_clock pose rotation depth_buffer depth_intrinsics
      video_buffer video_intrinsics, l1,
    { paused := false
      frame := dev.recording.frame
      record := skipped.2.1
      max_frame := dev.recording.max_frame
      timestamp := l1.monotonic_clock
      clock_before := l.monotonic_clock
      delta := frame_delta
      frame_timestamp := frame_timestamp
      prev_frame_timestamp := l.loop_prev_frame_timestamp
      restarted := restarted
      pose := pose
      camera_rotation := rotation
      depth_buffer := depth_buffer
      video_buffer := video_buffer })

/-- One iteration of `while (dev->running)` in `recording_io_thread_cb`. -/
def playback_iteration (frames : List recorded_frame) (env : iteration_env)
    (dev : gm_device) (l : playback_locals) : iteration_result :=
  let n_recorded_frames : Int := frames.length
  if !dev.running then
    .exited
  else
    let n_frames := n_frames_of dev n_recorded_frames
    if dev.recording.frame ≥ n_frames - 1 then
      let p := pause_loop env.pause_actions dev l
      if p.2.2.2 then
        .pausing p.1 p.2.1 p.2.2.1
      else
        let dev := p.1
        let l := p.2.1
        let n_frames := n_frames_of dev n_recorded_frames
        if dev.recording.frame ≥ n_frames - 1 then
          let r := playback_emit frames env n_frames true
            { dev with recording := { dev.recording with frame := 0 } }
            { l with
              loop_start := env.restart_time % 2 ^ 64
              loop_prev_frame_timestamp := sub64 (frame_timestamp_at frames 0) 16000000 }
          .completed r.1 r.2.1 (p.2.2.1 ++ [r.2.2])
        else
          let r := playback_emit frames env n_frames false dev l
          .completed r.1 r.2.1 (p.2.2.1 ++ [r.2.2])
    else
      let r := playback_emit frames env n_frames false
        { dev with recording := { dev.recording with frame := dev.recording.frame + 1 } } l
      .completed r.1 r.2.1 [r.2.2]

/-- The thread's loop over a list of iterations; before each iteration the
other threads perform the paired action.  The result is the state the thread is
left in and the calls of `swap_recorded_frame` it made, in order; the run
ends early when the thread leaves the loop or stays in the pause loop. -/
def playback_run (frames : List recorded_frame) :
    List (ui_action × iteration_env) → gm_device → playback_locals →
    gm_device × playback_locals × List emission
  | [], dev, l => (dev, l, [])
  | (action, env) :: rest, dev, l =>
    match playback_iteration frames env (action.apply dev) l with
    | .exited => (action.apply dev, l, [])
    | .pausing dev1 l1 es => (dev1, l1, es)
    | .completed dev1 l1 es =>
      let r := playback_run frames rest dev1 l1
      (r.1, r.2.1, es ++ r.2.2)

/-- The state `recording_start` leaves for the thread: frame 0 and
`running`; the other fields are as `recording_open` and the UI left them. -/
def recording_start (dev : gm_device) : gm_device :=
  { dev with recording := { dev.recording with frame := 0 }, running := true }

/-! ## Scenarios and reference states used by the theorems -/

/-- A call of the reference counting interface. -/
inductive ref_call where
  | ref
  | unref
  deriving DecidableEq, Repr

/-- Run a sequence of `gm_buffer_ref` / `gm_buffer_unref` calls on one
buffer. -/
def run_buffer_calls (buffer : Nat) : List ref_call → Prog Unit
  | [] => pure ()
  | .ref :: rest => do
    let _ ← gm_buffer_ref buffer
    run_buffer_calls buffer rest
  | .unref :: rest => do
    gm_buffer_unref buffer
    run_buffer_calls buffer rest

/-- Run a sequence of `gm_frame_ref` / `gm_frame_unref` calls on one frame. -/
def run_frame_calls (frame : Nat) : List ref_call → Prog Unit
  | [] => pure ()
  | .ref :: rest => do
    let _ ← gm_frame_ref frame
    run_frame_calls frame rest
  | .unref :: rest => do
    gm_frame_unref frame
    run_frame_calls frame rest

/-- The count a sequence of calls leaves when started at `count`. -/
def count_after (count : Int) : List ref_call → Int
  | [] => count
  | .ref :: rest => count_after (count + 1) rest
  | .unref :: rest => count_after (count - 1) rest

/-- Acquire a buffer from `pool`, release it with one `gm_buffer_unref`, then
call `gm_buffer_ref` on the freed buffer. -/
def ref_after_free (pool : pool_id) : Prog Nat := do
  let buffer ← mem_pool_acquire_buffer pool "test"
  gm_buffer_unref buffer
  gm_buffer_ref buffer

/-- The world after the breadcrumb and the decrement of `gm_buffer_unref`. -/
def World.buffer_decremented (w : World) (b : Nat) : World :=
  w.modify_buffer b fun x =>
    { x with base := { x.base with ref := x.base.ref - 1 }, trail := x.trail ++ ["unref"] }

/-- The world after `device_buffer_recycle` handed the buffer to its pool. -/
def World.buffer_recycled (w : World) (b : Nat) : World :=
  (w.modify_buffer b fun x => { x with trail := [] }).set_pool (w.buffers b).pool
    { w.pool (w.buffers b).pool with
      available := b :: (w.pool (w.buffers b).pool).available }

/-- The world after the breadcrumb and the decrement of `gm_frame_unref`. -/
def World.frame_decremented (w : World) (f : Nat) : World :=
  w.modify_frame f fun x =>
    { x with base := { x.base with ref := x.base.ref - 1 }, trail := x.trail ++ ["unref"] }

/-- The device with its three pools blanked: two devices with the same image
differ at most in their pools. -/
def gm_device.without_pools (d : gm_device) : gm_device :=
  { d with
    video_buf_pool := ⟨[], 0, 0⟩
    depth_buf_pool := ⟨[], 0, 0⟩
    frame_pool := ⟨[], 0, 0⟩ }

/-- A recording device as `gm_device_open` leaves it: empty pools of capacity
`INT_MAX`, nothing requested, nothing ready. -/
def opened_device : gm_device :=
  { type := .GM_DEVICE_RECORDING
    configured := true
    running := true
    recording :=
      { frame := 0, loop := true, max_frame := -1, ignore_loop := false
        last_camera_rotation := 0, last_depth_buf := none, last_video_buf := none
        fixed_intrinsics := false }
    camera_rotation := 0
    max_depth_pixels := 4
    max_video_pixels := 4
    video_intrinsics := ⟨2, 2, []⟩
    depth_intrinsics := ⟨2, 2, []⟩
    frame_request_buffers_mask := 0
    frame_ready_buffers_mask := 0
    swap_buffers_lock := false
    request_buffers_mask_lock := false
    depth_format := .GM_FORMAT_Z_F32_M
    video_format := .GM_FORMAT_RGBA_U8
    video_buf_pool := ⟨[], 0, 2147483647⟩
    video_buf_ready := none
    video_buf_back := none
    depth_buf_pool := ⟨[], 0, 2147483647⟩
    depth_buf_ready := none
    depth_buf_back := none
    frame_time := 0
    frame_pose := ⟨false, [], []⟩
    frame_pool := ⟨[], 0, 2147483647⟩
    last_frame := none }

/-- The world around `opened_device`: nothing allocated yet. -/
def opened_world : World :=
  { dev := opened_device
    buffers := fun _ => ⟨⟨0, 0, []⟩, .depth_buf_pool, []⟩
    frames := fun _ =>
      ⟨⟨0, 0, ⟨false, [], []⟩, 0, none, .GM_FORMAT_UNKNOWN, ⟨0, 0, []⟩, none,
        .GM_FORMAT_UNKNOWN, ⟨0, 0, []⟩⟩, []⟩
    next_buffer := 0
    next_frame := 0
    events := [] }

/-- What a returning `gm_buffer_unref b` leaves from `w`. -/
structure buffer_unref_post (b : Nat) (w w1 : World) : Prop where
  frames : w1.frames = w.frames
  events : w1.events = w.events
  dev : w1.dev.without_pools = w.dev.without_pools
  next_buffer : w1.next_buffer = w.next_buffer
  next_frame : w1.next_frame = w.next_frame
  others : ∀ x, x ≠ b → w1.buffers x = w.buffers x
  ref : w1.buffer_ref b = w.buffer_ref b - 1
  base : (w1.buffers b).base = { (w.buffers b).base with ref := (w.buffers b).base.ref - 1 }
  pool_eq : (w1.buffers b).pool = (w.buffers b).pool
  other_pools : ∀ p, p ≠ (w.buffers b).pool → w1.pool p = w.pool p
  kept : 1 < w.buffer_ref b →
    w1.pool (w.buffers b).pool = w.pool (w.buffers b).pool ∧
    (w1.buffers b).trail = (w.buffers b).trail ++ ["unref"]
  freed : w.buffer_ref b = 1 →
    w1.pool (w.buffers b).pool =
      { w.pool (w.buffers b).pool with
        available := b :: (w.pool (w.buffers b).pool).available } ∧
    (w1.buffers b).trail = []

/-- The buffers attached to frame `f` can each give up one reference. -/
def World.buffers_releasable (w : World) (f : Nat) : Prop :=
  (∀ v, (w.frames f).base.video = some v →
    1 ≤ w.buffer_ref v ∧ (w.buffers v).pool ≠ .frame_pool) ∧
  (∀ d, (w.frames f).base.depth = some d →
    1 ≤ w.buffer_ref d ∧ (w.buffers d).pool ≠ .frame_pool) ∧
  (∀ v d, (w.frames f).base.video = some v → (w.frames f).base.depth = some d → v ≠ d)

/-- What a returning `device_frame_recycle f` leaves from `w`. -/
structure frame_recycle_post (f : Nat) (w w1 : World) : Prop where
  events : w1.events = w.events
  dev : w1.dev.without_pools = w.dev.without_pools
  next_buffer : w1.next_buffer = w.next_buffer
  next_frame : w1.next_frame = w.next_frame
  other_frames : ∀ x, x ≠ f → w1.frames x = w.frames x
  frame : w1.frames f =
    { base := { (w.frames f).base with video := none, depth := none }, trail := [] }
  frame_pool : w1.dev.frame_pool =
    { w.dev.frame_pool with available := f :: w.dev.frame_pool.available }
  other_buffers : ∀ x, (w.frames f).base.video ≠ some x → (w.frames f).base.depth ≠ some x →
    w1.buffers x = w.buffers x
  attached : ∀ x, (w.frames f).base.video = some x ∨ (w.frames f).base.depth = some x →
    (w1.buffers x).base = { (w.buffers x).base with ref := (w.buffers x).base.ref - 1 } ∧
    (w1.buffers x).pool = (w.buffers x).pool ∧
    (w.buffer_ref x = 1 →
      (w1.buffers x).trail = [] ∧ x ∈ (w1.pool (w.buffers x).pool).available)

/-- The step from `w` to `w1` touched only buffers and pools. -/
def World.buffers_only (w w1 : World) : Prop :=
  w1.frames = w.frames ∧ w1.events = w.events ∧
  w1.dev.without_pools = w.dev.without_pools ∧ w1.next_frame = w.next_frame

/-- A device in the middle of a capture: frame 0 is the cached last frame
(count 1) and holds depth buffer 0 and video buffer 1; depth buffer 2 and
video buffer 3 are ready; nothing is requested. -/
def capturing_device : gm_device :=
  { opened_device with
    frame_ready_buffers_mask := 3
    video_buf_pool := ⟨[], 2, 2147483647⟩
    video_buf_ready := some 3
    depth_buf_pool := ⟨[], 2, 2147483647⟩
    depth_buf_ready := some 2
    frame_time := 1000
    frame_pool := ⟨[], 1, 2147483647⟩
    last_frame := some 0 }

/-- The world around `capturing_device`. -/
def capturing_world : World :=
  { dev := capturing_device
    buffers := fun b =>
      if b = 0 then ⟨⟨1, 64, []⟩, .depth_buf_pool, ["recording buffer"]⟩
      else if b = 1 then ⟨⟨1, 16, []⟩, .video_buf_pool, ["recording buffer"]⟩
      else if b = 2 then ⟨⟨1, 64, []⟩, .depth_buf_pool, ["recording buffer"]⟩
      else if b = 3 then ⟨⟨1, 16, []⟩, .video_buf_pool, ["recording buffer"]⟩
      else ⟨⟨0, 0, []⟩, .depth_buf_pool, []⟩
    frames := fun f =>
      if f = 0 then
        ⟨⟨1, 500, ⟨false, [], []⟩, 0, some 0, .GM_FORMAT_Z_F32_M, ⟨2, 2, []⟩, some 1,
          .GM_FORMAT_RGBA_U8, ⟨2, 2, []⟩⟩, ["get latest"]⟩
      else
        ⟨⟨0, 0, ⟨false, [], []⟩, 0, none, .GM_FORMAT_UNKNOWN, ⟨0, 0, []⟩, none,
          .GM_FORMAT_UNKNOWN, ⟨0, 0, []⟩⟩, []⟩
    next_buffer := 4
    next_frame := 1
    events := [] }

/-- The world after the breadcrumb and the increment of `gm_buffer_ref`. -/
def World.buffer_incremented (w : World) (b : Nat) : World :=
  w.modify_buffer b fun x =>
    { x with base := { x.base with ref := x.base.ref + 1 }, trail := x.trail ++ ["ref"] }

/-- The world after the breadcrumb and the increment of `gm_frame_ref`. -/
def World.frame_incremented (w : World) (f : Nat) : World :=
  w.modify_frame f fun x =>
    { x with base := { x.base with ref := x.base.ref + 1 }, trail := x.trail ++ ["ref"] }

/-- The frame the frame pool hands out next: the head of its free list, or a
fresh frame. -/
def World.acquired_frame (w : World) : Nat :=
  match w.dev.frame_pool.available with
  | f :: _ => f
  | [] => w.next_frame

/-- The frame pool can hand out a frame: the head of its free list has count
0, or the list is empty and the pool is below capacity. -/
def World.frame_pool_ready (w : World) : Prop :=
  match w.dev.frame_pool.available with
  | f :: _ => w.frame_ref f = 0
  | [] => w.dev.frame_pool.n_allocated < w.dev.frame_pool.max_size

/-- The cached `last_frame`, if any, is an allocated frame with a count of at
least 1 whose buffers can be released should this be its last reference. -/
def World.last_frame_live (w : World) : Prop :=
  ∀ last, w.dev.last_frame = some last →
    last < w.next_frame ∧ 1 ≤ w.frame_ref last ∧
    (w.frame_ref last = 1 → w.buffers_releasable last)

/-- A ready bit comes with a ready buffer and valid intrinsics. -/
def World.ready_consistent (w : World) : Prop :=
  (w.dev.frame_ready_buffers_mask &&& GM_REQUEST_FRAME_DEPTH ≠ 0 →
    w.dev.depth_buf_ready ≠ none ∧
    0 < w.dev.depth_intrinsics.width ∧ 0 < w.dev.depth_intrinsics.height) ∧
  (w.dev.frame_ready_buffers_mask &&& GM_REQUEST_FRAME_VIDEO ≠ 0 →
    w.dev.video_buf_ready ≠ none ∧
    0 < w.dev.video_intrinsics.width ∧ 0 < w.dev.video_intrinsics.height)

/-- The request/ready bit of a kind of buffer; `depth` selects the kind. -/
def kind_bit (depth : Bool) : Nat :=
  if depth then GM_REQUEST_FRAME_DEPTH else GM_REQUEST_FRAME_VIDEO

/-- The device's ready slot of a kind. -/
def gm_device.ready_slot (d : gm_device) (depth : Bool) : Option Nat :=
  if depth then d.depth_buf_ready else d.video_buf_ready

/-- The recording's last buffer of a kind. -/
def gm_device.last_buf (d : gm_device) (depth : Bool) : Option Nat :=
  if depth then d.recording.last_depth_buf else d.recording.last_video_buf

/-- The world a returning `gm_buffer_unref b` leaves: the count decremented
and, when that was the last reference, the buffer back in its pool. -/
def World.buffer_unrefed (w : World) (b : Nat) : World :=
  if w.buffer_ref b = 1 then (w.buffer_decremented b).buffer_recycled b
  else w.buffer_decremented b

/-- The world after `unlock_and_notify`: both mutexes free and, when a
requested kind is ready, the `FRAME_READY` event delivered. -/
def World.notified (w : World) : World :=
  if w.dev.frame_request_buffers_mask &&& w.dev.frame_ready_buffers_mask ≠ 0 then
    { w with
      dev := { w.dev with
        swap_buffers_lock := false
        request_buffers_mask_lock := false
        frame_request_buffers_mask :=
          w.dev.frame_request_buffers_mask &&& not64 w.dev.frame_ready_buffers_mask }
      events := w.events ++ [⟨.GM_DEV_EVENT_FRAME_READY, w.dev.frame_ready_buffers_mask⟩] }
  else
    { w with
      dev := { w.dev with swap_buffers_lock := false, request_buffers_mask_lock := false } }

/-- The world when `swap_recorded_frame` reaches its per-kind statements:
`swap_buffers_lock` held, rotation, time and pose stored. -/
def World.swap_begun (w : World) (timestamp : Nat) (pose : gm_pose) (camera_rotation : Int) :
    World :=
  { w with
    dev := { w.dev with
      swap_buffers_lock := true
      recording := { w.dev.recording with last_camera_rotation := camera_rotation }
      camera_rotation := camera_rotation
      frame_time := timestamp
      frame_pose := pose } }

/-- A device replaying a recording: depth is requested, depth buffer 0 is the
recording's last depth buffer (count 2: the last frame holds it too), depth
buffer 2 is still in the ready slot and depth buffer 4 holds the data just
read. -/
def replaying_world : World :=
  { capturing_world with
    dev :=
      { capturing_device with
        running := true
        frame_request_buffers_mask := 1
        depth_buf_pool := ⟨[], 3, 2147483647⟩
        recording := { capturing_device.recording with last_depth_buf := some 0 } }
    buffers := fun b =>
      if b = 4 then ⟨⟨1, 64, []⟩, .depth_buf_pool, ["recording buffer"]⟩
      else if b = 0 then ⟨⟨2, 64, []⟩, .depth_buf_pool, ["recording buffer"]⟩
      else capturing_world.buffers b
    next_buffer := 5 }

/-- A stopped Kinect with a depth request pending: `running` is false, depth
buffer 0 is the back buffer. -/
def kinect_stopped_world : World :=
  { opened_world with
    dev :=
      { opened_device with
        type := .GM_DEVICE_KINECT
        running := false
        frame_request_buffers_mask := GM_REQUEST_FRAME_DEPTH
        depth_buf_pool := ⟨[], 1, 2147483647⟩
        depth_buf_back := some 0 }
    buffers := fun b =>
      if b = 0 then ⟨⟨1, 8, []⟩, .depth_buf_pool, ["kinect depth"]⟩
      else opened_world.buffers b
    next_buffer := 1 }

/-- An AVF device that is not running and has no request pending. -/
def avf_idle_world : World :=
  { opened_world with
    dev := { opened_device with type := .GM_DEVICE_AVF, running := false } }

/-- The outcome `r` of a section run from `w` that ends with
`swap_buffers_lock` still held and has already released one reference of the
buffer `o`: the section returned, the mutex is held, the count of `o` is one
less and, when that was its last reference, `o` is back on the free list of
its pool. -/
def released_under_lock (o : Nat) (w : World) (r : Res Unit) : Prop :=
  r.value? = some () ∧ r.world.dev.swap_buffers_lock = true ∧
  r.world.buffer_ref o = w.buffer_ref o - 1 ∧
  (w.buffer_ref o = 1 → o ∈ (r.world.pool (w.buffers o).pool).available)

/-- The log `es` of calls is what a thread whose `monotonic_clock` is `c` and
whose `loop_prev_frame_timestamp` is `p` can produce: every call starts from
the clock the previous one left and adds its delta to it; a call that is not
the first of a loop restart finds the previous call's frame timestamp in
`loop_prev_frame_timestamp`; a call of the pause loop adds 16 ms; a call at
the end of an iteration adds the `frame_delta` computed from its two frame
timestamps. -/
def trace_ok : Nat → Nat → List emission → Prop
  | _, _, [] => True
  | c, p, e :: rest =>
    e.clock_before = c ∧ e.timestamp = add64 c e.delta ∧
    (e.restarted = false → e.prev_frame_timestamp = p) ∧
    (e.paused = true → e.restarted = false ∧ e.delta = 16000000 ∧ e.frame_timestamp = p) ∧
    (e.paused = false →
      e.delta = if e.frame_timestamp < e.prev_frame_timestamp then 16000000
        else e.frame_timestamp - e.prev_frame_timestamp) ∧
    trace_ok e.timestamp e.frame_timestamp rest

/-- The clock and the previous frame timestamp after the calls `es`. -/
def trace_end (c p : Nat) : List emission → Nat × Nat
  | [] => (c, p)
  | e :: rest => trace_end e.timestamp e.frame_timestamp rest

/-- What an iteration leaves when the thread does not leave the loop: the
device, the locals and the calls made. -/
def iteration_result.outcome :
    iteration_result → Option (gm_device × playback_locals × List emission)
  | .exited => none
  | .pausing dev l es => some (dev, l, es)
  | .completed dev l es => some (dev, l, es)

/-- A recording of three frames, 16 ms apart, with depth in the first and the
last, video in each and no pose. -/
def three_frames : List recorded_frame :=
  [⟨1000000000, true, true, 0, none⟩, ⟨1016000000, false, true, 0, none⟩,
    ⟨1032000000, true, true, 0, none⟩]

/-- The locals of the playback thread at its start when `get_time()` reads
`now`.  The pose is read from entry 0 if that has one; it is left
uninitialised otherwise, which is modelled as the invalid pose. -/
def thread_start (frames : List recorded_frame) (now : Nat) : playback_locals :=
  { monotonic_clock := now % 2 ^ 64
    loop_start := now % 2 ^ 64
    loop_prev_frame_timestamp := frame_timestamp_at frames 0
    pose := pose_read frames 0 ⟨false, [], []⟩ }

/-- An iteration during which the other threads do nothing, `get_time()`
reads `time` (also at a loop restart) and the payload files named by the
entry are read into depth buffer 0 and video buffer 1. -/
def quiet (time : Nat) : ui_action × iteration_env :=
  (.nothing,
    { pause_actions := [], restart_time := time, time := time
      depth_read := some (0, ⟨2, 2, []⟩), video_read := some (1, ⟨2, 2, []⟩) })

/-- The value of `n_frames` that goes with the `max_frame` logged in a call:
`min(max_frame + 1, n_recorded_frames)` if `max_frame >= 0`, else
`n_recorded_frames`. -/
def emission.n_frames (e : emission) (n_recorded_frames : Int) : Int :=
  if e.max_frame ≥ 0 then min (e.max_frame + 1) n_recorded_frames else n_recorded_frames

/-- The number of passes of the pause loop and of ends of iteration that the
script provides for: an upper bound of the number of calls of
`swap_recorded_frame` of a run. -/
def script_calls (script : List (ui_action × iteration_env)) : Nat :=
  (script.map fun x => x.2.pause_actions.length + 1).sum

/-- A running recording device at frame index `f`, looping, nothing
requested. -/
def playing_device (f : Int) : gm_device :=
  { opened_device with recording := { opened_device.recording with frame := f } }

/-- The device after `dev->recording.ignore_loop = false`. -/
def gm_device.loop_resumed (dev : gm_device) : gm_device :=
  { dev with recording := { dev.recording with ignore_loop := false } }

/-- A recording of twenty frames, 16 ms apart, with depth in every fifth
frame (0, 5, 10, 15), video in each and no pose. -/
def depth_every_fifth : List recorded_frame :=
  (List.range 20).map fun k => ⟨1000000000 + 16000000 * k, k % 5 == 0, true, 0, none⟩

/-- The clock reading `time` of an iteration in which the other threads do
nothing and the payload files named by the entry are read into depth buffer 0
and video buffer 1. -/
def at_time (time : Nat) : iteration_env :=
  { pause_actions := [], restart_time := time, time := time
    depth_read := some (0, ⟨2, 2, []⟩), video_read := some (1, ⟨2, 2, []⟩) }

/-- Playback is paused at frame index `f`: the device is running, looping is
disabled, no single step is pending and the frame index `f` is at the end of
the effective range. -/
def paused_at (n_recorded_frames : Int) (dev : gm_device) (f : Int) : Prop :=
  dev.running = true ∧ dev.recording.loop = false ∧ dev.recording.ignore_loop = false ∧
  dev.recording.frame = f ∧ f ≥ n_frames_of dev n_recorded_frames - 1

/-- A running recording device paused at frame index `f`: looping disabled,
`max_frame = f`. -/
def paused_device (f : Int) : gm_device :=
  { opened_device with
    recording := { opened_device.recording with frame := f, loop := false, max_frame := f } }

/-- The fields of the device that the ready-slot invariant reads: the type,
the ready mask, the two ready slots and the two back buffers. -/
def gm_device.ready_view (d : gm_device) :
    gm_device_type × Nat × Option Nat × Option Nat × Option Nat × Option Nat :=
  (d.type, d.frame_ready_buffers_mask, d.depth_buf_ready, d.video_buf_ready,
    d.depth_buf_back, d.video_buf_back)

/-- The ready-slot invariant: a kind's bit is set in `frame_ready_buffers_mask`
exactly when the kind's ready slot is not null; on a Kinect the back buffers
are not null. -/
def World.ready_slots_ok (w : World) : Prop :=
  (w.dev.frame_ready_buffers_mask &&& GM_REQUEST_FRAME_DEPTH ≠ 0 ↔
    w.dev.depth_buf_ready ≠ none) ∧
  (w.dev.frame_ready_buffers_mask &&& GM_REQUEST_FRAME_VIDEO ≠ 0 ↔
    w.dev.video_buf_ready ≠ none) ∧
  (w.dev.type = .GM_DEVICE_KINECT →
    w.dev.depth_buf_back ≠ none ∧ w.dev.video_buf_back ≠ none)

/-- A device as `gm_device_open` returns it: `new gm_device()` leaves the
ready mask 0 and the ready slots null, and `kinect_open` acquires the two
back buffers of a Kinect. -/
def World.freshly_opened (w : World) : Prop :=
  w.dev.frame_ready_buffers_mask = 0 ∧ w.dev.depth_buf_ready = none ∧
  w.dev.video_buf_ready = none ∧
  (w.dev.type = .GM_DEVICE_KINECT →
    w.dev.depth_buf_back ≠ none ∧ w.dev.video_buf_back ≠ none)

/-- The device states reachable from a freshly opened device through frame
requests, the producer updates of the device's backend and
`gm_device_get_latest_frame`, each call returning normally. -/
inductive reachable : World → Prop where
  | opened (w : World) : w.freshly_opened → reachable w
  | request (w w1 : World) (buffers_mask : Nat) :
    reachable w → gm_device_request_frame buffers_mask w = .ok () w1 → reachable w1
  | recorded (w w1 : World) (timestamp : Nat) (pose : gm_pose) (camera_rotation : Int)
    (depth_buffer : Option Nat) (depth_intrinsics : gm_intrinsics)
    (video_buffer : Option Nat) (video_intrinsics : gm_intrinsics) :
    reachable w → w.dev.type = .GM_DEVICE_RECORDING →
    swap_recorded_frame timestamp pose camera_rotation depth_buffer depth_intrinsics
      video_buffer video_intrinsics w = .ok () w1 → reachable w1
  | kinect_depth (w w1 : World) (time : Nat) :
    reachable w → w.dev.type = .GM_DEVICE_KINECT →
    kinect_depth_frame_cb time w = .ok () w1 → reachable w1
  | kinect_rgb (w w1 : World) (time : Nat) :
    reachable w → w.dev.type = .GM_DEVICE_KINECT →
    kinect_rgb_frame_cb time w = .ok () w1 → reachable w1
  | tango_point_cloud (w w1 : World) (num_points : Nat) (points : List Nat) (timestamp : Nat)
    (pose : Option gm_pose) :
    reachable w → w.dev.type = .GM_DEVICE_TANGO →
    tango_point_cloud_cb num_points points timestamp pose w = .ok () w1 → reachable w1
  | tango_frame (w w1 : World) (format_nv12 : Bool) (luminance : List Nat) (timestamp : Nat) :
    reachable w → w.dev.type = .GM_DEVICE_TANGO →
    tango_frame_available_cb format_nv12 luminance timestamp w = .ok () w1 → reachable w1
  | avf_video (w w1 : World) (intrinsics : gm_intrinsics) (stride : Nat) (video : List Nat)
    (time : Nat) :
    reachable w → w.dev.type = .GM_DEVICE_AVF →
    on_avf_video_cb intrinsics stride video time w = .ok () w1 → reachable w1
  | avf_depth (w w1 : World) (intrinsics : gm_intrinsics) (depth : List Nat) (time : Nat) :
    reachable w → w.dev.type = .GM_DEVICE_AVF →
    on_avf_depth_cb intrinsics depth time w = .ok () w1 → reachable w1
  | latest (w w1 : World) (frame : Nat) :
    reachable w → gm_device_get_latest_frame w = .ok frame w1 → reachable w1

/-- The messages of the two assertions of `gm_device_get_latest_frame` that
check a ready slot against its flag. -/
def ready_buffer_missing (msg : String) : Prop :=
  msg = "Depth ready flag set but buffer missing" ∨
  msg = "Video ready flag set but buffer missing"

instance (msg : String) : Decidable (ready_buffer_missing msg) := by
  unfold ready_buffer_missing
  infer_instance

/-- A normal return satisfies `Q`; an abort is not one of the two ready-slot
assertions. -/
def Res.sat {α : Type} (r : Res α) (Q : α → World → Prop) : Prop :=
  match r with
  | .ok a w => Q a w
  | .abort msg _ => ¬ ready_buffer_missing msg

/-- A freshly opened recording device whose playback thread has read its
first depth payload into buffer 0 (count 1: the thread's reference). -/
def first_read_world : World :=
  { opened_world with
    dev := { opened_device with depth_buf_pool := ⟨[], 1, 2147483647⟩ }
    buffers := fun b =>
      if b = 0 then ⟨⟨1, 64, []⟩, .depth_buf_pool, ["recording buffer"]⟩
      else opened_world.buffers b
    next_buffer := 1 }

/-- The world `first_read_world` after a request for depth and the thread's
`swap_recorded_frame` of buffer 0. -/
def first_swap_world : World :=
  (swap_recorded_frame 1000 ⟨true, [], []⟩ 0 (some 0) ⟨2, 2, []⟩ none ⟨2, 2, []⟩
    (gm_device_request_frame GM_REQUEST_FRAME_DEPTH first_read_world).world).world

/-! ## The playback thread's buffers -/

/-- What `read_frame_buffer` finds of the payload file of one kind: the JSON
entry names no file, `fopen` fails, or the file has the given bytes. -/
inductive payload_file where
  | no_filename
  | cannot_open
  | content (bytes : List Nat)
  deriving DecidableEq, Repr

/-- What a recording entry says of one kind of buffer: the payload file, the
number `len_prop` and the intrinsics object as `read_json_intrinsics` reads
it. -/
structure frame_payload where
  file : payload_file
  len : Nat
  intrinsics : gm_intrinsics
  deriving DecidableEq, Repr

/-- The routine `read_frame_buffer`: the buffer read and `*intrinsics_out`, or
`none` for `NULL`.  `fread(buf->data, 1, len, fp)` stores the first `len` bytes
of the file and returns how many there were. -/
def read_frame_buffer (frame : frame_payload) (intrinsics_prop : String) (buf_pool : pool_id) :
    Prog (Option (Nat × gm_intrinsics)) := do
  match frame.file with
  | .no_filename => pure none
  | .cannot_open => pure none
  | .content bytes =>
    let len := frame.len
    let buf ← mem_pool_acquire_buffer buf_pool "recording buffer"
    modify_world fun w => w.copy_into buf (bytes.take len)
    if (bytes.take len).length ≠ len then
      mem_pool_recycle_resource buf_pool buf
      pure none
    else
      modify_world fun w =>
        w.modify_buffer buf fun b => { b with base := { b.base with len := len } }
      let w ← get_world
      if w.dev.recording.fixed_intrinsics then
        if intrinsics_prop = "depth_intrinsics" then
          pure (some (buf, w.dev.depth_intrinsics))
        else
          gm_assert (intrinsics_prop == "video_intrinsics") "unknown intrinsics prop"
          pure (some (buf, w.dev.video_intrinsics))
      else
        pure (some (buf, frame.intrinsics))

/-- The routine `copy_device_buffer`. -/
def copy_device_buffer (buffer : Nat) : Prog Nat := do
  let w ← get_world
  let pool := (w.buffers buffer).pool
  let copy ← mem_pool_acquire_buffer pool "paused recording buffer"
  modify_world fun w =>
    w.modify_buffer copy fun b =>
      { b with base := { b.base with len := (w.buffers buffer).base.len } }
  modify_world fun w =>
    w.copy_into copy ((w.buffers buffer).base.data.take (w.buffers buffer).base.len)
  pure copy

/-- The two `if` statements at the head of a pass of the pause loop: the
copies of the recording's last buffers, `none` for a kind that has none. -/
def pause_copies : Prog (Option Nat × Option Nat) := do
  let w ← get_world
  let depth_buffer ←
    match w.dev.recording.last_depth_buf with
    | some last => do
      let copy ← copy_device_buffer last
      pure (some copy)
    | none => pure none
  let w ← get_world
  let video_buffer ←
    match w.dev.recording.last_video_buf with
    | some last => do
      let copy ← copy_device_buffer last
      pure (some copy)
    | none => pure none
  pure (depth_buffer, video_buffer)

/-- The thread's `if (depth_buffer) gm_buffer_unref(depth_buffer); if
(video_buffer) gm_buffer_unref(video_buffer);`. -/
def unref_thread_buffers (depth_buffer video_buffer : Option Nat) : Prog Unit := do
  match depth_buffer with
  | some buffer => gm_buffer_unref buffer
  | none => pure ()
  match video_buffer with
  | some buffer => gm_buffer_unref buffer
  | none => pure ()

/-- One pass of the pause loop of `recording_io_thread_cb` (the sleep apart);
`monotonic_clock` is the thread's clock before the pass and `pose` its
`pose`. -/
def pause_tick (monotonic_clock : Nat) (pose : gm_pose) : Prog Unit := do
  let copies ← pause_copies
  let w ← get_world
  swap_recorded_frame (add64 monotonic_clock 16000000) pose
    w.dev.recording.last_camera_rotation copies.1 w.dev.depth_intrinsics
    copies.2 w.dev.video_intrinsics
  unref_thread_buffers copies.1 copies.2

/-- The end of an iteration of `recording_io_thread_cb`: both payloads of the
entry are read, the buffers are swapped in and the thread drops its
references.  The intrinsics of a kind that was not read are not
initialised (and not used); they are modelled as zeros. -/
def recording_emit (monotonic_clock : Nat) (pose : gm_pose) (rotation : Int)
    (depth video : frame_payload) : Prog Unit := do
  let depth_read ← read_frame_buffer depth "depth_intrinsics" .depth_buf_pool
  let video_read ← read_frame_buffer video "video_intrinsics" .video_buf_pool
  swap_recorded_frame monotonic_clock pose rotation
    (depth_read.map Prod.fst) ((depth_read.map Prod.snd).getD ⟨0, 0, []⟩)
    (video_read.map Prod.fst) ((video_read.map Prod.snd).getD ⟨0, 0, []⟩)
  unref_thread_buffers (depth_read.map Prod.fst) (video_read.map Prod.fst)

/-- The number of owning pointers to buffer `b`: the device's ready slots, the
recording's last-buffer slots, and the depth and video slots of every frame
whose count is at least 1. -/
def World.owners (w : World) (b : Nat) : Nat :=
  (if w.dev.depth_buf_ready = some b then 1 else 0) +
  (if w.dev.video_buf_ready = some b then 1 else 0) +
  (if w.dev.recording.last_depth_buf = some b then 1 else 0) +
  (if w.dev.recording.last_video_buf = some b then 1 else 0) +
  ((List.range w.next_frame).map fun f =>
    if 1 ≤ (w.frames f).base.ref then
      (if (w.frames f).base.depth = some b then 1 else 0) +
      (if (w.frames f).base.video = some b then 1 else 0)
    else 0).sum

/-- A depth payload of 8 bytes, all present. -/
def whole_payload : frame_payload :=
  ⟨.content [1, 2, 3, 4, 5, 6, 7, 8], 8, ⟨2, 2, []⟩⟩

/-- A payload whose entry declares 8 bytes and whose file holds 3. -/
def short_payload : frame_payload :=
  ⟨.content [1, 2, 3], 8, ⟨2, 2, []⟩⟩

/-- The buffer `b` is one the pause loop can copy: live, allocated, of pool
`p` and with its `len` bytes inside its storage. -/
def World.buffer_ok (w : World) (b : Nat) (p : pool_id) : Prop :=
  1 ≤ w.buffer_ref b ∧ b < w.next_buffer ∧ (w.buffers b).pool = p ∧
  (w.buffers b).base.len ≤ (w.buffers b).base.data.length

/-- The pool `p` can hand out a buffer: the head of its free list, if any, is
an allocated buffer of the pool with count 0, and an empty free list comes with
spare capacity. -/
def World.pool_ok (w : World) (p : pool_id) : Prop :=
  (∀ b rest, (w.pool p).available = b :: rest →
    w.buffer_ref b = 0 ∧ b < w.next_buffer ∧ (w.buffers b).pool = p) ∧
  ((w.pool p).available = [] → (w.pool p).n_allocated < (w.pool p).max_size)

/-- What a returning `copy_device_buffer B` leaves from `w`, where `B` is a
buffer of pool `p`: the copy `c` and the world `w1`. -/
structure copy_post (B : Nat) (p : pool_id) (w : World) (c : Nat) (w1 : World) : Prop where
  ne : c ≠ B
  ref : w1.buffer_ref c = 1
  pool : (w1.buffers c).pool = p
  len : (w1.buffers c).base.len = (w.buffers B).base.len
  bytes : (w1.buffers c).base.data.take (w.buffers B).base.len =
    (w.buffers B).base.data.take (w.buffers B).base.len
  others : ∀ x, x ≠ c → w1.buffers x = w.buffers x
  origin : w.buffer_ref c = 0 ∧ (w.buffers c).pool = p ∧ c < w.next_buffer ∧
      w1.next_buffer = w.next_buffer ∨
    c = w.next_buffer ∧ w1.next_buffer = w.next_buffer + 1
  dev : w1.dev.without_pools = w.dev.without_pools
  pools : ∀ q, q ≠ p → w1.pool q = w.pool q

/-- The state in which a pass of the pause loop can make its copies: the
recording's last buffers, where they exist, are live buffers of their kind's
pool, and both buffer pools can hand out a buffer. -/
def World.pause_ready (w : World) : Prop :=
  (∀ d, w.dev.recording.last_depth_buf = some d → w.buffer_ok d .depth_buf_pool) ∧
  (∀ v, w.dev.recording.last_video_buf = some v → w.buffer_ok v .video_buf_pool) ∧
  w.pool_ok .depth_buf_pool ∧ w.pool_ok .video_buf_pool

/-- A paused recording device: depth buffer 0 (4 bytes) and video buffer 1
(2 of its 3 bytes used) are the recording's last buffers, nothing else is
allocated. -/
def paused_world : World :=
  { opened_world with
    dev :=
      { opened_device with
        depth_buf_pool := ⟨[], 1, 2147483647⟩
        video_buf_pool := ⟨[], 1, 2147483647⟩
        recording :=
          { opened_device.recording with
            loop := false, last_depth_buf := some 0, last_video_buf := some 1 } }
    buffers := fun b =>
      if b = 0 then ⟨⟨1, 4, [1, 2, 3, 4]⟩, .depth_buf_pool, ["recording buffer"]⟩
      else if b = 1 then ⟨⟨1, 2, [9, 8, 7]⟩, .video_buf_pool, ["recording buffer"]⟩
      else opened_world.buffers b
    next_buffer := 2 }

/-- The buffer `copy` handed to `swap_recorded_frame` by a pass of the pause
loop is a fresh copy of the recording's last buffer `last` of the kind: none
when there is no last buffer, and otherwise another buffer than `last`, held
once (by the thread), with the `len` of `last` and the same first `len` bytes,
`last` itself being as it was.  `w` is the world before the copies were made
and `w1` the world after. -/
def World.is_copy_of (w w1 : World) (last copy : Option Nat) : Prop :=
  match last with
  | none => copy = none
  | some b =>
    ∃ c, copy = some c ∧ c ≠ b ∧ w1.buffer_ref c = 1 ∧
      (w1.buffers c).base.len = (w.buffers b).base.len ∧
      (w1.buffers c).base.data.take (w.buffers b).base.len =
        (w.buffers b).base.data.take (w.buffers b).base.len ∧
      w1.buffers b = w.buffers b

/-! ## The effect of `swap_recorded_frame` -/

/-- The number of device slots that point to buffer `x`: the two ready slots
and the recording's two last-buffer slots. -/
def gm_device.slot_refs (d : gm_device) (x : Nat) : Int :=
  (if d.depth_buf_ready = some x then 1 else 0) +
  (if d.video_buf_ready = some x then 1 else 0) +
  (if d.recording.last_depth_buf = some x then 1 else 0) +
  (if d.recording.last_video_buf = some x then 1 else 0)

/-- The world after `if (dev->recording.last_..._buf) gm_buffer_unref(...)`. -/
def World.last_released (w : World) (depth : Bool) : World :=
  match w.dev.last_buf depth with
  | some last => w.buffer_unrefed last
  | none => w

/-- The world after `dev->recording.last_..._buf = gm_buffer_ref(buffer)`. -/
def World.last_set (w : World) (depth : Bool) (B : Nat) : World :=
  (w.buffer_incremented B).modify_dev fun d =>
    if depth then { d with recording := { d.recording with last_depth_buf := some B } }
    else { d with recording := { d.recording with last_video_buf := some B } }

/-- The world after the body of `if (dev->frame_request_buffers_mask & K)`:
the buffer is referenced and stored in the ready slot, the bit is set and the
old ready buffer, if any, is unreferenced. -/
def World.ready_set (w : World) (depth : Bool) (B : Nat) : World :=
  match w.dev.ready_slot depth with
  | some old =>
    ((w.buffer_incremented B).modify_dev fun d =>
      if depth then
        { d with
          depth_buf_ready := some B
          frame_ready_buffers_mask := d.frame_ready_buffers_mask ||| GM_REQUEST_FRAME_DEPTH }
      else
        { d with
          video_buf_ready := some B
          frame_ready_buffers_mask :=
            d.frame_ready_buffers_mask ||| GM_REQUEST_FRAME_VIDEO }).buffer_unrefed old
  | none =>
    (w.buffer_incremented B).modify_dev fun d =>
      if depth then
        { d with
          depth_buf_ready := some B
          frame_ready_buffers_mask := d.frame_ready_buffers_mask ||| GM_REQUEST_FRAME_DEPTH }
      else
        { d with
          video_buf_ready := some B
          frame_ready_buffers_mask :=
            d.frame_ready_buffers_mask ||| GM_REQUEST_FRAME_VIDEO }

/-- The world a returning `swap_recorded_buffer` leaves. -/
def World.buffer_swapped (w : World) (depth : Bool) (B : Nat) (intrinsics : gm_intrinsics) :
    World :=
  let w2 := ((w.modify_dev fun d =>
      if depth then { d with depth_intrinsics := intrinsics }
      else { d with video_intrinsics := intrinsics }).last_released depth).last_set depth B
  if w.dev.frame_request_buffers_mask &&& kind_bit depth ≠ 0 then w2.ready_set depth B
  else w2

/-- The world after the statements of `swap_recorded_frame` for one kind:
`swap_recorded_buffer` if a buffer of the kind was passed, nothing else. -/
def World.maybe_swapped (w : World) (depth : Bool) (buffer : Option Nat)
    (intrinsics : gm_intrinsics) : World :=
  match buffer with
  | some B => w.buffer_swapped depth B intrinsics
  | none => w

/-- The world at the end of the locked section of `swap_recorded_frame`, just
before `pthread_mutex_unlock(&dev->swap_buffers_lock)`. -/
def World.frame_swapped (w : World) (timestamp : Nat) (pose : gm_pose) (camera_rotation : Int)
    (depth_buffer : Option Nat) (depth_intrinsics : gm_intrinsics)
    (video_buffer : Option Nat) (video_intrinsics : gm_intrinsics) : World :=
  ((w.swap_begun timestamp pose camera_rotation).maybe_swapped true depth_buffer
    depth_intrinsics).maybe_swapped false video_buffer video_intrinsics

/-- How a call of `swap_recorded_frame` changes the count of buffer `x` for
one kind: one more for each slot of the kind that comes to point to `x` (the
last-buffer slot, and the ready slot if the kind is requested) and one less
for each slot overwritten that pointed to `x`. -/
def gm_device.swap_delta (d : gm_device) (depth : Bool) (buffer : Option Nat) (x : Nat) :
    Int :=
  match buffer with
  | none => 0
  | some B =>
    (if x = B then 1 else 0) - (if d.last_buf depth = some x then 1 else 0) +
    (if d.frame_request_buffers_mask &&& kind_bit depth ≠ 0 then
      (if x = B then 1 else 0) - (if d.ready_slot depth = some x then 1 else 0)
     else 0)

/-- The counts cover the device's own references and the caller's: every
buffer is referenced at least once for each device slot that points to it, and
once more if it is one of the buffers passed to `swap_recorded_frame`. -/
def World.swap_accounted (w : World) (depth_buffer video_buffer : Option Nat) : Prop :=
  ∀ x, w.dev.slot_refs x +
    (if depth_buffer = some x ∨ video_buffer = some x then 1 else 0) ≤ w.buffer_ref x

/-- The buffer `x`, a buffer of pool `p`, is either referenced or on the free
list of its pool. -/
def World.live_or_free (w : World) (x : Nat) (p : pool_id) : Prop :=
  (w.buffers x).pool = p ∧ (1 ≤ w.buffer_ref x ∨ x ∈ (w.pool p).available)

/-- The replaying device with depth buffer 2 both in the ready slot and the
recording's last depth buffer (count 2, one reference for each slot): depth is
requested and depth buffer 4 holds the data just read. -/
def ready_last_world : World :=
  { replaying_world with
    dev :=
      { replaying_world.dev with
        recording := { replaying_world.dev.recording with last_depth_buf := some 2 } }
    buffers := fun b =>
      if b = 2 then ⟨⟨2, 64, []⟩, .depth_buf_pool, ["recording buffer"]⟩
      else replaying_world.buffers b }

/-- A freshly opened recording device with video requested, whose playback
thread has read a depth payload into buffer 0 and a video payload into buffer
1 (count 1 each: the thread's references). -/
def video_wanted_world : World :=
  { opened_world with
    dev :=
      { opened_device with
        frame_request_buffers_mask := GM_REQUEST_FRAME_VIDEO
        depth_buf_pool := ⟨[], 1, 2147483647⟩
        video_buf_pool := ⟨[], 1, 2147483647⟩ }
    buffers := fun b =>
      if b = 0 then ⟨⟨1, 64, []⟩, .depth_buf_pool, ["recording buffer"]⟩
      else if b = 1 then ⟨⟨1, 16, []⟩, .video_buf_pool, ["recording buffer"]⟩
      else opened_world.buffers b
    next_buffer := 2 }

/-! ## Basic lemmas -/

@[simp] theorem Res.and_then_ok {α β : Type} (a : α) (w : World) (k : α → World → Res β) :
    (Res.ok a w).and_then k = k a w := rfl

@[simp] theorem Res.and_then_abort {α β : Type} (msg : String) (w : World)
    (k : α → World → Res β) :
    (Res.abort msg w : Res α).and_then k = .abort msg w := rfl

@[simp] theorem Prog.bind_apply {α β : Type} (m : Prog α) (f : α → Prog β) (w : World) :
    (m >>= f) w = (m w).and_then f := by
  show Prog.bind m f w = _
  unfold Prog.bind Res.and_then
  cases m w <;> rfl

@[simp] theorem Prog.pure_apply {α : Type} (a : α) (w : World) :
    (pure a : Prog α) w = .ok a w := rfl

@[simp] theorem get_world_apply (w : World) : get_world w = .ok w w := rfl

@[simp] theorem modify_world_apply (f : World → World) (w : World) :
    modify_world f w = .ok () (f w) := rfl

@[simp] theorem gm_assert_apply (c : Bool) (msg : String) (w : World) :
    gm_assert c msg w = if c = true then .ok () w else .abort msg w := by
  cases c <;> rfl

@[simp] theorem c_assert_apply (c : Bool) (msg : String) (w : World) :
    c_assert c msg w = if c = true then .ok () w else .abort msg w := by
  cases c <;> rfl

/-! ## Buffers -/

theorem device_buffer_recycle_eq (b : Nat) (w : World) :
    device_buffer_recycle b w =
      if w.buffer_ref b = 0 then .ok () (w.buffer_recycled b)
      else .abort "Unbalanced buffer unref" (w.buffer_recycled b) := by
  cases hp : (w.buffers b).pool <;>
  by_cases h : (w.buffers b).base.ref = 0 <;>
  simp [device_buffer_recycle, mem_pool_recycle_resource, World.buffer_recycled,
    World.modify_buffer, World.set_buffer, World.set_pool, World.pool, World.buffer_ref, hp, h]

theorem gm_buffer_unref_eq (b : Nat) (w : World) (h : 0 ≤ w.buffer_ref b) :
    gm_buffer_unref b w =
      if w.buffer_ref b - 1 < 1 then device_buffer_recycle b (w.buffer_decremented b)
      else .ok () (w.buffer_decremented b) := by
  simp only [World.buffer_ref] at h
  by_cases h1 : (w.buffers b).base.ref - 1 < 1 <;>
  simp [gm_buffer_unref, gm_buffer_add_breadcrumb, device_buffer_add_breadcrumb, h, h1,
    World.buffer_decremented, World.modify_buffer, World.set_buffer, World.buffer_ref]

theorem gm_buffer_unref_neg (b : Nat) (w : World) (h : w.buffer_ref b < 0) :
    gm_buffer_unref b w = .abort "Use of buffer after free" w := by
  simp only [World.buffer_ref] at h
  simp [gm_buffer_unref, gm_buffer_add_breadcrumb, device_buffer_add_breadcrumb, not_le.mpr h]

theorem gm_buffer_unref_spec (b : Nat) (w : World) (h : 1 ≤ w.buffer_ref b) :
    ∃ w1, gm_buffer_unref b w = .ok () w1 ∧ buffer_unref_post b w w1 := by
  rw [gm_buffer_unref_eq b w (by omega)]
  simp only [World.buffer_ref] at h
  by_cases h1 : (w.buffers b).base.ref = 1
  · refine ⟨(w.buffer_decremented b).buffer_recycled b, ?_, ?_⟩
    · simp [h1, device_buffer_recycle_eq, World.buffer_decremented, World.buffer_ref,
        World.modify_buffer, World.set_buffer]
    · cases hp : (w.buffers b).pool <;>
      constructor <;>
      simp [World.buffer_decremented, World.buffer_recycled, World.buffer_ref,
        World.modify_buffer, World.set_buffer, World.set_pool, World.pool,
        gm_device.without_pools, hp, h1] <;>
      first
        | done
        | (intro x hx; simp [Function.update_noteq hx])
        | (intro p hp2; cases p <;> simp_all)
  · have h2 : ¬ ((w.buffers b).base.ref - 1 < 1) := by omega
    refine ⟨w.buffer_decremented b, ?_, ?_⟩
    · simp [h2, World.buffer_ref]
    · constructor <;>
      simp [World.buffer_decremented, World.buffer_ref,
        World.modify_buffer, World.set_buffer, World.pool, h1] <;>
      first
        | done
        | (intro x hx; simp [Function.update_noteq hx])

theorem gm_buffer_ref_ok (b : Nat) (w : World) (h : 0 ≤ w.buffer_ref b) :
    gm_buffer_ref b w = .ok b (w.buffer_incremented b) := by
  simp only [World.buffer_ref] at h
  simp [gm_buffer_ref, gm_buffer_add_breadcrumb, device_buffer_add_breadcrumb, h,
    World.buffer_incremented, World.modify_buffer, World.set_buffer]

theorem gm_buffer_ref_neg (b : Nat) (w : World) (h : w.buffer_ref b < 0) :
    gm_buffer_ref b w = .abort "buffer->ref >= 0" w := by
  simp only [World.buffer_ref] at h
  simp [gm_buffer_ref, not_le.mpr h]

/-! ## Frames -/

theorem frame_pool_of_pool_eq {w w1 : World} (h : w1.pool .frame_pool = w.pool .frame_pool) :
    w1.dev.frame_pool = w.dev.frame_pool := h

theorem device_frame_recycle_spec (f : Nat) (w : World) (h : w.frame_ref f = 0)
    (hb : w.buffers_releasable f) :
    ∃ w1, device_frame_recycle f w = .ok () w1 ∧ frame_recycle_post f w w1 := by
  simp only [World.frame_ref] at h
  obtain ⟨hv, hd, hvd⟩ := hb
  rcases hfr : w.frames f with ⟨⟨ref, ts, pose, rot, depth, df, di, video, vf, vi⟩, trail⟩
  simp only [hfr] at h hv hd hvd
  subst h
  cases video with
  | none =>
    cases depth with
    | none =>
      simp only [device_frame_recycle, Prog.bind_apply, get_world_apply, gm_assert_apply, hfr,
        beq_self_eq_true, if_true, Prog.pure_apply, modify_world_apply, Res.and_then_ok,
        mem_pool_recycle_resource]
      refine ⟨_, rfl, ?_⟩
      constructor <;>
        simp [World.modify_frame, World.set_frame, World.set_pool, World.pool,
          gm_device.without_pools, hfr] <;>
        first
          | done
          | (intro x hx; simp [Function.update_noteq hx])
    | some d =>
      obtain ⟨hd1, hd2⟩ := hd d rfl
      obtain ⟨wa, ha, pa⟩ := gm_buffer_unref_spec d w hd1
      simp only [device_frame_recycle, Prog.bind_apply, get_world_apply, gm_assert_apply, hfr,
        beq_self_eq_true, if_true, Prog.pure_apply, modify_world_apply, Res.and_then_ok,
        mem_pool_recycle_resource, ha]
      refine ⟨_, rfl, ?_⟩
      have hfp := frame_pool_of_pool_eq (pa.other_pools .frame_pool (Ne.symm hd2))
      constructor
      · simp [World.modify_frame, World.set_frame, World.set_pool, pa.events]
      · have := pa.dev
        simp only [gm_device.without_pools] at this ⊢
        simp [World.modify_frame, World.set_frame, World.set_pool, this]
      · simp [World.modify_frame, World.set_frame, World.set_pool, pa.next_buffer]
      · simp [World.modify_frame, World.set_frame, World.set_pool, pa.next_frame]
      · intro x hx
        simp [World.modify_frame, World.set_frame, World.set_pool, pa.frames,
          Function.update_noteq hx]
      · simp [World.modify_frame, World.set_frame, World.set_pool, pa.frames, hfr]
      · simp [World.modify_frame, World.set_frame, World.set_pool, World.pool, hfp]
      · intro x _ hx
        rw [hfr] at hx
        have : x ≠ d := fun e => hx (by rw [e])
        simp [World.modify_frame, World.set_frame, World.set_pool, pa.others x this]
      · intro x hx
        rw [hfr] at hx
        have : d = x := by simpa using hx
        subst this
        refine ⟨?_, ?_, ?_⟩
        · simpa [World.modify_frame, World.set_frame, World.set_pool] using pa.base
        · simpa [World.modify_frame, World.set_frame, World.set_pool] using pa.pool_eq
        · intro h1
          obtain ⟨q1, q2⟩ := pa.freed h1
          refine ⟨by simpa [World.modify_frame, World.set_frame, World.set_pool] using q2, ?_⟩
          cases hp : (w.buffers d).pool <;>
          simp_all [World.modify_frame, World.set_frame, World.set_pool, World.pool]
  | some v =>
    cases depth with
    | none =>
      obtain ⟨hv1, hv2⟩ := hv v rfl
      obtain ⟨wa, ha, pa⟩ := gm_buffer_unref_spec v w hv1
      simp only [device_frame_recycle, Prog.bind_apply, get_world_apply, gm_assert_apply, hfr,
        beq_self_eq_true, if_true, Prog.pure_apply, modify_world_apply, Res.and_then_ok,
        mem_pool_recycle_resource, ha]
      have hfd : ((wa.modify_frame f fun fr =>
          { fr with base := { fr.base with video := none } }).frames f).base.depth = none := by
        simp [World.modify_frame, World.set_frame, pa.frames, hfr]
      simp only [hfd, Prog.bind_apply, Prog.pure_apply, modify_world_apply, Res.and_then_ok]
      refine ⟨_, rfl, ?_⟩
      have hfp := frame_pool_of_pool_eq (pa.other_pools .frame_pool (Ne.symm hv2))
      constructor
      · simp [World.modify_frame, World.set_frame, World.set_pool, pa.events]
      · have := pa.dev
        simp only [gm_device.without_pools] at this ⊢
        simp [World.modify_frame, World.set_frame, World.set_pool, this]
      · simp [World.modify_frame, World.set_frame, World.set_pool, pa.next_buffer]
      · simp [World.modify_frame, World.set_frame, World.set_pool, pa.next_frame]
      · intro x hx
        simp [World.modify_frame, World.set_frame, World.set_pool, pa.frames,
          Function.update_noteq hx]
      · simp [World.modify_frame, World.set_frame, World.set_pool, pa.frames, hfr]
      · simp [World.modify_frame, World.set_frame, World.set_pool, World.pool, hfp]
      · intro x hx _
        rw [hfr] at hx
        have : x ≠ v := fun e => hx (by rw [e])
        simp [World.modify_frame, World.set_frame, World.set_pool, pa.others x this]
      · intro x hx
        rw [hfr] at hx
        have : v = x := by simpa using hx
        subst this
        refine ⟨?_, ?_, ?_⟩
        · simpa [World.modify_frame, World.set_frame, World.set_pool] using pa.base
        · simpa [World.modify_frame, World.set_frame, World.set_pool] using pa.pool_eq
        · intro h1
          obtain ⟨q1, q2⟩ := pa.freed h1
          refine ⟨by simpa [World.modify_frame, World.set_frame, World.set_pool] using q2, ?_⟩
          cases hp : (w.buffers v).pool <;>
          simp_all [World.modify_frame, World.set_frame, World.set_pool, World.pool]
    | some d =>
      obtain ⟨hv1, hv2⟩ := hv v rfl
      obtain ⟨hd1, hd2⟩ := hd d rfl
      have hne : v ≠ d := hvd v d rfl rfl
      obtain ⟨wa, ha, pa⟩ := gm_buffer_unref_spec v w hv1
      obtain ⟨wb, hb, pb⟩ : ∃ wb, gm_buffer_unref d (wa.modify_frame f fun fr =>
          { fr with base := { fr.base with video := none } }) = .ok () wb ∧
          buffer_unref_post d (wa.modify_frame f fun fr =>
          { fr with base := { fr.base with video := none } }) wb := by
        apply gm_buffer_unref_spec
        simp only [World.buffer_ref, World.modify_frame, World.set_frame] at hd1 ⊢
        rw [pa.others d (Ne.symm hne)]
        exact hd1
      simp only [device_frame_recycle, Prog.bind_apply, get_world_apply, gm_assert_apply, hfr,
        beq_self_eq_true, if_true, Prog.pure_apply, modify_world_apply, Res.and_then_ok,
        mem_pool_recycle_resource, ha]
      have hfd : ((wa.modify_frame f fun fr =>
          { fr with base := { fr.base with video := none } }).frames f).base.depth = some d := by
        simp [World.modify_frame, World.set_frame, pa.frames, hfr]
      simp only [hfd, hb, Prog.bind_apply, Prog.pure_apply, modify_world_apply, Res.and_then_ok]
      refine ⟨_, rfl, ?_⟩
      have hfp1 := frame_pool_of_pool_eq (pa.other_pools .frame_pool (Ne.symm hv2))
      have hpd : ((wa.modify_frame f fun fr =>
          { fr with base := { fr.base with video := none } }).buffers d).pool =
          (w.buffers d).pool := by
        simp [World.modify_frame, World.set_frame, pa.others d (Ne.symm hne)]
      have hfp2 := frame_pool_of_pool_eq (pb.other_pools .frame_pool (by rw [hpd]; exact Ne.symm hd2))
      have e1 := pb.events
      have e2 := pb.dev
      have e3 := pb.next_buffer
      have e4 := pb.next_frame
      have e5 := pb.frames
      simp only [World.modify_frame, World.set_frame] at e1 e2 e3 e4 e5 hfp2
      constructor
      · simp [World.modify_frame, World.set_frame, World.set_pool, pa.events, e1]
      · have := pa.dev
        simp only [gm_device.without_pools] at this e2 ⊢
        simp [World.modify_frame, World.set_frame, World.set_pool, this, e2]
      · simp [World.modify_frame, World.set_frame, World.set_pool, pa.next_buffer, e3]
      · simp [World.modify_frame, World.set_frame, World.set_pool, pa.next_frame, e4]
      · intro x hx
        simp [World.modify_frame, World.set_frame, World.set_pool, pa.frames, e5,
          Function.update_noteq hx]
      · simp [World.modify_frame, World.set_frame, World.set_pool, pa.frames, e5, hfr]
      · simp [World.modify_frame, World.set_frame, World.set_pool, World.pool, hfp1, hfp2]
      · intro x hx1 hx2
        rw [hfr] at hx1 hx2
        have h1 : x ≠ v := fun e => hx1 (by rw [e])
        have h2 : x ≠ d := fun e => hx2 (by rw [e])
        have := pb.others x h2
        simp only [World.modify_frame, World.set_frame] at this
        simp [World.modify_frame, World.set_frame, World.set_pool, this, pa.others x h1]
      · intro x hx
        rw [hfr] at hx
        have hbd : (wa.modify_frame f fun fr =>
            { fr with base := { fr.base with video := none } }).buffers d = w.buffers d := by
          simp [World.modify_frame, World.set_frame, pa.others d (Ne.symm hne)]
        have hrd : (wa.modify_frame f fun fr =>
            { fr with base := { fr.base with video := none } }).buffer_ref d =
            w.buffer_ref d := by
          simp only [World.buffer_ref, hbd]
        have hxvd : x = v ∨ x = d := by
          rcases hx with hx | hx
          · left; simpa [eq_comm] using hx
          · right; simpa [eq_comm] using hx
        rcases hxvd with rfl | rfl
        · have hbv := pb.others x hne
          simp only [World.modify_frame, World.set_frame] at hbv
          refine ⟨?_, ?_, ?_⟩
          · simpa [World.modify_frame, World.set_frame, World.set_pool, hbv] using pa.base
          · simpa [World.modify_frame, World.set_frame, World.set_pool, hbv] using pa.pool_eq
          · intro h1
            obtain ⟨q1, q2⟩ := pa.freed h1
            refine ⟨by simpa [World.modify_frame, World.set_frame, World.set_pool, hbv]
              using q2, ?_⟩
            have hmem : x ∈ (wa.pool (w.buffers x).pool).available := by
              rw [q1]; simp
            have hfinal : ∀ p, p ≠ pool_id.frame_pool → ∀ W : World,
                ((W.set_pool .frame_pool
                  { W.pool .frame_pool with
                    available := f :: (W.pool .frame_pool).available }).pool p) = W.pool p := by
              intro p hp W
              cases p <;> simp_all [World.set_pool, World.pool]
            have hstep : x ∈ (wb.pool (w.buffers x).pool).available := by
              by_cases hpp : (w.buffers x).pool = (w.buffers d).pool
              · by_cases hr1 : w.buffer_ref d = 1
                · have := (pb.freed (by rw [hrd]; exact hr1)).1
                  rw [hbd] at this
                  rw [hpp, this]
                  simp only [List.mem_cons]
                  right
                  have hm2 := hmem
                  rw [hpp] at hm2
                  simpa [World.modify_frame, World.set_frame, World.pool] using hm2
                · have := (pb.kept (by rw [hrd]; omega)).1
                  rw [hbd] at this
                  rw [hpp, this]
                  have hm2 := hmem
                  rw [hpp] at hm2
                  simpa [World.modify_frame, World.set_frame, World.pool] using hm2
              · have := pb.other_pools (w.buffers x).pool (by rw [hbd]; exact hpp)
                rw [this]
                simpa [World.modify_frame, World.set_frame, World.pool] using hmem
            have hgoal := hfinal (w.buffers x).pool hv2
              ((wb.modify_frame f fun fr =>
                { fr with base := { fr.base with depth := none } }).modify_frame f fun fr =>
                { fr with trail := [] })
            rw [hgoal]
            simpa [World.modify_frame, World.set_frame, World.pool] using hstep
        · refine ⟨?_, ?_, ?_⟩
          · have := pb.base
            rw [hbd] at this
            simpa [World.modify_frame, World.set_frame, World.set_pool] using this
          · have := pb.pool_eq
            rw [hbd] at this
            simpa [World.modify_frame, World.set_frame, World.set_pool] using this
          · intro h1
            obtain ⟨q1, q2⟩ := pb.freed (by rw [hrd]; exact h1)
            rw [hbd] at q1
            refine ⟨by simpa [World.modify_frame, World.set_frame, World.set_pool] using q2, ?_⟩
            cases hp : (w.buffers x).pool <;>
            simp_all [World.modify_frame, World.set_frame, World.set_pool, World.pool]

/-! ## Steps that touch only buffers; frame counts -/

theorem World.buffers_only_refl (w : World) : w.buffers_only w := ⟨rfl, rfl, rfl, rfl⟩

theorem World.buffers_only_trans {w w1 w2 : World} (h1 : w.buffers_only w1)
    (h2 : w1.buffers_only w2) : w.buffers_only w2 :=
  ⟨h2.1.trans h1.1, h2.2.1.trans h1.2.1, h2.2.2.1.trans h1.2.2.1, h2.2.2.2.trans h1.2.2.2⟩

theorem buffer_recycled_buffers_only (b : Nat) (w : World) :
    w.buffers_only (w.buffer_recycled b) := by
  cases hp : (w.buffers b).pool <;>
  simp [World.buffers_only, World.buffer_recycled, World.modify_buffer, World.set_buffer,
    World.set_pool, World.pool, gm_device.without_pools, hp]

theorem buffer_decremented_buffers_only (b : Nat) (w : World) :
    w.buffers_only (w.buffer_decremented b) := by
  simp [World.buffers_only, World.buffer_decremented, World.modify_buffer, World.set_buffer]

theorem device_buffer_recycle_buffers_only (b : Nat) (w : World) :
    w.buffers_only (device_buffer_recycle b w).world := by
  rw [device_buffer_recycle_eq]
  split <;> exact buffer_recycled_buffers_only b w

theorem gm_buffer_unref_buffers_only (b : Nat) (w : World) :
    w.buffers_only (gm_buffer_unref b w).world := by
  by_cases h : 0 ≤ w.buffer_ref b
  · rw [gm_buffer_unref_eq b w h]
    split
    · exact World.buffers_only_trans (buffer_decremented_buffers_only b w)
        (device_buffer_recycle_buffers_only b _)
    · exact buffer_decremented_buffers_only b w
  · rw [gm_buffer_unref_neg b w (by omega)]
    exact World.buffers_only_refl w

theorem gm_buffer_ref_buffers_only (b : Nat) (w : World) :
    w.buffers_only (gm_buffer_ref b w).world := by
  by_cases h : 0 ≤ w.buffer_ref b
  · rw [gm_buffer_ref_ok b w h]
    simp [World.buffers_only, Res.world, World.buffer_incremented, World.modify_buffer,
      World.set_buffer]
  · rw [gm_buffer_ref_neg b w (by omega)]
    exact World.buffers_only_refl w

theorem gm_buffer_unref_ref_eq (b : Nat) (w : World) (h : 0 ≤ w.buffer_ref b) :
    (gm_buffer_unref b w).world.buffer_ref b = w.buffer_ref b - 1 := by
  rw [gm_buffer_unref_eq b w h, device_buffer_recycle_eq]
  cases hp : (w.buffers b).pool <;>
  split <;> (try split) <;>
  simp [Res.world, World.buffer_ref, World.buffer_recycled, World.buffer_decremented,
    World.modify_buffer, World.set_buffer, World.set_pool, hp]

theorem gm_frame_unref_eq (f : Nat) (w : World) (h : 0 ≤ w.frame_ref f) :
    gm_frame_unref f w =
      if w.frame_ref f - 1 < 1 then device_frame_recycle f (w.frame_decremented f)
      else .ok () (w.frame_decremented f) := by
  simp only [World.frame_ref] at h
  by_cases h1 : (w.frames f).base.ref - 1 < 1 <;>
  simp [gm_frame_unref, gm_frame_add_breadcrumb, device_frame_add_breadcrumb, h, h1,
    World.frame_decremented, World.modify_frame, World.set_frame, World.frame_ref]

theorem gm_frame_unref_neg (f : Nat) (w : World) (h : w.frame_ref f < 0) :
    gm_frame_unref f w = .abort "Use of frame after free" w := by
  simp only [World.frame_ref] at h
  simp [gm_frame_unref, gm_frame_add_breadcrumb, device_frame_add_breadcrumb, not_le.mpr h]

theorem gm_frame_ref_ok (f : Nat) (w : World) (h : 0 ≤ w.frame_ref f) :
    gm_frame_ref f w = .ok f (w.frame_incremented f) := by
  simp only [World.frame_ref] at h
  simp [gm_frame_ref, gm_frame_add_breadcrumb, device_frame_add_breadcrumb, h,
    World.frame_incremented, World.modify_frame, World.set_frame]

theorem gm_frame_ref_neg (f : Nat) (w : World) (h : w.frame_ref f < 0) :
    gm_frame_ref f w = .abort "frame->ref >= 0" w := by
  simp only [World.frame_ref] at h
  simp [gm_frame_ref, not_le.mpr h]

theorem device_frame_recycle_abort (f : Nat) (w : World) (h : w.frame_ref f ≠ 0) :
    device_frame_recycle f w = .abort "Unbalanced frame unref" w := by
  simp only [World.frame_ref] at h
  simp [device_frame_recycle, h]

theorem frame_ref_bind_unref (b f : Nat) (w : World) (k : World → Res Unit) (c : Int)
    (hw : w.frame_ref f = c)
    (hk : ∀ w1, w1.frames = w.frames → (k w1).world.frame_ref f = c) :
    ((gm_buffer_unref b w).and_then fun _ w1 => k w1).world.frame_ref f = c := by
  have := (gm_buffer_unref_buffers_only b w).1
  cases hr : gm_buffer_unref b w with
  | ok a w1 =>
    rw [hr] at this
    exact hk w1 this
  | abort m w1 =>
    rw [hr] at this
    simp only [Res.world, Res.and_then_abort] at this ⊢
    simp only [World.frame_ref, this]
    exact hw

theorem device_frame_recycle_ref (f : Nat) (w : World) :
    (device_frame_recycle f w).world.frame_ref f = w.frame_ref f := by
  by_cases h : w.frame_ref f = 0
  · rw [h]
    simp only [World.frame_ref] at h
    rcases hfr : w.frames f with ⟨⟨ref, ts, pose, rot, depth, df, di, video, vf, vi⟩, trail⟩
    simp only [hfr] at h
    subst h
    cases video with
    | none =>
      cases depth with
      | none =>
        simp [device_frame_recycle, hfr, Res.world, World.frame_ref, World.modify_frame,
          World.set_frame, World.set_pool, mem_pool_recycle_resource]
      | some d =>
        simp only [device_frame_recycle, Prog.bind_apply, get_world_apply, gm_assert_apply, hfr,
          beq_self_eq_true, if_true, Prog.pure_apply, modify_world_apply, Res.and_then_ok,
          mem_pool_recycle_resource]
        apply frame_ref_bind_unref
        · simp [World.frame_ref, hfr]
        · intro w1 hw1
          simp [Res.world, World.frame_ref, World.modify_frame, World.set_frame,
            World.set_pool, hw1, hfr]
    | some v =>
      simp only [device_frame_recycle, Prog.bind_apply, get_world_apply, gm_assert_apply, hfr,
        beq_self_eq_true, if_true, Prog.pure_apply, modify_world_apply, Res.and_then_ok,
        mem_pool_recycle_resource]
      apply frame_ref_bind_unref
      · simp [World.frame_ref, hfr]
      · intro w1 hw1
        cases depth with
        | none =>
          simp [Res.world, World.frame_ref, World.modify_frame, World.set_frame,
            World.set_pool, hw1, hfr]
        | some d =>
          have hfd : ((w1.modify_frame f fun fr =>
              { fr with base := { fr.base with video := none } }).frames f).base.depth =
              some d := by
            simp [World.modify_frame, World.set_frame, hw1, hfr]
          simp only [get_world_apply, Res.and_then_ok, hfd, Prog.bind_apply, modify_world_apply]
          apply frame_ref_bind_unref
          · simp [World.frame_ref, World.modify_frame, World.set_frame, hw1, hfr]
          · intro w2 hw2
            simp [Res.world, World.frame_ref, World.modify_frame, World.set_frame,
              World.set_pool, hw2, hw1, hfr]
  · rw [device_frame_recycle_abort f w h]
    rfl

/-! ## Claims on the reference counting interface -/

/-- C5: on a count that is not negative, `gm_buffer_unref` and `gm_frame_unref`
record the breadcrumb, decrement the count by exactly one and then run the
object's free hook exactly when the new count is below 1 (so also from 0 to
-1): the outcome is the hook's outcome on the decremented state in that case
and the decremented state otherwise, and the count at the end is one less
either way.  `gm_buffer_ref` and `gm_frame_ref` return the same object with
the count raised by one and leave every pool and every other object as it
was, so no free hook runs. -/
theorem C5_ref_unref_semantics (w : World) (b f : Nat)
    (hb : 0 ≤ w.buffer_ref b) (hf : 0 ≤ w.frame_ref f) :
    (gm_buffer_unref b w =
        (if w.buffer_ref b - 1 < 1 then device_buffer_recycle b (w.buffer_decremented b)
         else .ok () (w.buffer_decremented b)) ∧
      (w.buffer_decremented b).buffer_ref b = w.buffer_ref b - 1 ∧
      (gm_buffer_unref b w).world.buffer_ref b = w.buffer_ref b - 1) ∧
    (gm_frame_unref f w =
        (if w.frame_ref f - 1 < 1 then device_frame_recycle f (w.frame_decremented f)
         else .ok () (w.frame_decremented f)) ∧
      (w.frame_decremented f).frame_ref f = w.frame_ref f - 1 ∧
      (gm_frame_unref f w).world.frame_ref f = w.frame_ref f - 1) ∧
    (∃ w1, gm_buffer_ref b w = .ok b w1 ∧ w1.buffer_ref b = w.buffer_ref b + 1 ∧
      w1.dev = w.dev ∧ w1.frames = w.frames ∧ ∀ x, x ≠ b → w1.buffers x = w.buffers x) ∧
    (∃ w1, gm_frame_ref f w = .ok f w1 ∧ w1.frame_ref f = w.frame_ref f + 1 ∧
      w1.dev = w.dev ∧ w1.buffers = w.buffers ∧ ∀ x, x ≠ f → w1.frames x = w.frames x) := by
  have hdb : (w.buffer_decremented b).buffer_ref b = w.buffer_ref b - 1 := by
    simp [World.buffer_decremented, World.buffer_ref, World.modify_buffer, World.set_buffer]
  have hdf : (w.frame_decremented f).frame_ref f = w.frame_ref f - 1 := by
    simp [World.frame_decremented, World.frame_ref, World.modify_frame, World.set_frame]
  refine ⟨⟨gm_buffer_unref_eq b w hb, hdb, gm_buffer_unref_ref_eq b w hb⟩,
    ⟨gm_frame_unref_eq f w hf, hdf, ?_⟩, ?_, ?_⟩
  · rw [gm_frame_unref_eq f w hf]
    split
    · rw [device_frame_recycle_ref, hdf]
    · exact hdf
  · refine ⟨_, gm_buffer_ref_ok b w hb, ?_, rfl, rfl, ?_⟩
    · simp [World.buffer_ref, World.buffer_incremented, World.modify_buffer, World.set_buffer]
    · intro x hx
      simp [World.buffer_incremented, World.modify_buffer, World.set_buffer,
        Function.update_noteq hx]
  · refine ⟨_, gm_frame_ref_ok f w hf, ?_, rfl, rfl, ?_⟩
    · simp [World.frame_ref, World.frame_incremented, World.modify_frame, World.set_frame]
    · intro x hx
      simp [World.frame_incremented, World.modify_frame, World.set_frame,
        Function.update_noteq hx]

/-- Witness of C5 on the capturing world: buffer 2 and frame 0 have count 1. -/
theorem C5_ref_unref_semantics_witness :
    (0 ≤ capturing_world.buffer_ref 2 ∧ 0 ≤ capturing_world.frame_ref 0) ∧
    (gm_buffer_unref 2 capturing_world).world.buffer_ref 2 = capturing_world.buffer_ref 2 - 1 ∧
    (gm_frame_unref 0 capturing_world).world.frame_ref 0 = capturing_world.frame_ref 0 - 1 :=
  ⟨⟨by decide, by decide⟩,
    (C5_ref_unref_semantics capturing_world 2 0 (by decide) (by decide)).1.2.2,
    (C5_ref_unref_semantics capturing_world 2 0 (by decide) (by decide)).2.1.2.2⟩

theorem buffers_releasable_decremented (w : World) (f : Nat) (h : w.buffers_releasable f) :
    (w.frame_decremented f).buffers_releasable f := by
  simpa [World.buffers_releasable, World.frame_decremented, World.modify_frame,
    World.set_frame, World.buffer_ref] using h

/-- C19: a frame owns one reference on each attached buffer.  When the count
of a frame whose attached buffers are live (count at least 1, distinct,
belonging to buffer pools) drops from 1 to 0, `gm_frame_unref` runs
`device_frame_recycle`, which returns normally having decremented the count
of each attached buffer by exactly one, nulled both buffer slots, cleared the
frame's trail and pushed the frame onto the frame pool; an attached buffer
whose count was 1 is then in its own pool's free list with an empty trail,
and no other buffer changed.  When the frame's count is not 0,
`device_frame_recycle` fails its assertion with the memory untouched. -/
theorem C19_frame_owns_buffers (w : World) (f : Nat) (hb : w.buffers_releasable f) :
    (w.frame_ref f = 1 →
      gm_frame_unref f w = device_frame_recycle f (w.frame_decremented f)) ∧
    (w.frame_ref f = 0 →
      ∃ w1, device_frame_recycle f w = .ok () w1 ∧
        (w1.frames f).base.video = none ∧ (w1.frames f).base.depth = none ∧
        (w1.frames f).trail = [] ∧
        w1.dev.frame_pool.available = f :: w.dev.frame_pool.available ∧
        (∀ x, (w.frames f).base.video = some x ∨ (w.frames f).base.depth = some x →
          w1.buffer_ref x = w.buffer_ref x - 1 ∧
          (w.buffer_ref x = 1 →
            x ∈ (w1.pool (w.buffers x).pool).available ∧ (w1.buffers x).trail = [])) ∧
        (∀ x, (w.frames f).base.video ≠ some x → (w.frames f).base.depth ≠ some x →
          w1.buffers x = w.buffers x)) ∧
    (w.frame_ref f ≠ 0 → device_frame_recycle f w = .abort "Unbalanced frame unref" w) := by
  refine ⟨?_, ?_, device_frame_recycle_abort f w⟩
  · intro h1
    rw [gm_frame_unref_eq f w (by omega), h1]
    simp
  · intro h0
    obtain ⟨w1, hr, p⟩ := device_frame_recycle_spec f w h0 hb
    refine ⟨w1, hr, ?_, ?_, ?_, ?_, ?_, p.other_buffers⟩
    · rw [p.frame]
    · rw [p.frame]
    · rw [p.frame]
    · rw [p.frame_pool]
    · intro x hx
      obtain ⟨q1, q2, q3⟩ := p.attached x hx
      refine ⟨?_, fun h1 => ⟨(q3 h1).2, (q3 h1).1⟩⟩
      simp only [World.buffer_ref, q1]

/-- Witness of C19: the cached frame of the capturing world, once its count
is down to 0, gives its two buffers (count 1 each) back to their pools. -/
theorem C19_frame_owns_buffers_witness :
    (capturing_world.frame_decremented 0).buffers_releasable 0 ∧
    (capturing_world.frame_decremented 0).frame_ref 0 = 0 ∧
    ∃ w1, device_frame_recycle 0 (capturing_world.frame_decremented 0) = .ok () w1 ∧
      w1.dev.frame_pool.available = [0] ∧ w1.buffer_ref 0 = 0 ∧ w1.buffer_ref 1 = 0 := by
  have hb : (capturing_world.frame_decremented 0).buffers_releasable 0 := by
    refine ⟨?_, ?_, ?_⟩
    · intro v hv
      cases hv
      decide
    · intro d hd
      cases hd
      decide
    · intro v d hv hd
      cases hv
      cases hd
      decide
  obtain ⟨w1, hr, _, _, _, hp, hatt, _⟩ :=
    (C19_frame_owns_buffers (capturing_world.frame_decremented 0) 0 hb).2.1 rfl
  exact ⟨hb, rfl, w1, hr, hp, (hatt 0 (Or.inr rfl)).1, (hatt 1 (Or.inl rfl)).1⟩

/-! ## Acquiring from a pool -/

theorem mem_pool_acquire_buffer_reuse (p : pool_id) (crumb : String) (w : World) (b : Nat)
    (rest : List Nat) (ha : (w.pool p).available = b :: rest) (h0 : w.buffer_ref b = 0) :
    mem_pool_acquire_buffer p crumb w =
      .ok b ((w.set_pool p { w.pool p with available := rest }).modify_buffer b fun x =>
        { x with base := { x.base with ref := 1 }, trail := x.trail ++ [crumb] }) := by
  simp only [World.buffer_ref] at h0
  cases p <;>
  simp_all [mem_pool_acquire_buffer, mem_pool_acquire_resource, World.pool, World.set_pool,
    World.modify_buffer, World.set_buffer, gm_buffer_add_breadcrumb,
    device_buffer_add_breadcrumb]

theorem mem_pool_acquire_buffer_used (p : pool_id) (crumb : String) (w : World) (b : Nat)
    (rest : List Nat) (ha : (w.pool p).available = b :: rest) (h0 : w.buffer_ref b ≠ 0) :
    mem_pool_acquire_buffer p crumb w =
      .abort (mem_pool_get_name p ++ " buffer was used after last free")
        (w.set_pool p { w.pool p with available := rest }) := by
  simp only [World.buffer_ref] at h0
  cases p <;>
  simp_all [mem_pool_acquire_buffer, mem_pool_acquire_resource, World.pool, World.set_pool,
    World.modify_buffer, World.set_buffer, gm_buffer_add_breadcrumb,
    device_buffer_add_breadcrumb]

theorem mem_pool_acquire_buffer_fresh (p : pool_id) (crumb : String) (w : World)
    (hp : p ≠ .frame_pool)
    (ha : (w.pool p).available = []) (hn : (w.pool p).n_allocated < (w.pool p).max_size) :
    ∃ w1, mem_pool_acquire_buffer p crumb w = .ok w.next_buffer w1 ∧
      w1.buffer_ref w.next_buffer = 1 ∧ (w1.buffers w.next_buffer).pool = p ∧
      (w1.buffers w.next_buffer).trail = [crumb] ∧
      (∀ x, x ≠ w.next_buffer → w1.buffers x = w.buffers x) ∧
      w1.frames = w.frames ∧ w1.events = w.events ∧
      (w1.pool p).available = [] ∧
      w1.dev.without_pools = w.dev.without_pools := by
  cases p
  · simp_all [mem_pool_acquire_buffer, mem_pool_acquire_resource, World.pool, World.set_pool,
      World.modify_buffer, World.set_buffer, gm_buffer_add_breadcrumb,
      device_buffer_add_breadcrumb, pool_alloc_mem, device_video_buf_alloc,
      World.buffer_ref, gm_device.without_pools]
  · simp_all [mem_pool_acquire_buffer, mem_pool_acquire_resource, World.pool, World.set_pool,
      World.modify_buffer, World.set_buffer, gm_buffer_add_breadcrumb,
      device_buffer_add_breadcrumb, pool_alloc_mem, device_depth_buf_alloc,
      World.buffer_ref, gm_device.without_pools]
  · exact absurd rfl hp

/-- Counterexample to C6: on a freshly opened device, acquiring a depth
buffer, releasing it with one `gm_buffer_unref` and then calling
`gm_buffer_ref` on the freed buffer fails no assertion: the call returns the
buffer with its count raised to 1 while the buffer sits in the pool's free
list. -/
theorem C6_counterexample :
    (ref_after_free .depth_buf_pool opened_world).failure? = none ∧
    (ref_after_free .depth_buf_pool opened_world).value? = some 0 ∧
    (ref_after_free .depth_buf_pool opened_world).world.buffer_ref 0 = 1 ∧
    (ref_after_free .depth_buf_pool opened_world).world.dev.depth_buf_pool.available = [0] := by
  refine ⟨?_, ?_, ?_, ?_⟩ <;> rfl

/-- C6 as amended: when a buffer pool can hand out a buffer (its free list is
empty and it is below capacity, or the head of its free list is a buffer of
this pool with count 0), acquiring a buffer, releasing it with one
`gm_buffer_unref` and then calling `gm_buffer_ref` on the freed buffer
returns normally: the `ref >= 0` assertion passes on the count 0, the count
becomes 1 and the buffer stays at the head of the pool's free list.  The
misuse is caught when the pool hands the buffer out again:
`mem_pool_acquire_buffer` then fails its "used after last free" assertion. -/
theorem C6_ref_after_free_detected_on_acquire (p : pool_id) (w : World) (crumb : String)
    (hp : p ≠ .frame_pool)
    (hfree : ∀ b rest, (w.pool p).available = b :: rest →
      w.buffer_ref b = 0 ∧ (w.buffers b).pool = p)
    (hcap : (w.pool p).available = [] → (w.pool p).n_allocated < (w.pool p).max_size) :
    ∃ b w1, ref_after_free p w = .ok b w1 ∧ w1.buffer_ref b = 1 ∧
      (w1.pool p).available.head? = some b ∧
      (mem_pool_acquire_buffer p crumb w1).failure? =
        some (mem_pool_get_name p ++ " buffer was used after last free") := by
  have key : ∀ (b : Nat) (w1 : World) (rest : List Nat),
      mem_pool_acquire_buffer p "test" w = .ok b w1 → w1.buffer_ref b = 1 →
      (w1.buffers b).pool = p → (w1.pool p).available = rest →
      ∃ w3, ref_after_free p w = .ok b w3 ∧ w3.buffer_ref b = 1 ∧
        (w3.pool p).available.head? = some b ∧
        (mem_pool_acquire_buffer p crumb w3).failure? =
          some (mem_pool_get_name p ++ " buffer was used after last free") := by
    intro b w1 rest h1 r1 p1 a1
    obtain ⟨w2, h2, q⟩ := gm_buffer_unref_spec b w1 (by omega)
    have hr2 : w2.buffer_ref b = 0 := by rw [q.ref, r1]; rfl
    have hav : (w2.pool p).available = b :: rest := by
      have := (q.freed r1).1
      rw [p1] at this
      rw [this, a1]
    have hav3 : ((w2.buffer_incremented b).pool p).available = b :: rest := by
      cases p <;> simpa [World.pool, World.buffer_incremented, World.modify_buffer,
        World.set_buffer] using hav
    have hr3 : (w2.buffer_incremented b).buffer_ref b = 1 := by
      simp only [World.buffer_ref, World.buffer_incremented, World.modify_buffer,
        World.set_buffer, Function.update_same] at hr2 ⊢
      omega
    refine ⟨w2.buffer_incremented b, ?_, hr3, ?_, ?_⟩
    · simp only [ref_after_free, Prog.bind_apply, h1, Res.and_then_ok, h2]
      exact gm_buffer_ref_ok _ _ (by omega)
    · rw [hav3]; rfl
    · rw [mem_pool_acquire_buffer_used p crumb _ b rest hav3 (by omega)]
      rfl
  cases ha : (w.pool p).available with
  | nil =>
    obtain ⟨w1, h1, r1, p1, t1, o1, f1, e1, a1, d1⟩ :=
      mem_pool_acquire_buffer_fresh p "test" w hp ha (hcap ha)
    exact ⟨_, key _ w1 [] h1 r1 p1 a1⟩
  | cons b rest =>
    obtain ⟨h0, hpb⟩ := hfree b rest ha
    refine ⟨b, key b _ rest (mem_pool_acquire_buffer_reuse p "test" w b rest ha h0) ?_ ?_ ?_⟩
    · simp [World.buffer_ref, World.modify_buffer, World.set_buffer]
    · cases p <;> simpa [World.modify_buffer, World.set_buffer, World.set_pool] using hpb
    · cases p <;> simp [World.pool, World.modify_buffer, World.set_buffer, World.set_pool]

/-- Witness of the amended C6 on a freshly opened device. -/
theorem C6_ref_after_free_detected_on_acquire_witness :
    ∃ b w1, ref_after_free .depth_buf_pool opened_world = .ok b w1 ∧ w1.buffer_ref b = 1 ∧
      (w1.pool .depth_buf_pool).available.head? = some b ∧
      (mem_pool_acquire_buffer .depth_buf_pool "next" w1).failure? =
        some "depth buffer was used after last free" :=
  C6_ref_after_free_detected_on_acquire .depth_buf_pool opened_world "next" (by decide)
    (fun b rest h => by cases h) (fun _ => by decide)

theorem run_buffer_calls_live (b : Nat) :
    ∀ (calls : List ref_call) (w : World) (c : Int), w.buffer_ref b = c →
      (∀ k, k ≤ calls.length → 1 ≤ count_after c (calls.take k)) →
      ∃ w1, run_buffer_calls b calls w = .ok () w1 ∧ w1.dev = w.dev ∧ w1.frames = w.frames ∧
        w1.buffer_ref b = count_after c calls ∧ (w1.buffers b).pool = (w.buffers b).pool ∧
        ∀ x, x ≠ b → w1.buffers x = w.buffers x := by
  intro calls
  induction calls with
  | nil =>
    intro w c hc _
    exact ⟨w, rfl, rfl, rfl, hc, rfl, fun _ _ => rfl⟩
  | cons call rest ih =>
    intro w c hc hpre
    have h0 : 1 ≤ c := by simpa [count_after] using hpre 0 (Nat.zero_le _)
    cases call with
    | ref =>
      have hstep : (w.buffer_incremented b).buffer_ref b = c + 1 := by
        simp [World.buffer_ref, World.buffer_incremented, World.modify_buffer,
          World.set_buffer] at hc ⊢
        omega
      obtain ⟨w1, hr, hd, hf, hcnt, hp, ho⟩ := ih (w.buffer_incremented b) (c + 1) hstep
        (fun k hk => by simpa [count_after] using hpre (k + 1) (by simpa using hk))
      refine ⟨w1, ?_, hd, hf, hcnt, ?_, ?_⟩
      · simp only [run_buffer_calls, Prog.bind_apply,
          gm_buffer_ref_ok b w (by omega), Res.and_then_ok, hr]
      · rw [hp]
        simp [World.buffer_incremented, World.modify_buffer, World.set_buffer]
      · intro x hx
        rw [ho x hx]
        simp [World.buffer_incremented, World.modify_buffer, World.set_buffer,
          Function.update_noteq hx]
    | unref =>
      have h2 : 1 ≤ c - 1 := by simpa [count_after] using hpre 1 (by simp)
      have hstep : (w.buffer_decremented b).buffer_ref b = c - 1 := by
        simp [World.buffer_ref, World.buffer_decremented, World.modify_buffer,
          World.set_buffer] at hc ⊢
        omega
      obtain ⟨w1, hr, hd, hf, hcnt, hp, ho⟩ := ih (w.buffer_decremented b) (c - 1) hstep
        (fun k hk => by simpa [count_after] using hpre (k + 1) (by simpa using hk))
      refine ⟨w1, ?_, hd, hf, hcnt, ?_, ?_⟩
      · have : ¬ (w.buffer_ref b - 1 < 1) := by omega
        simp only [run_buffer_calls, Prog.bind_apply,
          gm_buffer_unref_eq b w (by omega), this, if_false, Res.and_then_ok, hr]
      · rw [hp]
        simp [World.buffer_decremented, World.modify_buffer, World.set_buffer]
      · intro x hx
        rw [ho x hx]
        simp [World.buffer_decremented, World.modify_buffer, World.set_buffer,
          Function.update_noteq hx]

theorem run_buffer_calls_append (b : Nat) (xs ys : List ref_call) (w : World) :
    run_buffer_calls b (xs ++ ys) w =
      (run_buffer_calls b xs w).and_then fun _ w1 => run_buffer_calls b ys w1 := by
  induction xs generalizing w with
  | nil => rfl
  | cons call rest ih =>
    cases call with
    | ref =>
      simp only [List.cons_append, run_buffer_calls, Prog.bind_apply]
      cases gm_buffer_ref b w with
      | ok a w1 => exact ih w1
      | abort m w1 => rfl
    | unref =>
      simp only [List.cons_append, run_buffer_calls, Prog.bind_apply]
      cases gm_buffer_unref b w with
      | ok a w1 => exact ih w1
      | abort m w1 => rfl

theorem run_frame_calls_live (f : Nat) :
    ∀ (calls : List ref_call) (w : World) (c : Int), w.frame_ref f = c →
      (∀ k, k ≤ calls.length → 1 ≤ count_after c (calls.take k)) →
      ∃ w1, run_frame_calls f calls w = .ok () w1 ∧ w1.dev = w.dev ∧ w1.buffers = w.buffers ∧
        w1.frame_ref f = count_after c calls ∧ (w1.frames f).base.video = (w.frames f).base.video ∧
        (w1.frames f).base.depth = (w.frames f).base.depth := by
  intro calls
  induction calls with
  | nil =>
    intro w c hc _
    exact ⟨w, rfl, rfl, rfl, hc, rfl, rfl⟩
  | cons call rest ih =>
    intro w c hc hpre
    have h0 : 1 ≤ c := by simpa [count_after] using hpre 0 (Nat.zero_le _)
    cases call with
    | ref =>
      have hstep : (w.frame_incremented f).frame_ref f = c + 1 := by
        simp [World.frame_ref, World.frame_incremented, World.modify_frame,
          World.set_frame] at hc ⊢
        omega
      obtain ⟨w1, hr, hd, hf, hcnt, hp, ho⟩ := ih (w.frame_incremented f) (c + 1) hstep
        (fun k hk => by simpa [count_after] using hpre (k + 1) (by simpa using hk))
      refine ⟨w1, ?_, hd, hf, hcnt, ?_, ?_⟩
      · simp only [run_frame_calls, Prog.bind_apply,
          gm_frame_ref_ok f w (by omega), Res.and_then_ok, hr]
      · rw [hp]
        simp [World.frame_incremented, World.modify_frame, World.set_frame]
      · rw [ho]
        simp [World.frame_incremented, World.modify_frame, World.set_frame]
    | unref =>
      have h2 : 1 ≤ c - 1 := by simpa [count_after] using hpre 1 (by simp)
      have hstep : (w.frame_decremented f).frame_ref f = c - 1 := by
        simp [World.frame_ref, World.frame_decremented, World.modify_frame,
          World.set_frame] at hc ⊢
        omega
      obtain ⟨w1, hr, hd, hf, hcnt, hp, ho⟩ := ih (w.frame_decremented f) (c - 1) hstep
        (fun k hk => by simpa [count_after] using hpre (k + 1) (by simpa using hk))
      refine ⟨w1, ?_, hd, hf, hcnt, ?_, ?_⟩
      · have : ¬ (w.frame_ref f - 1 < 1) := by omega
        simp only [run_frame_calls, Prog.bind_apply,
          gm_frame_unref_eq f w (by omega), this, if_false, Res.and_then_ok, hr]
      · rw [hp]
        simp [World.frame_decremented, World.modify_frame, World.set_frame]
      · rw [ho]
        simp [World.frame_decremented, World.modify_frame, World.set_frame]

theorem run_frame_calls_append (f : Nat) (xs ys : List ref_call) (w : World) :
    run_frame_calls f (xs ++ ys) w =
      (run_frame_calls f xs w).and_then fun _ w1 => run_frame_calls f ys w1 := by
  induction xs generalizing w with
  | nil => rfl
  | cons call rest ih =>
    cases call with
    | ref =>
      simp only [List.cons_append, run_frame_calls, Prog.bind_apply]
      cases gm_frame_ref f w with
      | ok a w1 => exact ih w1
      | abort m w1 => rfl
    | unref =>
      simp only [List.cons_append, run_frame_calls, Prog.bind_apply]
      cases gm_frame_unref f w with
      | ok a w1 => exact ih w1
      | abort m w1 => rfl


/-- Counterexample to C4: on buffer 2 of the capturing world (count 1), the
sequence `ref` returns with the buffer never handed back to its pool, and the
sequence `unref, ref, unref` returns with the buffer handed back twice: the
free hook runs at the first call and again at the third, and no assertion
fails. -/
theorem C4_counterexample :
    (run_buffer_calls 2 [.ref] capturing_world).failure? = none ∧
    (run_buffer_calls 2 [.ref] capturing_world).world.dev.depth_buf_pool.available = [] ∧
    (run_buffer_calls 2 [.unref, .ref, .unref] capturing_world).failure? = none ∧
    (run_buffer_calls 2 [.unref, .ref, .unref]
      capturing_world).world.dev.depth_buf_pool.available = [2, 2] := by
  refine ⟨?_, ?_, ?_, ?_⟩ <;> rfl

/-- C4 as amended: take a buffer `b` with count 1 and a frame `f` with count 1
whose attached buffers are live, and a sequence `pre` of `ref` / `unref` calls
that keeps the count at 1 or more throughout and ends at 1.  Running `pre`
returns with the device, hence every pool, unchanged: no free hook ran.  The
next `unref`, which takes the count below 1, returns with the object pushed
once onto its pool, its count 0 and its trail empty.  (A sequence that never
takes the count below 1 frees nothing, and calls made after the release are
not covered.) -/
theorem C4_freed_at_first_drop (w : World) (b f : Nat) (pre : List ref_call)
    (hb : w.buffer_ref b = 1) (hf : w.frame_ref f = 1) (hrel : w.buffers_releasable f)
    (hpre : ∀ k, k ≤ pre.length → 1 ≤ count_after 1 (pre.take k))
    (hend : count_after 1 pre = 1) :
    (∃ w1 w2, run_buffer_calls b pre w = .ok () w1 ∧ w1.dev = w.dev ∧
      run_buffer_calls b (pre ++ [.unref]) w = .ok () w2 ∧
      (w2.pool (w.buffers b).pool).available = b :: (w.pool (w.buffers b).pool).available ∧
      w2.buffer_ref b = 0 ∧ (w2.buffers b).trail = []) ∧
    (∃ w1 w2, run_frame_calls f pre w = .ok () w1 ∧ w1.dev = w.dev ∧
      run_frame_calls f (pre ++ [.unref]) w = .ok () w2 ∧
      w2.dev.frame_pool.available = f :: w.dev.frame_pool.available ∧
      w2.frame_ref f = 0 ∧ (w2.frames f).trail = []) := by
  constructor
  · obtain ⟨w1, hr, hd, _, hcnt, hp, _⟩ := run_buffer_calls_live b pre w 1 hb hpre
    rw [hend] at hcnt
    obtain ⟨w2, h2, q⟩ := gm_buffer_unref_spec b w1 (by omega)
    refine ⟨w1, w2, hr, hd, ?_, ?_, ?_, (q.freed hcnt).2⟩
    · rw [run_buffer_calls_append, hr]
      simp only [Res.and_then_ok, run_buffer_calls, Prog.bind_apply, h2, Prog.pure_apply]
    · have := (q.freed hcnt).1
      rw [hp] at this
      rw [this]
      have : w1.pool (w.buffers b).pool = w.pool (w.buffers b).pool := by
        cases (w.buffers b).pool <;> simp [World.pool, hd]
      rw [this]
    · rw [q.ref, hcnt]; rfl
  · obtain ⟨w1, hr, hd, hbuf, hcnt, hv, hdp⟩ := run_frame_calls_live f pre w 1 hf hpre
    rw [hend] at hcnt
    have hrel1 : (w1.frame_decremented f).buffers_releasable f := by
      apply buffers_releasable_decremented
      simpa [World.buffers_releasable, World.buffer_ref, hbuf, hv, hdp] using hrel
    have h0 : (w1.frame_decremented f).frame_ref f = 0 := by
      simp [World.frame_ref, World.frame_decremented, World.modify_frame,
        World.set_frame] at hcnt ⊢
      omega
    obtain ⟨w2, h2, q⟩ := device_frame_recycle_spec f _ h0 hrel1
    refine ⟨w1, w2, hr, hd, ?_, ?_, ?_, ?_⟩
    · rw [run_frame_calls_append, hr]
      simp only [Res.and_then_ok, run_frame_calls, Prog.bind_apply,
        gm_frame_unref_eq f w1 (by omega), hcnt]
      simp [h2]
    · rw [q.frame_pool]
      simp [World.frame_decremented, World.modify_frame, World.set_frame, hd]
    · simp only [World.frame_ref, q.frame]
      simpa [World.frame_ref] using h0
    · rw [q.frame]

/-- Witness of the amended C4: `ref, unref` then the releasing `unref`, on
buffer 2 and on frame 0 of the capturing world. -/
theorem C4_freed_at_first_drop_witness :
    ∃ w2, run_buffer_calls 2 ([.ref, .unref] ++ [.unref]) capturing_world = .ok () w2 ∧
      (w2.pool (capturing_world.buffers 2).pool).available =
        2 :: (capturing_world.pool (capturing_world.buffers 2).pool).available ∧
      w2.buffer_ref 2 = 0 ∧ (w2.buffers 2).trail = [] := by
  have hrel : capturing_world.buffers_releasable 0 := by
    refine ⟨?_, ?_, ?_⟩
    · intro v hv
      cases hv
      decide
    · intro d hd
      cases hd
      decide
    · intro v d hv hd
      cases hv
      cases hd
      decide
  obtain ⟨⟨_, w2, _, _, h⟩, _⟩ := C4_freed_at_first_drop capturing_world 2 0 [.ref, .unref]
    rfl rfl hrel (by decide) rfl
  exact ⟨w2, h⟩

/-! ## Request masks and notification -/

theorem testBit_not64 (x i : Nat) : (not64 x).testBit i = (decide (i < 64) != x.testBit i) := by
  unfold not64
  rw [Nat.testBit_xor, Nat.testBit_two_pow_sub_one]

theorem and_not64_and_self (r x : Nat) (hx : x < 2 ^ 64) : (r &&& not64 x) &&& x = 0 := by
  apply Nat.eq_of_testBit_eq
  intro i
  simp only [Nat.testBit_and, testBit_not64, Nat.zero_testBit]
  by_cases hi : i < 64
  · simp [hi]
  · have : x.testBit i = false := by
      apply Nat.testBit_eq_false_of_lt
      exact lt_of_lt_of_le hx (Nat.pow_le_pow_right (by norm_num) (by omega))
    simp [this]

theorem and_not64_of_and_eq_zero (r x : Nat) (hr : r < 2 ^ 64) (h : r &&& x = 0) :
    r &&& not64 x = r := by
  apply Nat.eq_of_testBit_eq
  intro i
  have hi := congrArg (fun n => n.testBit i) h
  simp only [Nat.testBit_and, Nat.zero_testBit] at hi
  simp only [Nat.testBit_and, testBit_not64]
  by_cases h64 : i < 64
  · cases hri : r.testBit i <;> cases hxi : x.testBit i <;> simp_all
  · have : r.testBit i = false := by
      apply Nat.testBit_eq_false_of_lt
      exact lt_of_lt_of_le hr (Nat.pow_le_pow_right (by norm_num) (by omega))
    simp [this]

theorem maybe_notify_frame_locked_eq (w : World) :
    maybe_notify_frame_locked w =
      if w.dev.frame_request_buffers_mask &&& w.dev.frame_ready_buffers_mask ≠ 0 then
        notify_frame_locked w
      else .ok () w := by
  by_cases h : w.dev.frame_request_buffers_mask &&& w.dev.frame_ready_buffers_mask = 0 <;>
  simp [maybe_notify_frame_locked, h]

/-- C7: `maybe_notify_frame_locked` always returns.  When `request & ready` is
nonzero on entry it appends exactly one `FRAME_READY` event whose
`buffers_mask` is the ready mask, the request mask becomes `request & ~ready`
and nothing else changes, the ready mask included; when `request & ready` is
zero the world is unchanged (no event).  With a ready mask that fits 64 bits,
`request & ready` is zero on exit in either case, so that a second call
changes nothing and raises no event. -/
theorem C7_maybe_notify (w : World) (hready : w.dev.frame_ready_buffers_mask < 2 ^ 64) :
    ∃ w1, maybe_notify_frame_locked w = .ok () w1 ∧
      (w.dev.frame_request_buffers_mask &&& w.dev.frame_ready_buffers_mask ≠ 0 →
        w1 = { w with
          dev := { w.dev with
            frame_request_buffers_mask :=
              w.dev.frame_request_buffers_mask &&& not64 w.dev.frame_ready_buffers_mask }
          events := w.events ++
            [⟨.GM_DEV_EVENT_FRAME_READY, w.dev.frame_ready_buffers_mask⟩] }) ∧
      (w.dev.frame_request_buffers_mask &&& w.dev.frame_ready_buffers_mask = 0 → w1 = w) ∧
      w1.dev.frame_ready_buffers_mask = w.dev.frame_ready_buffers_mask ∧
      w1.dev.frame_request_buffers_mask &&& w1.dev.frame_ready_buffers_mask = 0 ∧
      maybe_notify_frame_locked w1 = .ok () w1 := by
  by_cases h : w.dev.frame_request_buffers_mask &&& w.dev.frame_ready_buffers_mask = 0
  · refine ⟨w, ?_, ?_, fun _ => rfl, rfl, h, ?_⟩
    · simp [maybe_notify_frame_locked_eq, h]
    · intro h1; exact absurd h h1
    · simp [maybe_notify_frame_locked_eq, h]
  · refine ⟨_, ?_, fun _ => rfl, fun h1 => absurd h1 h, rfl, ?_, ?_⟩
    · simp [maybe_notify_frame_locked_eq, h, notify_frame_locked]
    · exact and_not64_and_self _ _ hready
    · rw [maybe_notify_frame_locked_eq]
      simp [and_not64_and_self _ _ hready]

/-- Witness of C7: depth and video requested, depth ready. -/
theorem C7_maybe_notify_witness :
    ∃ w1, maybe_notify_frame_locked
        { opened_world with
          dev := { opened_device with
            frame_request_buffers_mask := 3, frame_ready_buffers_mask := 1 } } = .ok () w1 ∧
      w1.dev.frame_request_buffers_mask = 2 ∧
      w1.events = [⟨.GM_DEV_EVENT_FRAME_READY, 1⟩] := by
  obtain ⟨w1, h, h1, _⟩ := C7_maybe_notify
    { opened_world with
      dev := { opened_device with
        frame_request_buffers_mask := 3, frame_ready_buffers_mask := 1 } } (by decide)
  have := h1 (by decide)
  subst this
  exact ⟨_, h, by decide, by decide⟩

/-- C8: the viewer's `request_device_frame` leaves the pending mask at
`old | M`, which keeps every bit of `old`; it calls `gm_device_request_frame`
once, with the merged mask, when `old | M` differs from `old` and not at all
otherwise.  A second call with the same `M` right after makes no device
request, so that two calls in a row make at most one. -/
theorem C8_viewer_request_merge (data : Data) (M : Nat) :
    (request_device_frame data M).1.pending_frame_buffers_mask =
      data.pending_frame_buffers_mask ||| M ∧
    data.pending_frame_buffers_mask &&&
      (request_device_frame data M).1.pending_frame_buffers_mask =
      data.pending_frame_buffers_mask ∧
    (request_device_frame data M).2 =
      (if data.pending_frame_buffers_mask ||| M ≠ data.pending_frame_buffers_mask then
        [data.pending_frame_buffers_mask ||| M]
       else []) ∧
    (request_device_frame (request_device_frame data M).1 M).2 = [] ∧
    ((request_device_frame data M).2 ++
      (request_device_frame (request_device_frame data M).1 M).2).length ≤ 1 := by
  have hidem : ∀ a : Nat, (a ||| M) ||| M = a ||| M := by
    intro a
    rw [Nat.or_assoc, Nat.or_self]
  have habs : ∀ a : Nat, a &&& (a ||| M) = a := by
    intro a
    apply Nat.eq_of_testBit_eq
    intro i
    simp only [Nat.testBit_and, Nat.testBit_or]
    cases a.testBit i <;> simp
  have h1 : (request_device_frame data M).1.pending_frame_buffers_mask =
      data.pending_frame_buffers_mask ||| M := by
    unfold request_device_frame
    by_cases h : data.pending_frame_buffers_mask = data.pending_frame_buffers_mask ||| M
    · simp [h.symm]
    · simp [h]
  have h2 : (request_device_frame (request_device_frame data M).1 M).2 = [] := by
    generalize hd : (request_device_frame data M).1 = d at h1
    unfold request_device_frame
    simp [h1, hidem]
  refine ⟨h1, ?_, ?_, h2, ?_⟩
  · rw [h1]; exact habs _
  · unfold request_device_frame
    by_cases h : data.pending_frame_buffers_mask = data.pending_frame_buffers_mask ||| M
    · simp [h.symm]
    · simp [h, Ne.symm h]
  · rw [h2]
    unfold request_device_frame
    by_cases h : data.pending_frame_buffers_mask = data.pending_frame_buffers_mask ||| M
    · simp [h.symm]
    · simp [h]

theorem testBit_lt_64 {x i : Nat} (hx : x < 2 ^ 64) (h : x.testBit i = true) : i < 64 := by
  by_contra hi
  have : x.testBit i = false := by
    apply Nat.testBit_eq_false_of_lt
    exact lt_of_lt_of_le hx (Nat.pow_le_pow_right (by norm_num) (by omega))
  simp [this] at h

/-- C9: `gm_device_request_frame` with the empty mask returns with the world
unchanged (no event).  With a nonzero mask `M` (masks fitting 64 bits) it
returns with the request mask equal to `(old | M) & ~ready`, the ready mask
unchanged and exactly one `FRAME_READY` event added when `(old | M) & ready`
is nonzero, none otherwise; every bit of `old | M` that is not ready is still
requested afterwards. -/
theorem C9_request_never_downgrades (w : World) (M : Nat)
    (hM : M < 2 ^ 64) (hold : w.dev.frame_request_buffers_mask < 2 ^ 64) :
    (M = 0 → gm_device_request_frame M w = .ok () w) ∧
    (M ≠ 0 → ∃ w1, gm_device_request_frame M w = .ok () w1 ∧
      w1.dev.frame_request_buffers_mask =
        (w.dev.frame_request_buffers_mask ||| M) &&& not64 w.dev.frame_ready_buffers_mask ∧
      w1.dev.frame_ready_buffers_mask = w.dev.frame_ready_buffers_mask ∧
      w1.events =
        (if (w.dev.frame_request_buffers_mask ||| M) &&& w.dev.frame_ready_buffers_mask ≠ 0
         then w.events ++ [⟨.GM_DEV_EVENT_FRAME_READY, w.dev.frame_ready_buffers_mask⟩]
         else w.events) ∧
      ∀ i, (w.dev.frame_request_buffers_mask ||| M).testBit i = true →
        w.dev.frame_ready_buffers_mask.testBit i = false →
        w1.dev.frame_request_buffers_mask.testBit i = true) := by
  constructor
  · intro h
    simp [gm_device_request_frame, h]
  · intro h
    have hor : w.dev.frame_request_buffers_mask ||| M < 2 ^ 64 := Nat.or_lt_two_pow hold hM
    have hbits : ∀ i, (w.dev.frame_request_buffers_mask ||| M).testBit i = true →
        w.dev.frame_ready_buffers_mask.testBit i = false →
        ((w.dev.frame_request_buffers_mask ||| M) &&&
          not64 w.dev.frame_ready_buffers_mask).testBit i = true := by
      intro i h1 h2
      have := testBit_lt_64 hor h1
      simp [Nat.testBit_and, testBit_not64, h1, h2, this]
    by_cases hz : (w.dev.frame_request_buffers_mask ||| M) &&&
        w.dev.frame_ready_buffers_mask = 0
    · have e : gm_device_request_frame M w = .ok ()
          { w with dev := { w.dev with
              frame_request_buffers_mask := w.dev.frame_request_buffers_mask ||| M
              request_buffers_mask_lock := false } } := by
        simp [gm_device_request_frame, h, lock_request_buffers_mask,
          unlock_request_buffers_mask, World.modify_dev, maybe_notify_frame_locked_eq, hz]
      refine ⟨_, e, ?_, rfl, ?_, ?_⟩
      · simp [and_not64_of_and_eq_zero _ _ hor hz]
      · simp [hz]
      · intro i h1 h2
        have := hbits i h1 h2
        rw [and_not64_of_and_eq_zero _ _ hor hz] at this
        simpa using this
    · have e : gm_device_request_frame M w = .ok ()
          { w with
            dev := { w.dev with
              frame_request_buffers_mask :=
                (w.dev.frame_request_buffers_mask ||| M) &&&
                  not64 w.dev.frame_ready_buffers_mask
              request_buffers_mask_lock := false }
            events := w.events ++
              [⟨.GM_DEV_EVENT_FRAME_READY, w.dev.frame_ready_buffers_mask⟩] } := by
        simp [gm_device_request_frame, h, lock_request_buffers_mask,
          unlock_request_buffers_mask, World.modify_dev, maybe_notify_frame_locked_eq, hz,
          notify_frame_locked]
      refine ⟨_, e, rfl, rfl, ?_, ?_⟩
      · simp [hz]
      · intro i h1 h2
        simpa using hbits i h1 h2

/-- Witness of C9: video is requested on top of a pending depth request while
depth is ready. -/
theorem C9_request_never_downgrades_witness :
    ∃ w1, gm_device_request_frame 2
        { opened_world with
          dev := { opened_device with
            frame_request_buffers_mask := 1, frame_ready_buffers_mask := 1 } } = .ok () w1 ∧
      w1.dev.frame_request_buffers_mask = (1 ||| 2) &&& not64 1 := by
  obtain ⟨w1, h, h1, _⟩ := (C9_request_never_downgrades
    { opened_world with
      dev := { opened_device with
        frame_request_buffers_mask := 1, frame_ready_buffers_mask := 1 } } 2
    (by decide) (by decide)).2 (by decide)
  exact ⟨w1, h, h1⟩

/-! ## Claiming the latest frame -/

theorem Res.eq_ok_of_value {α : Type} {r : Res α} {a : α} (h : r.value? = some a) :
    r = .ok a r.world := by
  cases r with
  | ok b w => simp [Res.value?] at h; subst h; rfl
  | abort m w => simp [Res.value?] at h

theorem get_latest_fill_spec (f : Nat) (w : World) (href : w.frame_ref f = 1)
    (hready : w.ready_consistent) :
    (gm_device_get_latest_frame_fill f w).value? = some f ∧
    (gm_device_get_latest_frame_fill f w).world.frame_ref f = 2 ∧
    (gm_device_get_latest_frame_fill f w).world.dev.last_frame = some f ∧
    (gm_device_get_latest_frame_fill f w).world.dev.frame_ready_buffers_mask = 0 ∧
    (gm_device_get_latest_frame_fill f w).world.dev.depth_buf_ready =
      (if w.dev.frame_ready_buffers_mask &&& GM_REQUEST_FRAME_DEPTH ≠ 0 then none
       else w.dev.depth_buf_ready) ∧
    (gm_device_get_latest_frame_fill f w).world.dev.video_buf_ready =
      (if w.dev.frame_ready_buffers_mask &&& GM_REQUEST_FRAME_VIDEO ≠ 0 then none
       else w.dev.video_buf_ready) ∧
    ((gm_device_get_latest_frame_fill f w).world.frames f).base.depth =
      (if w.dev.frame_ready_buffers_mask &&& GM_REQUEST_FRAME_DEPTH ≠ 0 then
        w.dev.depth_buf_ready
       else (w.frames f).base.depth) ∧
    ((gm_device_get_latest_frame_fill f w).world.frames f).base.video =
      (if w.dev.frame_ready_buffers_mask &&& GM_REQUEST_FRAME_VIDEO ≠ 0 then
        w.dev.video_buf_ready
       else (w.frames f).base.video) ∧
    (gm_device_get_latest_frame_fill f w).world.buffers = w.buffers ∧
    (gm_device_get_latest_frame_fill f w).world.events = w.events ∧
    ((gm_device_get_latest_frame_fill f w).world.frames f).base.timestamp = w.dev.frame_time ∧
    (∀ x, x ≠ f → (gm_device_get_latest_frame_fill f w).world.frames x = w.frames x) := by
  simp only [World.frame_ref] at href
  obtain ⟨hd, hv⟩ := hready
  by_cases hdb : w.dev.frame_ready_buffers_mask &&& GM_REQUEST_FRAME_DEPTH = 0 <;>
  by_cases hvb : w.dev.frame_ready_buffers_mask &&& GM_REQUEST_FRAME_VIDEO = 0 <;>
  simp [hdb, hvb] at hd hv <;>
  simp [gm_device_get_latest_frame_fill, World.modify_dev, World.modify_frame, World.set_frame,
    gm_frame_ref, gm_frame_add_breadcrumb, device_frame_add_breadcrumb, unlock_swap_buffers,
    Res.value?, Res.world, World.frame_ref, href, hdb, hvb, hd, hv] <;>
  (intro x hx; simp [Function.update_noteq hx])

/-- The device the second part of `gm_device_get_latest_frame` leaves. -/
theorem get_latest_fill_dev (f : Nat) (w : World) (href : w.frame_ref f = 1)
    (hready : w.ready_consistent) :
    (gm_device_get_latest_frame_fill f w).world.dev = w.dev.latest_frame_claimed f := by
  simp only [World.frame_ref] at href
  obtain ⟨hd, hv⟩ := hready
  by_cases hdb : w.dev.frame_ready_buffers_mask &&& GM_REQUEST_FRAME_DEPTH = 0 <;>
  by_cases hvb : w.dev.frame_ready_buffers_mask &&& GM_REQUEST_FRAME_VIDEO = 0 <;>
  simp [hdb, hvb] at hd hv <;>
  simp [gm_device_get_latest_frame_fill, World.modify_dev, World.modify_frame, World.set_frame,
    gm_frame_ref, gm_frame_add_breadcrumb, device_frame_add_breadcrumb, unlock_swap_buffers,
    Res.value?, Res.world, World.frame_ref, href, hdb, hvb, hd, hv,
    gm_device.latest_frame_claimed]

theorem mem_pool_acquire_frame_spec (crumb : String) (w : World) (hp : w.frame_pool_ready) :
    (mem_pool_acquire_frame .frame_pool crumb w).value? = some w.acquired_frame ∧
    (mem_pool_acquire_frame .frame_pool crumb w).world.frame_ref w.acquired_frame = 1 ∧
    ((mem_pool_acquire_frame .frame_pool crumb w).world.frames w.acquired_frame).base.depth =
      none ∧
    ((mem_pool_acquire_frame .frame_pool crumb w).world.frames w.acquired_frame).base.video =
      none ∧
    (mem_pool_acquire_frame .frame_pool crumb w).world.buffers = w.buffers ∧
    (mem_pool_acquire_frame .frame_pool crumb w).world.events = w.events ∧
    (mem_pool_acquire_frame .frame_pool crumb w).world.next_buffer = w.next_buffer ∧
    (mem_pool_acquire_frame .frame_pool crumb w).world.dev.without_pools =
      w.dev.without_pools ∧
    (mem_pool_acquire_frame .frame_pool crumb w).world.dev.video_buf_pool =
      w.dev.video_buf_pool ∧
    (mem_pool_acquire_frame .frame_pool crumb w).world.dev.depth_buf_pool =
      w.dev.depth_buf_pool ∧
    (∀ x, x ≠ w.acquired_frame →
      (mem_pool_acquire_frame .frame_pool crumb w).world.frames x = w.frames x) := by
  unfold World.frame_pool_ready at hp
  unfold World.acquired_frame
  cases ha : w.dev.frame_pool.available with
  | nil =>
    simp only [ha] at hp
    simp [mem_pool_acquire_frame, mem_pool_acquire_resource, World.pool, World.set_pool,
      World.modify_frame, World.set_frame, gm_frame_add_breadcrumb,
      device_frame_add_breadcrumb, pool_alloc_mem, device_frame_alloc, Res.value?, Res.world,
      World.frame_ref, gm_device.without_pools, ha, hp]
    intro x hx
    simp [Function.update_noteq hx]
  | cons f rest =>
    simp only [ha, World.frame_ref] at hp
    simp [mem_pool_acquire_frame, mem_pool_acquire_resource, World.pool, World.set_pool,
      World.modify_frame, World.set_frame, gm_frame_add_breadcrumb,
      device_frame_add_breadcrumb, Res.value?, Res.world,
      World.frame_ref, gm_device.without_pools, ha, hp]
    intro x hx
    simp [Function.update_noteq hx]


theorem gm_device.eq_of_without_pools {d d1 : gm_device}
    (h : d1.without_pools = d.without_pools) :
    d1 = { d with
      video_buf_pool := d1.video_buf_pool
      depth_buf_pool := d1.depth_buf_pool
      frame_pool := d1.frame_pool } := by
  cases d
  cases d1
  simp only [gm_device.without_pools, gm_device.mk.injEq] at h ⊢
  simp_all

theorem World.last_frame_ne_acquired (w : World) (hp : w.frame_pool_ready)
    (hl : w.last_frame_live) (last : Nat) (h : w.dev.last_frame = some last) :
    last ≠ w.acquired_frame := by
  obtain ⟨h1, h2, _⟩ := hl last h
  unfold World.frame_pool_ready at hp
  unfold World.acquired_frame
  cases ha : w.dev.frame_pool.available with
  | nil => simp only; omega
  | cons f rest =>
    simp only [ha] at hp ⊢
    intro e
    subst e
    omega

theorem gm_device_get_latest_frame_spec (w : World) (hp : w.frame_pool_ready)
    (hl : w.last_frame_live) (hr : w.ready_consistent) :
    ∃ w1, gm_device_get_latest_frame w = .ok w.acquired_frame w1 ∧
      w1.frame_ref w.acquired_frame = 2 ∧
      w1.dev.last_frame = some w.acquired_frame ∧
      w1.dev.frame_ready_buffers_mask = 0 ∧
      w1.dev.depth_buf_ready =
        (if w.dev.frame_ready_buffers_mask &&& GM_REQUEST_FRAME_DEPTH ≠ 0 then none
         else w.dev.depth_buf_ready) ∧
      w1.dev.video_buf_ready =
        (if w.dev.frame_ready_buffers_mask &&& GM_REQUEST_FRAME_VIDEO ≠ 0 then none
         else w.dev.video_buf_ready) ∧
      (w1.frames w.acquired_frame).base.depth =
        (if w.dev.frame_ready_buffers_mask &&& GM_REQUEST_FRAME_DEPTH ≠ 0 then
          w.dev.depth_buf_ready
         else none) ∧
      (w1.frames w.acquired_frame).base.video =
        (if w.dev.frame_ready_buffers_mask &&& GM_REQUEST_FRAME_VIDEO ≠ 0 then
          w.dev.video_buf_ready
         else none) ∧
      (∀ x, (∀ last, w.dev.last_frame = some last →
          (w.frames last).base.video ≠ some x ∧ (w.frames last).base.depth ≠ some x) →
        w1.buffers x = w.buffers x) ∧
      w1.events = w.events ∧
      (w1.frames w.acquired_frame).base.timestamp = w.dev.frame_time ∧
      w1.dev.without_pools =
        (w.dev.latest_frame_claimed w.acquired_frame).without_pools := by
  obtain ⟨a1, a2, a3, a4, a5, a6, a7, a8, a9, a10, a11⟩ :=
    mem_pool_acquire_frame_spec "get latest" w hp
  have e1 := Res.eq_ok_of_value a1
  generalize (mem_pool_acquire_frame .frame_pool "get latest" w).world = w1 at *
  have hdev := gm_device.eq_of_without_pools a8
  generalize w1.dev.video_buf_pool = pv at hdev
  generalize w1.dev.depth_buf_pool = pd at hdev
  generalize w1.dev.frame_pool = pf at hdev
  -- the rest of the routine started from any world that agrees with `w` where it matters
  have main : ∀ w3 : World,
      gm_device_get_latest_frame w = gm_device_get_latest_frame_fill w.acquired_frame w3 →
      w3.frame_ref w.acquired_frame = 1 →
      (w3.frames w.acquired_frame).base.depth = none →
      (w3.frames w.acquired_frame).base.video = none →
      w3.dev.without_pools = { w.dev with swap_buffers_lock := true }.without_pools →
      (∀ x, (∀ last, w.dev.last_frame = some last →
          (w.frames last).base.video ≠ some x ∧ (w.frames last).base.depth ≠ some x) →
        w3.buffers x = w.buffers x) →
      w3.events = w.events →
      ∃ w1, gm_device_get_latest_frame w = .ok w.acquired_frame w1 ∧
      w1.frame_ref w.acquired_frame = 2 ∧
      w1.dev.last_frame = some w.acquired_frame ∧
      w1.dev.frame_ready_buffers_mask = 0 ∧
      w1.dev.depth_buf_ready =
        (if w.dev.frame_ready_buffers_mask &&& GM_REQUEST_FRAME_DEPTH ≠ 0 then none
         else w.dev.depth_buf_ready) ∧
      w1.dev.video_buf_ready =
        (if w.dev.frame_ready_buffers_mask &&& GM_REQUEST_FRAME_VIDEO ≠ 0 then none
         else w.dev.video_buf_ready) ∧
      (w1.frames w.acquired_frame).base.depth =
        (if w.dev.frame_ready_buffers_mask &&& GM_REQUEST_FRAME_DEPTH ≠ 0 then
          w.dev.depth_buf_ready
         else none) ∧
      (w1.frames w.acquired_frame).base.video =
        (if w.dev.frame_ready_buffers_mask &&& GM_REQUEST_FRAME_VIDEO ≠ 0 then
          w.dev.video_buf_ready
         else none) ∧
      (∀ x, (∀ last, w.dev.last_frame = some last →
          (w.frames last).base.video ≠ some x ∧ (w.frames last).base.depth ≠ some x) →
        w1.buffers x = w.buffers x) ∧
      w1.events = w.events ∧
      (w1.frames w.acquired_frame).base.timestamp = w.dev.frame_time ∧
      w1.dev.without_pools =
        (w.dev.latest_frame_claimed w.acquired_frame).without_pools := by
    intro w3 heq h1 hdn hvn hd3 hb3 he3
    have hd3' := gm_device.eq_of_without_pools hd3
    generalize w3.dev.video_buf_pool = pv3 at hd3'
    generalize w3.dev.depth_buf_pool = pd3 at hd3'
    generalize w3.dev.frame_pool = pf3 at hd3'
    have hr3 : w3.ready_consistent := by
      simpa [World.ready_consistent, hd3'] using hr
    obtain ⟨f1, f2, f3, f4, f5, f6, f7, f8, f9, f10, f11, f12⟩ :=
      get_latest_fill_spec w.acquired_frame w3 h1 hr3
    have fdev := get_latest_fill_dev w.acquired_frame w3 h1 hr3
    refine ⟨_, heq.trans (Res.eq_ok_of_value f1), f2, f3, f4, ?_, ?_, ?_, ?_, ?_, ?_, ?_, ?_⟩
    · rw [f5, hd3']
    · rw [f6, hd3']
    · rw [f7, hd3', hdn]
    · rw [f8, hd3', hvn]
    · intro x hx
      rw [f9]
      exact hb3 x hx
    · rw [f10, he3]
    · rw [f11, hd3']
    · rw [fdev, hd3']
      rfl
  have hlf : (w1.modify_dev fun d => { d with swap_buffers_lock := true }).dev.last_frame =
      w.dev.last_frame := by
    simp [World.modify_dev, hdev]
  obtain hlast | ⟨last, hlast⟩ : w.dev.last_frame = none ∨ ∃ l, w.dev.last_frame = some l := by
    cases w.dev.last_frame <;> simp
  · apply main (w1.modify_dev fun d => { d with swap_buffers_lock := true })
    · unfold gm_device_get_latest_frame
      simp only [Prog.bind_apply, e1, Res.and_then_ok, lock_swap_buffers, modify_world_apply,
        get_world_apply, hlf, hlast, Prog.pure_apply]
    · simpa [World.frame_ref, World.modify_dev] using a2
    · simpa [World.modify_dev] using a3
    · simpa [World.modify_dev] using a4
    · simp [World.modify_dev, hdev, gm_device.without_pools]
    · intro x _
      simp [World.modify_dev, a5]
    · simp [World.modify_dev, a6]
  · have hne : last ≠ w.acquired_frame := World.last_frame_ne_acquired w hp hl last hlast
    obtain ⟨_, hl2, hl3⟩ := hl last hlast
    have hfl : w1.frames last = w.frames last := a11 last hne
    have hfr2 : (w1.modify_dev fun d => { d with swap_buffers_lock := true }).frame_ref last =
        w.frame_ref last := by
      simp [World.frame_ref, World.modify_dev, hfl]
    have hfa : ((w1.modify_dev fun d =>
        { d with swap_buffers_lock := true }).frame_decremented last).frames w.acquired_frame =
        w1.frames w.acquired_frame := by
      simp [World.frame_decremented, World.modify_frame, World.set_frame, World.modify_dev,
        Function.update_noteq (Ne.symm hne)]
    by_cases h1 : w.frame_ref last = 1
    · have hrel2 : ((w1.modify_dev fun d =>
          { d with swap_buffers_lock := true }).frame_decremented last).buffers_releasable
          last := by
        apply buffers_releasable_decremented
        simpa [World.buffers_releasable, World.buffer_ref, World.modify_dev, hfl, a5]
          using hl3 h1
      have h0 : ((w1.modify_dev fun d =>
          { d with swap_buffers_lock := true }).frame_decremented last).frame_ref last = 0 := by
        simp only [World.frame_ref] at h1
        simp [World.frame_ref, World.frame_decremented, World.modify_frame, World.set_frame,
          World.modify_dev, hfl, h1]
      obtain ⟨w3, hrec, q⟩ := device_frame_recycle_spec last _ h0 hrel2
      have hq := q.other_frames w.acquired_frame (Ne.symm hne)
      rw [hfa] at hq
      apply main w3
      · unfold gm_device_get_latest_frame
        simp only [Prog.bind_apply, e1, Res.and_then_ok, lock_swap_buffers, modify_world_apply,
          get_world_apply, hlf, hlast, gm_frame_unref_eq last _ (by rw [hfr2]; omega),
          hfr2, h1]
        simp [hrec]
      · simpa [World.frame_ref, hq] using a2
      · simpa [hq] using a3
      · simpa [hq] using a4
      · rw [q.dev]
        simp [World.frame_decremented, World.modify_frame, World.set_frame, World.modify_dev,
          hdev, gm_device.without_pools]
      · intro x hx
        obtain ⟨hx1, hx2⟩ := hx last hlast
        rw [q.other_buffers x]
        · simp [World.frame_decremented, World.modify_frame, World.set_frame,
            World.modify_dev, a5]
        · simpa [World.frame_decremented, World.modify_frame, World.set_frame,
            World.modify_dev, hfl] using hx1
        · simpa [World.frame_decremented, World.modify_frame, World.set_frame,
            World.modify_dev, hfl] using hx2
      · rw [q.events]
        simp [World.frame_decremented, World.modify_frame, World.set_frame, World.modify_dev,
          a6]
    · apply main ((w1.modify_dev fun d =>
          { d with swap_buffers_lock := true }).frame_decremented last)
      · unfold gm_device_get_latest_frame
        have hlt : ¬ (w.frame_ref last - 1 < 1) := by omega
        simp only [Prog.bind_apply, e1, Res.and_then_ok, lock_swap_buffers, modify_world_apply,
          get_world_apply, hlf, hlast, gm_frame_unref_eq last _ (by rw [hfr2]; omega),
          hfr2, hlt, if_false]
      · rw [World.frame_ref, hfa]
        exact a2
      · rw [hfa]
        exact a3
      · rw [hfa]
        exact a4
      · simp [World.frame_decremented, World.modify_frame, World.set_frame, World.modify_dev,
          hdev, gm_device.without_pools]
      · intro x _
        simp [World.frame_decremented, World.modify_frame, World.set_frame,
          World.modify_dev, a5]
      · simp [World.frame_decremented, World.modify_frame, World.set_frame, World.modify_dev,
          a6]

theorem capturing_world_ready :
    capturing_world.frame_pool_ready ∧ capturing_world.last_frame_live ∧
    capturing_world.ready_consistent := by
  refine ⟨?_, ?_, ?_, ?_⟩
  · show (1 : Nat) < 2147483647
    decide
  · intro last h
    cases h
    refine ⟨by decide, by decide, fun _ => ⟨?_, ?_, ?_⟩⟩
    · intro v hv
      cases hv
      decide
    · intro d hd
      cases hd
      decide
    · intro v d hv hd
      cases hv
      cases hd
      decide
  · intro _
    exact ⟨by decide, by decide, by decide⟩
  · intro _
    exact ⟨by decide, by decide, by decide⟩

/-- C1: in every device state in which the frame pool can hand out a frame,
the cached `last_frame` (if any) is live and each ready bit comes with its
buffer and valid intrinsics, `gm_device_get_latest_frame` returns a frame
whose count is exactly 2 and which is stored as the device's `last_frame`,
whatever the ready mask is. -/
theorem C1_latest_frame_ref_two (w : World) (hp : w.frame_pool_ready)
    (hl : w.last_frame_live) (hr : w.ready_consistent) :
    ∃ frame w1, gm_device_get_latest_frame w = .ok frame w1 ∧
      w1.frame_ref frame = 2 ∧ w1.dev.last_frame = some frame := by
  obtain ⟨w1, h, h1, h2, _⟩ := gm_device_get_latest_frame_spec w hp hl hr
  exact ⟨_, w1, h, h1, h2⟩

/-- Witness of C1 on the capturing world (both kinds ready, a cached frame
with count 1). -/
theorem C1_latest_frame_ref_two_witness :
    ∃ frame w1, gm_device_get_latest_frame capturing_world = .ok frame w1 ∧
      w1.frame_ref frame = 2 ∧ w1.dev.last_frame = some frame :=
  C1_latest_frame_ref_two capturing_world capturing_world_ready.1 capturing_world_ready.2.1
    capturing_world_ready.2.2

/-- C2: after `gm_device_get_latest_frame` returns (which it does in every
state as in C1), `frame_ready_buffers_mask` is 0 and the ready slot of every
kind whose bit was set before the call is null. -/
theorem C2_ready_mask_cleared (w : World) (hp : w.frame_pool_ready)
    (hl : w.last_frame_live) (hr : w.ready_consistent) :
    ∃ frame w1, gm_device_get_latest_frame w = .ok frame w1 ∧
      w1.dev.frame_ready_buffers_mask = 0 ∧
      (w.dev.frame_ready_buffers_mask &&& GM_REQUEST_FRAME_DEPTH ≠ 0 →
        w1.dev.depth_buf_ready = none) ∧
      (w.dev.frame_ready_buffers_mask &&& GM_REQUEST_FRAME_VIDEO ≠ 0 →
        w1.dev.video_buf_ready = none) := by
  obtain ⟨w1, h, _, _, h3, h4, h5, _⟩ := gm_device_get_latest_frame_spec w hp hl hr
  refine ⟨_, w1, h, h3, ?_, ?_⟩
  · intro hb
    rw [h4, if_pos hb]
  · intro hb
    rw [h5, if_pos hb]

/-- Witness of C2 on the capturing world. -/
theorem C2_ready_mask_cleared_witness :
    ∃ frame w1, gm_device_get_latest_frame capturing_world = .ok frame w1 ∧
      w1.dev.frame_ready_buffers_mask = 0 ∧
      w1.dev.depth_buf_ready = none ∧ w1.dev.video_buf_ready = none := by
  obtain ⟨frame, w1, h, h1, h2, h3⟩ := C2_ready_mask_cleared capturing_world
    capturing_world_ready.1 capturing_world_ready.2.1 capturing_world_ready.2.2
  exact ⟨frame, w1, h, h1, h2 (by decide), h3 (by decide)⟩

/-- C3: in a state as in C1 in which no ready buffer is attached to the cached
`last_frame`, the frame returned by `gm_device_get_latest_frame` carries a
buffer of a kind exactly when that kind's bit was set in the ready mask
before the call; the buffer is then the device's former ready buffer of that
kind, and that buffer (its count included) is as before the call.  With only
the depth bit set the frame has a depth buffer and no video buffer. -/
theorem C3_ready_buffers_move (w : World) (hp : w.frame_pool_ready)
    (hl : w.last_frame_live) (hr : w.ready_consistent)
    (hsep : ∀ last x, w.dev.last_frame = some last →
      (w.dev.depth_buf_ready = some x ∨ w.dev.video_buf_ready = some x) →
      (w.frames last).base.video ≠ some x ∧ (w.frames last).base.depth ≠ some x) :
    ∃ frame w1, gm_device_get_latest_frame w = .ok frame w1 ∧
      ((w1.frames frame).base.depth ≠ none ↔
        w.dev.frame_ready_buffers_mask &&& GM_REQUEST_FRAME_DEPTH ≠ 0) ∧
      ((w1.frames frame).base.video ≠ none ↔
        w.dev.frame_ready_buffers_mask &&& GM_REQUEST_FRAME_VIDEO ≠ 0) ∧
      (w.dev.frame_ready_buffers_mask &&& GM_REQUEST_FRAME_DEPTH ≠ 0 →
        (w1.frames frame).base.depth = w.dev.depth_buf_ready ∧
        ∀ b, w.dev.depth_buf_ready = some b →
          w1.buffers b = w.buffers b ∧ w1.buffer_ref b = w.buffer_ref b) ∧
      (w.dev.frame_ready_buffers_mask &&& GM_REQUEST_FRAME_VIDEO ≠ 0 →
        (w1.frames frame).base.video = w.dev.video_buf_ready ∧
        ∀ b, w.dev.video_buf_ready = some b →
          w1.buffers b = w.buffers b ∧ w1.buffer_ref b = w.buffer_ref b) ∧
      (w.dev.frame_ready_buffers_mask &&& GM_REQUEST_FRAME_DEPTH ≠ 0 →
        w.dev.frame_ready_buffers_mask &&& GM_REQUEST_FRAME_VIDEO = 0 →
        (w1.frames frame).base.depth ≠ none ∧ (w1.frames frame).base.video = none) := by
  obtain ⟨w1, h, _, _, _, _, _, h6, h7, h8, _⟩ := gm_device_get_latest_frame_spec w hp hl hr
  have hd : (w1.frames w.acquired_frame).base.depth ≠ none ↔
      w.dev.frame_ready_buffers_mask &&& GM_REQUEST_FRAME_DEPTH ≠ 0 := by
    rw [h6]
    constructor
    · intro hne hb
      simp [hb] at hne
    · intro hb
      rw [if_pos hb]
      exact (hr.1 hb).1
  have hv : (w1.frames w.acquired_frame).base.video ≠ none ↔
      w.dev.frame_ready_buffers_mask &&& GM_REQUEST_FRAME_VIDEO ≠ 0 := by
    rw [h7]
    constructor
    · intro hne hb
      simp [hb] at hne
    · intro hb
      rw [if_pos hb]
      exact (hr.2 hb).1
  refine ⟨_, w1, h, hd, hv, ?_, ?_, ?_⟩
  · intro hb
    refine ⟨by rw [h6, if_pos hb], fun b hbuf => ?_⟩
    have := h8 b (fun last hlast => hsep last b hlast (Or.inl hbuf))
    exact ⟨this, by rw [World.buffer_ref, World.buffer_ref, this]⟩
  · intro hb
    refine ⟨by rw [h7, if_pos hb], fun b hbuf => ?_⟩
    have := h8 b (fun last hlast => hsep last b hlast (Or.inr hbuf))
    exact ⟨this, by rw [World.buffer_ref, World.buffer_ref, this]⟩
  · intro hb hnv
    exact ⟨hd.mpr hb, by rw [h7]; simp [hnv]⟩

/-- Witness of C3 on the capturing world: the ready depth buffer 2 and the
ready video buffer 3 move into the returned frame with their counts
unchanged. -/
theorem C3_ready_buffers_move_witness :
    ∃ frame w1, gm_device_get_latest_frame capturing_world = .ok frame w1 ∧
      (w1.frames frame).base.depth = some 2 ∧ w1.buffer_ref 2 = 1 ∧
      (w1.frames frame).base.video = some 3 ∧ w1.buffer_ref 3 = 1 := by
  obtain ⟨frame, w1, h, _, _, h3, h4, _⟩ := C3_ready_buffers_move capturing_world
    capturing_world_ready.1 capturing_world_ready.2.1 capturing_world_ready.2.2
    (by
      intro last x hl hx
      cases hl
      rcases hx with hx | hx <;> cases hx <;> decide)
  exact ⟨frame, w1, h, (h3 (by decide)).1, ((h3 (by decide)).2 2 rfl).2,
    (h4 (by decide)).1, ((h4 (by decide)).2 3 rfl).2⟩

/-! ## Combining frames -/

theorem World.live_frame_ne_acquired (w : World) (hp : w.frame_pool_ready) (x : Nat)
    (h1 : x < w.next_frame) (h2 : 1 ≤ w.frame_ref x) : x ≠ w.acquired_frame := by
  unfold World.frame_pool_ready at hp
  unfold World.acquired_frame
  cases ha : w.dev.frame_pool.available with
  | nil => simp only; omega
  | cons f rest =>
    simp only [ha] at hp ⊢
    intro e
    subst e
    omega

theorem gm_device_combine_frames_spec (w : World) (master depth video bd bv : Nat)
    (hp : w.frame_pool_ready)
    (hm : master ≠ w.acquired_frame) (hd : depth ≠ w.acquired_frame)
    (hv : video ≠ w.acquired_frame)
    (hbd : (w.frames depth).base.depth = some bd) (hbv : (w.frames video).base.video = some bv)
    (hrd : 0 ≤ w.buffer_ref bd) (hrv : 0 ≤ w.buffer_ref bv) (hne : bd ≠ bv) :
    (gm_device_combine_frames master depth video w).value? = some w.acquired_frame ∧
    ((gm_device_combine_frames master depth video w).world.frames w.acquired_frame).base =
      { ref := 1
        timestamp := (w.frames master).base.timestamp
        pose := (w.frames master).base.pose
        camera_rotation := (w.frames master).base.camera_rotation
        depth := some bd
        depth_format := (w.frames depth).base.depth_format
        depth_intrinsics := (w.frames depth).base.depth_intrinsics
        video := some bv
        video_format := (w.frames video).base.video_format
        video_intrinsics := (w.frames video).base.video_intrinsics } ∧
    (gm_device_combine_frames master depth video w).world.buffer_ref bd = w.buffer_ref bd + 1 ∧
    (gm_device_combine_frames master depth video w).world.buffer_ref bv = w.buffer_ref bv + 1 ∧
    (∀ x, x ≠ bd → x ≠ bv →
      (gm_device_combine_frames master depth video w).world.buffers x = w.buffers x) ∧
    (∀ x, x ≠ w.acquired_frame →
      (gm_device_combine_frames master depth video w).world.frames x = w.frames x) := by
  obtain ⟨a1, a2, a3, a4, a5, a6, a7, a8, a9, a10, a11⟩ :=
    mem_pool_acquire_frame_spec "combined frame" w hp
  have e1 := Res.eq_ok_of_value a1
  generalize (mem_pool_acquire_frame .frame_pool "combined frame" w).world = w1 at *
  simp only [World.buffer_ref, World.frame_ref] at hrd hrv a2
  have hne' : bv ≠ bd := Ne.symm hne
  have hd' := a11 depth hd
  have hv' := a11 video hv
  have hm' := a11 master hm
  have hfa : ∀ x, x ≠ w.acquired_frame → w.acquired_frame ≠ x := fun x h => Ne.symm h
  simp [gm_device_combine_frames, e1, World.modify_frame, World.set_frame,
    Function.update_noteq hd, Function.update_noteq hv, Function.update_noteq hm,
    hd', hv', hm', hbd, hbv, gm_buffer_ref, gm_buffer_add_breadcrumb,
    device_buffer_add_breadcrumb, World.modify_buffer, World.set_buffer, a5, hrd, hrv,
    Function.update_noteq hne, Function.update_noteq hne', Res.value?, Res.world,
    World.buffer_ref, a2]
  exact ⟨fun x h1 h2 => by simp [Function.update_noteq h1, Function.update_noteq h2],
    fun x hx => by simp [Function.update_noteq hx, a11 x hx]⟩


/-- C10: for live frames `master`, `depth_src` and `video_src` (allocated,
count at least 1) with `depth_src.depth` and `video_src.video` two distinct
buffers whose counts are not negative, and a frame pool that can hand out a
frame, `gm_device_combine_frames` returns the newly acquired frame with
`master`'s timestamp, pose and camera rotation, `depth_src`'s depth buffer,
format and intrinsics and `video_src`'s video buffer, format and intrinsics;
the count of each of the two buffers is one higher, no other buffer changed,
and every frame other than the new one, the three sources included, is as
before. -/
theorem C10_combine_frames (w : World) (master depth_src video_src bd bv : Nat)
    (hp : w.frame_pool_ready)
    (hm : master < w.next_frame ∧ 1 ≤ w.frame_ref master)
    (hd : depth_src < w.next_frame ∧ 1 ≤ w.frame_ref depth_src)
    (hv : video_src < w.next_frame ∧ 1 ≤ w.frame_ref video_src)
    (hbd : (w.frames depth_src).base.depth = some bd)
    (hbv : (w.frames video_src).base.video = some bv)
    (hrd : 0 ≤ w.buffer_ref bd) (hrv : 0 ≤ w.buffer_ref bv) (hne : bd ≠ bv) :
    ∃ frame w1, gm_device_combine_frames master depth_src video_src w = .ok frame w1 ∧
      frame = w.acquired_frame ∧
      (w1.frames frame).base.timestamp = (w.frames master).base.timestamp ∧
      (w1.frames frame).base.pose = (w.frames master).base.pose ∧
      (w1.frames frame).base.camera_rotation = (w.frames master).base.camera_rotation ∧
      (w1.frames frame).base.depth = (w.frames depth_src).base.depth ∧
      (w1.frames frame).base.depth_format = (w.frames depth_src).base.depth_format ∧
      (w1.frames frame).base.depth_intrinsics = (w.frames depth_src).base.depth_intrinsics ∧
      (w1.frames frame).base.video = (w.frames video_src).base.video ∧
      (w1.frames frame).base.video_format = (w.frames video_src).base.video_format ∧
      (w1.frames frame).base.video_intrinsics = (w.frames video_src).base.video_intrinsics ∧
      w1.buffer_ref bd = w.buffer_ref bd + 1 ∧ w1.buffer_ref bv = w.buffer_ref bv + 1 ∧
      (∀ x, x ≠ bd → x ≠ bv → w1.buffers x = w.buffers x) ∧
      w1.frames master = w.frames master ∧ w1.frames depth_src = w.frames depth_src ∧
      w1.frames video_src = w.frames video_src ∧
      (∀ x, x ≠ frame → w1.frames x = w.frames x) := by
  have hm' := w.live_frame_ne_acquired hp master hm.1 hm.2
  have hd' := w.live_frame_ne_acquired hp depth_src hd.1 hd.2
  have hv' := w.live_frame_ne_acquired hp video_src hv.1 hv.2
  obtain ⟨h1, h2, h3, h4, h5, h6⟩ :=
    gm_device_combine_frames_spec w master depth_src video_src bd bv hp hm' hd' hv' hbd hbv
      hrd hrv hne
  refine ⟨_, _, Res.eq_ok_of_value h1, rfl, ?_, ?_, ?_, ?_, ?_, ?_, ?_, ?_, ?_, h3, h4, h5,
    h6 _ hm', h6 _ hd', h6 _ hv', h6⟩ <;> rw [h2]
  · rw [hbd]
  · rw [hbv]

/-- Witness of C10 on the capturing world: frame 0 is combined with itself. -/
theorem C10_combine_frames_witness :
    ∃ frame w1, gm_device_combine_frames 0 0 0 capturing_world = .ok frame w1 ∧
      (w1.frames frame).base.depth = some 0 ∧ (w1.frames frame).base.video = some 1 ∧
      w1.buffer_ref 0 = 2 ∧ w1.buffer_ref 1 = 2 := by
  obtain ⟨frame, w1, h, _, _, _, _, h4, _, _, h7, _, _, h10, h11, _⟩ :=
    C10_combine_frames capturing_world 0 0 0 0 1 capturing_world_ready.1
      ⟨by decide, by decide⟩ ⟨by decide, by decide⟩ ⟨by decide, by decide⟩ rfl rfl
      (by decide) (by decide) (by decide)
  exact ⟨frame, w1, h, h4, h7, h10, h11⟩

theorem mem_pool_acquire_frame_returns (crumb : String) (w : World) (f : Nat) (w1 : World)
    (h : mem_pool_acquire_frame .frame_pool crumb w = .ok f w1) :
    w.frame_pool_ready ∧ f = w.acquired_frame ∧ w1.buffers = w.buffers ∧
    (w1.frames f).base.depth = none ∧ (w1.frames f).base.video = none ∧
    ∀ x, x ≠ f → w1.frames x = w.frames x := by
  have key : w.frame_pool_ready := by
    unfold World.frame_pool_ready
    cases ha : w.dev.frame_pool.available with
    | nil =>
      show w.dev.frame_pool.n_allocated < w.dev.frame_pool.max_size
      by_contra hn
      simp [mem_pool_acquire_frame, mem_pool_acquire_resource, World.pool, ha, hn] at h
    | cons g rest =>
      show w.frame_ref g = 0
      by_contra hn
      simp only [World.frame_ref] at hn
      simp [mem_pool_acquire_frame, mem_pool_acquire_resource, World.pool, World.set_pool,
        ha, hn] at h
  obtain ⟨a1, a2, a3, a4, a5, a6, a7, a8, a9, a10, a11⟩ :=
    mem_pool_acquire_frame_spec crumb w key
  rw [h] at a1 a3 a4 a5 a11
  simp only [Res.value?, Option.some.injEq] at a1
  subst a1
  exact ⟨key, rfl, a5, a3, a4, a11⟩

/-- C11: in every state, a call of `gm_device_combine_frames` in which
`depth_src.depth` is null or `video_src.video` is null does not return: it
ends in a failed assertion, which is the depth, resp. video, precondition
whenever the frame pool could hand out a frame.  Hence a frame that
`gm_device_combine_frames` returns has a depth buffer and a video buffer. -/
theorem C11_combine_frames_rejects_null (w : World) (master depth_src video_src : Nat) :
    ((w.frames depth_src).base.depth = none ∨ (w.frames video_src).base.video = none →
      (gm_device_combine_frames master depth_src video_src w).returned = false) ∧
    (w.frame_pool_ready → (w.frames depth_src).base.depth = none →
      (gm_device_combine_frames master depth_src video_src w).failure? = some
        "Spurious request to combine frame with depth frame having no depth buffer") ∧
    (w.frame_pool_ready → depth_src ≠ w.acquired_frame →
      (w.frames depth_src).base.depth ≠ none → (w.frames video_src).base.video = none →
      (gm_device_combine_frames master depth_src video_src w).failure? = some
        "Spurious request to combine frame with video frame having no video buffer") ∧
    (∀ frame w1, gm_device_combine_frames master depth_src video_src w = .ok frame w1 →
      (w1.frames frame).base.depth ≠ none ∧ (w1.frames frame).base.video ≠ none) := by
  have hdep : ∀ f w1, mem_pool_acquire_frame .frame_pool "combined frame" w = .ok f w1 →
      (w.frames depth_src).base.depth = none → (w1.frames depth_src).base.depth = none := by
    intro f w1 h hn
    obtain ⟨_, _, _, h4, _, h6⟩ := mem_pool_acquire_frame_returns _ w f w1 h
    by_cases e : depth_src = f
    · rw [e]; exact h4
    · rw [h6 _ e]; exact hn
  have hvid : ∀ f w1, mem_pool_acquire_frame .frame_pool "combined frame" w = .ok f w1 →
      (w.frames video_src).base.video = none → (w1.frames video_src).base.video = none := by
    intro f w1 h hn
    obtain ⟨_, _, _, _, h5, h6⟩ := mem_pool_acquire_frame_returns _ w f w1 h
    by_cases e : video_src = f
    · rw [e]; exact h5
    · rw [h6 _ e]; exact hn
  refine ⟨?_, ?_, ?_, ?_⟩
  · intro h
    cases hacq : mem_pool_acquire_frame .frame_pool "combined frame" w with
    | abort m w1 => simp [gm_device_combine_frames, hacq, Res.returned]
    | ok f w1 =>
      by_cases hdn : (w1.frames depth_src).base.depth = none
      · simp [gm_device_combine_frames, hacq, hdn, Res.returned]
      · have hvn : (w1.frames video_src).base.video = none := by
          rcases h with h | h
          · exact absurd (hdep f w1 hacq h) hdn
          · exact hvid f w1 hacq h
        simp [gm_device_combine_frames, hacq, hdn, hvn, Res.returned]
  · intro hp hn
    have e1 := Res.eq_ok_of_value (mem_pool_acquire_frame_spec "combined frame" w hp).1
    generalize (mem_pool_acquire_frame .frame_pool "combined frame" w).world = w1 at e1
    have := hdep _ _ e1 hn
    rw [gm_device_combine_frames]
    simp only [Prog.bind_apply, e1, Res.and_then_ok, get_world_apply, gm_assert_apply, this]
    rfl
  · intro hp hne hdn hvn
    obtain ⟨a1, _, _, _, _, _, _, _, _, _, a11⟩ := mem_pool_acquire_frame_spec "combined frame" w hp
    have e1 := Res.eq_ok_of_value a1
    generalize (mem_pool_acquire_frame .frame_pool "combined frame" w).world = w1 at e1 a11
    have h1 := hvid _ _ e1 hvn
    have h3 : ((w1.frames depth_src).base.depth != none) = true := by
      rw [a11 _ hne]
      simpa using hdn
    rw [gm_device_combine_frames]
    simp only [Prog.bind_apply, e1, Res.and_then_ok, get_world_apply, gm_assert_apply, h1, h3,
      if_true]
    rfl
  · intro frame w2 h
    cases hacq : mem_pool_acquire_frame .frame_pool "combined frame" w with
    | abort m w1 => simp [gm_device_combine_frames, hacq] at h
    | ok f w1 =>
      obtain ⟨_, _, _, h4, h5, _⟩ := mem_pool_acquire_frame_returns _ w f w1 hacq
      cases hdn : (w1.frames depth_src).base.depth with
      | none => simp [gm_device_combine_frames, hacq, hdn] at h
      | some bd =>
        cases hvn : (w1.frames video_src).base.video with
        | none => simp [gm_device_combine_frames, hacq, hdn, hvn] at h
        | some bv =>
          have hdf : depth_src ≠ f := by
            intro e; rw [e, h4] at hdn; cases hdn
          have hvf : video_src ≠ f := by
            intro e; rw [e, h5] at hvn; cases hvn
          by_cases hrd : 0 ≤ (w1.buffers bd).base.ref
          · by_cases hrv : 0 ≤ ((w1.buffer_incremented bd).buffers bv).base.ref
            · simp only [World.buffer_incremented, World.modify_buffer, World.set_buffer] at hrv
              simp [gm_device_combine_frames, hacq, hdn, hvn, World.modify_frame,
                World.set_frame, Function.update_noteq hdf, Function.update_noteq hvf,
                gm_buffer_ref, gm_buffer_add_breadcrumb, device_buffer_add_breadcrumb,
                World.modify_buffer, World.set_buffer, hrd, hrv] at h
              obtain ⟨h1, h2⟩ := h
              subst h1
              subst h2
              simp
            · simp only [World.buffer_incremented, World.modify_buffer, World.set_buffer] at hrv
              simp [gm_device_combine_frames, hacq, hdn, hvn, World.modify_frame,
                World.set_frame, Function.update_noteq hdf, Function.update_noteq hvf,
                gm_buffer_ref, gm_buffer_add_breadcrumb, device_buffer_add_breadcrumb,
                World.modify_buffer, World.set_buffer, hrd, hrv] at h
          · simp [gm_device_combine_frames, hacq, hdn, hvn, World.modify_frame,
              World.set_frame, Function.update_noteq hdf, Function.update_noteq hvf,
              gm_buffer_ref, gm_buffer_add_breadcrumb, device_buffer_add_breadcrumb,
              World.modify_buffer, World.set_buffer, hrd] at h


/-- Witness of C11: on a freshly opened device frame 0 has no depth buffer,
and combining with it as the depth source does not return. -/
theorem C11_combine_frames_rejects_null_witness :
    (opened_world.frames 0).base.depth = none ∧
    (gm_device_combine_frames 0 0 0 opened_world).returned = false :=
  ⟨rfl, (C11_combine_frames_rejects_null opened_world 0 0 0).1 (Or.inl rfl)⟩

/-! ## The world after a returning `gm_buffer_unref` -/

theorem gm_buffer_unref_ok (b : Nat) (w : World) (h : 1 ≤ w.buffer_ref b) :
    gm_buffer_unref b w = .ok () (w.buffer_unrefed b) := by
  rw [gm_buffer_unref_eq b w (by omega), World.buffer_unrefed]
  simp only [World.buffer_ref] at h
  by_cases h1 : (w.buffers b).base.ref = 1
  · simp [h1, device_buffer_recycle_eq, World.buffer_decremented, World.buffer_ref,
      World.modify_buffer, World.set_buffer]
  · have h2 : ¬ ((w.buffers b).base.ref - 1 < 1) := by omega
    simp [h1, h2, World.buffer_ref]

theorem World.buffer_recycled_buffers (w : World) (b : Nat) :
    (w.buffer_recycled b).buffers =
      Function.update w.buffers b { w.buffers b with trail := [] } := by
  cases hp : (w.buffers b).pool <;>
  simp [World.buffer_recycled, World.set_pool, World.modify_buffer, World.set_buffer, hp]

theorem World.buffer_recycled_next_buffer (w : World) (b : Nat) :
    (w.buffer_recycled b).next_buffer = w.next_buffer := by
  cases hp : (w.buffers b).pool <;>
  simp [World.buffer_recycled, World.set_pool, World.modify_buffer, World.set_buffer, hp]

theorem World.buffer_unrefed_buffers_only (w : World) (b : Nat) :
    w.buffers_only (w.buffer_unrefed b) := by
  unfold World.buffer_unrefed
  split
  · exact World.buffers_only_trans (buffer_decremented_buffers_only b w)
      (buffer_recycled_buffers_only b _)
  · exact buffer_decremented_buffers_only b w

@[simp] theorem World.buffer_unrefed_frames (w : World) (b : Nat) :
    (w.buffer_unrefed b).frames = w.frames :=
  (World.buffer_unrefed_buffers_only w b).1

@[simp] theorem World.buffer_unrefed_events (w : World) (b : Nat) :
    (w.buffer_unrefed b).events = w.events :=
  (World.buffer_unrefed_buffers_only w b).2.1

@[simp] theorem World.buffer_unrefed_next_frame (w : World) (b : Nat) :
    (w.buffer_unrefed b).next_frame = w.next_frame :=
  (World.buffer_unrefed_buffers_only w b).2.2.2

@[simp] theorem World.buffer_unrefed_next_buffer (w : World) (b : Nat) :
    (w.buffer_unrefed b).next_buffer = w.next_buffer := by
  unfold World.buffer_unrefed
  split
  · rw [World.buffer_recycled_next_buffer]
    rfl
  · rfl

theorem World.buffer_unrefed_dev (w : World) (b : Nat) :
    (w.buffer_unrefed b).dev.without_pools = w.dev.without_pools :=
  (World.buffer_unrefed_buffers_only w b).2.2.1

@[simp] theorem World.buffer_unrefed_type (w : World) (b : Nat) :
    (w.buffer_unrefed b).dev.type = w.dev.type := by
  simpa [gm_device.without_pools] using
    congrArg gm_device.type (World.buffer_unrefed_dev w b)

@[simp] theorem World.buffer_unrefed_configured (w : World) (b : Nat) :
    (w.buffer_unrefed b).dev.configured = w.dev.configured := by
  simpa [gm_device.without_pools] using
    congrArg gm_device.configured (World.buffer_unrefed_dev w b)

@[simp] theorem World.buffer_unrefed_running (w : World) (b : Nat) :
    (w.buffer_unrefed b).dev.running = w.dev.running := by
  simpa [gm_device.without_pools] using
    congrArg gm_device.running (World.buffer_unrefed_dev w b)

@[simp] theorem World.buffer_unrefed_recording (w : World) (b : Nat) :
    (w.buffer_unrefed b).dev.recording = w.dev.recording := by
  simpa [gm_device.without_pools] using
    congrArg gm_device.recording (World.buffer_unrefed_dev w b)

@[simp] theorem World.buffer_unrefed_camera_rotation (w : World) (b : Nat) :
    (w.buffer_unrefed b).dev.camera_rotation = w.dev.camera_rotation := by
  simpa [gm_device.without_pools] using
    congrArg gm_device.camera_rotation (World.buffer_unrefed_dev w b)

@[simp] theorem World.buffer_unrefed_max_depth_pixels (w : World) (b : Nat) :
    (w.buffer_unrefed b).dev.max_depth_pixels = w.dev.max_depth_pixels := by
  simpa [gm_device.without_pools] using
    congrArg gm_device.max_depth_pixels (World.buffer_unrefed_dev w b)

@[simp] theorem World.buffer_unrefed_max_video_pixels (w : World) (b : Nat) :
    (w.buffer_unrefed b).dev.max_video_pixels = w.dev.max_video_pixels := by
  simpa [gm_device.without_pools] using
    congrArg gm_device.max_video_pixels (World.buffer_unrefed_dev w b)

@[simp] theorem World.buffer_unrefed_video_intrinsics (w : World) (b : Nat) :
    (w.buffer_unrefed b).dev.video_intrinsics = w.dev.video_intrinsics := by
  simpa [gm_device.without_pools] using
    congrArg gm_device.video_intrinsics (World.buffer_unrefed_dev w b)

@[simp] theorem World.buffer_unrefed_depth_intrinsics (w : World) (b : Nat) :
    (w.buffer_unrefed b).dev.depth_intrinsics = w.dev.depth_intrinsics := by
  simpa [gm_device.without_pools] using
    congrArg gm_device.depth_intrinsics (World.buffer_unrefed_dev w b)

@[simp] theorem World.buffer_unrefed_frame_request_buffers_mask (w : World) (b : Nat) :
    (w.buffer_unrefed b).dev.frame_request_buffers_mask = w.dev.frame_request_buffers_mask := by
  simpa [gm_device.without_pools] using
    congrArg gm_device.frame_request_buffers_mask (World.buffer_unrefed_dev w b)

@[simp] theorem World.buffer_unrefed_frame_ready_buffers_mask (w : World) (b : Nat) :
    (w.buffer_unrefed b).dev.frame_ready_buffers_mask = w.dev.frame_ready_buffers_mask := by
  simpa [gm_device.without_pools] using
    congrArg gm_device.frame_ready_buffers_mask (World.buffer_unrefed_dev w b)

@[simp] theorem World.buffer_unrefed_swap_buffers_lock (w : World) (b : Nat) :
    (w.buffer_unrefed b).dev.swap_buffers_lock = w.dev.swap_buffers_lock := by
  simpa [gm_device.without_pools] using
    congrArg gm_device.swap_buffers_lock (World.buffer_unrefed_dev w b)

@[simp] theorem World.buffer_unrefed_request_buffers_mask_lock (w : World) (b : Nat) :
    (w.buffer_unrefed b).dev.request_buffers_mask_lock = w.dev.request_buffers_mask_lock := by
  simpa [gm_device.without_pools] using
    congrArg gm_device.request_buffers_mask_lock (World.buffer_unrefed_dev w b)

@[simp] theorem World.buffer_unrefed_depth_format (w : World) (b : Nat) :
    (w.buffer_unrefed b).dev.depth_format = w.dev.depth_format := by
  simpa [gm_device.without_pools] using
    congrArg gm_device.depth_format (World.buffer_unrefed_dev w b)

@[simp] theorem World.buffer_unrefed_video_format (w : World) (b : Nat) :
    (w.buffer_unrefed b).dev.video_format = w.dev.video_format := by
  simpa [gm_device.without_pools] using
    congrArg gm_device.video_format (World.buffer_unrefed_dev w b)

@[simp] theorem World.buffer_unrefed_video_buf_ready (w : World) (b : Nat) :
    (w.buffer_unrefed b).dev.video_buf_ready = w.dev.video_buf_ready := by
  simpa [gm_device.without_pools] using
    congrArg gm_device.video_buf_ready (World.buffer_unrefed_dev w b)

@[simp] theorem World.buffer_unrefed_video_buf_back (w : World) (b : Nat) :
    (w.buffer_unrefed b).dev.video_buf_back = w.dev.video_buf_back := by
  simpa [gm_device.without_pools] using
    congrArg gm_device.video_buf_back (World.buffer_unrefed_dev w b)

@[simp] theorem World.buffer_unrefed_depth_buf_ready (w : World) (b : Nat) :
    (w.buffer_unrefed b).dev.depth_buf_ready = w.dev.depth_buf_ready := by
  simpa [gm_device.without_pools] using
    congrArg gm_device.depth_buf_ready (World.buffer_unrefed_dev w b)

@[simp] theorem World.buffer_unrefed_depth_buf_back (w : World) (b : Nat) :
    (w.buffer_unrefed b).dev.depth_buf_back = w.dev.depth_buf_back := by
  simpa [gm_device.without_pools] using
    congrArg gm_device.depth_buf_back (World.buffer_unrefed_dev w b)

@[simp] theorem World.buffer_unrefed_frame_time (w : World) (b : Nat) :
    (w.buffer_unrefed b).dev.frame_time = w.dev.frame_time := by
  simpa [gm_device.without_pools] using
    congrArg gm_device.frame_time (World.buffer_unrefed_dev w b)

@[simp] theorem World.buffer_unrefed_frame_pose (w : World) (b : Nat) :
    (w.buffer_unrefed b).dev.frame_pose = w.dev.frame_pose := by
  simpa [gm_device.without_pools] using
    congrArg gm_device.frame_pose (World.buffer_unrefed_dev w b)

@[simp] theorem World.buffer_unrefed_last_frame (w : World) (b : Nat) :
    (w.buffer_unrefed b).dev.last_frame = w.dev.last_frame := by
  simpa [gm_device.without_pools] using
    congrArg gm_device.last_frame (World.buffer_unrefed_dev w b)

theorem World.buffer_unrefed_of_ne (w : World) (b x : Nat) (h : x ≠ b) :
    (w.buffer_unrefed b).buffers x = w.buffers x := by
  unfold World.buffer_unrefed
  split
  · rw [World.buffer_recycled_buffers]
    simp [World.buffer_decremented, World.modify_buffer, World.set_buffer,
      Function.update_noteq h]
  · simp [World.buffer_decremented, World.modify_buffer, World.set_buffer,
      Function.update_noteq h]

@[simp] theorem World.buffer_unrefed_ref (w : World) (b : Nat) :
    ((w.buffer_unrefed b).buffers b).base.ref = (w.buffers b).base.ref - 1 := by
  unfold World.buffer_unrefed
  split
  · rw [World.buffer_recycled_buffers]
    simp [World.buffer_decremented, World.modify_buffer, World.set_buffer]
  · simp [World.buffer_decremented, World.modify_buffer, World.set_buffer]

/-! ## Swapping in a recorded frame -/

theorem unlock_and_notify_eq (w : World) : unlock_and_notify w = .ok () w.notified := by
  unfold World.notified
  by_cases h : w.dev.frame_request_buffers_mask &&& w.dev.frame_ready_buffers_mask = 0
  · simp [unlock_and_notify, unlock_swap_buffers, lock_request_buffers_mask,
      unlock_request_buffers_mask, World.modify_dev, maybe_notify_frame_locked_eq, h]
  · simp [unlock_and_notify, unlock_swap_buffers, lock_request_buffers_mask,
      unlock_request_buffers_mask, World.modify_dev, maybe_notify_frame_locked_eq, h,
      notify_frame_locked]

theorem World.notified_buffers (w : World) : w.notified.buffers = w.buffers := by
  unfold World.notified
  split <;> rfl

theorem World.notified_ready (w : World) :
    w.notified.dev.frame_ready_buffers_mask = w.dev.frame_ready_buffers_mask ∧
    w.notified.dev.depth_buf_ready = w.dev.depth_buf_ready ∧
    w.notified.dev.video_buf_ready = w.dev.video_buf_ready ∧
    w.notified.dev.video_buf_pool = w.dev.video_buf_pool ∧
    w.notified.dev.depth_buf_pool = w.dev.depth_buf_pool ∧
    w.notified.dev.frame_pool = w.dev.frame_pool ∧
    w.notified.frames = w.frames := by
  unfold World.notified
  split <;> exact ⟨rfl, rfl, rfl, rfl, rfl, rfl, rfl⟩

theorem kind_bit_lt (depth : Bool) : kind_bit depth < 2 ^ 64 := by
  cases depth <;> decide

theorem and_or_ne_zero (r m k : Nat) (h : r &&& k ≠ 0) : r &&& (m ||| k) ≠ 0 := by
  intro h0
  apply h
  apply Nat.eq_of_testBit_eq
  intro i
  have := congrArg (fun n => n.testBit i) h0
  simp only [Nat.testBit_and, Nat.testBit_or, Nat.zero_testBit] at this ⊢
  cases hr : r.testBit i <;> cases hk : k.testBit i <;> simp_all

theorem and_not64_or_and (r m k : Nat) (hk : k < 2 ^ 64) :
    (r &&& not64 (m ||| k)) &&& k = 0 := by
  apply Nat.eq_of_testBit_eq
  intro i
  simp only [Nat.testBit_and, testBit_not64, Nat.testBit_or, Nat.zero_testBit]
  cases hki : k.testBit i
  · simp
  · have := testBit_lt_64 hk hki
    simp [this]

theorem or_and_self_ne_zero (m k : Nat) (hk : k ≠ 0) : (m ||| k) &&& k ≠ 0 := by
  intro h0
  apply hk
  apply Nat.eq_of_testBit_eq
  intro i
  have := congrArg (fun n => n.testBit i) h0
  simp only [Nat.testBit_and, Nat.testBit_or, Nat.zero_testBit] at this ⊢
  cases hki : k.testBit i <;> simp_all

/-! ## Producers: when the old ready buffer is released -/

theorem World.buffer_unrefed_available (w : World) (b : Nat) (h : w.buffer_ref b = 1) :
    b ∈ ((w.buffer_unrefed b).pool (w.buffers b).pool).available := by
  unfold World.buffer_unrefed
  rw [if_pos h]
  cases hp : (w.buffers b).pool <;>
  simp [World.buffer_recycled, World.buffer_decremented, World.pool, World.set_pool,
    World.modify_buffer, World.set_buffer, hp]

/-- Releasing `o` from a world that has the mutex held and holds `o` as `w`
does. -/
theorem released_under_lock_unref (o : Nat) (w W : World) (hb : W.buffers o = w.buffers o)
    (hl : W.dev.swap_buffers_lock = true) (h : 1 ≤ w.buffer_ref o) :
    released_under_lock o w (gm_buffer_unref o W) := by
  have h1 : 1 ≤ W.buffer_ref o := by simpa [World.buffer_ref, hb] using h
  rw [gm_buffer_unref_ok o W h1]
  refine ⟨rfl, ?_, ?_, ?_⟩
  · simp [Res.world, hl]
  · simp [Res.world, World.buffer_ref, hb]
  · intro h0
    have h2 : W.buffer_ref o = 1 := by simpa [World.buffer_ref, hb] using h0
    have := World.buffer_unrefed_available W o h2
    rw [hb] at this
    exact this

theorem tango_point_cloud_locked_releases (B timestamp : Nat) (pose : Option gm_pose)
    (w : World) (o : Nat) (ho : w.dev.depth_buf_ready = some o) (h : 1 ≤ w.buffer_ref o) :
    released_under_lock o w (tango_point_cloud_locked B timestamp pose w) := by
  simp only [tango_point_cloud_locked, lock_swap_buffers, Prog.bind_apply, modify_world_apply,
    get_world_apply, Res.and_then_ok, World.modify_dev, ho]
  exact released_under_lock_unref o w _ rfl rfl h

theorem tango_frame_available_locked_releases (B timestamp : Nat)
    (w : World) (o : Nat) (ho : w.dev.video_buf_ready = some o) (h : 1 ≤ w.buffer_ref o) :
    released_under_lock o w (tango_frame_available_locked B timestamp w) := by
  simp only [tango_frame_available_locked, lock_swap_buffers, Prog.bind_apply,
    modify_world_apply, get_world_apply, Res.and_then_ok, World.modify_dev, ho]
  exact released_under_lock_unref o w _ rfl rfl h

theorem on_avf_video_locked_releases (intrinsics : gm_intrinsics) (B time : Nat)
    (w : World) (o : Nat) (ho : w.dev.video_buf_ready = some o) (h : 1 ≤ w.buffer_ref o) :
    released_under_lock o w (on_avf_video_locked intrinsics B time w) := by
  simp only [on_avf_video_locked, lock_swap_buffers, Prog.bind_apply,
    modify_world_apply, get_world_apply, Res.and_then_ok, World.modify_dev, ho]
  exact released_under_lock_unref o w _ rfl rfl h

theorem on_avf_depth_locked_releases (intrinsics : gm_intrinsics) (B time : Nat)
    (w : World) (o : Nat) (ho : w.dev.depth_buf_ready = some o) (h : 1 ≤ w.buffer_ref o) :
    released_under_lock o w (on_avf_depth_locked intrinsics B time w) := by
  simp only [on_avf_depth_locked, lock_swap_buffers, Prog.bind_apply,
    modify_world_apply, get_world_apply, Res.and_then_ok, World.modify_dev, ho]
  exact released_under_lock_unref o w _ rfl rfl h

theorem mem_pool_acquire_buffer_post (p : pool_id) (crumb : String) (w : World)
    (hp : p ≠ .frame_pool)
    (hfree : ∀ b rest, (w.pool p).available = b :: rest → w.buffer_ref b = 0)
    (hcap : (w.pool p).available = [] → (w.pool p).n_allocated < (w.pool p).max_size) :
    ∃ b w1, mem_pool_acquire_buffer p crumb w = .ok b w1 ∧
      (∀ x, x ≠ b → w1.buffers x = w.buffers x) ∧
      (w.buffer_ref b = 0 ∨ b = w.next_buffer) ∧
      w1.dev.without_pools = w.dev.without_pools := by
  rcases ha : (w.pool p).available with _ | ⟨b, rest⟩
  · obtain ⟨w1, h1, -, -, -, h5, -, -, -, h9⟩ :=
      mem_pool_acquire_buffer_fresh p crumb w hp ha (hcap ha)
    exact ⟨_, w1, h1, h5, Or.inr rfl, h9⟩
  · refine ⟨b, _, mem_pool_acquire_buffer_reuse p crumb w b rest ha (hfree b rest ha), ?_,
      Or.inl (hfree b rest ha), ?_⟩
    · intro x hx
      cases p <;>
        simp [World.set_pool, World.modify_buffer, World.set_buffer, Function.update_noteq hx]
    · cases p <;>
        simp [World.set_pool, World.modify_buffer, World.set_buffer, gm_device.without_pools,
          World.pool]

theorem kinect_depth_frame_locked_releases (time : Nat) (w : World) (o : Nat)
    (hfree : ∀ b rest, w.dev.depth_buf_pool.available = b :: rest → w.buffer_ref b = 0)
    (hcap : w.dev.depth_buf_pool.available = [] →
      w.dev.depth_buf_pool.n_allocated < w.dev.depth_buf_pool.max_size)
    (ho : w.dev.depth_buf_ready = some o) (h : 1 ≤ w.buffer_ref o) (hlt : o < w.next_buffer) :
    released_under_lock o w (kinect_depth_frame_locked time w) := by
  obtain ⟨b, w1, e, hx, hb, hd⟩ := mem_pool_acquire_buffer_post .depth_buf_pool "kinect depth"
    { w with dev := { w.dev with swap_buffers_lock := true,
                                 depth_buf_ready := w.dev.depth_buf_back } }
    (by simp) hfree hcap
  have hob : o ≠ b := by
    rcases hb with hb | hb
    · intro e0; rw [← e0] at hb
      have : w.buffer_ref o = 0 := hb
      omega
    · intro e0; rw [e0] at hlt
      have : b = w.next_buffer := hb
      omega
  have hl : w1.dev.swap_buffers_lock = true := by
    simpa [gm_device.without_pools] using congrArg gm_device.swap_buffers_lock hd
  simp only [kinect_depth_frame_locked, lock_swap_buffers, Prog.bind_apply, modify_world_apply,
    get_world_apply, Res.and_then_ok, World.modify_dev, ho]
  rw [e]
  simp only [Res.and_then_ok, modify_world_apply]
  exact released_under_lock_unref o w _ (hx o hob) hl h

theorem kinect_rgb_frame_locked_releases (time : Nat) (w : World) (o : Nat)
    (hfree : ∀ b rest, w.dev.video_buf_pool.available = b :: rest → w.buffer_ref b = 0)
    (hcap : w.dev.video_buf_pool.available = [] →
      w.dev.video_buf_pool.n_allocated < w.dev.video_buf_pool.max_size)
    (ho : w.dev.video_buf_ready = some o) (h : 1 ≤ w.buffer_ref o) (hlt : o < w.next_buffer) :
    released_under_lock o w (kinect_rgb_frame_locked time w) := by
  obtain ⟨b, w1, e, hx, hb, hd⟩ := mem_pool_acquire_buffer_post .video_buf_pool "kinect rgb"
    { w with dev := { w.dev with swap_buffers_lock := true,
                                 video_buf_ready := w.dev.video_buf_back } }
    (by simp) hfree hcap
  have hob : o ≠ b := by
    rcases hb with hb | hb
    · intro e0; rw [← e0] at hb
      have : w.buffer_ref o = 0 := hb
      omega
    · intro e0; rw [e0] at hlt
      have : b = w.next_buffer := hb
      omega
  have hl : w1.dev.swap_buffers_lock = true := by
    simpa [gm_device.without_pools] using congrArg gm_device.swap_buffers_lock hd
  simp only [kinect_rgb_frame_locked, lock_swap_buffers, Prog.bind_apply, modify_world_apply,
    get_world_apply, Res.and_then_ok, World.modify_dev, ho]
  rw [e]
  simp only [Res.and_then_ok, modify_world_apply]
  exact released_under_lock_unref o w _ (hx o hob) hl h

theorem World.notified_unlocked (w : World) :
    w.notified.dev.swap_buffers_lock = false := by
  unfold World.notified
  split <;> rfl

/-! ## Swapping in a recorded frame: the general case -/

theorem World.buffer_unrefed_buffer_ref (w : World) (b x : Nat) :
    (w.buffer_unrefed b).buffer_ref x = w.buffer_ref x - if x = b then 1 else 0 := by
  by_cases h : x = b
  · subst h
    simp [World.buffer_ref]
  · simp [World.buffer_ref, World.buffer_unrefed_of_ne w b x h, h]

theorem World.buffer_incremented_buffer_ref (w : World) (b x : Nat) :
    (w.buffer_incremented b).buffer_ref x = w.buffer_ref x + if x = b then 1 else 0 := by
  by_cases h : x = b
  · subst h
    simp [World.buffer_ref, World.buffer_incremented, World.modify_buffer, World.set_buffer]
  · simp [World.buffer_ref, World.buffer_incremented, World.modify_buffer, World.set_buffer,
      Function.update_noteq h, h]

theorem World.modify_dev_buffer_ref (w : World) (f : gm_device → gm_device) (x : Nat) :
    (w.modify_dev f).buffer_ref x = w.buffer_ref x := rfl

theorem World.buffer_unrefed_last_buf (w : World) (b : Nat) (depth : Bool) :
    (w.buffer_unrefed b).dev.last_buf depth = w.dev.last_buf depth := by
  unfold gm_device.last_buf
  rw [World.buffer_unrefed_recording]

theorem World.buffer_unrefed_ready_slot (w : World) (b : Nat) (depth : Bool) :
    (w.buffer_unrefed b).dev.ready_slot depth = w.dev.ready_slot depth := by
  unfold gm_device.ready_slot
  rw [World.buffer_unrefed_depth_buf_ready, World.buffer_unrefed_video_buf_ready]

theorem Prog.bind_ok {α β : Type} {m : Prog α} {k : α → Prog β} {w w1 : World} {a : α}
    (h : m w = .ok a w1) : (m >>= k) w = k a w1 := by
  rw [Prog.bind_apply, h, Res.and_then_ok]

/-- The statements of `swap_recorded_buffer` from `gm_buffer_ref(buffer)` for
the last-buffer slot to the end, for the video kind. -/
theorem swap_recorded_buffer_tail_video (B : Nat) (W : World) (req : Nat)
    (hreq : W.dev.frame_request_buffers_mask = req)
    (hr1 : 0 ≤ W.buffer_ref B)
    (hold : req &&& GM_REQUEST_FRAME_VIDEO ≠ 0 →
      ∀ o, W.dev.video_buf_ready = some o → 1 ≤ W.buffer_ref o + (if o = B then 2 else 0)) :
    (do
      let referenced ← gm_buffer_ref B
      modify_world fun w => w.modify_dev fun d =>
        { d with recording := { d.recording with last_video_buf := some referenced } }
      let w ← get_world
      if w.dev.frame_request_buffers_mask &&& GM_REQUEST_FRAME_VIDEO ≠ 0 then
        let old := w.dev.video_buf_ready
        let referenced ← gm_buffer_ref B
        modify_world fun w => w.modify_dev fun d =>
          { d with
            video_buf_ready := some referenced
            frame_ready_buffers_mask := d.frame_ready_buffers_mask ||| GM_REQUEST_FRAME_VIDEO }
        match old with
        | some old => gm_buffer_unref old
        | none => pure () : Prog Unit) W =
      .ok () (if req &&& GM_REQUEST_FRAME_VIDEO ≠ 0 then
        (W.last_set false B).ready_set false B else W.last_set false B) := by
  rw [Prog.bind_ok (gm_buffer_ref_ok B W hr1)]
  simp only [Prog.bind_apply, modify_world_apply, Res.and_then_ok, get_world_apply]
  have e2 : (World.modify_dev (W.buffer_incremented B) fun d =>
      { d with recording := { d.recording with last_video_buf := some B } }) =
      W.last_set false B := by
    simp only [World.last_set, Bool.false_eq_true, if_false]
  rw [e2]
  have hq2 : (W.last_set false B).dev.frame_request_buffers_mask = req := hreq
  rw [hq2]
  by_cases hr : req &&& GM_REQUEST_FRAME_VIDEO ≠ 0
  · rw [if_pos hr, if_pos hr]
    have hr2 : 0 ≤ (W.last_set false B).buffer_ref B := by
      show 0 ≤ (W.buffer_incremented B).buffer_ref B
      rw [World.buffer_incremented_buffer_ref]; simp; omega
    rw [Prog.bind_apply, gm_buffer_ref_ok B _ hr2, Res.and_then_ok]
    simp only [Prog.bind_apply, modify_world_apply, Res.and_then_ok]
    have ho2 : (W.last_set false B).dev.video_buf_ready = W.dev.video_buf_ready := rfl
    rcases ho : W.dev.video_buf_ready with _ | o
    · rw [ho] at ho2
      simp only [World.ready_set, gm_device.ready_slot, Bool.false_eq_true, if_false, ho2,
        Prog.pure_apply]
    · rw [ho] at ho2
      simp only [World.ready_set, gm_device.ready_slot, Bool.false_eq_true, if_false, ho2]
      apply gm_buffer_unref_ok
      have := hold hr o ho
      show 1 ≤ (((W.buffer_incremented B).buffer_incremented B).buffer_ref o)
      rw [World.buffer_incremented_buffer_ref, World.buffer_incremented_buffer_ref]
      split_ifs at this ⊢ <;> omega
  · rw [if_neg hr, if_neg hr]
    rfl

/-- The statements of `swap_recorded_buffer` from `gm_buffer_ref(buffer)` for
the last-buffer slot to the end, for the depth kind. -/
theorem swap_recorded_buffer_tail_depth (B : Nat) (W : World) (req : Nat)
    (hreq : W.dev.frame_request_buffers_mask = req)
    (hr1 : 0 ≤ W.buffer_ref B)
    (hold : req &&& GM_REQUEST_FRAME_DEPTH ≠ 0 →
      ∀ o, W.dev.depth_buf_ready = some o → 1 ≤ W.buffer_ref o + (if o = B then 2 else 0)) :
    (do
      let referenced ← gm_buffer_ref B
      modify_world fun w => w.modify_dev fun d =>
        { d with recording := { d.recording with last_depth_buf := some referenced } }
      let w ← get_world
      if w.dev.frame_request_buffers_mask &&& GM_REQUEST_FRAME_DEPTH ≠ 0 then
        let old := w.dev.depth_buf_ready
        let referenced ← gm_buffer_ref B
        modify_world fun w => w.modify_dev fun d =>
          { d with
            depth_buf_ready := some referenced
            frame_ready_buffers_mask := d.frame_ready_buffers_mask ||| GM_REQUEST_FRAME_DEPTH }
        match old with
        | some old => gm_buffer_unref old
        | none => pure () : Prog Unit) W =
      .ok () (if req &&& GM_REQUEST_FRAME_DEPTH ≠ 0 then
        (W.last_set true B).ready_set true B else W.last_set true B) := by
  rw [Prog.bind_ok (gm_buffer_ref_ok B W hr1)]
  simp only [Prog.bind_apply, modify_world_apply, Res.and_then_ok, get_world_apply]
  have e2 : (World.modify_dev (W.buffer_incremented B) fun d =>
      { d with recording := { d.recording with last_depth_buf := some B } }) =
      W.last_set true B := by
    simp only [World.last_set, if_true]
  rw [e2]
  have hq2 : (W.last_set true B).dev.frame_request_buffers_mask = req := hreq
  rw [hq2]
  by_cases hr : req &&& GM_REQUEST_FRAME_DEPTH ≠ 0
  · rw [if_pos hr, if_pos hr]
    have hr2 : 0 ≤ (W.last_set true B).buffer_ref B := by
      show 0 ≤ (W.buffer_incremented B).buffer_ref B
      rw [World.buffer_incremented_buffer_ref]; simp; omega
    rw [Prog.bind_apply, gm_buffer_ref_ok B _ hr2, Res.and_then_ok]
    simp only [Prog.bind_apply, modify_world_apply, Res.and_then_ok]
    have ho2 : (W.last_set true B).dev.depth_buf_ready = W.dev.depth_buf_ready := rfl
    rcases ho : W.dev.depth_buf_ready with _ | o
    · rw [ho] at ho2
      simp only [World.ready_set, gm_device.ready_slot, if_true, ho2,
        Prog.pure_apply]
    · rw [ho] at ho2
      simp only [World.ready_set, gm_device.ready_slot, if_true, ho2]
      apply gm_buffer_unref_ok
      have := hold hr o ho
      show 1 ≤ (((W.buffer_incremented B).buffer_incremented B).buffer_ref o)
      rw [World.buffer_incremented_buffer_ref, World.buffer_incremented_buffer_ref]
      split_ifs at this ⊢ <;> omega
  · rw [if_neg hr, if_neg hr]
    rfl

theorem swap_recorded_buffer_eq (depth : Bool) (B : Nat) (intrinsics : gm_intrinsics)
    (w : World) (hw : 0 < intrinsics.width) (hh : 0 < intrinsics.height)
    (hlast : ∀ l, w.dev.last_buf depth = some l → 1 ≤ w.buffer_ref l)
    (hB : 0 ≤ w.buffer_ref B - (if w.dev.last_buf depth = some B then 1 else 0))
    (hold : w.dev.frame_request_buffers_mask &&& kind_bit depth ≠ 0 →
      ∀ o, w.dev.ready_slot depth = some o →
        1 ≤ w.buffer_ref o - (if w.dev.last_buf depth = some o then 1 else 0) +
          (if o = B then 2 else 0)) :
    swap_recorded_buffer depth B intrinsics w = .ok () (w.buffer_swapped depth B intrinsics) := by
  cases depth
  · simp only [gm_device.last_buf, gm_device.ready_slot, kind_bit, Bool.false_eq_true,
      if_false] at hlast hB hold
    simp only [swap_recorded_buffer, World.buffer_swapped, Bool.false_eq_true, if_false,
      Prog.bind_apply, modify_world_apply, Res.and_then_ok, gm_assert_apply, hw, hh,
      gt_iff_lt, decide_True, Bool.and_self, if_true, get_world_apply, kind_bit]
    have hWl : (World.modify_dev w fun d => { d with video_intrinsics := intrinsics }
      ).dev.recording.last_video_buf = w.dev.recording.last_video_buf := rfl
    have hWo : (World.modify_dev w fun d => { d with video_intrinsics := intrinsics }
      ).dev.video_buf_ready = w.dev.video_buf_ready := rfl
    have hWq : (World.modify_dev w fun d => { d with video_intrinsics := intrinsics }
      ).dev.frame_request_buffers_mask = w.dev.frame_request_buffers_mask := rfl
    have hWr : ∀ x, (World.modify_dev w fun d => { d with video_intrinsics := intrinsics }
      ).buffer_ref x = w.buffer_ref x := fun _ => rfl
    generalize (World.modify_dev w fun d => { d with video_intrinsics := intrinsics }) = W
      at hWl hWo hWq hWr ⊢
    rw [← hWl] at hlast hB hold
    rw [← hWo, ← hWq] at hold
    simp only [← hWr] at hlast hB hold
    rw [← hWq]
    clear hWl hWo hWq hWr
    rcases hl : W.dev.recording.last_video_buf with _ | l
    · have e1 : W.last_released false = W := by
        simp only [World.last_released, gm_device.last_buf, Bool.false_eq_true, if_false, hl]
      rw [e1]
      rw [hl] at hB hold
      simp only [Prog.bind_apply, Prog.pure_apply, Res.and_then_ok]
      refine swap_recorded_buffer_tail_video B W _ rfl (by simpa using hB) ?_
      intro hr o ho
      have := hold hr o ho
      simpa using this
    · have hu1 : 1 ≤ W.buffer_ref l := hlast l hl
      simp only [Prog.bind_apply]
      rw [gm_buffer_unref_ok l W hu1, Res.and_then_ok]
      have e1 : W.last_released false = W.buffer_unrefed l := by
        simp only [World.last_released, gm_device.last_buf, Bool.false_eq_true, if_false, hl]
      rw [e1]
      rw [hl] at hB hold
      simp only [Option.some.injEq] at hB hold
      refine swap_recorded_buffer_tail_video B (W.buffer_unrefed l) _
        (World.buffer_unrefed_frame_request_buffers_mask W l) ?_ ?_
      · rw [World.buffer_unrefed_buffer_ref]
        split_ifs at hB ⊢ <;> omega
      · intro hr o ho
        rw [World.buffer_unrefed_video_buf_ready] at ho
        have := hold hr o ho
        rw [World.buffer_unrefed_buffer_ref]
        split_ifs at this ⊢ <;> omega
  · simp only [gm_device.last_buf, gm_device.ready_slot, kind_bit, if_true] at hlast hB hold
    simp only [swap_recorded_buffer, World.buffer_swapped, if_true,
      Prog.bind_apply, modify_world_apply, Res.and_then_ok, gm_assert_apply, hw, hh,
      gt_iff_lt, decide_True, Bool.and_self, get_world_apply, kind_bit]
    have hWl : (World.modify_dev w fun d => { d with depth_intrinsics := intrinsics }
      ).dev.recording.last_depth_buf = w.dev.recording.last_depth_buf := rfl
    have hWo : (World.modify_dev w fun d => { d with depth_intrinsics := intrinsics }
      ).dev.depth_buf_ready = w.dev.depth_buf_ready := rfl
    have hWq : (World.modify_dev w fun d => { d with depth_intrinsics := intrinsics }
      ).dev.frame_request_buffers_mask = w.dev.frame_request_buffers_mask := rfl
    have hWr : ∀ x, (World.modify_dev w fun d => { d with depth_intrinsics := intrinsics }
      ).buffer_ref x = w.buffer_ref x := fun _ => rfl
    generalize (World.modify_dev w fun d => { d with depth_intrinsics := intrinsics }) = W
      at hWl hWo hWq hWr ⊢
    rw [← hWl] at hlast hB hold
    rw [← hWo, ← hWq] at hold
    simp only [← hWr] at hlast hB hold
    rw [← hWq]
    clear hWl hWo hWq hWr
    rcases hl : W.dev.recording.last_depth_buf with _ | l
    · have e1 : W.last_released true = W := by
        simp only [World.last_released, gm_device.last_buf, if_true, hl]
      rw [e1]
      rw [hl] at hB hold
      simp only [Prog.bind_apply, Prog.pure_apply, Res.and_then_ok]
      refine swap_recorded_buffer_tail_depth B W _ rfl (by simpa using hB) ?_
      intro hr o ho
      have := hold hr o ho
      simpa using this
    · have hu1 : 1 ≤ W.buffer_ref l := hlast l hl
      simp only [Prog.bind_apply]
      rw [gm_buffer_unref_ok l W hu1, Res.and_then_ok]
      have e1 : W.last_released true = W.buffer_unrefed l := by
        simp only [World.last_released, gm_device.last_buf, if_true, hl]
      rw [e1]
      rw [hl] at hB hold
      simp only [Option.some.injEq] at hB hold
      refine swap_recorded_buffer_tail_depth B (W.buffer_unrefed l) _
        (World.buffer_unrefed_frame_request_buffers_mask W l) ?_ ?_
      · rw [World.buffer_unrefed_buffer_ref]
        split_ifs at hB ⊢ <;> omega
      · intro hr o ho
        rw [World.buffer_unrefed_depth_buf_ready] at ho
        have := hold hr o ho
        rw [World.buffer_unrefed_buffer_ref]
        split_ifs at this ⊢ <;> omega

theorem World.last_released_buffer_ref (w : World) (depth : Bool) (x : Nat) :
    (w.last_released depth).buffer_ref x =
      w.buffer_ref x - if w.dev.last_buf depth = some x then 1 else 0 := by
  unfold World.last_released
  rcases h : w.dev.last_buf depth with _ | l
  · simp
  · simp only [World.buffer_unrefed_buffer_ref, Option.some.injEq]
    split_ifs <;> omega

theorem World.last_released_dev (w : World) (depth : Bool) :
    (w.last_released depth).dev.without_pools = w.dev.without_pools := by
  unfold World.last_released
  split
  · exact World.buffer_unrefed_dev _ _
  · rfl

theorem World.ready_set_buffer_ref (w : World) (depth : Bool) (B x : Nat) :
    (w.ready_set depth B).buffer_ref x =
      w.buffer_ref x + (if x = B then 1 else 0) -
        if w.dev.ready_slot depth = some x then 1 else 0 := by
  unfold World.ready_set
  rcases h : w.dev.ready_slot depth with _ | o
  · simp only [World.modify_dev_buffer_ref, World.buffer_incremented_buffer_ref]
    simp
  · simp only [World.buffer_unrefed_buffer_ref, World.modify_dev_buffer_ref,
      World.buffer_incremented_buffer_ref, Option.some.injEq]
    split_ifs <;> omega

theorem World.last_set_buffer_ref (w : World) (depth : Bool) (B x : Nat) :
    (w.last_set depth B).buffer_ref x = w.buffer_ref x + if x = B then 1 else 0 := by
  show (w.buffer_incremented B).buffer_ref x = _
  rw [World.buffer_incremented_buffer_ref]

theorem gm_device.ready_slot_of_without_pools {d d1 : gm_device}
    (h : d1.without_pools = d.without_pools) (depth : Bool) :
    d1.ready_slot depth = d.ready_slot depth := by
  have h1 := congrArg gm_device.depth_buf_ready h
  have h2 := congrArg gm_device.video_buf_ready h
  simp only [gm_device.without_pools] at h1 h2
  unfold gm_device.ready_slot
  rw [h1, h2]

theorem gm_device.last_buf_of_without_pools {d d1 : gm_device}
    (h : d1.without_pools = d.without_pools) (depth : Bool) :
    d1.last_buf depth = d.last_buf depth := by
  have h1 := congrArg gm_device.recording h
  simp only [gm_device.without_pools] at h1
  unfold gm_device.last_buf
  rw [h1]

theorem World.last_set_ready_slot (w : World) (depth : Bool) (B : Nat) (k : Bool) :
    (w.last_set depth B).dev.ready_slot k = w.dev.ready_slot k := by
  cases depth <;> rfl

theorem World.intrinsics_set_facts (w : World) (depth : Bool) (intrinsics : gm_intrinsics) :
    (∀ x, (World.modify_dev w fun d =>
        if depth = true then { d with depth_intrinsics := intrinsics }
        else { d with video_intrinsics := intrinsics }).buffer_ref x = w.buffer_ref x) ∧
    (∀ k, (World.modify_dev w fun d =>
        if depth = true then { d with depth_intrinsics := intrinsics }
        else { d with video_intrinsics := intrinsics }).dev.last_buf k = w.dev.last_buf k) ∧
    (∀ k, (World.modify_dev w fun d =>
        if depth = true then { d with depth_intrinsics := intrinsics }
        else { d with video_intrinsics := intrinsics }).dev.ready_slot k =
        w.dev.ready_slot k) := by
  cases depth <;> exact ⟨fun _ => rfl, fun _ => rfl, fun _ => rfl⟩

theorem World.buffer_swapped_buffer_ref (w : World) (depth : Bool) (B : Nat)
    (intrinsics : gm_intrinsics) (x : Nat) :
    (w.buffer_swapped depth B intrinsics).buffer_ref x =
      w.buffer_ref x + w.dev.swap_delta depth (some B) x := by
  obtain ⟨f1, f2, f3⟩ := World.intrinsics_set_facts w depth intrinsics
  unfold World.buffer_swapped gm_device.swap_delta
  simp only
  generalize (World.modify_dev w fun d =>
        if depth = true then { d with depth_intrinsics := intrinsics }
        else { d with video_intrinsics := intrinsics }) = W0 at f1 f2 f3 ⊢
  by_cases hr : w.dev.frame_request_buffers_mask &&& kind_bit depth ≠ 0
  · rw [if_pos hr, if_pos hr, World.ready_set_buffer_ref, World.last_set_buffer_ref,
      World.last_released_buffer_ref, World.last_set_ready_slot,
      gm_device.ready_slot_of_without_pools (World.last_released_dev W0 depth), f1, f2, f3]
    omega
  · rw [if_neg hr, if_neg hr, World.last_set_buffer_ref, World.last_released_buffer_ref,
      f1, f2]
    omega

theorem gm_device.without_pools_congr (f : gm_device → gm_device)
    (hf : ∀ d, (f d).without_pools = (f d.without_pools).without_pools) {d d1 : gm_device}
    (h : d1.without_pools = d.without_pools) : (f d1).without_pools = (f d).without_pools := by
  rw [hf d1, hf d, h]

theorem World.ready_set_dev (w : World) (depth : Bool) (B : Nat) :
    (w.ready_set depth B).dev.without_pools =
      (if depth then
        { w.dev with
          depth_buf_ready := some B
          frame_ready_buffers_mask :=
            w.dev.frame_ready_buffers_mask ||| GM_REQUEST_FRAME_DEPTH }
      else
        { w.dev with
          video_buf_ready := some B
          frame_ready_buffers_mask :=
            w.dev.frame_ready_buffers_mask ||| GM_REQUEST_FRAME_VIDEO } :
        gm_device).without_pools := by
  unfold World.ready_set
  split
  · rw [World.buffer_unrefed_dev]
    rfl
  · rfl

theorem World.buffer_swapped_dev (w : World) (depth : Bool) (B : Nat)
    (intrinsics : gm_intrinsics) :
    (w.buffer_swapped depth B intrinsics).dev.without_pools =
      (w.dev.buffer_swapped depth B intrinsics).without_pools := by
  have h0 := World.last_released_dev (World.modify_dev w fun d =>
        if depth = true then { d with depth_intrinsics := intrinsics }
        else { d with video_intrinsics := intrinsics }) depth
  unfold World.buffer_swapped gm_device.buffer_swapped
  simp only
  generalize (World.modify_dev w fun d =>
        if depth = true then { d with depth_intrinsics := intrinsics }
        else { d with video_intrinsics := intrinsics }).last_released depth = W1 at h0 ⊢
  cases depth
  · simp only [Bool.false_eq_true, if_false, kind_bit]
    by_cases hr : w.dev.frame_request_buffers_mask &&& GM_REQUEST_FRAME_VIDEO ≠ 0
    · rw [if_pos hr, if_pos hr, World.ready_set_dev]
      simp only [Bool.false_eq_true, if_false]
      exact gm_device.without_pools_congr
        (fun d => { d with
          recording := { d.recording with last_video_buf := some B }
          video_buf_ready := some B
          frame_ready_buffers_mask := d.frame_ready_buffers_mask ||| GM_REQUEST_FRAME_VIDEO })
        (fun _ => rfl) h0
    · rw [if_neg hr, if_neg hr]
      exact gm_device.without_pools_congr
        (fun d => { d with recording := { d.recording with last_video_buf := some B } })
        (fun _ => rfl) h0
  · simp only [if_true, kind_bit]
    by_cases hr : w.dev.frame_request_buffers_mask &&& GM_REQUEST_FRAME_DEPTH ≠ 0
    · rw [if_pos hr, if_pos hr, World.ready_set_dev]
      simp only [if_true]
      exact gm_device.without_pools_congr
        (fun d => { d with
          recording := { d.recording with last_depth_buf := some B }
          depth_buf_ready := some B
          frame_ready_buffers_mask := d.frame_ready_buffers_mask ||| GM_REQUEST_FRAME_DEPTH })
        (fun _ => rfl) h0
    · rw [if_neg hr, if_neg hr]
      exact gm_device.without_pools_congr
        (fun d => { d with recording := { d.recording with last_depth_buf := some B } })
        (fun _ => rfl) h0

theorem World.last_released_misc (w : World) (depth : Bool) :
    (w.last_released depth).frames = w.frames ∧ (w.last_released depth).events = w.events ∧
    (w.last_released depth).next_buffer = w.next_buffer := by
  unfold World.last_released
  split <;> simp

theorem World.ready_set_misc (w : World) (depth : Bool) (B : Nat) :
    (w.ready_set depth B).frames = w.frames ∧ (w.ready_set depth B).events = w.events ∧
    (w.ready_set depth B).next_buffer = w.next_buffer := by
  unfold World.ready_set
  split <;> simp [World.modify_dev, World.buffer_incremented, World.modify_buffer,
    World.set_buffer]

theorem World.buffer_swapped_misc (w : World) (depth : Bool) (B : Nat)
    (intrinsics : gm_intrinsics) :
    (w.buffer_swapped depth B intrinsics).frames = w.frames ∧
    (w.buffer_swapped depth B intrinsics).events = w.events ∧
    (w.buffer_swapped depth B intrinsics).next_buffer = w.next_buffer := by
  have h1 := World.last_released_misc (World.modify_dev w fun d =>
        if depth = true then { d with depth_intrinsics := intrinsics }
        else { d with video_intrinsics := intrinsics }) depth
  unfold World.buffer_swapped
  simp only
  generalize (World.modify_dev w fun d =>
        if depth = true then { d with depth_intrinsics := intrinsics }
        else { d with video_intrinsics := intrinsics }).last_released depth = W1 at h1 ⊢
  have h2 : (W1.last_set depth B).frames = w.frames ∧ (W1.last_set depth B).events = w.events ∧
      (W1.last_set depth B).next_buffer = w.next_buffer := h1
  split
  · obtain ⟨a, b, c⟩ := World.ready_set_misc (W1.last_set depth B) depth B
    exact ⟨a.trans h2.1, b.trans h2.2.1, c.trans h2.2.2⟩
  · exact h2

theorem gm_device.fields_of_without_pools {d d1 : gm_device}
    (h : d1.without_pools = d.without_pools) :
    d1.frame_request_buffers_mask = d.frame_request_buffers_mask ∧
    d1.frame_ready_buffers_mask = d.frame_ready_buffers_mask ∧
    d1.swap_buffers_lock = d.swap_buffers_lock ∧
    d1.request_buffers_mask_lock = d.request_buffers_mask_lock := by
  have h1 := congrArg gm_device.frame_request_buffers_mask h
  have h2 := congrArg gm_device.frame_ready_buffers_mask h
  have h3 := congrArg gm_device.swap_buffers_lock h
  have h4 := congrArg gm_device.request_buffers_mask_lock h
  exact ⟨h1, h2, h3, h4⟩

theorem gm_device.buffer_swapped_other (d : gm_device) (depth : Bool) (B : Nat)
    (intrinsics : gm_intrinsics) :
    (d.buffer_swapped depth B intrinsics).last_buf (!depth) = d.last_buf (!depth) ∧
    (d.buffer_swapped depth B intrinsics).ready_slot (!depth) = d.ready_slot (!depth) ∧
    (d.buffer_swapped depth B intrinsics).frame_request_buffers_mask =
      d.frame_request_buffers_mask ∧
    (d.buffer_swapped depth B intrinsics).swap_buffers_lock = d.swap_buffers_lock := by
  unfold gm_device.buffer_swapped
  cases depth <;> simp only [Bool.false_eq_true, if_false, if_true] <;> split <;>
    exact ⟨rfl, rfl, rfl, rfl⟩

theorem gm_device.buffer_swapped_same (d : gm_device) (depth : Bool) (B : Nat)
    (intrinsics : gm_intrinsics) :
    (d.buffer_swapped depth B intrinsics).last_buf depth = some B ∧
    (d.buffer_swapped depth B intrinsics).ready_slot depth =
      (if d.frame_request_buffers_mask &&& kind_bit depth ≠ 0 then some B
       else d.ready_slot depth) ∧
    (d.buffer_swapped depth B intrinsics).frame_ready_buffers_mask =
      (if d.frame_request_buffers_mask &&& kind_bit depth ≠ 0 then
        d.frame_ready_buffers_mask ||| kind_bit depth
       else d.frame_ready_buffers_mask) := by
  unfold gm_device.buffer_swapped
  cases depth <;> simp only [Bool.false_eq_true, if_false, if_true, kind_bit] <;> split <;>
    exact ⟨rfl, rfl, rfl⟩

theorem swap_recorded_frame_locked_eq (timestamp : Nat) (pose : gm_pose)
    (camera_rotation : Int) (depth_buffer : Option Nat) (depth_intrinsics : gm_intrinsics)
    (video_buffer : Option Nat) (video_intrinsics : gm_intrinsics) (w : World)
    (hd : depth_buffer ≠ none → 0 < depth_intrinsics.width ∧ 0 < depth_intrinsics.height)
    (hv : video_buffer ≠ none → 0 < video_intrinsics.width ∧ 0 < video_intrinsics.height)
    (h : w.swap_accounted depth_buffer video_buffer) :
    swap_recorded_frame_locked timestamp pose camera_rotation depth_buffer depth_intrinsics
      video_buffer video_intrinsics w =
      .ok () (w.frame_swapped timestamp pose camera_rotation depth_buffer depth_intrinsics
        video_buffer video_intrinsics) := by
  have e0 : (World.modify_dev
      (World.modify_dev w fun d => { d with swap_buffers_lock := true }) fun d =>
      { d with
        recording := { d.recording with last_camera_rotation := camera_rotation }
        camera_rotation := camera_rotation
        frame_time := timestamp
        frame_pose := pose }) = w.swap_begun timestamp pose camera_rotation := rfl
  simp only [swap_recorded_frame_locked, lock_swap_buffers, Prog.bind_apply,
    modify_world_apply, Res.and_then_ok, World.frame_swapped, e0]
  have b1 : ∀ x, (w.swap_begun timestamp pose camera_rotation).buffer_ref x = w.buffer_ref x :=
    fun _ => rfl
  have b2 : ∀ k, (w.swap_begun timestamp pose camera_rotation).dev.last_buf k =
      w.dev.last_buf k := fun k => by cases k <;> rfl
  have b3 : ∀ k, (w.swap_begun timestamp pose camera_rotation).dev.ready_slot k =
      w.dev.ready_slot k := fun k => by cases k <;> rfl
  have b4 : (w.swap_begun timestamp pose camera_rotation).dev.frame_request_buffers_mask =
      w.dev.frame_request_buffers_mask := rfl
  generalize w.swap_begun timestamp pose camera_rotation = W0 at b1 b2 b3 b4 ⊢
  unfold World.swap_accounted gm_device.slot_refs at h
  have hL : ∀ k, w.dev.last_buf k =
      if k then w.dev.recording.last_depth_buf else w.dev.recording.last_video_buf :=
    fun _ => rfl
  have hR : ∀ k, w.dev.ready_slot k =
      if k then w.dev.depth_buf_ready else w.dev.video_buf_ready := fun _ => rfl
  have stepv : ∀ W1 : World,
      (∀ x, W1.buffer_ref x = w.buffer_ref x + w.dev.swap_delta true depth_buffer x) →
      W1.dev.last_buf false = w.dev.last_buf false →
      W1.dev.ready_slot false = w.dev.ready_slot false →
      W1.dev.frame_request_buffers_mask = w.dev.frame_request_buffers_mask →
      (match video_buffer with
      | some buffer => swap_recorded_buffer false buffer video_intrinsics
      | none => (pure () : Prog Unit)) W1 =
      .ok () (W1.maybe_swapped false video_buffer video_intrinsics) := by
    intro W1 c1 c2 c3 c4
    cases video_buffer with
    | none => rfl
    | some B =>
      obtain ⟨hw, hh⟩ := hv (by simp)
      refine swap_recorded_buffer_eq false B video_intrinsics W1 hw hh ?_ ?_ ?_
      · intro l hl
        rw [c2, hL] at hl
        rw [c1]
        have := h l
        simp only [Bool.false_eq_true, if_false] at hl
        simp only [hl, if_true] at this
        unfold gm_device.swap_delta
        cases depth_buffer with
        | none => simp only; split_ifs at this <;> omega
        | some Bd =>
          simp only [hL, hR, if_true, Option.some.injEq] at this ⊢
          split_ifs at this ⊢ <;> omega
      · rw [c1, c2, hL]
        have := h B
        simp only [Bool.false_eq_true, if_false, or_true, if_true] at this ⊢
        unfold gm_device.swap_delta
        cases depth_buffer with
        | none => simp only; split_ifs at this ⊢ <;> omega
        | some Bd =>
          simp only [hL, hR, if_true, Option.some.injEq] at this ⊢
          split_ifs at this ⊢ <;> omega
      · intro hr o ho
        rw [c3, hR] at ho
        rw [c1, c2, hL]
        have := h o
        simp only [Bool.false_eq_true, if_false] at ho ⊢
        simp only [ho, if_true] at this
        unfold gm_device.swap_delta
        cases depth_buffer with
        | none => simp only; split_ifs at this ⊢ <;> omega
        | some Bd =>
          simp only [hL, hR, if_true, Option.some.injEq] at this ⊢
          split_ifs at this ⊢ <;> omega
  cases depth_buffer with
  | none =>
    simp only [Prog.bind_apply, Prog.pure_apply, Res.and_then_ok]
    exact stepv W0 (fun x => by simp [gm_device.swap_delta, b1]) (b2 _) (b3 _) b4
  | some B =>
    obtain ⟨hw, hh⟩ := hd (by simp)
    have step1 : swap_recorded_buffer true B depth_intrinsics W0 =
        .ok () (W0.buffer_swapped true B depth_intrinsics) := by
      refine swap_recorded_buffer_eq true B depth_intrinsics W0 hw hh ?_ ?_ ?_
      · intro l hl
        rw [b2, hL] at hl
        rw [b1]
        have := h l
        simp only [if_true] at hl
        simp only [hl, if_true] at this
        split_ifs at this <;> omega
      · rw [b1, b2, hL]
        have := h B
        simp only [if_true, true_or] at this ⊢
        split_ifs at this ⊢ <;> omega
      · intro hr o ho
        rw [b3, hR] at ho
        rw [b1, b2, hL]
        have := h o
        simp only [if_true] at ho ⊢
        simp only [ho, if_true] at this
        split_ifs at this ⊢ <;> omega
    simp only [Prog.bind_apply, step1, Res.and_then_ok]
    have e := World.buffer_swapped_dev W0 true B depth_intrinsics
    obtain ⟨o1, o2, o3, -⟩ := gm_device.buffer_swapped_other W0.dev true B depth_intrinsics
    refine stepv _ ?_ ?_ ?_ ?_
    · intro x
      rw [World.buffer_swapped_buffer_ref, b1]
      simp only [gm_device.swap_delta, b2, b3, b4]
    · exact (gm_device.last_buf_of_without_pools e false).trans (o1.trans (b2 _))
    · exact (gm_device.ready_slot_of_without_pools e false).trans (o2.trans (b3 _))
    · exact (gm_device.fields_of_without_pools e).1.trans (o3.trans b4)

theorem World.maybe_swapped_buffer_ref (w : World) (depth : Bool) (buffer : Option Nat)
    (intrinsics : gm_intrinsics) (x : Nat) :
    (w.maybe_swapped depth buffer intrinsics).buffer_ref x =
      w.buffer_ref x + w.dev.swap_delta depth buffer x := by
  cases buffer with
  | none => simp [World.maybe_swapped, gm_device.swap_delta]
  | some B => exact World.buffer_swapped_buffer_ref w depth B intrinsics x

theorem World.maybe_swapped_dev (w : World) (depth : Bool) (buffer : Option Nat)
    (intrinsics : gm_intrinsics) :
    (w.maybe_swapped depth buffer intrinsics).dev.without_pools =
      (w.dev.maybe_swapped depth buffer intrinsics).without_pools := by
  cases buffer with
  | none => rfl
  | some B => exact World.buffer_swapped_dev w depth B intrinsics

theorem World.maybe_swapped_misc (w : World) (depth : Bool) (buffer : Option Nat)
    (intrinsics : gm_intrinsics) :
    (w.maybe_swapped depth buffer intrinsics).frames = w.frames ∧
    (w.maybe_swapped depth buffer intrinsics).events = w.events ∧
    (w.maybe_swapped depth buffer intrinsics).next_buffer = w.next_buffer := by
  cases buffer with
  | none => exact ⟨rfl, rfl, rfl⟩
  | some B => exact World.buffer_swapped_misc w depth B intrinsics

theorem gm_device.buffer_swapped_without_pools (d : gm_device) (depth : Bool) (B : Nat)
    (intrinsics : gm_intrinsics) :
    (d.buffer_swapped depth B intrinsics).without_pools =
      (d.without_pools.buffer_swapped depth B intrinsics).without_pools := by
  unfold gm_device.buffer_swapped
  cases depth
  · simp only [Bool.false_eq_true, if_false]
    by_cases hr : d.frame_request_buffers_mask &&& GM_REQUEST_FRAME_VIDEO ≠ 0
    · have hr2 : d.without_pools.frame_request_buffers_mask &&& GM_REQUEST_FRAME_VIDEO ≠ 0 := hr
      rw [if_pos hr, if_pos hr2]; rfl
    · have hr2 : ¬ d.without_pools.frame_request_buffers_mask &&& GM_REQUEST_FRAME_VIDEO ≠ 0 :=
        hr
      rw [if_neg hr, if_neg hr2]; rfl
  · simp only [if_true]
    by_cases hr : d.frame_request_buffers_mask &&& GM_REQUEST_FRAME_DEPTH ≠ 0
    · have hr2 : d.without_pools.frame_request_buffers_mask &&& GM_REQUEST_FRAME_DEPTH ≠ 0 := hr
      rw [if_pos hr, if_pos hr2]; rfl
    · have hr2 : ¬ d.without_pools.frame_request_buffers_mask &&& GM_REQUEST_FRAME_DEPTH ≠ 0 :=
        hr
      rw [if_neg hr, if_neg hr2]; rfl

theorem gm_device.maybe_swapped_without_pools (d : gm_device) (depth : Bool)
    (buffer : Option Nat) (intrinsics : gm_intrinsics) :
    (d.maybe_swapped depth buffer intrinsics).without_pools =
      (d.without_pools.maybe_swapped depth buffer intrinsics).without_pools := by
  cases buffer with
  | none => rfl
  | some B => exact gm_device.buffer_swapped_without_pools d depth B intrinsics

theorem World.frame_swapped_dev (w : World) (timestamp : Nat) (pose : gm_pose)
    (camera_rotation : Int) (depth_buffer : Option Nat) (depth_intrinsics : gm_intrinsics)
    (video_buffer : Option Nat) (video_intrinsics : gm_intrinsics) :
    (w.frame_swapped timestamp pose camera_rotation depth_buffer depth_intrinsics
      video_buffer video_intrinsics).dev.without_pools =
    (w.dev.frame_swapped timestamp pose camera_rotation depth_buffer depth_intrinsics
      video_buffer video_intrinsics).without_pools := by
  unfold World.frame_swapped gm_device.frame_swapped
  rw [World.maybe_swapped_dev]
  exact gm_device.without_pools_congr
    (fun d => d.maybe_swapped false video_buffer video_intrinsics)
    (fun d => gm_device.maybe_swapped_without_pools d false video_buffer video_intrinsics)
    (World.maybe_swapped_dev _ true depth_buffer depth_intrinsics)

theorem gm_device.maybe_swapped_other (d : gm_device) (depth : Bool) (buffer : Option Nat)
    (intrinsics : gm_intrinsics) :
    (d.maybe_swapped depth buffer intrinsics).last_buf (!depth) = d.last_buf (!depth) ∧
    (d.maybe_swapped depth buffer intrinsics).ready_slot (!depth) = d.ready_slot (!depth) ∧
    (d.maybe_swapped depth buffer intrinsics).frame_request_buffers_mask =
      d.frame_request_buffers_mask ∧
    (d.maybe_swapped depth buffer intrinsics).swap_buffers_lock = d.swap_buffers_lock := by
  cases buffer with
  | none => exact ⟨rfl, rfl, rfl, rfl⟩
  | some B => exact gm_device.buffer_swapped_other d depth B intrinsics

theorem World.frame_swapped_buffer_ref (w : World) (timestamp : Nat) (pose : gm_pose)
    (camera_rotation : Int) (depth_buffer : Option Nat) (depth_intrinsics : gm_intrinsics)
    (video_buffer : Option Nat) (video_intrinsics : gm_intrinsics) (x : Nat) :
    (w.frame_swapped timestamp pose camera_rotation depth_buffer depth_intrinsics
      video_buffer video_intrinsics).buffer_ref x =
    w.buffer_ref x + w.dev.swap_delta true depth_buffer x +
      w.dev.swap_delta false video_buffer x := by
  unfold World.frame_swapped
  rw [World.maybe_swapped_buffer_ref, World.maybe_swapped_buffer_ref]
  have e := World.maybe_swapped_dev (w.swap_begun timestamp pose camera_rotation) true
    depth_buffer depth_intrinsics
  obtain ⟨o1, o2, o3, -⟩ := gm_device.maybe_swapped_other
    (w.swap_begun timestamp pose camera_rotation).dev true depth_buffer depth_intrinsics
  have l1 := (gm_device.last_buf_of_without_pools e false).trans o1
  have l2 := (gm_device.ready_slot_of_without_pools e false).trans o2
  have l3 := (gm_device.fields_of_without_pools e).1.trans o3
  have d1 : ∀ b, (w.swap_begun timestamp pose camera_rotation).dev.swap_delta true b x =
      w.dev.swap_delta true b x := fun b => by cases b <;> rfl
  have d2 : ((w.swap_begun timestamp pose camera_rotation).maybe_swapped true depth_buffer
      depth_intrinsics).dev.swap_delta false video_buffer x =
      w.dev.swap_delta false video_buffer x := by
    cases video_buffer with
    | none => rfl
    | some B =>
      unfold gm_device.swap_delta
      simp only
      rw [l1, l2, l3]
      rfl
  rw [d1, d2]
  rfl

/-- The ready mask the locked section of `swap_recorded_frame` leaves: the
bit of each kind that is requested and has a buffer passed is set. -/
theorem gm_device.frame_swapped_ready (d : gm_device) (timestamp : Nat) (pose : gm_pose)
    (camera_rotation : Int) (depth_buffer : Option Nat) (depth_intrinsics : gm_intrinsics)
    (video_buffer : Option Nat) (video_intrinsics : gm_intrinsics) :
    (d.frame_swapped timestamp pose camera_rotation depth_buffer depth_intrinsics
      video_buffer video_intrinsics).frame_ready_buffers_mask =
    (d.frame_ready_buffers_mask |||
      (if depth_buffer ≠ none ∧ d.frame_request_buffers_mask &&& GM_REQUEST_FRAME_DEPTH ≠ 0
        then GM_REQUEST_FRAME_DEPTH else 0)) |||
      (if video_buffer ≠ none ∧ d.frame_request_buffers_mask &&& GM_REQUEST_FRAME_VIDEO ≠ 0
        then GM_REQUEST_FRAME_VIDEO else 0) := by
  unfold gm_device.frame_swapped gm_device.maybe_swapped gm_device.buffer_swapped
  cases depth_buffer <;> cases video_buffer <;>
    simp only [ne_eq, not_true_eq_false, false_and, if_false, Nat.or_zero, if_true,
      Bool.false_eq_true, reduceCtorEq, not_false_eq_true, true_and] <;>
    split_ifs <;> simp_all

theorem gm_device.frame_swapped_fields (d : gm_device) (timestamp : Nat) (pose : gm_pose)
    (camera_rotation : Int) (depth_buffer : Option Nat) (depth_intrinsics : gm_intrinsics)
    (video_buffer : Option Nat) (video_intrinsics : gm_intrinsics) :
    (d.frame_swapped timestamp pose camera_rotation depth_buffer depth_intrinsics
      video_buffer video_intrinsics).swap_buffers_lock = true ∧
    (d.frame_swapped timestamp pose camera_rotation depth_buffer depth_intrinsics
      video_buffer video_intrinsics).request_buffers_mask_lock =
      d.request_buffers_mask_lock ∧
    (d.frame_swapped timestamp pose camera_rotation depth_buffer depth_intrinsics
      video_buffer video_intrinsics).frame_request_buffers_mask =
      d.frame_request_buffers_mask ∧
    (d.frame_swapped timestamp pose camera_rotation depth_buffer depth_intrinsics
      video_buffer video_intrinsics).running = d.running ∧
    (d.frame_swapped timestamp pose camera_rotation depth_buffer depth_intrinsics
      video_buffer video_intrinsics).recording.frame = d.recording.frame ∧
    (d.frame_swapped timestamp pose camera_rotation depth_buffer depth_intrinsics
      video_buffer video_intrinsics).recording.loop = d.recording.loop ∧
    (d.frame_swapped timestamp pose camera_rotation depth_buffer depth_intrinsics
      video_buffer video_intrinsics).recording.max_frame = d.recording.max_frame ∧
    (d.frame_swapped timestamp pose camera_rotation depth_buffer depth_intrinsics
      video_buffer video_intrinsics).recording.ignore_loop = d.recording.ignore_loop ∧
    (d.frame_swapped timestamp pose camera_rotation depth_buffer depth_intrinsics
      video_buffer video_intrinsics).frame_time = timestamp ∧
    (d.frame_swapped timestamp pose camera_rotation depth_buffer depth_intrinsics
      video_buffer video_intrinsics).frame_pose = pose ∧
    (d.frame_swapped timestamp pose camera_rotation depth_buffer depth_intrinsics
      video_buffer video_intrinsics).camera_rotation = camera_rotation := by
  unfold gm_device.frame_swapped gm_device.maybe_swapped gm_device.buffer_swapped
  cases depth_buffer <;> cases video_buffer <;>
    simp only [Bool.false_eq_true, if_false, if_true] <;>
    (try split_ifs) <;> (try simp only [and_self])

/-- The slots of one kind after the locked section of `swap_recorded_frame`:
with a buffer `B` of the kind passed, `B` is the last buffer and, if the kind
is requested, the ready buffer; with none passed both slots are as they
were. -/
theorem gm_device.frame_swapped_slots (d : gm_device) (timestamp : Nat) (pose : gm_pose)
    (camera_rotation : Int) (depth_buffer : Option Nat) (depth_intrinsics : gm_intrinsics)
    (video_buffer : Option Nat) (video_intrinsics : gm_intrinsics) (depth : Bool) :
    (d.frame_swapped timestamp pose camera_rotation depth_buffer depth_intrinsics
      video_buffer video_intrinsics).last_buf depth =
      (match (if depth then depth_buffer else video_buffer) with
        | some B => some B
        | none => d.last_buf depth) ∧
    (d.frame_swapped timestamp pose camera_rotation depth_buffer depth_intrinsics
      video_buffer video_intrinsics).ready_slot depth =
      (match (if depth then depth_buffer else video_buffer) with
        | some B =>
          if d.frame_request_buffers_mask &&& kind_bit depth ≠ 0 then some B
          else d.ready_slot depth
        | none => d.ready_slot depth) := by
  unfold gm_device.frame_swapped gm_device.maybe_swapped gm_device.buffer_swapped
    gm_device.last_buf gm_device.ready_slot kind_bit
  cases depth <;> cases depth_buffer <;> cases video_buffer <;>
    simp only [Bool.false_eq_true, if_false, if_true] <;>
    (try split_ifs) <;> (try simp only [and_self])

theorem World.notified_dev (w : World) : w.notified.dev = w.dev.notified := by
  unfold World.notified gm_device.notified
  split <;> rfl

theorem World.notified_events (w : World) :
    w.notified.events = w.events ++
      (if w.dev.frame_request_buffers_mask &&& w.dev.frame_ready_buffers_mask ≠ 0 then
        [⟨.GM_DEV_EVENT_FRAME_READY, w.dev.frame_ready_buffers_mask⟩] else []) := by
  unfold World.notified
  split <;> simp

theorem gm_device.notified_without_pools (d : gm_device) :
    d.notified.without_pools = d.without_pools.notified.without_pools := by
  unfold gm_device.notified
  by_cases h : d.frame_request_buffers_mask &&& d.frame_ready_buffers_mask ≠ 0
  · have h2 : d.without_pools.frame_request_buffers_mask &&&
        d.without_pools.frame_ready_buffers_mask ≠ 0 := h
    rw [if_pos h, if_pos h2]; rfl
  · have h2 : ¬ d.without_pools.frame_request_buffers_mask &&&
        d.without_pools.frame_ready_buffers_mask ≠ 0 := h
    rw [if_neg h, if_neg h2]; rfl

theorem swap_recorded_frame_eq (timestamp : Nat) (pose : gm_pose)
    (camera_rotation : Int) (depth_buffer : Option Nat) (depth_intrinsics : gm_intrinsics)
    (video_buffer : Option Nat) (video_intrinsics : gm_intrinsics) (w : World)
    (hd : depth_buffer ≠ none → 0 < depth_intrinsics.width ∧ 0 < depth_intrinsics.height)
    (hv : video_buffer ≠ none → 0 < video_intrinsics.width ∧ 0 < video_intrinsics.height)
    (h : w.swap_accounted depth_buffer video_buffer) :
    swap_recorded_frame timestamp pose camera_rotation depth_buffer depth_intrinsics
      video_buffer video_intrinsics w =
      .ok () (w.frame_swapped timestamp pose camera_rotation depth_buffer depth_intrinsics
        video_buffer video_intrinsics).notified := by
  unfold swap_recorded_frame
  rw [Prog.bind_apply, swap_recorded_frame_locked_eq timestamp pose camera_rotation depth_buffer
    depth_intrinsics video_buffer video_intrinsics w hd hv h, Res.and_then_ok,
    unlock_and_notify_eq]

/-- The device a returning `swap_recorded_frame` leaves is, the pools apart,
`gm_device.swap_recorded` of the device it found. -/
theorem World.swap_recorded_dev (w : World) (timestamp : Nat) (pose : gm_pose)
    (camera_rotation : Int) (depth_buffer : Option Nat) (depth_intrinsics : gm_intrinsics)
    (video_buffer : Option Nat) (video_intrinsics : gm_intrinsics) :
    (w.frame_swapped timestamp pose camera_rotation depth_buffer depth_intrinsics
      video_buffer video_intrinsics).notified.dev.without_pools =
    (w.dev.swap_recorded timestamp pose camera_rotation depth_buffer depth_intrinsics
      video_buffer video_intrinsics).without_pools := by
  rw [World.notified_dev]
  unfold gm_device.swap_recorded
  exact gm_device.without_pools_congr gm_device.notified gm_device.notified_without_pools
    (World.frame_swapped_dev w timestamp pose camera_rotation depth_buffer depth_intrinsics
      video_buffer video_intrinsics)

theorem World.live_or_free_unrefed (w : World) (x : Nat) (p : pool_id) (b : Nat)
    (h : w.live_or_free x p) : (w.buffer_unrefed b).live_or_free x p := by
  obtain ⟨hp, hq⟩ := h
  unfold World.live_or_free World.buffer_unrefed World.buffer_ref at *
  by_cases hb : b = x
  · subst hb
    by_cases h1 : (w.buffers b).base.ref = 1
    · rw [if_pos h1]
      cases p <;>
        simp [World.buffer_recycled, World.buffer_decremented, World.pool, World.set_pool,
          World.modify_buffer, World.set_buffer, hp]
    · rw [if_neg h1]
      refine ⟨by simp [World.buffer_decremented, World.modify_buffer, World.set_buffer, hp], ?_⟩
      rcases hq with hq | hq
      · left
        simp [World.buffer_decremented, World.modify_buffer, World.set_buffer]
        omega
      · right
        simpa [World.buffer_decremented, World.modify_buffer, World.set_buffer, World.pool]
          using hq
  · split
    · refine ⟨by simp [World.buffer_recycled, World.buffer_decremented, World.modify_buffer,
        World.set_buffer, World.set_pool, Function.update_noteq (Ne.symm hb), hp,
        apply_ite]; cases (w.buffers b).pool <;> simp [Function.update_noteq (Ne.symm hb), hp], ?_⟩
      rcases hq with hq | hq
      · left
        cases hpb : (w.buffers b).pool <;>
          simpa [World.buffer_recycled, World.buffer_decremented, World.modify_buffer,
            World.set_buffer, World.set_pool, Function.update_noteq (Ne.symm hb), hpb] using hq
      · right
        cases hpb : (w.buffers b).pool <;> cases p <;>
          simp [World.buffer_recycled, World.buffer_decremented, World.modify_buffer,
            World.set_buffer, World.set_pool, World.pool, hpb] at hq ⊢ <;>
          first | exact hq | exact Or.inr hq
    · refine ⟨by simp [World.buffer_decremented, World.modify_buffer, World.set_buffer,
        Function.update_noteq (Ne.symm hb), hp], ?_⟩
      rcases hq with hq | hq
      · left
        simpa [World.buffer_decremented, World.modify_buffer, World.set_buffer,
          Function.update_noteq (Ne.symm hb)] using hq
      · right
        simpa [World.buffer_decremented, World.modify_buffer, World.set_buffer, World.pool]
          using hq

theorem World.live_or_free_incremented (w : World) (x : Nat) (p : pool_id) (b : Nat)
    (h : w.live_or_free x p) : (w.buffer_incremented b).live_or_free x p := by
  obtain ⟨hp, hq⟩ := h
  unfold World.live_or_free World.buffer_ref at *
  by_cases hb : b = x
  · subst hb
    refine ⟨by simp [World.buffer_incremented, World.modify_buffer, World.set_buffer, hp], ?_⟩
    rcases hq with hq | hq
    · left
      simp [World.buffer_incremented, World.modify_buffer, World.set_buffer]
      omega
    · right
      simpa [World.buffer_incremented, World.modify_buffer, World.set_buffer, World.pool]
        using hq
  · refine ⟨by simp [World.buffer_incremented, World.modify_buffer, World.set_buffer,
      Function.update_noteq (Ne.symm hb), hp], ?_⟩
    rcases hq with hq | hq
    · left
      simpa [World.buffer_incremented, World.modify_buffer, World.set_buffer,
        Function.update_noteq (Ne.symm hb)] using hq
    · right
      simpa [World.buffer_incremented, World.modify_buffer, World.set_buffer, World.pool]
        using hq

theorem World.live_or_free_modify_dev (w : World) (x : Nat) (p : pool_id)
    (f : gm_device → gm_device)
    (hf : (f w.dev).video_buf_pool = w.dev.video_buf_pool ∧
      (f w.dev).depth_buf_pool = w.dev.depth_buf_pool ∧
      (f w.dev).frame_pool = w.dev.frame_pool)
    (h : w.live_or_free x p) : (w.modify_dev f).live_or_free x p := by
  obtain ⟨hp, hq⟩ := h
  refine ⟨hp, ?_⟩
  rcases hq with hq | hq
  · exact Or.inl hq
  · right
    have : (w.modify_dev f).pool p = w.pool p := by
      cases p
      · exact hf.1
      · exact hf.2.1
      · exact hf.2.2
    rw [this]
    exact hq

theorem World.live_or_free_buffer_swapped (w : World) (x : Nat) (p : pool_id) (depth : Bool)
    (B : Nat) (intrinsics : gm_intrinsics) (h : w.live_or_free x p) :
    (w.buffer_swapped depth B intrinsics).live_or_free x p := by
  have h1 : (World.modify_dev w fun d =>
      if depth = true then { d with depth_intrinsics := intrinsics }
      else { d with video_intrinsics := intrinsics }).live_or_free x p :=
    World.live_or_free_modify_dev w x p _ (by cases depth <;> exact ⟨rfl, rfl, rfl⟩) h
  have h2 : ((World.modify_dev w fun d =>
      if depth = true then { d with depth_intrinsics := intrinsics }
      else { d with video_intrinsics := intrinsics }).last_released depth).live_or_free x p := by
    unfold World.last_released
    split
    · exact World.live_or_free_unrefed _ x p _ h1
    · exact h1
  have h3 : (((World.modify_dev w fun d =>
      if depth = true then { d with depth_intrinsics := intrinsics }
      else { d with video_intrinsics := intrinsics }).last_released depth).last_set
        depth B).live_or_free x p := by
    unfold World.last_set
    exact World.live_or_free_modify_dev _ x p _ (by cases depth <;> exact ⟨rfl, rfl, rfl⟩)
      (World.live_or_free_incremented _ x p B h2)
  unfold World.buffer_swapped
  simp only
  split
  · unfold World.ready_set
    split
    · exact World.live_or_free_unrefed _ x p _
        (World.live_or_free_modify_dev _ x p _ (by cases depth <;> exact ⟨rfl, rfl, rfl⟩)
          (World.live_or_free_incremented _ x p B h3))
    · exact World.live_or_free_modify_dev _ x p _ (by cases depth <;> exact ⟨rfl, rfl, rfl⟩)
        (World.live_or_free_incremented _ x p B h3)
  · exact h3

/-- A buffer that was referenced before the locked section of
`swap_recorded_frame` and has count 0 at its end is on the free list of its
pool: it was recycled while `swap_buffers_lock` was held. -/
theorem World.frame_swapped_recycled (w : World) (timestamp : Nat) (pose : gm_pose)
    (camera_rotation : Int) (depth_buffer : Option Nat) (depth_intrinsics : gm_intrinsics)
    (video_buffer : Option Nat) (video_intrinsics : gm_intrinsics) (x : Nat)
    (h1 : 1 ≤ w.buffer_ref x)
    (h0 : (w.frame_swapped timestamp pose camera_rotation depth_buffer depth_intrinsics
      video_buffer video_intrinsics).buffer_ref x = 0) :
    x ∈ ((w.frame_swapped timestamp pose camera_rotation depth_buffer depth_intrinsics
      video_buffer video_intrinsics).pool (w.buffers x).pool).available := by
  have q0 : (w.swap_begun timestamp pose camera_rotation).live_or_free x (w.buffers x).pool :=
    ⟨rfl, Or.inl h1⟩
  have q1 : ((w.swap_begun timestamp pose camera_rotation).maybe_swapped true depth_buffer
      depth_intrinsics).live_or_free x (w.buffers x).pool := by
    cases depth_buffer with
    | none => exact q0
    | some B => exact World.live_or_free_buffer_swapped _ x _ true B depth_intrinsics q0
  have q2 : (w.frame_swapped timestamp pose camera_rotation depth_buffer depth_intrinsics
      video_buffer video_intrinsics).live_or_free x (w.buffers x).pool := by
    unfold World.frame_swapped
    cases video_buffer with
    | none => exact q1
    | some B => exact World.live_or_free_buffer_swapped _ x _ false B video_intrinsics q1
  rcases q2.2 with q | q
  · omega
  · exact q

theorem or_other_and_kind (r : Nat) (depth : Bool) :
    (r ||| kind_bit (!depth)) &&& kind_bit depth = r &&& kind_bit depth := by
  apply Nat.eq_of_testBit_eq
  intro i
  simp only [Nat.testBit_and, Nat.testBit_or]
  have h : ((kind_bit (!depth)).testBit i && (kind_bit depth).testBit i) = false := by
    have := congrArg (fun n => n.testBit i)
      (show kind_bit (!depth) &&& kind_bit depth = 0 by cases depth <;> decide)
    simp only [Nat.testBit_and, Nat.zero_testBit] at this
    exact this
  cases hr : r.testBit i <;> cases ha : (kind_bit (!depth)).testBit i <;>
    cases hb : (kind_bit depth).testBit i <;> simp_all

theorem or_right_comm3 (a b c : Nat) : (a ||| b) ||| c = (a ||| c) ||| b := by
  rw [Nat.or_assoc, Nat.or_comm b c, ← Nat.or_assoc]

theorem and_not64_and_bit (r m k : Nat) (hk : k < 2 ^ 64) (h : m &&& k = k) :
    (r &&& not64 m) &&& k = 0 := by
  apply Nat.eq_of_testBit_eq
  intro i
  have h1 := congrArg (fun n => n.testBit i) h
  simp only [Nat.testBit_and] at h1
  simp only [Nat.testBit_and, testBit_not64, Nat.zero_testBit]
  cases hki : k.testBit i
  · simp
  · have := testBit_lt_64 hk hki
    rw [hki] at h1
    simp only [Bool.and_true] at h1
    simp [this, h1]

theorem and_ne_zero_of_bit (r m k : Nat) (h : r &&& k ≠ 0) (hm : m &&& k = k) :
    r &&& m ≠ 0 := by
  intro h0
  apply h
  apply Nat.eq_of_testBit_eq
  intro i
  have h1 := congrArg (fun n => n.testBit i) h0
  have h2 := congrArg (fun n => n.testBit i) hm
  simp only [Nat.testBit_and, Nat.zero_testBit] at h1 h2 ⊢
  cases hr : r.testBit i <;> cases hk : k.testBit i <;> cases hmi : m.testBit i <;> simp_all

theorem or_and_self (m k : Nat) : (m ||| k) &&& k = k := by
  apply Nat.eq_of_testBit_eq
  intro i
  simp only [Nat.testBit_and, Nat.testBit_or]
  cases m.testBit i <;> cases k.testBit i <;> rfl

/-- The bit of one kind in the ready mask after the locked section of
`swap_recorded_frame`: set if a buffer of the kind was passed and the kind is
requested, as it was otherwise. -/
theorem gm_device.frame_swapped_ready_kind (d : gm_device) (timestamp : Nat) (pose : gm_pose)
    (camera_rotation : Int) (depth_buffer : Option Nat) (depth_intrinsics : gm_intrinsics)
    (video_buffer : Option Nat) (video_intrinsics : gm_intrinsics) (depth : Bool) :
    ((if depth then depth_buffer else video_buffer) ≠ none →
      d.frame_request_buffers_mask &&& kind_bit depth ≠ 0 →
      (d.frame_swapped timestamp pose camera_rotation depth_buffer depth_intrinsics
        video_buffer video_intrinsics).frame_ready_buffers_mask &&& kind_bit depth =
        kind_bit depth) ∧
    (((if depth then depth_buffer else video_buffer) = none ∨
      d.frame_request_buffers_mask &&& kind_bit depth = 0) →
      (d.frame_swapped timestamp pose camera_rotation depth_buffer depth_intrinsics
        video_buffer video_intrinsics).frame_ready_buffers_mask &&& kind_bit depth =
        d.frame_ready_buffers_mask &&& kind_bit depth) := by
  rw [gm_device.frame_swapped_ready]
  have k1 : kind_bit true = GM_REQUEST_FRAME_DEPTH := rfl
  have k2 : kind_bit false = GM_REQUEST_FRAME_VIDEO := rfl
  have z : ∀ r k : Nat, (r ||| 0) &&& k = r &&& k := fun r k => by rw [Nat.or_zero]
  have o1 := or_other_and_kind
  have o2 := or_and_self
  cases depth
  · simp only [Bool.false_eq_true, if_false, k2]
    refine ⟨fun hb hr => ?_, fun hn => ?_⟩
    · have hc : video_buffer ≠ none ∧
          d.frame_request_buffers_mask &&& GM_REQUEST_FRAME_VIDEO ≠ 0 := ⟨hb, hr⟩
      rw [if_pos hc]
      exact o2 _ _
    · have hc : ¬ (video_buffer ≠ none ∧
          d.frame_request_buffers_mask &&& GM_REQUEST_FRAME_VIDEO ≠ 0) := by
        rintro ⟨a, b⟩; rcases hn with hn | hn <;> contradiction
      rw [if_neg hc, Nat.or_zero]
      split_ifs
      · exact o1 _ false
      · rw [Nat.or_zero]
  · simp only [if_true, k1]
    refine ⟨fun hb hr => ?_, fun hn => ?_⟩
    · have hc : depth_buffer ≠ none ∧
          d.frame_request_buffers_mask &&& GM_REQUEST_FRAME_DEPTH ≠ 0 := ⟨hb, hr⟩
      rw [if_pos hc, or_right_comm3]
      exact o2 _ _
    · have hc : ¬ (depth_buffer ≠ none ∧
          d.frame_request_buffers_mask &&& GM_REQUEST_FRAME_DEPTH ≠ 0) := by
        rintro ⟨a, b⟩; rcases hn with hn | hn <;> contradiction
      rw [if_neg hc, Nat.or_zero]
      split_ifs
      · exact o1 _ true
      · rw [Nat.or_zero]

/-- What a returning `swap_recorded_frame` leaves, in terms of the world `w`
it was called in. -/
theorem World.swap_recorded_facts (w : World) (timestamp : Nat) (pose : gm_pose)
    (camera_rotation : Int) (depth_buffer : Option Nat) (depth_intrinsics : gm_intrinsics)
    (video_buffer : Option Nat) (video_intrinsics : gm_intrinsics) (w1 : World)
    (e : w1 = (w.frame_swapped timestamp pose camera_rotation depth_buffer depth_intrinsics
      video_buffer video_intrinsics).notified) :
    (∀ x, w1.buffer_ref x = w.buffer_ref x + w.dev.swap_delta true depth_buffer x +
      w.dev.swap_delta false video_buffer x) ∧
    w1.dev.frame_ready_buffers_mask =
      (w.dev.frame_ready_buffers_mask |||
        (if depth_buffer ≠ none ∧ w.dev.frame_request_buffers_mask &&& GM_REQUEST_FRAME_DEPTH ≠ 0
          then GM_REQUEST_FRAME_DEPTH else 0)) |||
        (if video_buffer ≠ none ∧ w.dev.frame_request_buffers_mask &&& GM_REQUEST_FRAME_VIDEO ≠ 0
          then GM_REQUEST_FRAME_VIDEO else 0) ∧
    w1.dev.frame_request_buffers_mask =
      (if w.dev.frame_request_buffers_mask &&& w1.dev.frame_ready_buffers_mask ≠ 0 then
        w.dev.frame_request_buffers_mask &&& not64 w1.dev.frame_ready_buffers_mask
      else w.dev.frame_request_buffers_mask) ∧
    w1.events = w.events ++
      (if w.dev.frame_request_buffers_mask &&& w1.dev.frame_ready_buffers_mask ≠ 0 then
        [⟨.GM_DEV_EVENT_FRAME_READY, w1.dev.frame_ready_buffers_mask⟩] else []) ∧
    (∀ depth, w1.dev.last_buf depth =
      (match (if depth then depth_buffer else video_buffer) with
        | some B => some B
        | none => w.dev.last_buf depth)) ∧
    (∀ depth, w1.dev.ready_slot depth =
      (match (if depth then depth_buffer else video_buffer) with
        | some B =>
          if w.dev.frame_request_buffers_mask &&& kind_bit depth ≠ 0 then some B
          else w.dev.ready_slot depth
        | none => w.dev.ready_slot depth)) ∧
    (∀ depth, (if depth then depth_buffer else video_buffer) ≠ none →
      w.dev.frame_request_buffers_mask &&& kind_bit depth ≠ 0 →
      w1.dev.frame_ready_buffers_mask &&& kind_bit depth = kind_bit depth) ∧
    (∀ depth, ((if depth then depth_buffer else video_buffer) = none ∨
      w.dev.frame_request_buffers_mask &&& kind_bit depth = 0) →
      w1.dev.frame_ready_buffers_mask &&& kind_bit depth =
        w.dev.frame_ready_buffers_mask &&& kind_bit depth) ∧
    w1.frames = w.frames ∧ w1.dev.swap_buffers_lock = false := by
  subst e
  have hdev := World.frame_swapped_dev w timestamp pose camera_rotation depth_buffer
    depth_intrinsics video_buffer video_intrinsics
  obtain ⟨g1, g2, -, -⟩ := gm_device.fields_of_without_pools hdev
  obtain ⟨f1, f2, f3, -⟩ := gm_device.frame_swapped_fields w.dev timestamp pose camera_rotation
    depth_buffer depth_intrinsics video_buffer video_intrinsics
  have hrd := gm_device.frame_swapped_ready w.dev timestamp pose camera_rotation
    depth_buffer depth_intrinsics video_buffer video_intrinsics
  have hk := gm_device.frame_swapped_ready_kind w.dev timestamp pose camera_rotation
    depth_buffer depth_intrinsics video_buffer video_intrinsics
  have hs := gm_device.frame_swapped_slots w.dev timestamp pose camera_rotation
    depth_buffer depth_intrinsics video_buffer video_intrinsics
  have hc := World.frame_swapped_buffer_ref w timestamp pose camera_rotation depth_buffer
    depth_intrinsics video_buffer video_intrinsics
  have hm1 := World.maybe_swapped_misc (w.swap_begun timestamp pose camera_rotation) true
    depth_buffer depth_intrinsics
  have hm2 := World.maybe_swapped_misc ((w.swap_begun timestamp pose camera_rotation).maybe_swapped
    true depth_buffer depth_intrinsics) false video_buffer video_intrinsics
  have hfr : (w.frame_swapped timestamp pose camera_rotation depth_buffer depth_intrinsics
      video_buffer video_intrinsics).frames = w.frames := hm2.1.trans hm1.1
  have hev : (w.frame_swapped timestamp pose camera_rotation depth_buffer depth_intrinsics
      video_buffer video_intrinsics).events = w.events := hm2.2.1.trans hm1.2.1
  rw [← g2] at hk hrd
  generalize w.frame_swapped timestamp pose camera_rotation depth_buffer depth_intrinsics
    video_buffer video_intrinsics = W at *
  have hn := W.notified_ready
  have hrq : W.dev.frame_request_buffers_mask = w.dev.frame_request_buffers_mask :=
    g1.trans f3
  refine ⟨fun x => ?_, ?_, ?_, ?_, fun depth => ?_, fun depth => ?_, fun depth hb hr => ?_,
    fun depth hb => ?_, ?_, W.notified_unlocked⟩
  · show (W.notified.buffers x).base.ref = _
    rw [W.notified_buffers]
    exact hc x
  · rw [hn.1]; exact hrd
  · rw [hn.1, ← hrq]
    unfold World.notified
    split <;> rfl
  · rw [W.notified_events, hn.1, hrq, hev]
  · have : W.notified.dev.last_buf depth = W.dev.last_buf depth := by
      unfold World.notified; split <;> rfl
    rw [this, gm_device.last_buf_of_without_pools hdev depth]
    exact (hs depth).1
  · have : W.notified.dev.ready_slot depth = W.dev.ready_slot depth := by
      unfold World.notified; split <;> rfl
    rw [this, gm_device.ready_slot_of_without_pools hdev depth]
    exact (hs depth).2
  · rw [hn.1]; exact (hk depth).1 hb hr
  · rw [hn.1]; exact (hk depth).2 hb
  · rw [hn.2.2.2.2.2.2]; exact hfr

/-- Counterexample to C17.  In `ready_last_world` depth is requested and
buffer 2 is the ready depth buffer and also the recording's last depth buffer
(count 2); `swap_recorded_frame` with depth buffer 4 returns and leaves the
count of buffer 2, the previous ready buffer, at 0: it was decremented twice,
not once.  In `video_wanted_world` depth is not requested, video is, and the
ready mask is 0; `swap_recorded_frame` with depth buffer 0 and video buffer 1
returns with the ready mask at 2: the ready mask has changed although the
kind of buffer 0 is not in the request mask. -/
theorem C17_counterexample :
    ready_last_world.dev.frame_request_buffers_mask &&& GM_REQUEST_FRAME_DEPTH ≠ 0 ∧
    ready_last_world.dev.depth_buf_ready = some 2 ∧
    ready_last_world.buffer_ref 2 = 2 ∧
    (swap_recorded_frame 2000 ⟨true, [], []⟩ 0 (some 4) ⟨2, 2, []⟩ none ⟨2, 2, []⟩
      ready_last_world).value? = some () ∧
    (swap_recorded_frame 2000 ⟨true, [], []⟩ 0 (some 4) ⟨2, 2, []⟩ none ⟨2, 2, []⟩
      ready_last_world).world.dev.depth_buf_ready = some 4 ∧
    (swap_recorded_frame 2000 ⟨true, [], []⟩ 0 (some 4) ⟨2, 2, []⟩ none ⟨2, 2, []⟩
      ready_last_world).world.buffer_ref 2 = 0 ∧
    video_wanted_world.dev.frame_request_buffers_mask &&& GM_REQUEST_FRAME_DEPTH = 0 ∧
    video_wanted_world.dev.frame_ready_buffers_mask = 0 ∧
    (swap_recorded_frame 2000 ⟨true, [], []⟩ 0 (some 0) ⟨2, 2, []⟩ (some 1) ⟨2, 2, []⟩
      video_wanted_world).value? = some () ∧
    (swap_recorded_frame 2000 ⟨true, [], []⟩ 0 (some 0) ⟨2, 2, []⟩ (some 1) ⟨2, 2, []⟩
      video_wanted_world).world.dev.frame_ready_buffers_mask = 2 ∧
    (swap_recorded_frame 2000 ⟨true, [], []⟩ 0 (some 0) ⟨2, 2, []⟩ (some 1) ⟨2, 2, []⟩
      video_wanted_world).world.events = [⟨.GM_DEV_EVENT_FRAME_READY, 2⟩] := by
  refine ⟨by decide, ?_, ?_, ?_, ?_, ?_, ?_, ?_, ?_, ?_, ?_⟩ <;> rfl

/-- C17 as amended: `swap_recorded_frame`, called with a depth buffer, a video
buffer or both, each with intrinsics of positive width and height, in a world
whose counts cover the device's slots and the caller's references, returns.
Afterwards the count of every buffer `x` has changed by `swap_delta` for each
kind: one more for each slot that came to point to `x`, one less for each slot
overwritten that pointed to `x`.  For each kind K with a buffer `B`: `B` is
the recording's last buffer of K; if K is requested, `B` is the ready buffer
of K, K is set in the ready mask, one `FRAME_READY` event carrying the ready
mask has been delivered and K is no longer requested; if K is not requested,
the ready slot of K and the bit of K in the ready mask are unchanged.  The
ready mask is the old one with the bit of each requested kind that has a
buffer.  In a call with one buffer `B` that is not yet the last buffer of its
kind: if K is requested and `B` is not the ready buffer, the count of `B` has
grown by two and a previous ready buffer has lost one reference, or two if it
was also the last buffer; if K is not requested the count of `B` has grown by
one. -/
theorem C17_swap_recorded_frame (timestamp : Nat) (pose : gm_pose) (camera_rotation : Int)
    (depth_buffer : Option Nat) (depth_intrinsics : gm_intrinsics)
    (video_buffer : Option Nat) (video_intrinsics : gm_intrinsics) (w : World)
    (hd : depth_buffer ≠ none → 0 < depth_intrinsics.width ∧ 0 < depth_intrinsics.height)
    (hv : video_buffer ≠ none → 0 < video_intrinsics.width ∧ 0 < video_intrinsics.height)
    (h : w.swap_accounted depth_buffer video_buffer) :
    ∃ w1, swap_recorded_frame timestamp pose camera_rotation depth_buffer depth_intrinsics
        video_buffer video_intrinsics w = .ok () w1 ∧
      (∀ x, w1.buffer_ref x = w.buffer_ref x + w.dev.swap_delta true depth_buffer x +
        w.dev.swap_delta false video_buffer x) ∧
      (∀ depth B, (if depth then depth_buffer else video_buffer) = some B →
        w1.dev.last_buf depth = some B ∧
        (w.dev.frame_request_buffers_mask &&& kind_bit depth ≠ 0 →
          w1.dev.ready_slot depth = some B ∧
          w1.dev.frame_ready_buffers_mask &&& kind_bit depth = kind_bit depth ∧
          w1.events = w.events ++
            [⟨.GM_DEV_EVENT_FRAME_READY, w1.dev.frame_ready_buffers_mask⟩] ∧
          w1.dev.frame_request_buffers_mask &&& kind_bit depth = 0) ∧
        (w.dev.frame_request_buffers_mask &&& kind_bit depth = 0 →
          w1.dev.ready_slot depth = w.dev.ready_slot depth ∧
          w1.dev.frame_ready_buffers_mask &&& kind_bit depth =
            w.dev.frame_ready_buffers_mask &&& kind_bit depth)) ∧
      w1.dev.frame_ready_buffers_mask =
        (w.dev.frame_ready_buffers_mask |||
          (if depth_buffer ≠ none ∧
              w.dev.frame_request_buffers_mask &&& GM_REQUEST_FRAME_DEPTH ≠ 0
            then GM_REQUEST_FRAME_DEPTH else 0)) |||
          (if video_buffer ≠ none ∧
              w.dev.frame_request_buffers_mask &&& GM_REQUEST_FRAME_VIDEO ≠ 0
            then GM_REQUEST_FRAME_VIDEO else 0) ∧
      (∀ depth B, (if depth then depth_buffer else video_buffer) = some B →
        (if depth then video_buffer else depth_buffer) = none →
        w.dev.last_buf depth ≠ some B →
        (w.dev.frame_request_buffers_mask &&& kind_bit depth ≠ 0 →
          w.dev.ready_slot depth ≠ some B →
          w1.buffer_ref B = w.buffer_ref B + 2 ∧
          ∀ o, w.dev.ready_slot depth = some o →
            w1.buffer_ref o =
              w.buffer_ref o - (if w.dev.last_buf depth = some o then 2 else 1)) ∧
        (w.dev.frame_request_buffers_mask &&& kind_bit depth = 0 →
          w1.buffer_ref B = w.buffer_ref B + 1)) := by
  obtain ⟨c, r, q, ev, l, s, b1, b0, -, -⟩ := World.swap_recorded_facts w timestamp pose
    camera_rotation depth_buffer depth_intrinsics video_buffer video_intrinsics _ rfl
  refine ⟨_, swap_recorded_frame_eq timestamp pose camera_rotation depth_buffer
    depth_intrinsics video_buffer video_intrinsics w hd hv h, c, ?_, r, ?_⟩
  · intro depth B hb
    refine ⟨by rw [l depth, hb], fun hr => ?_, fun hr => ?_⟩
    · have hbit := b1 depth (by rw [hb]; simp) hr
      have hne := and_ne_zero_of_bit _ _ _ hr hbit
      refine ⟨by rw [s depth, hb]; simp only; rw [if_pos hr], hbit, ?_, ?_⟩
      · rw [ev, if_pos hne]
      · rw [q, if_pos hne]
        exact and_not64_and_bit _ _ _ (kind_bit_lt depth) hbit
    · exact ⟨by rw [s depth, hb]; simp only; rw [if_neg (not_not.mpr hr)],
        b0 depth (Or.inr hr)⟩
  · intro depth B hb hother hl
    have hcB := c B
    cases depth
    · simp only [Bool.false_eq_true, if_false] at hb hother
      subst hb hother
      refine ⟨fun hr hrs => ⟨?_, fun o ho => ?_⟩, fun hr => ?_⟩
      · rw [hcB]
        simp only [gm_device.swap_delta, if_pos hr, if_neg hl, if_neg hrs, eq_self_iff_true,
          if_true]
        omega
      · have hoB : o ≠ B := fun e => hrs (by rw [ho, e])
        rw [c o]
        simp only [gm_device.swap_delta, if_pos hr, ho, if_neg hoB, if_true]
        split_ifs <;> omega
      · rw [hcB]
        simp only [gm_device.swap_delta, if_neg (not_not.mpr hr), if_neg hl, eq_self_iff_true,
          if_true]
        omega
    · simp only [if_true] at hb hother
      subst hb hother
      refine ⟨fun hr hrs => ⟨?_, fun o ho => ?_⟩, fun hr => ?_⟩
      · rw [hcB]
        simp only [gm_device.swap_delta, if_pos hr, if_neg hl, if_neg hrs, eq_self_iff_true,
          if_true]
        omega
      · have hoB : o ≠ B := fun e => hrs (by rw [ho, e])
        rw [c o]
        simp only [gm_device.swap_delta, if_pos hr, ho, if_neg hoB, if_true]
        split_ifs <;> omega
      · rw [hcB]
        simp only [gm_device.swap_delta, if_neg (not_not.mpr hr), if_neg hl, eq_self_iff_true,
          if_true]
        omega

theorem ready_last_world_accounted : ready_last_world.swap_accounted (some 4) none := by
  intro x
  have hx : x = 0 ∨ x = 1 ∨ x = 2 ∨ x = 3 ∨ x = 4 ∨ 5 ≤ x := by omega
  rcases hx with rfl | rfl | rfl | rfl | rfl | hx
  · decide
  · decide
  · decide
  · decide
  · decide
  · have e : ready_last_world.buffer_ref x = 0 := by
      simp only [World.buffer_ref, ready_last_world, replaying_world, capturing_world]
      rw [if_neg (by omega), if_neg (by omega), if_neg (by omega), if_neg (by omega),
        if_neg (by omega), if_neg (by omega), if_neg (by omega)]
    have s : ready_last_world.dev.slot_refs x = 0 := by
      simp only [gm_device.slot_refs, ready_last_world, replaying_world, capturing_device,
        opened_device]
      simp
      omega
    rw [e, s]
    simp
    omega

theorem C17_swap_recorded_frame_witness :
    ready_last_world.swap_accounted (some 4) none ∧
    ∃ w1, swap_recorded_frame 2000 ⟨true, [], []⟩ 0 (some 4) ⟨2, 2, []⟩ none ⟨2, 2, []⟩
        ready_last_world = .ok () w1 ∧
      w1.dev.recording.last_depth_buf = some 4 ∧ w1.dev.depth_buf_ready = some 4 ∧
      w1.dev.frame_ready_buffers_mask = 3 ∧ w1.buffer_ref 4 = 3 ∧ w1.buffer_ref 2 = 0 ∧
      w1.events = [⟨.GM_DEV_EVENT_FRAME_READY, 3⟩] ∧
      w1.dev.frame_request_buffers_mask &&& GM_REQUEST_FRAME_DEPTH = 0 := by
  obtain ⟨w1, h, hc, hk, hm, hp⟩ := C17_swap_recorded_frame 2000 ⟨true, [], []⟩ 0 (some 4)
    ⟨2, 2, []⟩ none ⟨2, 2, []⟩ ready_last_world (fun _ => by decide) (fun hn => absurd rfl hn)
    ready_last_world_accounted
  obtain ⟨k1, k2, -⟩ := hk true 4 rfl
  obtain ⟨k3, -, k5, k6⟩ := k2 (by decide)
  obtain ⟨p1, -⟩ := hp true 4 rfl rfl (by decide)
  obtain ⟨p2, p3⟩ := p1 (by decide) (by decide)
  have hm3 : w1.dev.frame_ready_buffers_mask = 3 := hm
  refine ⟨ready_last_world_accounted, w1, h, k1, k3, hm3, p2, p3 2 rfl, ?_, k6⟩
  rw [k5, hm3]
  rfl

/-! ## Producers: data that is not wanted -/

theorem swap_recorded_frame_not_requested (timestamp : Nat) (pose : gm_pose)
    (camera_rotation : Int) (depth_buffer : Option Nat) (depth_intrinsics : gm_intrinsics)
    (video_buffer : Option Nat) (video_intrinsics : gm_intrinsics) (w : World)
    (depth : Bool) (B : Nat)
    (hb : (if depth then depth_buffer else video_buffer) = some B)
    (hd : depth_buffer ≠ none → 0 < depth_intrinsics.width ∧ 0 < depth_intrinsics.height)
    (hv : video_buffer ≠ none → 0 < video_intrinsics.width ∧ 0 < video_intrinsics.height)
    (h : w.swap_accounted depth_buffer video_buffer)
    (hr : w.dev.frame_request_buffers_mask &&& kind_bit depth = 0) :
    ∃ w1, swap_recorded_frame timestamp pose camera_rotation depth_buffer depth_intrinsics
        video_buffer video_intrinsics w = .ok () w1 ∧
      w1.dev.ready_slot depth = w.dev.ready_slot depth ∧
      w1.dev.frame_ready_buffers_mask &&& kind_bit depth =
        w.dev.frame_ready_buffers_mask &&& kind_bit depth ∧
      (((if depth then video_buffer else depth_buffer) = none ∨
          w.dev.frame_request_buffers_mask &&& kind_bit (!depth) = 0) →
        w1.dev.frame_ready_buffers_mask = w.dev.frame_ready_buffers_mask) ∧
      w1.events = w.events ++
        (if w.dev.frame_request_buffers_mask &&& w1.dev.frame_ready_buffers_mask ≠ 0 then
          [⟨.GM_DEV_EVENT_FRAME_READY, w1.dev.frame_ready_buffers_mask⟩] else []) ∧
      w1.dev.last_buf depth = some B ∧
      w1.buffer_ref B = w.buffer_ref B + 1 -
        (if w.dev.last_buf depth = some B then 1 else 0) +
        w.dev.swap_delta (!depth) (if depth then video_buffer else depth_buffer) B := by
  obtain ⟨c, r, -, ev, l, s, -, b0, -, -⟩ := World.swap_recorded_facts w timestamp pose
    camera_rotation depth_buffer depth_intrinsics video_buffer video_intrinsics _ rfl
  refine ⟨_, swap_recorded_frame_eq timestamp pose camera_rotation depth_buffer
    depth_intrinsics video_buffer video_intrinsics w hd hv h, ?_, b0 depth (Or.inr hr), ?_, ev,
    by rw [l depth, hb], ?_⟩
  · rw [s depth, hb]
    simp only
    rw [if_neg (not_not.mpr hr)]
  · intro ho
    rw [r]
    cases depth
    · have hc : ¬ (video_buffer ≠ none ∧
          w.dev.frame_request_buffers_mask &&& GM_REQUEST_FRAME_VIDEO ≠ 0) :=
        fun a => a.2 hr
      have hc2 : ¬ (depth_buffer ≠ none ∧
          w.dev.frame_request_buffers_mask &&& GM_REQUEST_FRAME_DEPTH ≠ 0) := by
        rintro ⟨a, b⟩
        rcases ho with ho | ho
        · exact a ho
        · exact b ho
      rw [if_neg hc, if_neg hc2, Nat.or_zero, Nat.or_zero]
    · have hc : ¬ (depth_buffer ≠ none ∧
          w.dev.frame_request_buffers_mask &&& GM_REQUEST_FRAME_DEPTH ≠ 0) :=
        fun a => a.2 hr
      have hc2 : ¬ (video_buffer ≠ none ∧
          w.dev.frame_request_buffers_mask &&& GM_REQUEST_FRAME_VIDEO ≠ 0) := by
        rintro ⟨a, b⟩
        rcases ho with ho | ho
        · exact a ho
        · exact b ho
      rw [if_neg hc, if_neg hc2, Nat.or_zero, Nat.or_zero]
  · rw [c B]
    cases depth
    · simp only [Bool.false_eq_true, if_false] at hb
      subst hb
      simp only [Bool.not_false, if_true, Bool.false_eq_true, if_false]
      have : w.dev.swap_delta false (some B) B =
          1 - (if w.dev.last_buf false = some B then 1 else 0) := by
        simp only [gm_device.swap_delta, if_neg (not_not.mpr hr), eq_self_iff_true, if_true]
        omega
      rw [this]
      omega
    · simp only [if_true] at hb
      subst hb
      simp only [Bool.not_true, Bool.false_eq_true, if_false, if_true]
      have : w.dev.swap_delta true (some B) B =
          1 - (if w.dev.last_buf true = some B then 1 else 0) := by
        simp only [gm_device.swap_delta, if_neg (not_not.mpr hr), eq_self_iff_true, if_true]
        omega
      rw [this]
      omega

/-- Counterexample to C16: producer paths accept data the claim says is
dropped.  `kinect_depth_frame_cb` on a device that is not running, with depth
requested, moves the back buffer into the ready slot, sets the depth bit of
the ready mask and delivers a `FRAME_READY` event; `on_avf_depth_cb` on a
device that is not running and has nothing requested fills the depth ready
slot and sets the depth bit of the ready mask; `swap_recorded_frame` called
with depth buffer 0 and video buffer 1 while only video is requested keeps
buffer 0 as the recording's last depth buffer (count 2), changes the ready
mask from 0 to 2 and delivers a `FRAME_READY` event. -/
theorem C16_counterexample :
    kinect_stopped_world.dev.running = false ∧
    kinect_stopped_world.dev.depth_buf_ready = none ∧
    kinect_stopped_world.dev.frame_ready_buffers_mask = 0 ∧
    (kinect_depth_frame_cb 7 kinect_stopped_world).value? = some () ∧
    (kinect_depth_frame_cb 7 kinect_stopped_world).world.dev.depth_buf_ready = some 0 ∧
    (kinect_depth_frame_cb 7 kinect_stopped_world).world.dev.frame_ready_buffers_mask = 1 ∧
    (kinect_depth_frame_cb 7 kinect_stopped_world).world.events =
      [⟨.GM_DEV_EVENT_FRAME_READY, 1⟩] ∧
    avf_idle_world.dev.running = false ∧
    avf_idle_world.dev.frame_request_buffers_mask = 0 ∧
    avf_idle_world.dev.depth_buf_ready = none ∧
    (on_avf_depth_cb ⟨1, 1, []⟩ [0, 0, 128, 63] 7 avf_idle_world).value? = some () ∧
    (on_avf_depth_cb ⟨1, 1, []⟩ [0, 0, 128, 63] 7 avf_idle_world).world.dev.depth_buf_ready =
      some 0 ∧
    (on_avf_depth_cb ⟨1, 1, []⟩ [0, 0, 128, 63] 7
      avf_idle_world).world.dev.frame_ready_buffers_mask = 1 ∧
    video_wanted_world.dev.frame_request_buffers_mask &&& GM_REQUEST_FRAME_DEPTH = 0 ∧
    video_wanted_world.dev.frame_ready_buffers_mask = 0 ∧
    video_wanted_world.buffer_ref 0 = 1 ∧
    (swap_recorded_frame 2000 ⟨true, [], []⟩ 0 (some 0) ⟨2, 2, []⟩ (some 1) ⟨2, 2, []⟩
      video_wanted_world).value? = some () ∧
    (swap_recorded_frame 2000 ⟨true, [], []⟩ 0 (some 0) ⟨2, 2, []⟩ (some 1) ⟨2, 2, []⟩
      video_wanted_world).world.dev.recording.last_depth_buf = some 0 ∧
    (swap_recorded_frame 2000 ⟨true, [], []⟩ 0 (some 0) ⟨2, 2, []⟩ (some 1) ⟨2, 2, []⟩
      video_wanted_world).world.buffer_ref 0 = 2 ∧
    (swap_recorded_frame 2000 ⟨true, [], []⟩ 0 (some 0) ⟨2, 2, []⟩ (some 1) ⟨2, 2, []⟩
      video_wanted_world).world.dev.frame_ready_buffers_mask = 2 ∧
    (swap_recorded_frame 2000 ⟨true, [], []⟩ 0 (some 0) ⟨2, 2, []⟩ (some 1) ⟨2, 2, []⟩
      video_wanted_world).world.events = [⟨.GM_DEV_EVENT_FRAME_READY, 2⟩] := by
  refine ⟨?_, ?_, ?_, ?_, ?_, ?_, ?_, ?_, ?_, ?_, ?_, ?_, ?_, ?_, ?_, ?_, ?_, ?_, ?_, ?_, ?_⟩ <;>
    rfl

/-- C16 as amended: the Tango point-cloud and frame callbacks and the AVF
video callback return without any effect when their kind is not requested or
the device is not running; the Kinect depth and rgb callbacks return without
any effect when their kind is not requested (they do not test `running`).
`swap_recorded_frame` does not test `running` either and does not drop the
data: called with a buffer `B` of a kind K that is not requested (with or
without a buffer of the other kind, positive intrinsics, counts that cover the
device's slots and the caller's references) it returns, leaves the ready slot
of K and the bit of K in the ready mask unchanged, and keeps `B` as the
recording's last buffer of K with one more reference (less the one released
if `B` already was that last buffer, and apart from what the call does with
`B` for the other kind).  The ready mask as a whole is unchanged unless a
buffer of the other kind is passed and that kind is requested, and a
`FRAME_READY` event is delivered exactly when a requested kind is ready after
the call. -/
theorem C16_producers_drop_unrequested (w : World)
    (num_points stride time timestamp : Nat)
    (points luminance video : List Nat) (tango_pose : Option gm_pose) (format_nv12 : Bool)
    (intrinsics : gm_intrinsics) (depth : Bool) (pose : gm_pose) (camera_rotation : Int)
    (B : Nat) (depth_buffer : Option Nat) (depth_intrinsics : gm_intrinsics)
    (video_buffer : Option Nat) (video_intrinsics : gm_intrinsics) :
    ((w.dev.frame_request_buffers_mask &&& GM_REQUEST_FRAME_DEPTH = 0 ∨ w.dev.running = false) →
      tango_point_cloud_cb num_points points timestamp tango_pose w = .ok () w) ∧
    ((w.dev.frame_request_buffers_mask &&& GM_REQUEST_FRAME_VIDEO = 0 ∨ w.dev.running = false) →
      tango_frame_available_cb format_nv12 luminance timestamp w = .ok () w) ∧
    ((w.dev.frame_request_buffers_mask &&& GM_REQUEST_FRAME_VIDEO = 0 ∨ w.dev.running = false) →
      on_avf_video_cb intrinsics stride video time w = .ok () w) ∧
    (w.dev.frame_request_buffers_mask &&& GM_REQUEST_FRAME_DEPTH = 0 →
      kinect_depth_frame_cb time w = .ok () w) ∧
    (w.dev.frame_request_buffers_mask &&& GM_REQUEST_FRAME_VIDEO = 0 →
      kinect_rgb_frame_cb time w = .ok () w) ∧
    ((if depth then depth_buffer else video_buffer) = some B →
      (depth_buffer ≠ none → 0 < depth_intrinsics.width ∧ 0 < depth_intrinsics.height) →
      (video_buffer ≠ none → 0 < video_intrinsics.width ∧ 0 < video_intrinsics.height) →
      w.swap_accounted depth_buffer video_buffer →
      w.dev.frame_request_buffers_mask &&& kind_bit depth = 0 →
      ∃ w1, swap_recorded_frame timestamp pose camera_rotation depth_buffer depth_intrinsics
          video_buffer video_intrinsics w = .ok () w1 ∧
        w1.dev.ready_slot depth = w.dev.ready_slot depth ∧
        w1.dev.frame_ready_buffers_mask &&& kind_bit depth =
          w.dev.frame_ready_buffers_mask &&& kind_bit depth ∧
        (((if depth then video_buffer else depth_buffer) = none ∨
            w.dev.frame_request_buffers_mask &&& kind_bit (!depth) = 0) →
          w1.dev.frame_ready_buffers_mask = w.dev.frame_ready_buffers_mask) ∧
        w1.events = w.events ++
          (if w.dev.frame_request_buffers_mask &&& w1.dev.frame_ready_buffers_mask ≠ 0 then
            [⟨.GM_DEV_EVENT_FRAME_READY, w1.dev.frame_ready_buffers_mask⟩] else []) ∧
        w1.dev.last_buf depth = some B ∧
        w1.buffer_ref B = w.buffer_ref B + 1 -
          (if w.dev.last_buf depth = some B then 1 else 0) +
          w.dev.swap_delta (!depth) (if depth then video_buffer else depth_buffer) B) := by
  refine ⟨?_, ?_, ?_, ?_, ?_, ?_⟩
  · rintro (h | h) <;> simp [tango_point_cloud_cb, h]
  · rintro (h | h) <;> simp [tango_frame_available_cb, h]
  · rintro (h | h) <;> simp [on_avf_video_cb, h]
  · intro h; simp [kinect_depth_frame_cb, h]
  · intro h; simp [kinect_rgb_frame_cb, h]
  · intro hb hd hv h hr
    exact swap_recorded_frame_not_requested timestamp pose camera_rotation depth_buffer
      depth_intrinsics video_buffer video_intrinsics w depth B hb hd hv h hr

theorem video_wanted_world_accounted : video_wanted_world.swap_accounted (some 0) (some 1) := by
  intro x
  have hx : x = 0 ∨ x = 1 ∨ 2 ≤ x := by omega
  rcases hx with rfl | rfl | hx
  · decide
  · decide
  · have e : video_wanted_world.buffer_ref x = 0 := by
      simp only [World.buffer_ref, video_wanted_world, opened_world]
      rw [if_neg (by omega), if_neg (by omega)]
    have s : video_wanted_world.dev.slot_refs x = 0 := by
      simp [gm_device.slot_refs, video_wanted_world, opened_device]
    rw [e, s]
    simp
    omega

theorem C16_producers_drop_unrequested_witness :
    tango_point_cloud_cb 1 [0, 0, 128, 63] 7 none kinect_stopped_world =
      .ok () kinect_stopped_world ∧
    kinect_rgb_frame_cb 7 kinect_stopped_world = .ok () kinect_stopped_world ∧
    video_wanted_world.swap_accounted (some 0) (some 1) ∧
    ∃ w1, swap_recorded_frame 7 ⟨true, [], []⟩ 0 (some 0) ⟨2, 2, []⟩ (some 1) ⟨2, 2, []⟩
        video_wanted_world = .ok () w1 ∧
      w1.dev.depth_buf_ready = none ∧ w1.dev.recording.last_depth_buf = some 0 ∧
      w1.buffer_ref 0 = 2 :=
  ⟨(C16_producers_drop_unrequested kinect_stopped_world 1 0 7 7 [0, 0, 128, 63] [] [] none
      true ⟨2, 2, []⟩ true ⟨true, [], []⟩ 0 0 (some 0) ⟨2, 2, []⟩ (some 1) ⟨2, 2, []⟩).1
      (Or.inr rfl),
    (C16_producers_drop_unrequested kinect_stopped_world 1 0 7 7 [0, 0, 128, 63] [] [] none
      true ⟨2, 2, []⟩ true ⟨true, [], []⟩ 0 0 (some 0) ⟨2, 2, []⟩ (some 1)
      ⟨2, 2, []⟩).2.2.2.2.1 (by decide),
    video_wanted_world_accounted,
    by
      obtain ⟨w1, h, h1, -, -, -, h5, h6⟩ :=
        (C16_producers_drop_unrequested video_wanted_world 1 0 7 7 [0, 0, 128, 63] [] []
          none true ⟨2, 2, []⟩ true ⟨true, [], []⟩ 0 0 (some 0) ⟨2, 2, []⟩ (some 1)
          ⟨2, 2, []⟩).2.2.2.2.2 rfl (fun _ => by decide) (fun _ => by decide)
          video_wanted_world_accounted (by decide)
      exact ⟨w1, h, h1, h5, h6⟩⟩

/-! ## Producers: the old ready buffer of `swap_recorded_frame` -/

theorem swap_recorded_frame_locked_releases (timestamp : Nat) (pose : gm_pose)
    (camera_rotation : Int) (depth_buffer : Option Nat) (depth_intrinsics : gm_intrinsics)
    (video_buffer : Option Nat) (video_intrinsics : gm_intrinsics) (w : World)
    (hd : depth_buffer ≠ none → 0 < depth_intrinsics.width ∧ 0 < depth_intrinsics.height)
    (hv : video_buffer ≠ none → 0 < video_intrinsics.width ∧ 0 < video_intrinsics.height)
    (h : w.swap_accounted depth_buffer video_buffer) :
    ∃ W, swap_recorded_frame_locked timestamp pose camera_rotation depth_buffer
        depth_intrinsics video_buffer video_intrinsics w = .ok () W ∧
      W.dev.swap_buffers_lock = true ∧
      (∀ x, W.buffer_ref x = w.buffer_ref x + w.dev.swap_delta true depth_buffer x +
        w.dev.swap_delta false video_buffer x) ∧
      (∀ depth buffer old, (if depth then depth_buffer else video_buffer) = some buffer →
        w.dev.frame_request_buffers_mask &&& kind_bit depth ≠ 0 →
        w.dev.ready_slot depth = some old → depth_buffer ≠ some old → video_buffer ≠ some old →
        W.buffer_ref old ≤ w.buffer_ref old - 1) ∧
      (∀ x, 1 ≤ w.buffer_ref x → W.buffer_ref x = 0 →
        x ∈ (W.pool (w.buffers x).pool).available) ∧
      swap_recorded_frame timestamp pose camera_rotation depth_buffer depth_intrinsics
        video_buffer video_intrinsics w = unlock_and_notify W := by
  have e := swap_recorded_frame_locked_eq timestamp pose camera_rotation depth_buffer
    depth_intrinsics video_buffer video_intrinsics w hd hv h
  have c := World.frame_swapped_buffer_ref w timestamp pose camera_rotation depth_buffer
    depth_intrinsics video_buffer video_intrinsics
  refine ⟨_, e, ?_, c, ?_, ?_, ?_⟩
  · rw [(gm_device.fields_of_without_pools (World.frame_swapped_dev w timestamp pose
      camera_rotation depth_buffer depth_intrinsics video_buffer video_intrinsics)).2.2.1]
    exact (gm_device.frame_swapped_fields w.dev timestamp pose camera_rotation depth_buffer
      depth_intrinsics video_buffer video_intrinsics).1
  · intro depth B o hb hr ho hod hov
    rw [c o]
    have hoB : o ≠ B := by
      intro e1
      cases depth
      · simp only [Bool.false_eq_true, if_false] at hb
        exact hov (by rw [hb, e1])
      · simp only [if_true] at hb
        exact hod (by rw [hb, e1])
    have d1 : w.dev.swap_delta true depth_buffer o ≤ 0 := by
      unfold gm_device.swap_delta
      cases depth_buffer with
      | none => simp
      | some Bd =>
        have : o ≠ Bd := fun e1 => hod (by rw [e1])
        simp only [if_neg this]
        split_ifs <;> omega
    have d2 : w.dev.swap_delta false video_buffer o ≤ 0 := by
      unfold gm_device.swap_delta
      cases video_buffer with
      | none => simp
      | some Bv =>
        have : o ≠ Bv := fun e1 => hov (by rw [e1])
        simp only [if_neg this]
        split_ifs <;> omega
    have d3 : w.dev.swap_delta depth (some B) o ≤ -1 := by
      simp only [gm_device.swap_delta, if_neg hoB, if_pos hr, ho, if_true]
      split_ifs <;> omega
    cases depth
    · simp only [Bool.false_eq_true, if_false] at hb
      rw [hb] at d2 ⊢
      omega
    · simp only [if_true] at hb
      rw [hb] at d1 ⊢
      omega
  · intro x h1 h0
    exact World.frame_swapped_recycled w timestamp pose camera_rotation depth_buffer
      depth_intrinsics video_buffer video_intrinsics x h1 h0
  · unfold swap_recorded_frame
    rw [Prog.bind_apply, e, Res.and_then_ok]

theorem replaying_world_accounted : replaying_world.swap_accounted (some 4) none := by
  intro x
  have hx : x = 0 ∨ x = 1 ∨ x = 2 ∨ x = 3 ∨ x = 4 ∨ 5 ≤ x := by omega
  rcases hx with rfl | rfl | rfl | rfl | rfl | hx
  · decide
  · decide
  · decide
  · decide
  · decide
  · have e : replaying_world.buffer_ref x = 0 := by
      simp only [World.buffer_ref, replaying_world, capturing_world]
      rw [if_neg (by omega), if_neg (by omega), if_neg (by omega), if_neg (by omega),
        if_neg (by omega), if_neg (by omega)]
    have s : replaying_world.dev.slot_refs x = 0 := by
      simp only [gm_device.slot_refs, replaying_world, capturing_device, opened_device]
      simp
      omega
    rw [e, s]
    simp
    omega

/-- Counterexample to C18: in the replaying device (depth requested, depth
buffer 2 ready with count 1), at the end of the locked section of
`swap_recorded_frame`, of `tango_point_cloud_cb` and of
`kinect_depth_frame_cb`, that is before `swap_buffers_lock` is released, the
old ready buffer has already been unreferenced and recycled: the mutex is
held, the count of buffer 2 is 0 and buffer 2 is on the free list of the
depth pool. -/
theorem C18_counterexample :
    replaying_world.dev.depth_buf_ready = some 2 ∧ replaying_world.buffer_ref 2 = 1 ∧
    replaying_world.dev.depth_buf_pool.available = [] ∧
    (swap_recorded_frame_locked 2000 ⟨true, [], []⟩ 0 (some 4) ⟨2, 2, []⟩ none ⟨2, 2, []⟩
      replaying_world).value? = some () ∧
    (swap_recorded_frame_locked 2000 ⟨true, [], []⟩ 0 (some 4) ⟨2, 2, []⟩ none ⟨2, 2, []⟩
      replaying_world).world.dev.swap_buffers_lock = true ∧
    (swap_recorded_frame_locked 2000 ⟨true, [], []⟩ 0 (some 4) ⟨2, 2, []⟩ none ⟨2, 2, []⟩
      replaying_world).world.buffer_ref 2 = 0 ∧
    (swap_recorded_frame_locked 2000 ⟨true, [], []⟩ 0 (some 4) ⟨2, 2, []⟩ none ⟨2, 2, []⟩
      replaying_world).world.dev.depth_buf_pool.available = [2] ∧
    swap_recorded_frame 2000 ⟨true, [], []⟩ 0 (some 4) ⟨2, 2, []⟩ none ⟨2, 2, []⟩
        replaying_world =
      unlock_and_notify
        (swap_recorded_frame_locked 2000 ⟨true, [], []⟩ 0 (some 4) ⟨2, 2, []⟩ none ⟨2, 2, []⟩
          replaying_world).world ∧
    (tango_point_cloud_locked 4 2000 none replaying_world).world.dev.swap_buffers_lock = true ∧
    (tango_point_cloud_locked 4 2000 none replaying_world).world.buffer_ref 2 = 0 ∧
    (tango_point_cloud_locked 4 2000 none
      replaying_world).world.dev.depth_buf_pool.available = [2] ∧
    (kinect_depth_frame_locked 2000 replaying_world).world.dev.swap_buffers_lock = true ∧
    (kinect_depth_frame_locked 2000 replaying_world).world.buffer_ref 2 = 0 ∧
    (kinect_depth_frame_locked 2000 replaying_world).world.dev.depth_buf_pool.available =
      [2] := by
  refine ⟨?_, ?_, ?_, ?_, ?_, ?_, ?_, ?_, ?_, ?_, ?_, ?_, ?_, ?_⟩ <;> rfl

/-- C18 as amended: in every producer-side update the old ready buffer is
unreferenced while `swap_buffers_lock` is still held.  At the end of the
locked section of each of the Tango, AVF and Kinect callbacks the section has
returned, the mutex is held, the count of the old ready buffer `o` (live,
count at least 1) is one less and, if that was the last reference, `o` is back
on the free list of its pool.  The locked section of `swap_recorded_frame`,
called with a depth buffer, a video buffer or both (positive intrinsics,
counts that cover the device's slots and the caller's references), returns
with the mutex held and with every count already changed by `swap_delta` for
each kind: the old ready buffer of a requested kind with a buffer, if it is
not one of the buffers passed, has lost at least one reference, and every
buffer whose count has reached 0 is back on the free list of its pool.  The
rest of each update, `unlock_and_notify`, releases the mutex and changes no
buffer and no pool. -/
theorem C18_old_buffer_released_under_lock (w : World) (o B time : Nat)
    (tango_pose : Option gm_pose) (intrinsics : gm_intrinsics) (pose : gm_pose)
    (camera_rotation : Int) (depth_buffer : Option Nat) (depth_intrinsics : gm_intrinsics)
    (video_buffer : Option Nat) (video_intrinsics : gm_intrinsics)
    (h : 1 ≤ w.buffer_ref o) :
    (w.dev.depth_buf_ready = some o →
      released_under_lock o w (tango_point_cloud_locked B time tango_pose w)) ∧
    (w.dev.video_buf_ready = some o →
      released_under_lock o w (tango_frame_available_locked B time w)) ∧
    (w.dev.video_buf_ready = some o →
      released_under_lock o w (on_avf_video_locked intrinsics B time w)) ∧
    (w.dev.depth_buf_ready = some o →
      released_under_lock o w (on_avf_depth_locked intrinsics B time w)) ∧
    (w.dev.depth_buf_ready = some o → o < w.next_buffer →
      (∀ b rest, w.dev.depth_buf_pool.available = b :: rest → w.buffer_ref b = 0) →
      (w.dev.depth_buf_pool.available = [] →
        w.dev.depth_buf_pool.n_allocated < w.dev.depth_buf_pool.max_size) →
      released_under_lock o w (kinect_depth_frame_locked time w)) ∧
    (w.dev.video_buf_ready = some o → o < w.next_buffer →
      (∀ b rest, w.dev.video_buf_pool.available = b :: rest → w.buffer_ref b = 0) →
      (w.dev.video_buf_pool.available = [] →
        w.dev.video_buf_pool.n_allocated < w.dev.video_buf_pool.max_size) →
      released_under_lock o w (kinect_rgb_frame_locked time w)) ∧
    ((depth_buffer ≠ none → 0 < depth_intrinsics.width ∧ 0 < depth_intrinsics.height) →
      (video_buffer ≠ none → 0 < video_intrinsics.width ∧ 0 < video_intrinsics.height) →
      w.swap_accounted depth_buffer video_buffer →
      ∃ W, swap_recorded_frame_locked time pose camera_rotation depth_buffer
          depth_intrinsics video_buffer video_intrinsics w = .ok () W ∧
        W.dev.swap_buffers_lock = true ∧
        (∀ x, W.buffer_ref x = w.buffer_ref x + w.dev.swap_delta true depth_buffer x +
          w.dev.swap_delta false video_buffer x) ∧
        (∀ depth buffer old, (if depth then depth_buffer else video_buffer) = some buffer →
          w.dev.frame_request_buffers_mask &&& kind_bit depth ≠ 0 →
          w.dev.ready_slot depth = some old → depth_buffer ≠ some old →
          video_buffer ≠ some old → W.buffer_ref old ≤ w.buffer_ref old - 1) ∧
        (∀ x, 1 ≤ w.buffer_ref x → W.buffer_ref x = 0 →
          x ∈ (W.pool (w.buffers x).pool).available) ∧
        swap_recorded_frame time pose camera_rotation depth_buffer depth_intrinsics
          video_buffer video_intrinsics w = unlock_and_notify W) ∧
    (∃ w1, unlock_and_notify w = .ok () w1 ∧ w1.dev.swap_buffers_lock = false ∧
      w1.buffers = w.buffers ∧ w1.dev.depth_buf_pool = w.dev.depth_buf_pool ∧
      w1.dev.video_buf_pool = w.dev.video_buf_pool) := by
  refine ⟨?_, ?_, ?_, ?_, ?_, ?_, ?_, ?_⟩
  · exact fun ho => tango_point_cloud_locked_releases B time tango_pose w o ho h
  · exact fun ho => tango_frame_available_locked_releases B time w o ho h
  · exact fun ho => on_avf_video_locked_releases intrinsics B time w o ho h
  · exact fun ho => on_avf_depth_locked_releases intrinsics B time w o ho h
  · exact fun ho hlt hfree hcap => kinect_depth_frame_locked_releases time w o hfree hcap ho h hlt
  · exact fun ho hlt hfree hcap => kinect_rgb_frame_locked_releases time w o hfree hcap ho h hlt
  · exact fun hd hv ha => swap_recorded_frame_locked_releases time pose camera_rotation
      depth_buffer depth_intrinsics video_buffer video_intrinsics w hd hv ha
  · obtain ⟨-, -, -, h4, h5, -, -⟩ := w.notified_ready
    exact ⟨_, unlock_and_notify_eq w, w.notified_unlocked, w.notified_buffers, h5, h4⟩

theorem C18_old_buffer_released_under_lock_witness :
    released_under_lock 2 replaying_world (tango_point_cloud_locked 4 2000 none replaying_world) ∧
    released_under_lock 2 replaying_world (kinect_depth_frame_locked 2000 replaying_world) ∧
    replaying_world.swap_accounted (some 4) none ∧
    ∃ W, swap_recorded_frame_locked 2000 ⟨true, [], []⟩ 0 (some 4) ⟨2, 2, []⟩ none ⟨2, 2, []⟩
        replaying_world = .ok () W ∧
      W.dev.swap_buffers_lock = true ∧ W.buffer_ref 2 = 0 ∧
      2 ∈ W.dev.depth_buf_pool.available :=
  ⟨(C18_old_buffer_released_under_lock replaying_world 2 4 2000 none ⟨2, 2, []⟩
      ⟨true, [], []⟩ 0 (some 4) ⟨2, 2, []⟩ none ⟨2, 2, []⟩ (by decide)).1 rfl,
    (C18_old_buffer_released_under_lock replaying_world 2 4 2000 none ⟨2, 2, []⟩
      ⟨true, [], []⟩ 0 (some 4) ⟨2, 2, []⟩ none ⟨2, 2, []⟩ (by decide)).2.2.2.2.1 rfl
      (by decide) (by intro b rest hb; cases hb) (by intro _; decide),
    replaying_world_accounted,
    by
      obtain ⟨W, e, hl, hc, -, hr, -⟩ :=
        (C18_old_buffer_released_under_lock replaying_world 2 4 2000 none ⟨2, 2, []⟩
          ⟨true, [], []⟩ 0 (some 4) ⟨2, 2, []⟩ none ⟨2, 2, []⟩ (by decide)).2.2.2.2.2.2.1
          (fun _ => by decide) (fun hn => absurd rfl hn) replaying_world_accounted
      have h2 : W.buffer_ref 2 = 0 := by
        rw [hc 2]
        decide
      exact ⟨W, e, hl, h2, hr 2 (by decide) h2⟩⟩

/-! ## The device struct under the entry points -/

theorem gm_device.notified_recording (d : gm_device) :
    d.notified.running = d.running ∧ d.notified.recording = d.recording ∧
    d.notified.frame_ready_buffers_mask = d.frame_ready_buffers_mask := by
  unfold gm_device.notified
  split <;> exact ⟨rfl, rfl, rfl⟩

/-- A call of `swap_recorded_frame` leaves `running` and the playback controls
of the recording as they are. -/
theorem gm_device.swap_recorded_control (d : gm_device) (timestamp : Nat) (pose : gm_pose)
    (camera_rotation : Int) (depth_buffer : Option Nat) (depth_intrinsics : gm_intrinsics)
    (video_buffer : Option Nat) (video_intrinsics : gm_intrinsics) :
    (d.swap_recorded timestamp pose camera_rotation depth_buffer depth_intrinsics
      video_buffer video_intrinsics).running = d.running ∧
    (d.swap_recorded timestamp pose camera_rotation depth_buffer depth_intrinsics
      video_buffer video_intrinsics).recording.frame = d.recording.frame ∧
    (d.swap_recorded timestamp pose camera_rotation depth_buffer depth_intrinsics
      video_buffer video_intrinsics).recording.loop = d.recording.loop ∧
    (d.swap_recorded timestamp pose camera_rotation depth_buffer depth_intrinsics
      video_buffer video_intrinsics).recording.max_frame = d.recording.max_frame ∧
    (d.swap_recorded timestamp pose camera_rotation depth_buffer depth_intrinsics
      video_buffer video_intrinsics).recording.ignore_loop = d.recording.ignore_loop := by
  obtain ⟨-, -, -, f4, f5, f6, f7, f8, -⟩ := gm_device.frame_swapped_fields d timestamp pose
    camera_rotation depth_buffer depth_intrinsics video_buffer video_intrinsics
  obtain ⟨n1, n2, -⟩ := gm_device.notified_recording
    (d.frame_swapped timestamp pose camera_rotation depth_buffer depth_intrinsics
      video_buffer video_intrinsics)
  unfold gm_device.swap_recorded
  rw [n1, n2]
  exact ⟨f4, f5, f6, f7, f8⟩

theorem gm_device.pause_swapped_control (d : gm_device) (timestamp : Nat) (pose : gm_pose) :
    (d.pause_swapped timestamp pose).running = d.running ∧
    (d.pause_swapped timestamp pose).recording.frame = d.recording.frame ∧
    (d.pause_swapped timestamp pose).recording.loop = d.recording.loop ∧
    (d.pause_swapped timestamp pose).recording.max_frame = d.recording.max_frame ∧
    (d.pause_swapped timestamp pose).recording.ignore_loop = d.recording.ignore_loop :=
  gm_device.swap_recorded_control d timestamp pose _ _ _ _ _

theorem n_frames_of_congr (d d1 : gm_device) (n : Int)
    (h : d1.recording.max_frame = d.recording.max_frame) :
    n_frames_of d1 n = n_frames_of d n := by
  unfold n_frames_of
  rw [h]

theorem gm_device.frame_requested_control (d : gm_device) (buffers_mask : Nat) :
    (d.frame_requested buffers_mask).running = d.running ∧
    (d.frame_requested buffers_mask).recording = d.recording := by
  unfold gm_device.frame_requested
  split_ifs <;> exact ⟨rfl, rfl⟩

theorem gm_device.latest_frame_claimed_control (d : gm_device) (frame : Nat) :
    (d.latest_frame_claimed frame).running = d.running ∧
    (d.latest_frame_claimed frame).recording = d.recording :=
  ⟨rfl, rfl⟩

/-- The device-level `gm_device.swap_recorded` is what `swap_recorded_frame`
does to the device struct of a world whose counts cover the slots and the
caller's references (the pools apart). -/
theorem swap_recorded_frame_dev (timestamp : Nat) (pose : gm_pose)
    (camera_rotation : Int) (depth_buffer : Option Nat) (depth_intrinsics : gm_intrinsics)
    (video_buffer : Option Nat) (video_intrinsics : gm_intrinsics) (w : World)
    (hd : depth_buffer ≠ none → 0 < depth_intrinsics.width ∧ 0 < depth_intrinsics.height)
    (hv : video_buffer ≠ none → 0 < video_intrinsics.width ∧ 0 < video_intrinsics.height)
    (h : w.swap_accounted depth_buffer video_buffer) :
    ∃ w1, swap_recorded_frame timestamp pose camera_rotation depth_buffer depth_intrinsics
        video_buffer video_intrinsics w = .ok () w1 ∧
      w1.dev.without_pools =
        (w.dev.swap_recorded timestamp pose camera_rotation depth_buffer depth_intrinsics
          video_buffer video_intrinsics).without_pools :=
  ⟨_, swap_recorded_frame_eq timestamp pose camera_rotation depth_buffer depth_intrinsics
      video_buffer video_intrinsics w hd hv h,
    World.swap_recorded_dev w timestamp pose camera_rotation depth_buffer depth_intrinsics
      video_buffer video_intrinsics⟩

/-- The device-level `gm_device.frame_requested` is what
`gm_device_request_frame` does to the device struct; the buffers are not
touched. -/
theorem gm_device_request_frame_dev (buffers_mask : Nat) (w : World) :
    ∃ w1, gm_device_request_frame buffers_mask w = .ok () w1 ∧
      w1.dev = w.dev.frame_requested buffers_mask ∧ w1.buffers = w.buffers := by
  unfold gm_device_request_frame gm_device.frame_requested
  by_cases h0 : buffers_mask = 0
  · rw [if_pos h0, if_pos h0]
    exact ⟨w, rfl, rfl, rfl⟩
  · rw [if_neg h0, if_neg h0]
    by_cases hn : (w.dev.frame_request_buffers_mask ||| buffers_mask) &&&
        w.dev.frame_ready_buffers_mask ≠ 0
    · rw [if_pos hn]
      refine ⟨{ w with
        dev := { w.dev with
          request_buffers_mask_lock := false
          frame_request_buffers_mask :=
            (w.dev.frame_request_buffers_mask ||| buffers_mask) &&&
              not64 w.dev.frame_ready_buffers_mask }
        events := w.events ++
          [⟨.GM_DEV_EVENT_FRAME_READY, w.dev.frame_ready_buffers_mask⟩] }, ?_, rfl, rfl⟩
      simp [lock_request_buffers_mask, unlock_request_buffers_mask, World.modify_dev,
        maybe_notify_frame_locked, notify_frame_locked, hn]
    · rw [if_neg hn]
      refine ⟨{ w with
        dev := { w.dev with
          request_buffers_mask_lock := false
          frame_request_buffers_mask := w.dev.frame_request_buffers_mask ||| buffers_mask } },
        ?_, rfl, rfl⟩
      have hn2 : (w.dev.frame_request_buffers_mask ||| buffers_mask) &&&
          w.dev.frame_ready_buffers_mask = 0 := not_not.mp hn
      simp [lock_request_buffers_mask, unlock_request_buffers_mask, World.modify_dev,
        maybe_notify_frame_locked, notify_frame_locked, hn2]

/-- The device-level `gm_device.latest_frame_claimed` is what a returning
`gm_device_get_latest_frame` does to the device struct (the pools apart). -/
theorem gm_device_get_latest_frame_dev (w : World) (hp : w.frame_pool_ready)
    (hl : w.last_frame_live) (hr : w.ready_consistent) :
    ∃ w1, gm_device_get_latest_frame w = .ok w.acquired_frame w1 ∧
      w1.dev.without_pools =
        (w.dev.latest_frame_claimed w.acquired_frame).without_pools := by
  obtain ⟨w1, h, -, -, -, -, -, -, -, -, -, -, hdev⟩ := gm_device_get_latest_frame_spec w hp hl hr
  exact ⟨w1, h, hdev⟩

/-! ## Recording playback controls -/

/-- Counterexample to C14: stepping back on the running device at frame
index 2 leaves the frame index at 0 and sets `max_frame` to 1, not to the
resulting frame index. -/
theorem C14_counterexample :
    (recording_step_back
      { opened_device with recording := { opened_device.recording with frame := 2 } }
      ).recording.frame = 0 ∧
    (recording_step_back
      { opened_device with recording := { opened_device.recording with frame := 2 } }
      ).recording.max_frame = 1 := by
  constructor <;> rfl

/-- C14 as amended: `recording_step_back` on a running device at frame index
`f ≥ 1` sets the frame index to `max (f - 2) 0`, sets `max_frame` to `f - 1`
(one above the new frame index, except at `f = 1` where both are 0), clears
`loop` and sets `ignore_loop`, and changes nothing else; when the device is
not running or `f < 1` it changes nothing at all. -/
theorem C14_step_back (dev : gm_device) :
    (dev.running = true → 1 ≤ dev.recording.frame →
      recording_step_back dev =
        { dev with
          recording :=
            { dev.recording with
              frame := max (dev.recording.frame - 2) 0
              max_frame := dev.recording.frame - 1
              loop := false
              ignore_loop := true } } ∧
      ((recording_step_back dev).recording.max_frame =
          (recording_step_back dev).recording.frame ↔ dev.recording.frame = 1)) ∧
    (dev.running = false ∨ dev.recording.frame < 1 → recording_step_back dev = dev) := by
  constructor
  · intro hr hf
    have h1 : ¬ dev.recording.frame < 1 := by omega
    have e : (if dev.recording.frame - 1 ≠ 0 then dev.recording.frame - 1 - 1
        else dev.recording.frame - 1) = max (dev.recording.frame - 2) 0 := by
      split <;> omega
    have e1 : recording_step_back dev =
        { dev with
          recording :=
            { dev.recording with
              frame := max (dev.recording.frame - 2) 0
              max_frame := dev.recording.frame - 1
              loop := false
              ignore_loop := true } } := by
      simp only [recording_step_back, hr, h1, Bool.not_true, decide_False, Bool.or_self,
        Bool.false_eq_true, if_false, e]
    refine ⟨e1, ?_⟩
    rw [e1]
    show dev.recording.frame - 1 = max (dev.recording.frame - 2) 0 ↔ _
    omega
  · rintro (h | h)
    · simp [recording_step_back, h]
    · simp [recording_step_back, h]

theorem C14_step_back_witness :
    (recording_step_back
      { opened_device with recording := { opened_device.recording with frame := 5 } }
      ).recording.frame = 3 ∧
    (recording_step_back
      { opened_device with recording := { opened_device.recording with frame := 5 } }
      ).recording.max_frame = 4 := by
  have h := ((C14_step_back
    { opened_device with recording := { opened_device.recording with frame := 5 } }).1
    rfl (by decide)).1
  rw [h]
  constructor <;> decide

/-! ## The playback thread: clock and frame timestamps -/

theorem trace_end_append (c p : Nat) (a b : List emission) :
    trace_end c p (a ++ b) = trace_end (trace_end c p a).1 (trace_end c p a).2 b := by
  induction a generalizing c p with
  | nil => rfl
  | cons e rest ih => exact ih _ _

theorem trace_ok_append (c p : Nat) (a b : List emission) :
    trace_ok c p (a ++ b) ↔
      trace_ok c p a ∧ trace_ok (trace_end c p a).1 (trace_end c p a).2 b := by
  induction a generalizing c p with
  | nil => simp [trace_ok, trace_end]
  | cons e rest ih =>
    show trace_ok c p (e :: (rest ++ b)) ↔ _
    simp only [trace_ok, trace_end, ih]
    tauto

theorem pause_loop_cons (a : ui_action) (rest : List ui_action) (dev : gm_device)
    (l : playback_locals)
    (h : (dev.running && !dev.recording.loop && !dev.recording.ignore_loop) = true) :
    pause_loop (a :: rest) dev l =
      ((pause_loop rest (a.apply (dev.pause_swapped (add64 l.monotonic_clock 16000000) l.pose))
          { l with
            monotonic_clock := add64 l.monotonic_clock 16000000
            loop_start := add64 l.loop_start 16000000 }).1,
        (pause_loop rest (a.apply (dev.pause_swapped (add64 l.monotonic_clock 16000000) l.pose))
          { l with
            monotonic_clock := add64 l.monotonic_clock 16000000
            loop_start := add64 l.loop_start 16000000 }).2.1,
        { paused := true
          frame := dev.recording.frame
          record := -1
          max_frame := dev.recording.max_frame
          timestamp := add64 l.monotonic_clock 16000000
          clock_before := l.monotonic_clock
          delta := 16000000
          frame_timestamp := l.loop_prev_frame_timestamp
          prev_frame_timestamp := l.loop_prev_frame_timestamp
          restarted := false
          pose := l.pose
          camera_rotation := dev.recording.last_camera_rotation
          depth_buffer := dev.recording.last_depth_buf
          video_buffer := dev.recording.last_video_buf } ::
        (pause_loop rest (a.apply (dev.pause_swapped (add64 l.monotonic_clock 16000000) l.pose))
          { l with
            monotonic_clock := add64 l.monotonic_clock 16000000
            loop_start := add64 l.loop_start 16000000 }).2.2.1,
        (pause_loop rest (a.apply (dev.pause_swapped (add64 l.monotonic_clock 16000000) l.pose))
          { l with
            monotonic_clock := add64 l.monotonic_clock 16000000
            loop_start := add64 l.loop_start 16000000 }).2.2.2) := by
  rw [pause_loop, if_pos h]

theorem pause_loop_stop (a : ui_action) (rest : List ui_action) (dev : gm_device)
    (l : playback_locals)
    (h : ¬ (dev.running && !dev.recording.loop && !dev.recording.ignore_loop) = true) :
    pause_loop (a :: rest) dev l = (dev, l, [], false) := by
  rw [pause_loop, if_neg h]

theorem pause_loop_trace (actions : List ui_action) (dev : gm_device) (l : playback_locals) :
    trace_ok l.monotonic_clock l.loop_prev_frame_timestamp (pause_loop actions dev l).2.2.1 ∧
    trace_end l.monotonic_clock l.loop_prev_frame_timestamp (pause_loop actions dev l).2.2.1 =
      ((pause_loop actions dev l).2.1.monotonic_clock,
        (pause_loop actions dev l).2.1.loop_prev_frame_timestamp) := by
  induction actions generalizing dev l with
  | nil => exact ⟨trivial, rfl⟩
  | cons a rest ih =>
    by_cases h : (dev.running && !dev.recording.loop && !dev.recording.ignore_loop) = true
    · rw [pause_loop_cons a rest dev l h]
      have := ih (a.apply (dev.pause_swapped (add64 l.monotonic_clock 16000000) l.pose))
        { l with
          monotonic_clock := add64 l.monotonic_clock 16000000
          loop_start := add64 l.loop_start 16000000 }
      refine ⟨⟨rfl, rfl, fun _ => rfl, fun _ => ⟨rfl, rfl, rfl⟩, fun h => Bool.noConfusion h,
        this.1⟩, this.2⟩
    · rw [pause_loop_stop a rest dev l h]
      exact ⟨trivial, rfl⟩

theorem playback_emit_trace (frames : List recorded_frame) (env : iteration_env)
    (n_frames : Int) (restarted : Bool) (dev : gm_device) (l : playback_locals) (p : Nat)
    (hp : restarted = false → l.loop_prev_frame_timestamp = p) :
    trace_ok l.monotonic_clock p [(playback_emit frames env n_frames restarted dev l).2.2] ∧
    trace_end l.monotonic_clock p [(playback_emit frames env n_frames restarted dev l).2.2] =
      ((playback_emit frames env n_frames restarted dev l).2.1.monotonic_clock,
        (playback_emit frames env n_frames restarted dev l).2.1.loop_prev_frame_timestamp) :=
  ⟨⟨rfl, rfl, hp, fun h => Bool.noConfusion h, fun _ => rfl, trivial⟩, rfl⟩

theorem playback_iteration_trace (frames : List recorded_frame) (env : iteration_env)
    (dev : gm_device) (l : playback_locals) (dev1 : gm_device) (l1 : playback_locals)
    (es : List emission)
    (h : (playback_iteration frames env dev l).outcome = some (dev1, l1, es)) :
    trace_ok l.monotonic_clock l.loop_prev_frame_timestamp es ∧
    trace_end l.monotonic_clock l.loop_prev_frame_timestamp es =
      (l1.monotonic_clock, l1.loop_prev_frame_timestamp) := by
  unfold playback_iteration at h
  have hpl := pause_loop_trace env.pause_actions dev l
  split at h
  · cases h
  · dsimp only at h
    split at h
    · split at h
      · simp only [iteration_result.outcome, Option.some.injEq, Prod.mk.injEq] at h
        obtain ⟨-, rfl, rfl⟩ := h
        exact hpl
      · split at h
        · simp only [iteration_result.outcome, Option.some.injEq, Prod.mk.injEq] at h
          obtain ⟨-, rfl, rfl⟩ := h
          rw [trace_ok_append, trace_end_append, hpl.2]
          have key := playback_emit_trace frames env
            (n_frames_of (pause_loop env.pause_actions dev l).1 frames.length) true
            { (pause_loop env.pause_actions dev l).1 with
              recording := { (pause_loop env.pause_actions dev l).1.recording with frame := 0 } }
            { (pause_loop env.pause_actions dev l).2.1 with
              loop_start := env.restart_time % 2 ^ 64
              loop_prev_frame_timestamp := sub64 (frame_timestamp_at frames 0) 16000000 }
            (pause_loop env.pause_actions dev l).2.1.loop_prev_frame_timestamp
            (fun h => Bool.noConfusion h)
          exact ⟨⟨hpl.1, key.1⟩, key.2⟩
        · simp only [iteration_result.outcome, Option.some.injEq, Prod.mk.injEq] at h
          obtain ⟨-, rfl, rfl⟩ := h
          rw [trace_ok_append, trace_end_append, hpl.2]
          have key := playback_emit_trace frames env
            (n_frames_of (pause_loop env.pause_actions dev l).1 frames.length) false
            (pause_loop env.pause_actions dev l).1 (pause_loop env.pause_actions dev l).2.1
            (pause_loop env.pause_actions dev l).2.1.loop_prev_frame_timestamp (fun _ => rfl)
          exact ⟨⟨hpl.1, key.1⟩, key.2⟩
    · simp only [iteration_result.outcome, Option.some.injEq, Prod.mk.injEq] at h
      obtain ⟨-, rfl, rfl⟩ := h
      exact playback_emit_trace frames env (n_frames_of dev frames.length) false
        { dev with recording := { dev.recording with frame := dev.recording.frame + 1 } } l
        l.loop_prev_frame_timestamp (fun _ => rfl)

theorem playback_run_trace (frames : List recorded_frame)
    (script : List (ui_action × iteration_env)) (dev : gm_device) (l : playback_locals) :
    trace_ok l.monotonic_clock l.loop_prev_frame_timestamp
      (playback_run frames script dev l).2.2 ∧
    trace_end l.monotonic_clock l.loop_prev_frame_timestamp
      (playback_run frames script dev l).2.2 =
      ((playback_run frames script dev l).2.1.monotonic_clock,
        (playback_run frames script dev l).2.1.loop_prev_frame_timestamp) := by
  induction script generalizing dev l with
  | nil => exact ⟨trivial, rfl⟩
  | cons x rest ih =>
    obtain ⟨action, env⟩ := x
    unfold playback_run
    cases hi : playback_iteration frames env (action.apply dev) l with
    | exited => exact ⟨trivial, rfl⟩
    | pausing dev1 l1 es =>
      exact playback_iteration_trace frames env (action.apply dev) l dev1 l1 es (by rw [hi]; rfl)
    | completed dev1 l1 es =>
      have h1 := playback_iteration_trace frames env (action.apply dev) l dev1 l1 es
        (by rw [hi]; rfl)
      have h2 := ih dev1 l1
      dsimp only
      rw [trace_ok_append, trace_end_append, h1.2]
      exact ⟨⟨h1.1, h2.1⟩, h2.2⟩

theorem add64_eq_of_lt {a b : Nat} (h : a + b < 2 ^ 64) : add64 a b = a + b := by
  unfold add64
  rw [Nat.add_comm, Nat.mod_eq_of_lt h]

theorem trace_ok_chain (c p : Nat) (es : List emission) (h : trace_ok c p es)
    (hno : ∀ e ∈ es, e.clock_before + e.delta < 2 ^ 64) :
    List.Chain (· ≤ ·) c (es.map emission.timestamp) := by
  induction es generalizing c p with
  | nil => exact List.Chain.nil
  | cons e rest ih =>
    obtain ⟨h1, h2, -, -, -, h6⟩ := h
    have hlt := hno e (List.mem_cons_self _ _)
    rw [h1] at hlt
    rw [add64_eq_of_lt hlt] at h2
    refine List.Chain.cons (by rw [h2]; omega) ?_
    exact ih _ _ h6 (fun x hx => hno x (List.mem_cons_of_mem _ hx))

/-! ## The catch-up scan -/

theorem catch_up_spec (frames : List recorded_frame) (ts0 real : Nat) (dr : Bool)
    (n_frames : Int) (fuel : Nat) (i0 r0 : Int) (ft0 rp0 : Nat) (ld0 : Int) :
    i0 ≤ (catch_up frames ts0 real dr n_frames fuel (i0, r0, ft0, rp0, ld0)).1 ∧
    (((catch_up frames ts0 real dr n_frames fuel (i0, r0, ft0, rp0, ld0)).1 = i0 ∧
        (catch_up frames ts0 real dr n_frames fuel (i0, r0, ft0, rp0, ld0)).2.1 = r0 ∧
        (catch_up frames ts0 real dr n_frames fuel (i0, r0, ft0, rp0, ld0)).2.2.1 = ft0 ∧
        (catch_up frames ts0 real dr n_frames fuel (i0, r0, ft0, rp0, ld0)).2.2.2.1 = rp0 ∧
        (catch_up frames ts0 real dr n_frames fuel (i0, r0, ft0, rp0, ld0)).2.2.2.2 = ld0) ∨
      (i0 < (catch_up frames ts0 real dr n_frames fuel (i0, r0, ft0, rp0, ld0)).1 ∧
        (catch_up frames ts0 real dr n_frames fuel (i0, r0, ft0, rp0, ld0)).1 ≤ n_frames ∧
        rp0 < real ∧
        (catch_up frames ts0 real dr n_frames fuel (i0, r0, ft0, rp0, ld0)).2.1 =
          (catch_up frames ts0 real dr n_frames fuel (i0, r0, ft0, rp0, ld0)).1 - 1 ∧
        (catch_up frames ts0 real dr n_frames fuel (i0, r0, ft0, rp0, ld0)).2.2.1 =
          frame_timestamp_at frames
            ((catch_up frames ts0 real dr n_frames fuel (i0, r0, ft0, rp0, ld0)).1 - 1) ∧
        (catch_up frames ts0 real dr n_frames fuel (i0, r0, ft0, rp0, ld0)).2.2.2.1 =
          sub64 (frame_timestamp_at frames
            ((catch_up frames ts0 real dr n_frames fuel (i0, r0, ft0, rp0, ld0)).1 - 1)) ts0)) ∧
    ((catch_up frames ts0 real dr n_frames fuel (i0, r0, ft0, rp0, ld0)).2.2.2.2 = ld0 ∨
      (i0 ≤ (catch_up frames ts0 real dr n_frames fuel (i0, r0, ft0, rp0, ld0)).2.2.2.2 ∧
        (catch_up frames ts0 real dr n_frames fuel (i0, r0, ft0, rp0, ld0)).2.2.2.2 <
          (catch_up frames ts0 real dr n_frames fuel (i0, r0, ft0, rp0, ld0)).1 ∧
        dr = true ∧
        frame_has_depth_file frames
          (catch_up frames ts0 real dr n_frames fuel (i0, r0, ft0, rp0, ld0)).2.2.2.2 = true)) ∧
    (∀ j, i0 ≤ j → j < (catch_up frames ts0 real dr n_frames fuel (i0, r0, ft0, rp0, ld0)).1 →
      dr = true → frame_has_depth_file frames j = true →
      j ≤ (catch_up frames ts0 real dr n_frames fuel (i0, r0, ft0, rp0, ld0)).2.2.2.2 ∧
      i0 ≤ (catch_up frames ts0 real dr n_frames fuel (i0, r0, ft0, rp0, ld0)).2.2.2.2) ∧
    ((n_frames - i0).toNat ≤ fuel →
      ¬ ((catch_up frames ts0 real dr n_frames fuel (i0, r0, ft0, rp0, ld0)).1 < n_frames ∧
        (catch_up frames ts0 real dr n_frames fuel (i0, r0, ft0, rp0, ld0)).2.2.2.1 < real)) := by
  induction fuel generalizing i0 r0 ft0 rp0 ld0 with
  | zero =>
    have e : catch_up frames ts0 real dr n_frames 0 (i0, r0, ft0, rp0, ld0) =
        (i0, r0, ft0, rp0, ld0) := rfl
    rw [e]
    refine ⟨le_refl _, Or.inl ⟨rfl, rfl, rfl, rfl, rfl⟩, Or.inl rfl, ?_, ?_⟩
    · intro j h1 h2; dsimp only at h2; omega
    · intro h hc; dsimp only at hc; omega
  | succ fuel ih =>
    by_cases hc : i0 < n_frames ∧ rp0 < real
    · have e : catch_up frames ts0 real dr n_frames (fuel + 1) (i0, r0, ft0, rp0, ld0) =
          catch_up frames ts0 real dr n_frames fuel
            (i0 + 1, i0, frame_timestamp_at frames i0,
              sub64 (frame_timestamp_at frames i0) ts0,
              if (dr && frame_has_depth_file frames i0) = true then i0 else ld0) := by
        rw [catch_up, if_pos hc]
      rw [e]
      obtain ⟨h1, h2, h3, h4, h5⟩ := ih (i0 + 1) i0 (frame_timestamp_at frames i0)
        (sub64 (frame_timestamp_at frames i0) ts0)
        (if (dr && frame_has_depth_file frames i0) = true then i0 else ld0)
      generalize catch_up frames ts0 real dr n_frames fuel
        (i0 + 1, i0, frame_timestamp_at frames i0, sub64 (frame_timestamp_at frames i0) ts0,
          if (dr && frame_has_depth_file frames i0) = true then i0 else ld0) = r at *
      obtain ⟨i, rec, ft, rp, ld⟩ := r
      dsimp only at h1 h2 h3 h4 h5 ⊢
      refine ⟨by omega, Or.inr ?_, ?_, ?_, ?_⟩
      · rcases h2 with ⟨a1, a2, a3, a4, -⟩ | ⟨a1, a2, -, a4, a5, a6⟩
        · subst a1
          refine ⟨by omega, by omega, hc.2, by omega, ?_, ?_⟩
          · rw [a3]; congr 1; omega
          · rw [a4]; congr 2; omega
        · exact ⟨by omega, a2, hc.2, a4, a5, a6⟩
      · by_cases hd : (dr && frame_has_depth_file frames i0) = true
        · rw [if_pos hd] at h3
          simp only [Bool.and_eq_true] at hd
          rcases h3 with h3 | ⟨b1, b2, b3, b4⟩
          · right; subst h3; exact ⟨le_refl _, by omega, hd.1, hd.2⟩
          · right; exact ⟨by omega, b2, b3, b4⟩
        · rw [if_neg hd] at h3
          rcases h3 with h3 | ⟨b1, b2, b3, b4⟩
          · left; exact h3
          · right; exact ⟨by omega, b2, b3, b4⟩
      · intro j hj1 hj2 hdr hdj
        by_cases hji : j = i0
        · subst hji
          have hd : (dr && frame_has_depth_file frames j) = true := by simp [hdr, hdj]
          rw [if_pos hd] at h3
          rcases h3 with h3 | ⟨b1, b2, b3, b4⟩
          · subst h3; exact ⟨le_refl _, le_refl _⟩
          · exact ⟨by omega, by omega⟩
        · have := h4 j (by omega) hj2 hdr hdj
          exact ⟨this.1, by omega⟩
      · intro hf
        apply h5
        omega
    · have e : catch_up frames ts0 real dr n_frames (fuel + 1) (i0, r0, ft0, rp0, ld0) =
          (i0, r0, ft0, rp0, ld0) := by
        rw [catch_up, if_neg hc]
      rw [e]
      refine ⟨le_refl _, Or.inl ⟨rfl, rfl, rfl, rfl, rfl⟩, Or.inl rfl, ?_, ?_⟩
      · intro j h1 h2; dsimp only at h2; omega
      · intro _; exact hc

theorem skip_frames_not_entered (frames : List recorded_frame) (n_frames : Int)
    (dev : gm_device) (real_progress : Nat)
    (h : catch_up_entered frames dev.recording.frame real_progress = false) :
    skip_frames frames n_frames dev real_progress =
      (dev.recording.frame, dev.recording.frame,
        frame_timestamp_at frames dev.recording.frame) := by
  unfold skip_frames
  rw [h]
  rfl

/-- The loop of the catch-up block ends by its own test, whatever the
inputs. -/
theorem catch_up_scan_ends (frames : List recorded_frame) (n_frames : Int)
    (dev : gm_device) (real_progress : Nat) :
    ¬ ((catch_up_scan frames n_frames dev real_progress).1 < n_frames ∧
      (catch_up_scan frames n_frames dev real_progress).2.2.2.1 < real_progress) := by
  unfold catch_up_scan
  exact (catch_up_spec _ _ _ _ _ _ _ _ _ _ _).2.2.2.2 (by omega)

/-- What the loop of the catch-up block leaves: `i` beyond its start; either
no pass was made, or the local `frame` is entry `i - 1`; `last_depth` is -1
or the largest scanned index with a `depth_file`. -/
theorem catch_up_scan_spec (frames : List recorded_frame) (n_frames : Int)
    (dev : gm_device) (real_progress : Nat) :
    dev.recording.frame + 1 ≤ (catch_up_scan frames n_frames dev real_progress).1 ∧
    (((catch_up_scan frames n_frames dev real_progress).1 = dev.recording.frame + 1 ∧
        (catch_up_scan frames n_frames dev real_progress).2.1 = dev.recording.frame ∧
        (catch_up_scan frames n_frames dev real_progress).2.2.1 =
          frame_timestamp_at frames dev.recording.frame ∧
        (catch_up_scan frames n_frames dev real_progress).2.2.2.2 = -1) ∨
      (dev.recording.frame + 1 < (catch_up_scan frames n_frames dev real_progress).1 ∧
        (catch_up_scan frames n_frames dev real_progress).1 ≤ n_frames ∧
        sub64 (frame_timestamp_at frames dev.recording.frame) (frame_timestamp_at frames 0) <
          real_progress ∧
        (catch_up_scan frames n_frames dev real_progress).2.1 =
          (catch_up_scan frames n_frames dev real_progress).1 - 1 ∧
        (catch_up_scan frames n_frames dev real_progress).2.2.1 =
          frame_timestamp_at frames
            ((catch_up_scan frames n_frames dev real_progress).1 - 1))) ∧
    ((catch_up_scan frames n_frames dev real_progress).2.2.2.2 = -1 ∨
      (dev.recording.frame + 1 ≤ (catch_up_scan frames n_frames dev real_progress).2.2.2.2 ∧
        (catch_up_scan frames n_frames dev real_progress).2.2.2.2 <
          (catch_up_scan frames n_frames dev real_progress).1 ∧
        dev.frame_request_buffers_mask &&& GM_REQUEST_FRAME_DEPTH ≠ 0 ∧
        frame_has_depth_file frames
          (catch_up_scan frames n_frames dev real_progress).2.2.2.2 = true)) ∧
    (∀ j, dev.recording.frame + 1 ≤ j →
      j < (catch_up_scan frames n_frames dev real_progress).1 →
      dev.frame_request_buffers_mask &&& GM_REQUEST_FRAME_DEPTH ≠ 0 →
      frame_has_depth_file frames j = true →
      j ≤ (catch_up_scan frames n_frames dev real_progress).2.2.2.2) := by
  obtain ⟨c1, c2, c3, c4, -⟩ := catch_up_spec frames (frame_timestamp_at frames 0)
    real_progress (decide (dev.frame_request_buffers_mask &&& GM_REQUEST_FRAME_DEPTH ≠ 0))
    n_frames (n_frames - (dev.recording.frame + 1)).toNat
    (dev.recording.frame + 1) dev.recording.frame
    (frame_timestamp_at frames dev.recording.frame)
    (sub64 (frame_timestamp_at frames dev.recording.frame) (frame_timestamp_at frames 0)) (-1)
  unfold catch_up_scan
  refine ⟨c1, ?_, ?_, ?_⟩
  · rcases c2 with ⟨a1, a2, a3, -, a5⟩ | ⟨a1, a2, a3, a4, a5, -⟩
    · exact Or.inl ⟨a1, a2, a3, a5⟩
    · exact Or.inr ⟨a1, a2, a3, a4, a5⟩
  · rcases c3 with c3 | ⟨b1, b2, b3, b4⟩
    · exact Or.inl c3
    · exact Or.inr ⟨b1, b2, by simpa using b3, b4⟩
  · intro j h1 h2 h3 h4
    exact (c4 j h1 h2 (by simpa using h3) h4).1

theorem skip_frames_range (frames : List recorded_frame) (n_frames : Int)
    (dev : gm_device) (real_progress : Nat)
    (h1 : dev.recording.frame ≤ n_frames - 1) :
    dev.recording.frame ≤ (skip_frames frames n_frames dev real_progress).1 ∧
    (skip_frames frames n_frames dev real_progress).1 ≤ n_frames - 1 ∧
    dev.recording.frame ≤ (skip_frames frames n_frames dev real_progress).2.1 ∧
    (skip_frames frames n_frames dev real_progress).2.1 ≤
      (skip_frames frames n_frames dev real_progress).1 ∧
    (skip_frames frames n_frames dev real_progress).1 ≤
      (skip_frames frames n_frames dev real_progress).2.1 + 1 ∧
    (skip_frames frames n_frames dev real_progress).2.2 =
      frame_timestamp_at frames (skip_frames frames n_frames dev real_progress).2.1 := by
  by_cases he : catch_up_entered frames dev.recording.frame real_progress = true
  · unfold skip_frames
    rw [if_pos he]
    obtain ⟨c1, c2, c3, -⟩ := catch_up_scan_spec frames n_frames dev real_progress
    generalize catch_up_scan frames n_frames dev real_progress = r at *
    obtain ⟨i, rec, ft, rp, ld⟩ := r
    dsimp only at c1 c2 c3 ⊢
    split
    · dsimp only
      rcases c2 with ⟨a1, a2, a3, -⟩ | ⟨a1, a2, -, a4, a5⟩
      · rw [a2, a3]
        exact ⟨by omega, le_refl _, by omega, by omega, by omega, rfl⟩
      · rw [a5, a4]
        exact ⟨by omega, le_refl _, by omega, by omega, by omega, rfl⟩
    · split
      · dsimp only
        rcases c3 with c3 | ⟨b1, b2, -, -⟩
        · omega
        · exact ⟨by omega, by omega, by omega, le_refl _, by omega, rfl⟩
      · dsimp only
        rcases c2 with ⟨a1, a2, a3, -⟩ | ⟨a1, a2, -, a4, a5⟩
        · rw [a2, a3]
          exact ⟨by omega, by omega, by omega, by omega, by omega, rfl⟩
        · rw [a5, a4]
          exact ⟨by omega, by omega, by omega, by omega, by omega, rfl⟩
  · rw [skip_frames_not_entered frames n_frames dev real_progress (by simpa using he)]
    dsimp only
    exact ⟨le_refl _, h1, le_refl _, le_refl _, by omega, rfl⟩

/-! ## The playback thread: frame index -/

theorem ui_action_frame_nonneg (a : ui_action) (dev : gm_device)
    (h : 0 ≤ dev.recording.frame) : 0 ≤ (a.apply dev).recording.frame := by
  induction a generalizing dev with
  | nothing => exact h
  | playpause =>
    show 0 ≤ (recording_playpause dev).recording.frame
    unfold recording_playpause
    split_ifs <;> exact h
  | step_back =>
    show 0 ≤ (recording_step_back dev).recording.frame
    unfold recording_step_back
    split
    · exact h
    · rename_i hc
      simp only [Bool.or_eq_true, decide_eq_true_eq, not_or, not_lt] at hc
      dsimp only
      split <;> omega
  | step_forward =>
    show 0 ≤ (recording_step_forward dev).recording.frame
    unfold recording_step_forward
    split_ifs <;> exact h
  | stop => exact h
  | request_frame buffers_mask =>
    show 0 ≤ (dev.frame_requested buffers_mask).recording.frame
    rw [(gm_device.frame_requested_control dev buffers_mask).2]
    exact h
  | get_latest_frame frame => exact h
  | seq first second ih1 ih2 => exact ih2 _ (ih1 dev h)

theorem pause_loop_frame_nonneg (actions : List ui_action) (dev : gm_device)
    (l : playback_locals) (h : 0 ≤ dev.recording.frame) :
    0 ≤ (pause_loop actions dev l).1.recording.frame := by
  induction actions generalizing dev l with
  | nil => exact h
  | cons a rest ih =>
    by_cases hc : (dev.running && !dev.recording.loop && !dev.recording.ignore_loop) = true
    · rw [pause_loop_cons a rest dev l hc]
      exact ih _ _ (ui_action_frame_nonneg a _
        (by rw [(gm_device.pause_swapped_control dev _ _).2.1]; exact h))
    · rw [pause_loop_stop a rest dev l hc]
      exact h

theorem pause_loop_paused (actions : List ui_action) (dev : gm_device)
    (l : playback_locals) :
    ∀ e ∈ (pause_loop actions dev l).2.2.1, e.paused = true := by
  induction actions generalizing dev l with
  | nil => intro e he; cases he
  | cons a rest ih =>
    by_cases hc : (dev.running && !dev.recording.loop && !dev.recording.ignore_loop) = true
    · rw [pause_loop_cons a rest dev l hc]
      intro e he
      rcases List.mem_cons.mp he with rfl | he
      · rfl
      · exact ih _ _ e he
    · rw [pause_loop_stop a rest dev l hc]
      intro e he; cases he

theorem n_frames_of_pos (dev : gm_device) (n : Int) (hn : 1 ≤ n) : 1 ≤ n_frames_of dev n := by
  unfold n_frames_of
  split <;> omega

/-- The device `playback_emit` leaves: the controls are those it found, with
`ignore_loop` cleared and the frame index set by the catch-up block. -/
theorem playback_emit_dev (frames : List recorded_frame) (env : iteration_env)
    (n_frames : Int) (restarted : Bool) (dev : gm_device) (l : playback_locals) :
    (playback_emit frames env n_frames restarted dev l).1.running = dev.running ∧
    (playback_emit frames env n_frames restarted dev l).1.recording.frame =
      (skip_frames frames n_frames dev.loop_resumed (sub64 env.time l.loop_start)).1 ∧
    (playback_emit frames env n_frames restarted dev l).1.recording.loop = dev.recording.loop ∧
    (playback_emit frames env n_frames restarted dev l).1.recording.max_frame =
      dev.recording.max_frame ∧
    (playback_emit frames env n_frames restarted dev l).1.recording.ignore_loop = false := by
  unfold playback_emit
  dsimp only
  exact gm_device.swap_recorded_control _ _ _ _ _ _ _ _

/-- The call at the end of an iteration that reaches `playback_emit` with the
frame index within `[0, n_frames - 1]`. -/
theorem playback_emit_range (frames : List recorded_frame) (env : iteration_env)
    (restarted : Bool) (dev : gm_device) (l : playback_locals)
    (h0 : 0 ≤ dev.recording.frame)
    (h1 : dev.recording.frame ≤ n_frames_of dev frames.length - 1) :
    0 ≤ (playback_emit frames env (n_frames_of dev frames.length) restarted dev l).1.recording.frame ∧
    (playback_emit frames env (n_frames_of dev frames.length) restarted dev l).2.2.paused = false ∧
    0 ≤ (playback_emit frames env (n_frames_of dev frames.length) restarted dev l).2.2.frame ∧
    (playback_emit frames env (n_frames_of dev frames.length) restarted dev l).2.2.frame ≤
      (playback_emit frames env (n_frames_of dev frames.length) restarted dev
        l).2.2.n_frames frames.length - 1 := by
  have hs := skip_frames_range frames (n_frames_of dev frames.length)
    { dev with recording := { dev.recording with ignore_loop := false } }
    (sub64 env.time l.loop_start) h1
  obtain ⟨s1, s2, -⟩ := hs
  have hn : (playback_emit frames env (n_frames_of dev frames.length) restarted dev
      l).2.2.n_frames frames.length = n_frames_of dev frames.length := rfl
  rw [hn]
  have e1 : (playback_emit frames env (n_frames_of dev frames.length) restarted dev
      l).1.recording.frame = (skip_frames frames (n_frames_of dev frames.length)
        { dev with recording := { dev.recording with ignore_loop := false } }
        (sub64 env.time l.loop_start)).1 :=
    (playback_emit_dev frames env (n_frames_of dev frames.length) restarted dev l).2.1
  have e2 : (playback_emit frames env (n_frames_of dev frames.length) restarted dev
      l).2.2.frame = (skip_frames frames (n_frames_of dev frames.length)
        { dev with recording := { dev.recording with ignore_loop := false } }
        (sub64 env.time l.loop_start)).1 := rfl
  rw [e1, e2]
  change dev.recording.frame ≤ _ at s1
  exact ⟨by omega, rfl, by omega, s2⟩

theorem playback_iteration_range (frames : List recorded_frame) (env : iteration_env)
    (dev : gm_device) (l : playback_locals) (dev1 : gm_device) (l1 : playback_locals)
    (es : List emission) (hf : frames ≠ []) (h0 : 0 ≤ dev.recording.frame)
    (h : (playback_iteration frames env dev l).outcome = some (dev1, l1, es)) :
    0 ≤ dev1.recording.frame ∧
    ∀ e ∈ es, e.paused = false →
      0 ≤ e.frame ∧ e.frame ≤ e.n_frames frames.length - 1 := by
  have hlen : (1 : Int) ≤ frames.length := by
    have : 0 < frames.length := List.length_pos.mpr hf
    omega
  unfold playback_iteration at h
  have hp0 := pause_loop_frame_nonneg env.pause_actions dev l h0
  have hpp := pause_loop_paused env.pause_actions dev l
  split at h
  · cases h
  · dsimp only at h
    split at h
    · split at h
      · simp only [iteration_result.outcome, Option.some.injEq, Prod.mk.injEq] at h
        obtain ⟨rfl, -, rfl⟩ := h
        refine ⟨hp0, fun e he hpa => ?_⟩
        rw [hpp e he] at hpa
        cases hpa
      · split at h
        · simp only [iteration_result.outcome, Option.some.injEq, Prod.mk.injEq] at h
          obtain ⟨rfl, -, rfl⟩ := h
          have hr := playback_emit_range frames env true
            { (pause_loop env.pause_actions dev l).1 with
              recording := { (pause_loop env.pause_actions dev l).1.recording with frame := 0 } }
            { (pause_loop env.pause_actions dev l).2.1 with
              loop_start := env.restart_time % 2 ^ 64
              loop_prev_frame_timestamp := sub64 (frame_timestamp_at frames 0) 16000000 }
            (le_refl _)
            (by
              have := n_frames_of_pos
                { (pause_loop env.pause_actions dev l).1 with
                  recording :=
                    { (pause_loop env.pause_actions dev l).1.recording with frame := 0 } }
                frames.length hlen
              show (0 : Int) ≤ _
              omega)
          refine ⟨hr.1, fun e he hpa => ?_⟩
          rcases List.mem_append.mp he with he | he
          · rw [hpp e he] at hpa
            cases hpa
          · rw [List.mem_singleton] at he
            subst he
            exact ⟨hr.2.2.1, hr.2.2.2⟩
        · rename_i hge
          simp only [iteration_result.outcome, Option.some.injEq, Prod.mk.injEq] at h
          obtain ⟨rfl, -, rfl⟩ := h
          have hr := playback_emit_range frames env false (pause_loop env.pause_actions dev l).1
            (pause_loop env.pause_actions dev l).2.1 hp0 (by omega)
          refine ⟨hr.1, fun e he hpa => ?_⟩
          rcases List.mem_append.mp he with he | he
          · rw [hpp e he] at hpa
            cases hpa
          · rw [List.mem_singleton] at he
            subst he
            exact ⟨hr.2.2.1, hr.2.2.2⟩
    · rename_i hge
      simp only [iteration_result.outcome, Option.some.injEq, Prod.mk.injEq] at h
      obtain ⟨rfl, -, rfl⟩ := h
      have hr := playback_emit_range frames env false
        { dev with recording := { dev.recording with frame := dev.recording.frame + 1 } } l
        (by show (0 : Int) ≤ dev.recording.frame + 1; omega)
        (by
          show dev.recording.frame + 1 ≤ n_frames_of dev frames.length - 1
          omega)
      refine ⟨hr.1, fun e he hpa => ?_⟩
      rw [List.mem_singleton] at he
      subst he
      exact ⟨hr.2.2.1, hr.2.2.2⟩

theorem playback_run_range (frames : List recorded_frame)
    (script : List (ui_action × iteration_env)) (dev : gm_device) (l : playback_locals)
    (hf : frames ≠ []) (h0 : 0 ≤ dev.recording.frame) :
    0 ≤ (playback_run frames script dev l).1.recording.frame ∧
    ∀ e ∈ (playback_run frames script dev l).2.2, e.paused = false →
      0 ≤ e.frame ∧ e.frame ≤ e.n_frames frames.length - 1 := by
  induction script generalizing dev l with
  | nil => exact ⟨h0, fun e he => by cases he⟩
  | cons x rest ih =>
    obtain ⟨action, env⟩ := x
    have ha := ui_action_frame_nonneg action dev h0
    unfold playback_run
    cases hi : playback_iteration frames env (action.apply dev) l with
    | exited => exact ⟨ha, fun e he => by cases he⟩
    | pausing dev1 l1 es =>
      exact playback_iteration_range frames env (action.apply dev) l dev1 l1 es hf ha
        (by rw [hi]; rfl)
    | completed dev1 l1 es =>
      have h1 := playback_iteration_range frames env (action.apply dev) l dev1 l1 es hf ha
        (by rw [hi]; rfl)
      have h2 := ih dev1 l1 h1.1
      dsimp only
      refine ⟨h2.1, fun e he hpa => ?_⟩
      rcases List.mem_append.mp he with he | he
      · exact h1.2 e he hpa
      · exact h2.2 e he hpa

/-- Claim C13: in any run of the playback thread over a recording with at
least one frame, started with a frame index that is not negative (as
`recording_start` leaves it), every call of `swap_recorded_frame` made at the
end of an iteration (every call that emits a recorded frame, as opposed to
the re-emissions of the pause loop) finds the frame index within
`[0, n_frames - 1]` for the `n_frames` of the `max_frame` in force at the
call; so the index is below the number of recorded frames and, when
`max_frame` is set, not above `max_frame`. -/
theorem C13_frame_index_in_range (frames : List recorded_frame)
    (script : List (ui_action × iteration_env)) (dev : gm_device) (l : playback_locals)
    (hf : frames ≠ []) (h0 : 0 ≤ dev.recording.frame) :
    ∀ e ∈ (playback_run frames script dev l).2.2, e.paused = false →
      0 ≤ e.frame ∧ e.frame ≤ e.n_frames frames.length - 1 ∧
      e.frame < frames.length ∧ (0 ≤ e.max_frame → e.frame ≤ e.max_frame) := by
  intro e he hpa
  obtain ⟨h1, h2⟩ := (playback_run_range frames script dev l hf h0).2 e he hpa
  refine ⟨h1, h2, ?_, ?_⟩
  · unfold emission.n_frames at h2
    split at h2 <;> omega
  · intro hm
    unfold emission.n_frames at h2
    rw [if_pos hm] at h2
    omega

theorem C13_frame_index_in_range_witness :
    three_frames ≠ [] ∧ 0 ≤ (recording_start opened_device).recording.frame ∧
    ∀ e ∈ (playback_run three_frames
        [quiet 5001, quiet 16005000, quiet 32005000, quiet 48005000]
        (recording_start opened_device) (thread_start three_frames 5000)).2.2,
      e.paused = false →
      0 ≤ e.frame ∧ e.frame ≤ e.n_frames three_frames.length - 1 ∧
      e.frame < three_frames.length ∧ (0 ≤ e.max_frame → e.frame ≤ e.max_frame) :=
  ⟨by decide, by decide,
    C13_frame_index_in_range three_frames
      [quiet 5001, quiet 16005000, quiet 32005000, quiet 48005000]
      (recording_start opened_device) (thread_start three_frames 5000) (by decide) (by decide)⟩

/-! ## The playback thread: one pass over the recording -/

theorem trace_ok_mem (c p : Nat) (es : List emission) (h : trace_ok c p es) :
    ∀ e ∈ es, e.timestamp = add64 e.clock_before e.delta ∧
      (e.paused = true → e.delta = 16000000) ∧
      (e.paused = false →
        e.delta = if e.frame_timestamp < e.prev_frame_timestamp then 16000000
          else e.frame_timestamp - e.prev_frame_timestamp) := by
  induction es generalizing c p with
  | nil => intro e he; cases he
  | cons x rest ih =>
    obtain ⟨h1, h2, -, h4, h5, h6⟩ := h
    intro e he
    rcases List.mem_cons.mp he with rfl | he
    · exact ⟨by rw [h1]; exact h2, fun hp => (h4 hp).2.1, h5⟩
    · exact ih _ _ h6 e he

theorem skip_frames_timestamp (frames : List recorded_frame) (n_frames : Int)
    (dev : gm_device) (real_progress : Nat) :
    (skip_frames frames n_frames dev real_progress).2.2 =
      frame_timestamp_at frames (skip_frames frames n_frames dev real_progress).2.1 := by
  by_cases he : catch_up_entered frames dev.recording.frame real_progress = true
  · unfold skip_frames
    rw [if_pos he]
    obtain ⟨c1, c2, c3, -⟩ := catch_up_scan_spec frames n_frames dev real_progress
    generalize catch_up_scan frames n_frames dev real_progress = r at *
    obtain ⟨i, rec, ft, rp, ld⟩ := r
    dsimp only at c1 c2 c3 ⊢
    split
    · dsimp only
      rcases c2 with ⟨a1, a2, a3, -⟩ | ⟨a1, a2, -, a4, a5⟩
      · rw [a2, a3]
      · rw [a5, a4]
    · split
      · rfl
      · dsimp only
        rcases c2 with ⟨a1, a2, a3, -⟩ | ⟨a1, a2, -, a4, a5⟩
        · rw [a2, a3]
        · rw [a5, a4]
  · rw [skip_frames_not_entered frames n_frames dev real_progress (by simpa using he)]

/-- The frame timestamp of the call at the end of an iteration is the recorded
timestamp of the entry read. -/
theorem playback_emit_record (frames : List recorded_frame) (env : iteration_env)
    (n_frames : Int) (restarted : Bool) (dev : gm_device) (l : playback_locals) :
    (playback_emit frames env n_frames restarted dev l).2.2.frame_timestamp =
      frame_timestamp_at frames (playback_emit frames env n_frames restarted dev l).2.2.record :=
  skip_frames_timestamp frames n_frames _ _

theorem frame_timestamp_at_le (frames : List recorded_frame) (T : Nat)
    (hT : ∀ f ∈ frames, f.timestamp ≤ T) (i : Int) : frame_timestamp_at frames i ≤ T := by
  unfold frame_timestamp_at
  split
  · exact Nat.zero_le _
  · cases h : frames.get? i.toNat with
    | none => exact Nat.zero_le _
    | some f =>
      exact le_trans (Nat.mod_le _ _) (hT f (List.get?_mem h))

theorem pause_loop_length (actions : List ui_action) (dev : gm_device) (l : playback_locals) :
    (pause_loop actions dev l).2.2.1.length ≤ actions.length := by
  induction actions generalizing dev l with
  | nil => exact le_refl _
  | cons a rest ih =>
    by_cases hc : (dev.running && !dev.recording.loop && !dev.recording.ignore_loop) = true
    · rw [pause_loop_cons a rest dev l hc]
      exact Nat.succ_le_succ (ih _ _)
    · rw [pause_loop_stop a rest dev l hc]
      exact Nat.zero_le _

/-- The calls of an iteration: those of the pause loop, then at most one at
the end of the iteration. -/
theorem playback_iteration_emissions (frames : List recorded_frame) (env : iteration_env)
    (dev : gm_device) (l : playback_locals) (dev1 : gm_device) (l1 : playback_locals)
    (es : List emission)
    (h : (playback_iteration frames env dev l).outcome = some (dev1, l1, es)) :
    es = (pause_loop env.pause_actions dev l).2.2.1 ∨
    (∃ n r d l2, es = (pause_loop env.pause_actions dev l).2.2.1 ++
      [(playback_emit frames env n r d l2).2.2]) ∨
    (∃ n r d l2, es = [(playback_emit frames env n r d l2).2.2]) := by
  unfold playback_iteration at h
  split at h
  · cases h
  · dsimp only at h
    split at h
    · split at h
      · simp only [iteration_result.outcome, Option.some.injEq, Prod.mk.injEq] at h
        exact Or.inl h.2.2.symm
      · split at h
        · simp only [iteration_result.outcome, Option.some.injEq, Prod.mk.injEq] at h
          exact Or.inr (Or.inl ⟨_, _, _, _, h.2.2.symm⟩)
        · simp only [iteration_result.outcome, Option.some.injEq, Prod.mk.injEq] at h
          exact Or.inr (Or.inl ⟨_, _, _, _, h.2.2.symm⟩)
    · simp only [iteration_result.outcome, Option.some.injEq, Prod.mk.injEq] at h
      exact Or.inr (Or.inr ⟨_, _, _, _, h.2.2.symm⟩)

/-- What holds of every call of the pause loop and of every call at the end
of an iteration holds of every call of a run. -/
theorem playback_run_emissions (frames : List recorded_frame) (P : emission → Prop)
    (hp : ∀ actions dev l, ∀ e ∈ (pause_loop actions dev l).2.2.1, P e)
    (he : ∀ env n r dev l, P (playback_emit frames env n r dev l).2.2)
    (script : List (ui_action × iteration_env)) (dev : gm_device) (l : playback_locals) :
    ∀ e ∈ (playback_run frames script dev l).2.2, P e := by
  have hit : ∀ env dev l dev1 l1 es,
      (playback_iteration frames env dev l).outcome = some (dev1, l1, es) → ∀ e ∈ es, P e := by
    intro env dev l dev1 l1 es h e hm
    rcases playback_iteration_emissions frames env dev l dev1 l1 es h with
      rfl | ⟨n, r, d, l2, rfl⟩ | ⟨n, r, d, l2, rfl⟩
    · exact hp _ _ _ e hm
    · rcases List.mem_append.mp hm with hm | hm
      · exact hp _ _ _ e hm
      · rw [List.mem_singleton] at hm
        subst hm
        exact he _ _ _ _ _
    · rw [List.mem_singleton] at hm
      subst hm
      exact he _ _ _ _ _
  induction script generalizing dev l with
  | nil => intro e hm; cases hm
  | cons x rest ih =>
    obtain ⟨action, env⟩ := x
    unfold playback_run
    cases hi : playback_iteration frames env (action.apply dev) l with
    | exited => intro e hm; cases hm
    | pausing dev1 l1 es =>
      exact hit env (action.apply dev) l dev1 l1 es (by rw [hi]; rfl)
    | completed dev1 l1 es =>
      have h1 := hit env (action.apply dev) l dev1 l1 es (by rw [hi]; rfl)
      dsimp only
      intro e hm
      rcases List.mem_append.mp hm with hm | hm
      · exact h1 e hm
      · exact ih dev1 l1 e hm

/-- A run makes at most as many calls as its script provides for. -/
theorem playback_run_length (frames : List recorded_frame)
    (script : List (ui_action × iteration_env)) (dev : gm_device) (l : playback_locals) :
    (playback_run frames script dev l).2.2.length ≤ script_calls script := by
  have hit : ∀ env dev l dev1 l1 es,
      (playback_iteration frames env dev l).outcome = some (dev1, l1, es) →
      es.length ≤ env.pause_actions.length + 1 := by
    intro env dev l dev1 l1 es h
    have hl := pause_loop_length env.pause_actions dev l
    rcases playback_iteration_emissions frames env dev l dev1 l1 es h with
      rfl | ⟨n, r, d, l2, rfl⟩ | ⟨n, r, d, l2, rfl⟩
    · omega
    · rw [List.length_append, List.length_singleton]
      omega
    · rw [List.length_singleton]
      omega
  induction script generalizing dev l with
  | nil => exact le_refl _
  | cons x rest ih =>
    obtain ⟨action, env⟩ := x
    have hc : script_calls ((action, env) :: rest) =
        env.pause_actions.length + 1 + script_calls rest := by
      simp [script_calls]
    rw [hc]
    unfold playback_run
    cases hi : playback_iteration frames env (action.apply dev) l with
    | exited => exact Nat.zero_le _
    | pausing dev1 l1 es =>
      have := hit env (action.apply dev) l dev1 l1 es (by rw [hi]; rfl)
      dsimp only
      omega
    | completed dev1 l1 es =>
      have h1 := hit env (action.apply dev) l dev1 l1 es (by rw [hi]; rfl)
      have h2 := ih dev1 l1
      dsimp only
      rw [List.length_append]
      omega

/-- Every call of a run adds at most the largest recorded timestamp, or
16,000,000 if that is larger, to the clock: a call of the pause loop adds
16,000,000 and the call at the end of an iteration adds the difference of two
frame timestamps when the later is not below the earlier, and 16,000,000
when it is. -/
theorem playback_run_delta_le (frames : List recorded_frame) (T : Nat)
    (hT : ∀ f ∈ frames, f.timestamp ≤ T)
    (script : List (ui_action × iteration_env)) (dev : gm_device) (l : playback_locals) :
    ∀ e ∈ (playback_run frames script dev l).2.2, e.delta ≤ max T 16000000 := by
  refine playback_run_emissions frames (fun e => e.delta ≤ max T 16000000) ?_ ?_ script dev l
  · intro actions dev l e he
    have h1 := (trace_ok_mem _ _ _ (pause_loop_trace actions dev l).1 e he).2.1
      (pause_loop_paused actions dev l e he)
    show e.delta ≤ _
    rw [h1]
    exact le_max_right _ _
  · intro env n r dev l
    have h1 := (playback_emit_trace frames env n r dev l l.loop_prev_frame_timestamp
      (fun _ => rfl)).1
    have h2 : (playback_emit frames env n r dev l).2.2.delta =
        if (playback_emit frames env n r dev l).2.2.frame_timestamp <
            (playback_emit frames env n r dev l).2.2.prev_frame_timestamp then 16000000
        else (playback_emit frames env n r dev l).2.2.frame_timestamp -
          (playback_emit frames env n r dev l).2.2.prev_frame_timestamp := h1.2.2.2.2.1 rfl
    have h3 := playback_emit_record frames env n r dev l
    have h4 := frame_timestamp_at_le frames T hT (playback_emit frames env n r dev l).2.2.record
    show (playback_emit frames env n r dev l).2.2.delta ≤ _
    rw [h2]
    split
    · exact le_max_right _ _
    · rw [h3]
      exact le_trans (Nat.sub_le _ _) (le_trans h4 (le_max_left _ _))

/-- A log whose calls each add at most `D` to the clock does not overflow the
clock when the initial clock leaves room for `D` per call. -/
theorem trace_ok_no_overflow (c p : Nat) (es : List emission) (D : Nat)
    (h : trace_ok c p es) (hd : ∀ e ∈ es, e.delta ≤ D) (hb : c + es.length * D < 2 ^ 64) :
    ∀ e ∈ es, e.clock_before + e.delta < 2 ^ 64 := by
  induction es generalizing c p with
  | nil => intro e he; cases he
  | cons x rest ih =>
    obtain ⟨h1, h2, -, -, -, h6⟩ := h
    have hx := hd x (List.mem_cons_self _ _)
    rw [List.length_cons, Nat.succ_mul] at hb
    have hlt : c + x.delta < 2 ^ 64 := by omega
    intro e he
    rcases List.mem_cons.mp he with rfl | he
    · rw [h1]; exact hlt
    · refine ih _ _ h6 (fun y hy => hd y (List.mem_cons_of_mem _ hy)) ?_ e he
      rw [h2, add64_eq_of_lt hlt]
      omega

theorem playback_run_no_overflow (frames : List recorded_frame) (T : Nat)
    (hT : ∀ f ∈ frames, f.timestamp ≤ T)
    (script : List (ui_action × iteration_env)) (dev : gm_device) (l : playback_locals)
    (hno : l.monotonic_clock + script_calls script * max T 16000000 < 2 ^ 64) :
    ∀ e ∈ (playback_run frames script dev l).2.2, e.clock_before + e.delta < 2 ^ 64 := by
  refine trace_ok_no_overflow _ _ _ (max T 16000000) (playback_run_trace frames script dev l).1
    (playback_run_delta_le frames T hT script dev l) ?_
  have := playback_run_length frames script dev l
  have := Nat.mul_le_mul_right (max T 16000000) this
  omega

/-- Claim C12: over any run of the playback thread (any recording, sorted or
not, any interleaving of actions of the other threads, pauses, catch-up
skips, steps back and forward and loop restarts), the timestamps passed to
`swap_recorded_frame` are non-decreasing, starting from the initial value of
the clock, provided the clock cannot overflow 64 bits: the initial clock
leaves room for as many additions as the script provides calls for, each of
the largest recorded timestamp `T` or of 16,000,000 if that is larger.  The
bound is on the inputs; that no call adds more is due to the guard on
timestamps that go backwards and to the frame timestamp being the recorded
timestamp of the entry read. -/
theorem C12_monotonic_clock (frames : List recorded_frame)
    (script : List (ui_action × iteration_env)) (dev : gm_device) (l : playback_locals)
    (T : Nat) (hT : ∀ f ∈ frames, f.timestamp ≤ T)
    (hno : l.monotonic_clock + script_calls script * max T 16000000 < 2 ^ 64) :
    List.Pairwise (· ≤ ·)
      (l.monotonic_clock :: (playback_run frames script dev l).2.2.map emission.timestamp) ∧
    ∀ e ∈ (playback_run frames script dev l).2.2,
      e.timestamp = e.clock_before + e.delta ∧ e.delta ≤ max T 16000000 ∧
      (e.paused = false → e.frame_timestamp = frame_timestamp_at frames e.record) := by
  have hov := playback_run_no_overflow frames T hT script dev l hno
  have ht := (playback_run_trace frames script dev l).1
  refine ⟨List.chain_iff_pairwise.mp (trace_ok_chain _ _ _ ht hov), fun e he => ⟨?_, ?_, ?_⟩⟩
  · rw [(trace_ok_mem _ _ _ ht e he).1, add64_eq_of_lt (hov e he)]
  · exact playback_run_delta_le frames T hT script dev l e he
  · refine playback_run_emissions frames
      (fun e => e.paused = false → e.frame_timestamp = frame_timestamp_at frames e.record)
      ?_ ?_ script dev l e he
    · intro actions dev l e he hpa
      rw [pause_loop_paused actions dev l e he] at hpa
      cases hpa
    · intro env n r dev l _
      exact playback_emit_record frames env n r dev l

theorem C12_monotonic_clock_witness :
    (∀ f ∈ three_frames, f.timestamp ≤ 1032000000) ∧
    (thread_start three_frames 5000).monotonic_clock +
      script_calls [quiet 5001, quiet 16005000, quiet 32005000, quiet 48005000] *
        max 1032000000 16000000 < 2 ^ 64 ∧
    List.Pairwise (· ≤ ·)
      ((thread_start three_frames 5000).monotonic_clock ::
        (playback_run three_frames [quiet 5001, quiet 16005000, quiet 32005000, quiet 48005000]
          (recording_start opened_device)
          (thread_start three_frames 5000)).2.2.map emission.timestamp) :=
  ⟨by decide, by decide,
    (C12_monotonic_clock three_frames
      [quiet 5001, quiet 16005000, quiet 32005000, quiet 48005000]
      (recording_start opened_device) (thread_start three_frames 5000) 1032000000
      (by decide) (by decide)).1⟩

/-- Claim C30: `recording_playpause` on a running device: with `loop` set it
stores the current frame index in `max_frame` and clears `loop`; with `loop`
clear and `max_frame >= frame` it sets `max_frame` to -1 and sets `loop`;
with `loop` clear and `max_frame < frame`, and on a device that is not
running, it changes nothing.  It never changes `frame` or `ignore_loop`, and
two calls in a row on a running device with `loop` set end with `loop` set
and `max_frame = -1`. -/
theorem C30_playpause (dev : gm_device) :
    (dev.running = true → dev.recording.loop = true →
      recording_playpause dev =
        { dev with
          recording := { dev.recording with max_frame := dev.recording.frame, loop := false } }) ∧
    (dev.running = true → dev.recording.loop = false →
      dev.recording.max_frame ≥ dev.recording.frame →
      recording_playpause dev =
        { dev with recording := { dev.recording with max_frame := -1, loop := true } }) ∧
    (dev.running = true → dev.recording.loop = false →
      dev.recording.max_frame < dev.recording.frame → recording_playpause dev = dev) ∧
    (dev.running = false → recording_playpause dev = dev) ∧
    (recording_playpause dev).recording.frame = dev.recording.frame ∧
    (recording_playpause dev).recording.ignore_loop = dev.recording.ignore_loop ∧
    (dev.running = true → dev.recording.loop = true →
      (recording_playpause (recording_playpause dev)).recording.loop = true ∧
      (recording_playpause (recording_playpause dev)).recording.max_frame = -1) := by
  have a1 : dev.running = true → dev.recording.loop = true →
      recording_playpause dev =
        { dev with
          recording :=
            { dev.recording with max_frame := dev.recording.frame, loop := false } } := by
    intro hr hl
    simp [recording_playpause, hr, hl]
  have a2 : ∀ d : gm_device, d.running = true → d.recording.loop = false →
      d.recording.max_frame ≥ d.recording.frame →
      recording_playpause d =
        { d with recording := { d.recording with max_frame := -1, loop := true } } := by
    intro d hr hl hm
    simp [recording_playpause, hr, hl, hm]
  refine ⟨a1, a2 dev, ?_, ?_, ?_, ?_, ?_⟩
  · intro hr hl hm
    have : ¬ dev.recording.max_frame ≥ dev.recording.frame := by omega
    simp [recording_playpause, hr, hl, this]
  · intro hr
    simp [recording_playpause, hr]
  · unfold recording_playpause
    split_ifs <;> rfl
  · unfold recording_playpause
    split_ifs <;> rfl
  · intro hr hl
    rw [a1 hr hl]
    rw [a2 { dev with
      recording := { dev.recording with max_frame := dev.recording.frame, loop := false } }
      hr rfl (le_refl _)]
    exact ⟨rfl, rfl⟩

theorem C30_playpause_witness :
    (recording_playpause (recording_playpause
      { opened_device with
        recording := { opened_device.recording with frame := 4, max_frame := 9 } }
      )).recording.loop = true ∧
    (recording_playpause (recording_playpause
      { opened_device with
        recording := { opened_device.recording with frame := 4, max_frame := 9 } }
      )).recording.max_frame = -1 :=
  (C30_playpause
    { opened_device with
      recording := { opened_device.recording with frame := 4, max_frame := 9 } }).2.2.2.2.2.2
    rfl rfl

/-! ## The catch-up block -/

/-- Claim C21, what the code does: the test `recording_progress <
(real_progress - 33333333)` is made on `uint64_t`.  For a `real_progress` of
at least 33,333,333 it holds exactly when `recording_progress` is more than
33,333,333 behind; for a smaller `real_progress` the subtraction wraps and
the test holds for every `recording_progress` below
`real_progress + 2^64 - 33333333`, also when playback is not behind.  On the
three-frame recording at frame index 1 (`recording_progress` 16 ms) with
`real_progress` 1 ns the block is entered and moves the frame index to 2
while the entry read stays 1. -/
theorem C21_catch_up_test (frames : List recorded_frame) (frame : Int)
    (real_progress : Nat) :
    (33333333 ≤ real_progress → real_progress < 2 ^ 64 →
      (catch_up_entered frames frame real_progress = true ↔
        sub64 (frame_timestamp_at frames frame) (frame_timestamp_at frames 0) +
          33333333 < real_progress)) ∧
    (real_progress < 33333333 →
      (catch_up_entered frames frame real_progress = true ↔
        sub64 (frame_timestamp_at frames frame) (frame_timestamp_at frames 0) <
          real_progress + (2 ^ 64 - 33333333))) ∧
    catch_up_entered three_frames 1 1 = true ∧
    skip_frames three_frames 3 (playing_device 1) 1 = (2, 1, 1016000000) := by
  refine ⟨?_, ?_, by with_unfolding_all decide, by with_unfolding_all decide⟩
  · intro h1 h2
    unfold catch_up_entered
    generalize sub64 (frame_timestamp_at frames frame)
      (frame_timestamp_at frames 0) = rp
    unfold sub64
    simp only [decide_eq_true_eq]
    norm_num at h2 ⊢
    omega
  · intro h1
    unfold catch_up_entered
    generalize sub64 (frame_timestamp_at frames frame)
      (frame_timestamp_at frames 0) = rp
    unfold sub64
    simp only [decide_eq_true_eq]
    norm_num
    omega

theorem C21_catch_up_test_witness :
    (catch_up_entered three_frames 2 40000000 = true ↔
      sub64 (frame_timestamp_at three_frames 2)
        (frame_timestamp_at three_frames 0) + 33333333 < 40000000) ∧
    (catch_up_entered three_frames 2 5 = true ↔
      sub64 (frame_timestamp_at three_frames 2)
        (frame_timestamp_at three_frames 0) < 5 + (2 ^ 64 - 33333333)) :=
  ⟨(C21_catch_up_test three_frames 2 40000000).1 (by decide) (by decide),
    (C21_catch_up_test three_frames 2 5).2.1 (by decide)⟩

theorem playback_emit_skip (frames : List recorded_frame) (env : iteration_env)
    (n_frames : Int) (restarted : Bool) (dev : gm_device) (l : playback_locals) :
    (playback_emit frames env n_frames restarted dev l).2.2.frame =
      (skip_frames frames n_frames dev.loop_resumed (sub64 env.time l.loop_start)).1 ∧
    (playback_emit frames env n_frames restarted dev l).2.2.record =
      (skip_frames frames n_frames dev.loop_resumed (sub64 env.time l.loop_start)).2.1 ∧
    (playback_emit frames env n_frames restarted dev l).2.2.frame_timestamp =
      (skip_frames frames n_frames dev.loop_resumed (sub64 env.time l.loop_start)).2.2 ∧
    (playback_emit frames env n_frames restarted dev l).2.2.restarted = restarted ∧
    (playback_emit frames env n_frames restarted dev l).1.recording.frame =
      (skip_frames frames n_frames dev.loop_resumed (sub64 env.time l.loop_start)).1 :=
  ⟨rfl, rfl, rfl, rfl, (playback_emit_dev frames env n_frames restarted dev l).2.1⟩

/-- Claim C22: when the catch-up block is entered with DEPTH requested, its
scan stops before the end of the effective range and at least one scanned
entry has a `depth_file`, the call at the end of the iteration is made with
the frame index at the largest scanned index that has a `depth_file`, and
with that entry as the record read (its timestamp is the frame timestamp). -/
theorem C22_catch_up_prefers_depth (frames : List recorded_frame) (env : iteration_env)
    (n_frames : Int) (restarted : Bool) (dev : gm_device) (l : playback_locals)
    (h0 : 0 ≤ dev.recording.frame)
    (he : catch_up_entered frames dev.recording.frame (sub64 env.time l.loop_start) = true)
    (hd : dev.frame_request_buffers_mask &&& GM_REQUEST_FRAME_DEPTH ≠ 0)
    (hi : (catch_up_scan frames n_frames dev.loop_resumed (sub64 env.time l.loop_start)).1 <
      n_frames)
    (hj : ∃ j, dev.recording.frame + 1 ≤ j ∧
      j < (catch_up_scan frames n_frames dev.loop_resumed (sub64 env.time l.loop_start)).1 ∧
      frame_has_depth_file frames j = true) :
    frame_has_depth_file frames
      (playback_emit frames env n_frames restarted dev l).2.2.frame = true ∧
    dev.recording.frame + 1 ≤ (playback_emit frames env n_frames restarted dev l).2.2.frame ∧
    (playback_emit frames env n_frames restarted dev l).2.2.frame <
      (catch_up_scan frames n_frames dev.loop_resumed (sub64 env.time l.loop_start)).1 ∧
    (∀ j, dev.recording.frame + 1 ≤ j →
      j < (catch_up_scan frames n_frames dev.loop_resumed (sub64 env.time l.loop_start)).1 →
      frame_has_depth_file frames j = true →
      j ≤ (playback_emit frames env n_frames restarted dev l).2.2.frame) ∧
    (playback_emit frames env n_frames restarted dev l).2.2.record =
      (playback_emit frames env n_frames restarted dev l).2.2.frame ∧
    (playback_emit frames env n_frames restarted dev l).2.2.frame_timestamp =
      frame_timestamp_at frames (playback_emit frames env n_frames restarted dev l).2.2.frame ∧
    (playback_emit frames env n_frames restarted dev l).1.recording.frame =
      (playback_emit frames env n_frames restarted dev l).2.2.frame := by
  obtain ⟨p1, p2, p3, -, p5⟩ := playback_emit_skip frames env n_frames restarted dev l
  rw [p1, p2, p3, p5]
  obtain ⟨c1, -, c3, c4⟩ := catch_up_scan_spec frames n_frames dev.loop_resumed
    (sub64 env.time l.loop_start)
  have hd0 : dev.loop_resumed.frame_request_buffers_mask &&& GM_REQUEST_FRAME_DEPTH ≠ 0 := hd
  have hf0 : dev.loop_resumed.recording.frame = dev.recording.frame := rfl
  rw [hf0] at c1 c3 c4
  obtain ⟨j, j1, j2, j3⟩ := hj
  have hjl := c4 j j1 j2 hd0 j3
  have hs : skip_frames frames n_frames dev.loop_resumed (sub64 env.time l.loop_start) =
      ((catch_up_scan frames n_frames dev.loop_resumed (sub64 env.time l.loop_start)).2.2.2.2,
        (catch_up_scan frames n_frames dev.loop_resumed (sub64 env.time l.loop_start)).2.2.2.2,
        frame_timestamp_at frames
          (catch_up_scan frames n_frames dev.loop_resumed
            (sub64 env.time l.loop_start)).2.2.2.2) := by
    unfold skip_frames
    rw [hf0, if_pos he]
    dsimp only
    rw [if_neg (by omega)]
    rcases c3 with c3 | ⟨b1, b2, -, -⟩
    · omega
    · rw [if_pos ⟨by omega, by omega⟩]
  rw [hs]
  dsimp only
  rcases c3 with c3 | ⟨b1, b2, -, b4⟩
  · omega
  · exact ⟨b4, b1, b2, fun x x1 x2 x3 => c4 x x1 x2 hd0 x3, rfl, rfl, rfl⟩

theorem C22_catch_up_prefers_depth_witness :
    (playback_emit depth_every_fifth (at_time 208000000) 20 false
      { playing_device 1 with frame_request_buffers_mask := 1 }
      (thread_start depth_every_fifth 0)).2.2.frame = 10 ∧
    (playback_emit depth_every_fifth (at_time 208000000) 20 false
      { playing_device 1 with frame_request_buffers_mask := 1 }
      (thread_start depth_every_fifth 0)).2.2.record =
      (playback_emit depth_every_fifth (at_time 208000000) 20 false
        { playing_device 1 with frame_request_buffers_mask := 1 }
        (thread_start depth_every_fifth 0)).2.2.frame :=
  ⟨by with_unfolding_all decide,
    (C22_catch_up_prefers_depth depth_every_fifth (at_time 208000000) 20 false
      { playing_device 1 with frame_request_buffers_mask := 1 }
      (thread_start depth_every_fifth 0) (by decide) (by with_unfolding_all decide) (by decide)
      (by with_unfolding_all decide)
      ⟨10, by decide, by with_unfolding_all decide, by decide⟩).2.2.2.2.1⟩

/-- Claim C23: when the catch-up block is entered and its scan reaches the
end of the effective range (`i >= n_frames`), the call at the end of the
iteration is made with the frame index at `n_frames - 1` and with that entry
as the record read, whatever entries with a `depth_file` were scanned; the
iteration does not restart the loop on that account. -/
theorem C23_catch_up_clamps_to_last (frames : List recorded_frame) (env : iteration_env)
    (n_frames : Int) (restarted : Bool) (dev : gm_device) (l : playback_locals)
    (h1 : dev.recording.frame ≤ n_frames - 1)
    (he : catch_up_entered frames dev.recording.frame (sub64 env.time l.loop_start) = true)
    (hi : n_frames ≤
      (catch_up_scan frames n_frames dev.loop_resumed (sub64 env.time l.loop_start)).1) :
    (playback_emit frames env n_frames restarted dev l).2.2.frame = n_frames - 1 ∧
    (playback_emit frames env n_frames restarted dev l).2.2.record = n_frames - 1 ∧
    (playback_emit frames env n_frames restarted dev l).2.2.frame_timestamp =
      frame_timestamp_at frames (n_frames - 1) ∧
    (playback_emit frames env n_frames restarted dev l).2.2.restarted = restarted ∧
    (playback_emit frames env n_frames restarted dev l).1.recording.frame = n_frames - 1 := by
  obtain ⟨p1, p2, p3, p4, p5⟩ := playback_emit_skip frames env n_frames restarted dev l
  rw [p1, p2, p3, p4, p5]
  obtain ⟨c1, c2, -, -⟩ := catch_up_scan_spec frames n_frames dev.loop_resumed
    (sub64 env.time l.loop_start)
  have hf0 : dev.loop_resumed.recording.frame = dev.recording.frame := rfl
  rw [hf0] at c1 c2
  have hs : skip_frames frames n_frames dev.loop_resumed (sub64 env.time l.loop_start) =
      (n_frames - 1,
        (catch_up_scan frames n_frames dev.loop_resumed (sub64 env.time l.loop_start)).2.1,
        (catch_up_scan frames n_frames dev.loop_resumed (sub64 env.time l.loop_start)).2.2.1) := by
    unfold skip_frames
    rw [hf0, if_pos he]
    dsimp only
    rw [if_pos (by omega)]
  rw [hs]
  dsimp only
  rcases c2 with ⟨a1, a2, a3, -⟩ | ⟨a1, a2, -, a4, a5⟩
  · have : dev.recording.frame = n_frames - 1 := by omega
    rw [a2, a3, this]
    exact ⟨rfl, rfl, rfl, rfl, rfl⟩
  · have : (catch_up_scan frames n_frames dev.loop_resumed (sub64 env.time l.loop_start)).1 - 1 =
        n_frames - 1 := by omega
    rw [a4, a5, this]
    exact ⟨rfl, rfl, rfl, rfl, rfl⟩

theorem C23_catch_up_clamps_to_last_witness :
    (playback_emit depth_every_fifth (at_time 1000000000) 20 false
      { playing_device 1 with frame_request_buffers_mask := 1 }
      (thread_start depth_every_fifth 0)).2.2.frame = 20 - 1 ∧
    (playback_emit depth_every_fifth (at_time 1000000000) 20 false
      { playing_device 1 with frame_request_buffers_mask := 1 }
      (thread_start depth_every_fifth 0)).2.2.record = 20 - 1 :=
  ⟨(C23_catch_up_clamps_to_last depth_every_fifth (at_time 1000000000) 20 false
      { playing_device 1 with frame_request_buffers_mask := 1 }
      (thread_start depth_every_fifth 0) (by decide) (by with_unfolding_all decide)
      (by with_unfolding_all decide)).1,
    (C23_catch_up_clamps_to_last depth_every_fifth (at_time 1000000000) 20 false
      { playing_device 1 with frame_request_buffers_mask := 1 }
      (thread_start depth_every_fifth 0) (by decide) (by with_unfolding_all decide)
      (by with_unfolding_all decide)).2.1⟩

/-- Claim C28, what the code does: after a catch-up scan that stops before
the end of the range with no jump back to a depth frame, the frame index is
left at the scan variable `i` while the record read is entry `i - 1` (the
last one scanned).  On the twenty-frame recording, started 208 ms late with
nothing requested, the first call is made with frame index 14 and the record
of entry 13; the next iteration increments the index to 15 and emits entry
15, so entry 14 is never emitted. -/
theorem C28_record_behind_frame_index :
    (playback_run depth_every_fifth [quiet 208000000, quiet 250000000]
      (recording_start opened_device) (thread_start depth_every_fifth 0)).2.2.map
        (fun e => (e.frame, e.record, e.frame_timestamp, e.restarted)) =
      [(14, 13, 1208000000, false), (15, 15, 1240000000, false)] := by
  with_unfolding_all decide

/-! ## The playback thread: which record an iteration emits -/

theorem sub64_self_timestamp (frames : List recorded_frame) (i : Int) :
    sub64 (frame_timestamp_at frames i) (frame_timestamp_at frames i) = 0 := by
  have h : frame_timestamp_at frames i < 2 ^ 64 := by
    unfold frame_timestamp_at
    split
    · norm_num
    · split
      · exact Nat.mod_lt _ (by norm_num)
      · norm_num
  unfold sub64
  rw [Nat.mod_eq_of_lt h]
  generalize frame_timestamp_at frames i = a at h
  have : 2 ^ 64 - a + a = 2 ^ 64 := by omega
  rw [this]
  exact Nat.mod_self _

theorem sub64_eq_zero_iff (a b : Nat) : sub64 a b = 0 ↔ a % 2 ^ 64 = b % 2 ^ 64 := by
  unfold sub64
  have ha := Nat.mod_lt a (show 0 < 2 ^ 64 by norm_num)
  have hb := Nat.mod_lt b (show 0 < 2 ^ 64 by norm_num)
  generalize a % 2 ^ 64 = x at *
  generalize b % 2 ^ 64 = y at *
  constructor
  · intro h
    by_contra hne
    rcases Nat.lt_or_gt_of_ne hne with h1 | h1
    · have : (2 ^ 64 - y + x) % 2 ^ 64 = 2 ^ 64 - y + x := Nat.mod_eq_of_lt (by omega)
      omega
    · have e : 2 ^ 64 - y + x = (x - y) + 2 ^ 64 := by omega
      rw [e, Nat.add_mod_right, Nat.mod_eq_of_lt (by omega)] at h
      omega
  · rintro rfl
    have : 2 ^ 64 - x + x = 2 ^ 64 := by omega
    rw [this]
    exact Nat.mod_self _

/-- At frame index 0, where `recording_progress` is 0, the test that guards
the catch-up block holds for every `real_progress` but 33,333,333. -/
theorem catch_up_entered_at_first_frame (frames : List recorded_frame) (real_progress : Nat) :
    catch_up_entered frames 0 real_progress = decide (real_progress % 2 ^ 64 ≠ 33333333) := by
  unfold catch_up_entered
  rw [sub64_self_timestamp]
  have := sub64_eq_zero_iff real_progress 33333333
  have e : (33333333 : Nat) % 2 ^ 64 = 33333333 := by norm_num
  rw [e] at this
  by_cases h : real_progress % 2 ^ 64 = 33333333
  · rw [this.mpr h, h]
    rfl
  · have hpos : 0 < sub64 real_progress 33333333 :=
      Nat.pos_of_ne_zero fun q => h (this.mp q)
    rw [decide_eq_true hpos, decide_eq_true (show real_progress % 2 ^ 64 ≠ 33333333 from h)]

/-- Claim C29, what the code does.  At a loop restart the frame index is 0 and
`loop_start` is set to the clock just read, so `real_progress` is the few
nanoseconds up to the next reading; `real_progress - 33333333` then wraps
around on `uint64_t` (the test of C21): on every recording the test at frame
index 0 holds for every `real_progress` other than exactly 33,333,333, so the
catch-up block is entered although playback is not behind, and the iteration
does not emit the record of entry 0 at frame index 0.  On the three-frame
recording, looping, entered at the last frame index: with the clock read 1 ns
after the restart the call is made with frame index 2 and the record of entry
1; with the same reading, frame index 1 and the record of entry 0; only with
a reading exactly 33,333,333 ns later is it frame index 0 and the record of
entry 0.  A run from `recording_start` whose clock is read 1000 ns after the
thread's start and after each restart emits the record of entry 1 at frame
index 2 in every iteration, the first one included: the records of entries 0
and 2 are never emitted. -/
theorem C29_restart_skips_first_record :
    (∀ (frames : List recorded_frame) (real_progress : Nat),
      catch_up_entered frames 0 real_progress =
        decide (real_progress % 2 ^ 64 ≠ 33333333)) ∧
    (playing_device 2).recording.loop = true ∧
    (playback_run three_frames
      [(.nothing, ⟨[], 1000, 1001, some (0, ⟨2, 2, []⟩), some (1, ⟨2, 2, []⟩)⟩)]
      (playing_device 2) (thread_start three_frames 0)).2.2.map
        (fun e => (e.frame, e.record, e.restarted)) = [(2, 1, true)] ∧
    (playback_run three_frames
      [(.nothing, ⟨[], 1000, 1000, some (0, ⟨2, 2, []⟩), some (1, ⟨2, 2, []⟩)⟩)]
      (playing_device 2) (thread_start three_frames 0)).2.2.map
        (fun e => (e.frame, e.record, e.restarted)) = [(1, 0, true)] ∧
    (playback_run three_frames
      [(.nothing, ⟨[], 1000, 33334333, some (0, ⟨2, 2, []⟩), some (1, ⟨2, 2, []⟩)⟩)]
      (playing_device 2) (thread_start three_frames 0)).2.2.map
        (fun e => (e.frame, e.record, e.restarted)) = [(0, 0, true)] ∧
    catch_up_entered three_frames 0 (sub64 1001 1000) = true ∧
    (playback_run three_frames
      [(.nothing, ⟨[], 0, 1000, some (0, ⟨2, 2, []⟩), some (1, ⟨2, 2, []⟩)⟩),
        (.nothing, ⟨[], 16001000, 16002000, some (0, ⟨2, 2, []⟩), some (1, ⟨2, 2, []⟩)⟩),
        (.nothing, ⟨[], 32001000, 32002000, some (0, ⟨2, 2, []⟩), some (1, ⟨2, 2, []⟩)⟩),
        (.nothing, ⟨[], 48001000, 48002000, some (0, ⟨2, 2, []⟩), some (1, ⟨2, 2, []⟩)⟩)]
      (recording_start opened_device) (thread_start three_frames 0)).2.2.map
        (fun e => (e.frame, e.record, e.restarted)) =
      [(2, 1, false), (2, 1, true), (2, 1, true), (2, 1, true)] := by
  refine ⟨catch_up_entered_at_first_frame, rfl, ?_, ?_, ?_, ?_, ?_⟩ <;> with_unfolding_all decide

/-! ## Stepping forward while paused -/

/-- Claim C15, what the code does at the last frame.  On a running device at
the last frame index `n` of a recording of `n + 1` frames,
`recording_step_forward` sets `max_frame = n + 1`, the number of recorded
frames, and the effective range `n_frames` stays `n + 1`, so that the frame
index is still at the end of the range.  On the three-frame recording paused
at its last frame index 2, `recording_step_forward` sets `max_frame = 3`, one
above the last index, and the thread, instead of making one frame of progress
and pausing, leaves the pause loop and restarts the loop at index 0.  When the
clock is then read exactly 33,333,333 ns after the restart (no catch-up), it
emits the records of entries 0, 1 and 2 before it pauses at index 2 again;
when the clock is read 1000 ns after the restart, the catch-up block is
entered (the test of C21), the call is made with frame index 2 and the record
of entry 1, and the thread pauses at index 2 again.  Paused at frame index 0
the same step makes one call, with the record of entry 1, and pauses at
index 1. -/
theorem C15_step_forward_at_last_frame :
    (∀ (dev : gm_device) (n : Nat),
      (recording_step_forward
        { dev with running := true, recording := { dev.recording with frame := n } }
        ).recording.max_frame = n + 1 ∧
      n_frames_of (recording_step_forward
        { dev with running := true, recording := { dev.recording with frame := n } })
        (n + 1) = n + 1) ∧
    paused_at three_frames.length (paused_device 2) 2 ∧
    (three_frames.length : Int) = 3 ∧
    (recording_step_forward (paused_device 2)).recording.max_frame = 3 ∧
    (recording_step_forward (paused_device 2)).recording.frame = 2 ∧
    (playback_run three_frames
      [(.nothing,
          ⟨[.step_forward], 33333333, 66666666, some (0, ⟨2, 2, []⟩), some (1, ⟨2, 2, []⟩)⟩),
        quiet 80000000, quiet 90000000, quiet 100000000]
      (paused_device 2) (thread_start three_frames 0)).2.2.map
        (fun e => (e.paused, e.frame, e.record, e.max_frame, e.restarted)) =
      [(true, 2, -1, 2, false), (false, 0, 0, 3, true), (false, 1, 1, 3, false),
        (false, 2, 2, 3, false)] ∧
    paused_at three_frames.length
      (playback_run three_frames
        [(.nothing,
            ⟨[.step_forward], 33333333, 66666666, some (0, ⟨2, 2, []⟩), some (1, ⟨2, 2, []⟩)⟩),
          quiet 80000000, quiet 90000000]
        (paused_device 2) (thread_start three_frames 0)).1 2 ∧
    (playback_run three_frames
      [(.nothing,
          ⟨[.step_forward], 50000000, 50001000, some (0, ⟨2, 2, []⟩), some (1, ⟨2, 2, []⟩)⟩),
        (.nothing, ⟨[.nothing], 0, 60000000, some (0, ⟨2, 2, []⟩), some (1, ⟨2, 2, []⟩)⟩)]
      (paused_device 2) (thread_start three_frames 0)).2.2.map
        (fun e => (e.paused, e.frame, e.record, e.max_frame, e.restarted)) =
      [(true, 2, -1, 2, false), (false, 2, 1, 3, true), (true, 2, -1, 3, false)] ∧
    paused_at three_frames.length (paused_device 0) 0 ∧
    (playback_run three_frames
      [(.nothing,
          ⟨[.step_forward], 0, 33333333, some (0, ⟨2, 2, []⟩), some (1, ⟨2, 2, []⟩)⟩),
        (.nothing,
          ⟨[.nothing, .nothing], 0, 50000000, some (0, ⟨2, 2, []⟩), some (1, ⟨2, 2, []⟩)⟩)]
      (paused_device 0) (thread_start three_frames 0)).2.2.map
        (fun e => (e.paused, e.frame, e.record, e.max_frame, e.restarted)) =
      [(true, 0, -1, 0, false), (false, 1, 1, 1, false), (true, 1, -1, 1, false),
        (true, 1, -1, 1, false)] := by
  refine ⟨fun dev n => ⟨?_, ?_⟩, ⟨rfl, rfl, rfl, rfl, by decide⟩, rfl, rfl, rfl, ?_, ?_, ?_,
    ⟨rfl, rfl, rfl, rfl, by decide⟩, ?_⟩
  · simp [recording_step_forward]
  · simp only [recording_step_forward, n_frames_of]
    simp
  · with_unfolding_all decide
  · unfold paused_at
    with_unfolding_all decide
  · with_unfolding_all decide
  · with_unfolding_all decide

/-! ## The ready-slot invariant

`Res.sat` is a Hoare-style judgement: a routine that returns establishes the
postcondition, and one that aborts does so with a message other than the two
ready-slot assertions of `gm_device_get_latest_frame`. -/

theorem Res.sat_ok {α : Type} (a : α) (w : World) (Q : α → World → Prop) :
    (Res.ok a w).sat Q ↔ Q a w := Iff.rfl

theorem Res.sat_abort {α : Type} (msg : String) (w : World) (Q : α → World → Prop) :
    (Res.abort msg w : Res α).sat Q ↔ ¬ ready_buffer_missing msg := Iff.rfl

theorem Res.sat_and_then {α β : Type} (r : Res α) (k : α → World → Res β)
    (Q : β → World → Prop) :
    (r.and_then k).sat Q ↔ r.sat fun a w => (k a w).sat Q := by
  cases r <;> rfl

theorem Res.sat_mono {α : Type} {r : Res α} {P Q : α → World → Prop} (h : r.sat P)
    (hPQ : ∀ a w, P a w → Q a w) : r.sat Q := by
  cases r with
  | ok a w => exact hPQ a w h
  | abort msg w => exact h

theorem Res.sat_of_eq_ok {α : Type} {r : Res α} {Q : α → World → Prop} {a : α} {w : World}
    (h : r.sat Q) (e : r = .ok a w) : Q a w := by
  subst e; exact h

theorem Res.sat_of_eq_abort {α : Type} {r : Res α} {Q : α → World → Prop} {msg : String}
    {w : World} (h : r.sat Q) (e : r = .abort msg w) : ¬ ready_buffer_missing msg := by
  subst e; exact h

theorem Res.sat_ite {α : Type} (c : Prop) [Decidable c] (r1 r2 : Res α)
    (Q : α → World → Prop) :
    (if c then r1 else r2).sat Q ↔ (c → r1.sat Q) ∧ (¬ c → r2.sat Q) := by
  split <;> simp [*]

theorem Prog.ite_apply {α : Type} (c : Prop) [Decidable c] (m1 m2 : Prog α) (w : World) :
    (if c then m1 else m2) w = if c then m1 w else m2 w := by
  split <;> rfl

theorem set_pool_ready_view (w : World) (p : pool_id) (x : gm_mem_pool) :
    (w.set_pool p x).dev.ready_view = w.dev.ready_view := by
  cases p <;> rfl

theorem gm_buffer_unref_sat (b : Nat) (w : World) :
    (gm_buffer_unref b w).sat fun _ w1 => w1.dev.ready_view = w.dev.ready_view := by
  simp only [gm_buffer_unref, gm_buffer_add_breadcrumb, device_buffer_recycle,
    mem_pool_recycle_resource, Prog.ite_apply, Prog.pure_apply,
    device_buffer_add_breadcrumb, Prog.bind_apply, get_world_apply, Res.and_then_ok,
    gm_assert_apply, modify_world_apply, Res.sat_and_then, Res.sat_ite, Res.sat_ok,
    Res.sat_abort, set_pool_ready_view]
  refine ⟨fun _ => ⟨fun _ => ⟨fun _ => rfl, fun _ => by decide⟩, fun _ => rfl⟩,
    fun _ => by decide⟩

theorem gm_buffer_ref_sat (b : Nat) (w : World) :
    (gm_buffer_ref b w).sat fun _ w1 => w1.dev.ready_view = w.dev.ready_view := by
  simp only [gm_buffer_ref, gm_buffer_add_breadcrumb, Prog.pure_apply, c_assert_apply,
    device_buffer_add_breadcrumb, Prog.bind_apply, get_world_apply, Res.and_then_ok,
    gm_assert_apply, modify_world_apply, Res.sat_and_then, Res.sat_ite, Res.sat_ok,
    Res.sat_abort]
  refine ⟨fun _ => ⟨fun _ => rfl, fun _ => by decide⟩, fun _ => by decide⟩

theorem option_unref_sat (old : Option Nat) (w : World) :
    ((match old with
      | some old => gm_buffer_unref old
      | none => (pure () : Prog Unit)) w).sat fun _ w1 =>
        w1.dev.ready_view = w.dev.ready_view := by
  cases old with
  | none => rfl
  | some o => exact gm_buffer_unref_sat o w

theorem mem_pool_acquire_buffer_sat (p : pool_id) (crumb : String) (w : World)
    (hp : p ≠ .frame_pool) :
    (mem_pool_acquire_buffer p crumb w).sat fun _ w1 =>
      w1.dev.ready_view = w.dev.ready_view := by
  cases ha : (w.pool p).available <;> cases p <;>
  simp only [World.pool] at ha <;>
  simp only [mem_pool_acquire_buffer, mem_pool_acquire_resource, gm_buffer_add_breadcrumb,
    Prog.pure_apply, pool_alloc_mem, device_video_buf_alloc, device_depth_buf_alloc,
    World.pool, ha,
    device_buffer_add_breadcrumb, Prog.bind_apply, get_world_apply, Res.and_then_ok,
    gm_assert_apply, modify_world_apply, Res.sat_and_then, Res.sat_ite, Res.sat_ok,
    Res.sat_abort, set_pool_ready_view]
  all_goals repeat (first | rfl | decide | intro _ | constructor)


theorem device_frame_add_breadcrumb_sat (f : Nat) (tag : String) (w : World) :
    (device_frame_add_breadcrumb f tag w).sat fun _ w1 =>
      w1.dev.ready_view = w.dev.ready_view := by
  simp only [device_frame_add_breadcrumb, Prog.bind_apply, get_world_apply, Res.and_then_ok,
    gm_assert_apply, modify_world_apply, Res.sat_and_then, Res.sat_ite, Res.sat_ok,
    Res.sat_abort]
  repeat (first | rfl | decide | intro _ | constructor)

theorem gm_frame_ref_sat (f : Nat) (w : World) :
    (gm_frame_ref f w).sat fun _ w1 => w1.dev.ready_view = w.dev.ready_view := by
  simp only [gm_frame_ref, gm_frame_add_breadcrumb, Prog.pure_apply, c_assert_apply,
    device_frame_add_breadcrumb, Prog.bind_apply, get_world_apply, Res.and_then_ok,
    gm_assert_apply, modify_world_apply, Res.sat_and_then, Res.sat_ite, Res.sat_ok,
    Res.sat_abort]
  repeat (first | rfl | decide | intro _ | constructor)

theorem mem_pool_acquire_frame_sat (crumb : String) (w : World) :
    (mem_pool_acquire_frame .frame_pool crumb w).sat fun _ w1 =>
      w1.dev.ready_view = w.dev.ready_view := by
  cases ha : (w.pool .frame_pool).available <;>
  simp only [World.pool] at ha <;>
  simp only [mem_pool_acquire_frame, mem_pool_acquire_resource, gm_frame_add_breadcrumb,
    Prog.pure_apply, pool_alloc_mem, device_frame_alloc,
    World.pool, ha,
    device_frame_add_breadcrumb, Prog.bind_apply, get_world_apply, Res.and_then_ok,
    gm_assert_apply, modify_world_apply, Res.sat_and_then, Res.sat_ite, Res.sat_ok,
    Res.sat_abort, set_pool_ready_view]
  all_goals repeat (first | rfl | decide | intro _ | constructor)

theorem device_frame_recycle_sat (f : Nat) (w : World) :
    (device_frame_recycle f w).sat fun _ w1 => w1.dev.ready_view = w.dev.ready_view := by
  simp only [device_frame_recycle, Prog.bind_apply, get_world_apply, Res.and_then_ok,
    gm_assert_apply, Res.sat_and_then, Res.sat_ite, Res.sat_abort]
  refine ⟨fun _ => ?_, fun _ => by decide⟩
  rw [Res.sat_ok]
  have tail : ∀ w0 : World, w0.dev.ready_view = w.dev.ready_view →
      ((do
        modify_world fun w => w.modify_frame f fun fr => { fr with trail := [] }
        mem_pool_recycle_resource .frame_pool f : Prog Unit) w0).sat fun _ w1 =>
        w1.dev.ready_view = w.dev.ready_view := by
    intro w0 h0
    simp only [Prog.bind_apply, modify_world_apply, mem_pool_recycle_resource,
      Res.and_then_ok, Res.sat_ok, set_pool_ready_view]
    exact h0
  have depth_part : ∀ w0 : World, w0.dev.ready_view = w.dev.ready_view →
      ((do
        let w ← get_world
        match (w.frames f).base.depth with
        | some depth =>
          gm_buffer_unref depth
          modify_world fun w =>
            w.modify_frame f fun fr => { fr with base := { fr.base with depth := none } }
        | none => pure ()
        modify_world fun w => w.modify_frame f fun fr => { fr with trail := [] }
        mem_pool_recycle_resource .frame_pool f : Prog Unit) w0).sat fun _ w1 =>
        w1.dev.ready_view = w.dev.ready_view := by
    intro w0 h0
    simp only [Prog.bind_apply, get_world_apply, Res.and_then_ok]
    generalize (w0.frames f).base.depth = o
    cases o
    rotate_left
    · simp only [Prog.bind_apply, Res.sat_and_then]
      refine Res.sat_mono (gm_buffer_unref_sat _ w0) fun _ w1 h1 => ?_
      simp only [modify_world_apply, Res.sat_ok]
      exact tail _ (h1.trans h0)
    · simp only [Prog.bind_apply, Prog.pure_apply, Res.and_then_ok]
      exact tail _ h0
  generalize (w.frames f).base.video = o
  cases o
  rotate_left
  · simp only [Prog.bind_apply, Res.sat_and_then]
    refine Res.sat_mono (gm_buffer_unref_sat _ w) fun _ w1 h1 => ?_
    simp only [modify_world_apply, Res.sat_ok]
    exact depth_part _ h1
  · simp only [Prog.bind_apply, Prog.pure_apply, Res.and_then_ok]
    exact depth_part _ rfl

theorem gm_frame_unref_sat (f : Nat) (w : World) :
    (gm_frame_unref f w).sat fun _ w1 => w1.dev.ready_view = w.dev.ready_view := by
  simp only [gm_frame_unref, gm_frame_add_breadcrumb, Prog.bind_apply, Res.sat_and_then]
  refine Res.sat_mono (device_frame_add_breadcrumb_sat f _ w) fun _ w1 h1 => ?_
  simp only [modify_world_apply, Res.sat_and_then, Res.sat_ok, get_world_apply,
    Prog.ite_apply, Prog.pure_apply, Res.sat_ite]
  refine ⟨fun _ => ?_, fun _ => h1⟩
  exact Res.sat_mono (device_frame_recycle_sat f _) fun _ w2 h2 => h2.trans h1

theorem gm_device_get_latest_frame_fill_sat (f : Nat) (w : World) (h : w.ready_slots_ok) :
    (gm_device_get_latest_frame_fill f w).sat fun _ w1 =>
      w1.dev.ready_view =
        (w.dev.type, 0, none, none, w.dev.depth_buf_back, w.dev.video_buf_back) := by
  obtain ⟨hd, hv, -⟩ := h
  by_cases hdb : w.dev.frame_ready_buffers_mask &&& GM_REQUEST_FRAME_DEPTH = 0 <;>
  by_cases hvb : w.dev.frame_ready_buffers_mask &&& GM_REQUEST_FRAME_VIDEO = 0 <;>
  simp only [hdb, hvb, ne_eq, not_true_eq_false, not_false_eq_true, false_iff, true_iff,
    not_not] at hd hv
  all_goals
    rcases hdr : w.dev.depth_buf_ready with _ | d <;>
    rcases hvr : w.dev.video_buf_ready with _ | v <;>
    first
      | (exfalso; simp [hdr] at hd; done)
      | (exfalso; simp [hvr] at hv; done)
      | skip
  all_goals
    simp [hdr, hvr, gm_device_get_latest_frame_fill, World.modify_dev, World.modify_frame,
      World.set_frame, gm_frame_ref, gm_frame_add_breadcrumb, device_frame_add_breadcrumb,
      unlock_swap_buffers, hdb, hvb, hd, hv, Res.sat_and_then, Res.sat_ite, Res.sat_ok,
      Res.sat_abort, gm_device.ready_view]
  all_goals repeat (first | rfl | decide | intro _ | constructor)

theorem gm_device_get_latest_frame_sat (w : World) (h : w.ready_slots_ok) :
    (gm_device_get_latest_frame w).sat fun _ w1 =>
      w1.dev.ready_view =
        (w.dev.type, 0, none, none, w.dev.depth_buf_back, w.dev.video_buf_back) := by
  have keep : ∀ w0 : World, w0.dev.ready_view = w.dev.ready_view → w0.ready_slots_ok ∧
      (w0.dev.type, (0 : Nat), (none : Option Nat), (none : Option Nat), w0.dev.depth_buf_back,
        w0.dev.video_buf_back) =
      (w.dev.type, 0, none, none, w.dev.depth_buf_back, w.dev.video_buf_back) := by
    intro w0 h0
    simp only [gm_device.ready_view, Prod.mk.injEq] at h0
    obtain ⟨h1, h2, h3, h4, h5, h6⟩ := h0
    refine ⟨?_, by rw [h1, h5, h6]⟩
    unfold World.ready_slots_ok
    rw [h1, h2, h3, h4, h5, h6]
    exact h
  simp only [gm_device_get_latest_frame, Prog.bind_apply, Res.sat_and_then]
  refine Res.sat_mono (mem_pool_acquire_frame_sat _ w) fun f w1 h1 => ?_
  simp only [lock_swap_buffers, modify_world_apply, Res.sat_ok, get_world_apply]
  generalize hW : World.modify_dev w1 _ = W
  have hWv : W.dev.ready_view = w.dev.ready_view := by
    rw [← hW]; exact h1
  clear hW
  generalize W.dev.last_frame = o
  cases o with
  | none =>
    simp only [Prog.pure_apply, Res.sat_ok]
    obtain ⟨k1, k2⟩ := keep W hWv
    rw [← k2]
    exact gm_device_get_latest_frame_fill_sat f W k1
  | some last =>
    simp only [Prog.bind_apply, Res.sat_and_then]
    refine Res.sat_mono (gm_frame_unref_sat last W) fun _ w2 h2 => ?_
    obtain ⟨k1, k2⟩ := keep w2 (h2.trans hWv)
    rw [← k2]
    exact gm_device_get_latest_frame_fill_sat f w2 k1

theorem or_depth_and_video (m : Nat) :
    (m ||| GM_REQUEST_FRAME_DEPTH) &&& GM_REQUEST_FRAME_VIDEO = m &&& GM_REQUEST_FRAME_VIDEO := by
  apply Nat.eq_of_testBit_eq
  intro i
  simp only [Nat.testBit_and, Nat.testBit_or, GM_REQUEST_FRAME_DEPTH, GM_REQUEST_FRAME_VIDEO]
  rcases i with _ | _ | i <;> simp [Nat.testBit_succ]

theorem or_video_and_depth (m : Nat) :
    (m ||| GM_REQUEST_FRAME_VIDEO) &&& GM_REQUEST_FRAME_DEPTH = m &&& GM_REQUEST_FRAME_DEPTH := by
  apply Nat.eq_of_testBit_eq
  intro i
  simp only [Nat.testBit_and, Nat.testBit_or, GM_REQUEST_FRAME_DEPTH, GM_REQUEST_FRAME_VIDEO]
  rcases i with _ | _ | i <;> simp [Nat.testBit_succ]

theorem World.ready_slots_ok_of_view {w w1 : World} (h : w.ready_slots_ok)
    (hv : w1.dev.ready_view = w.dev.ready_view) : w1.ready_slots_ok := by
  simp only [gm_device.ready_view, Prod.mk.injEq] at hv
  obtain ⟨h1, h2, h3, h4, h5, h6⟩ := hv
  unfold World.ready_slots_ok
  rw [h1, h2, h3, h4, h5, h6]
  exact h

theorem World.ready_slots_ok_depth {w w1 : World} (h : w.ready_slots_ok) (b : Nat)
    (hv : w1.dev.ready_view =
      (w.dev.type, w.dev.frame_ready_buffers_mask ||| GM_REQUEST_FRAME_DEPTH, some b,
        w.dev.video_buf_ready, w.dev.depth_buf_back, w.dev.video_buf_back)) :
    w1.ready_slots_ok := by
  simp only [gm_device.ready_view, Prod.mk.injEq] at hv
  obtain ⟨h1, h2, h3, h4, h5, h6⟩ := hv
  unfold World.ready_slots_ok
  rw [h1, h2, h3, h4, h5, h6, or_depth_and_video]
  exact ⟨⟨fun _ => by simp, fun _ => or_and_self_ne_zero _ _ (by decide)⟩, h.2.1, h.2.2⟩

theorem World.ready_slots_ok_video {w w1 : World} (h : w.ready_slots_ok) (b : Nat)
    (hv : w1.dev.ready_view =
      (w.dev.type, w.dev.frame_ready_buffers_mask ||| GM_REQUEST_FRAME_VIDEO,
        w.dev.depth_buf_ready, some b, w.dev.depth_buf_back, w.dev.video_buf_back)) :
    w1.ready_slots_ok := by
  simp only [gm_device.ready_view, Prod.mk.injEq] at hv
  obtain ⟨h1, h2, h3, h4, h5, h6⟩ := hv
  unfold World.ready_slots_ok
  rw [h1, h2, h3, h4, h5, h6, or_video_and_depth]
  exact ⟨h.1, ⟨fun _ => by simp, fun _ => or_and_self_ne_zero _ _ (by decide)⟩, h.2.2⟩

theorem World.ready_slots_ok_kinect_depth {w w1 : World} (h : w.ready_slots_ok) (b : Nat)
    (ht : w.dev.type = .GM_DEVICE_KINECT)
    (hv : w1.dev.ready_view =
      (w.dev.type, w.dev.frame_ready_buffers_mask ||| GM_REQUEST_FRAME_DEPTH,
        w.dev.depth_buf_back, w.dev.video_buf_ready, some b, w.dev.video_buf_back)) :
    w1.ready_slots_ok := by
  simp only [gm_device.ready_view, Prod.mk.injEq] at hv
  obtain ⟨h1, h2, h3, h4, h5, h6⟩ := hv
  unfold World.ready_slots_ok
  rw [h1, h2, h3, h4, h5, h6, or_depth_and_video]
  exact ⟨⟨fun _ => (h.2.2 ht).1, fun _ => or_and_self_ne_zero _ _ (by decide)⟩, h.2.1,
    fun _ => ⟨by simp, (h.2.2 ht).2⟩⟩

theorem World.ready_slots_ok_kinect_video {w w1 : World} (h : w.ready_slots_ok) (b : Nat)
    (ht : w.dev.type = .GM_DEVICE_KINECT)
    (hv : w1.dev.ready_view =
      (w.dev.type, w.dev.frame_ready_buffers_mask ||| GM_REQUEST_FRAME_VIDEO,
        w.dev.depth_buf_ready, w.dev.video_buf_back, w.dev.depth_buf_back, some b)) :
    w1.ready_slots_ok := by
  simp only [gm_device.ready_view, Prod.mk.injEq] at hv
  obtain ⟨h1, h2, h3, h4, h5, h6⟩ := hv
  unfold World.ready_slots_ok
  rw [h1, h2, h3, h4, h5, h6, or_video_and_depth]
  exact ⟨h.1, ⟨fun _ => (h.2.2 ht).2, fun _ => or_and_self_ne_zero _ _ (by decide)⟩,
    fun _ => ⟨(h.2.2 ht).1, by simp⟩⟩

theorem unlock_and_notify_sat (w : World) (Q : Unit → World → Prop) (hQ : Q () w.notified) :
    (unlock_and_notify w).sat Q := by
  rw [unlock_and_notify_eq]
  exact hQ

theorem World.notified_view (w : World) : w.notified.dev.ready_view = w.dev.ready_view := by
  unfold World.notified
  split <;> rfl

theorem tango_point_cloud_locked_sat (B timestamp : Nat) (pose : Option gm_pose) (w : World) :
    (tango_point_cloud_locked B timestamp pose w).sat fun _ w1 =>
      w1.dev.ready_view =
        (w.dev.type, w.dev.frame_ready_buffers_mask ||| GM_REQUEST_FRAME_DEPTH, some B,
          w.dev.video_buf_ready, w.dev.depth_buf_back, w.dev.video_buf_back) := by
  simp only [tango_point_cloud_locked, lock_swap_buffers, Prog.bind_apply, modify_world_apply,
    get_world_apply, Res.and_then_ok, World.modify_dev]
  exact Res.sat_mono (option_unref_sat _ _) fun _ w1 h => h

theorem tango_frame_available_locked_sat (B timestamp : Nat) (w : World) :
    (tango_frame_available_locked B timestamp w).sat fun _ w1 =>
      w1.dev.ready_view =
        (w.dev.type, w.dev.frame_ready_buffers_mask ||| GM_REQUEST_FRAME_VIDEO,
          w.dev.depth_buf_ready, some B, w.dev.depth_buf_back, w.dev.video_buf_back) := by
  simp only [tango_frame_available_locked, lock_swap_buffers, Prog.bind_apply,
    modify_world_apply, get_world_apply, Res.and_then_ok, World.modify_dev]
  exact Res.sat_mono (option_unref_sat _ _) fun _ w1 h => h

theorem on_avf_video_locked_sat (intrinsics : gm_intrinsics) (B time : Nat) (w : World) :
    (on_avf_video_locked intrinsics B time w).sat fun _ w1 =>
      w1.dev.ready_view =
        (w.dev.type, w.dev.frame_ready_buffers_mask ||| GM_REQUEST_FRAME_VIDEO,
          w.dev.depth_buf_ready, some B, w.dev.depth_buf_back, w.dev.video_buf_back) := by
  simp only [on_avf_video_locked, lock_swap_buffers, Prog.bind_apply,
    modify_world_apply, get_world_apply, Res.and_then_ok, World.modify_dev]
  exact Res.sat_mono (option_unref_sat _ _) fun _ w1 h => h

theorem on_avf_depth_locked_sat (intrinsics : gm_intrinsics) (B time : Nat) (w : World) :
    (on_avf_depth_locked intrinsics B time w).sat fun _ w1 =>
      w1.dev.ready_view =
        (w.dev.type, w.dev.frame_ready_buffers_mask ||| GM_REQUEST_FRAME_DEPTH, some B,
          w.dev.video_buf_ready, w.dev.depth_buf_back, w.dev.video_buf_back) := by
  simp only [on_avf_depth_locked, lock_swap_buffers, Prog.bind_apply,
    modify_world_apply, get_world_apply, Res.and_then_ok, World.modify_dev]
  exact Res.sat_mono (option_unref_sat _ _) fun _ w1 h => h

theorem kinect_depth_frame_locked_sat (time : Nat) (w : World) :
    (kinect_depth_frame_locked time w).sat fun _ w1 => ∃ b,
      w1.dev.ready_view =
        (w.dev.type, w.dev.frame_ready_buffers_mask ||| GM_REQUEST_FRAME_DEPTH,
          w.dev.depth_buf_back, w.dev.video_buf_ready, some b, w.dev.video_buf_back) := by
  simp only [kinect_depth_frame_locked, lock_swap_buffers, Prog.bind_apply, modify_world_apply,
    get_world_apply, Res.and_then_ok, World.modify_dev, Res.sat_and_then]
  refine Res.sat_mono (mem_pool_acquire_buffer_sat _ _ _ (by decide)) fun b w1 h1 => ?_
  refine Res.sat_mono (option_unref_sat _ _) fun _ w2 h2 => ⟨b, ?_⟩
  rw [h2]
  simp only [gm_device.ready_view, Prod.mk.injEq] at h1 ⊢
  obtain ⟨h1, h2, h3, h4, h5, h6⟩ := h1
  exact ⟨h1, by rw [h2], h3, h4, trivial, h6⟩

theorem kinect_rgb_frame_locked_sat (time : Nat) (w : World) :
    (kinect_rgb_frame_locked time w).sat fun _ w1 => ∃ b,
      w1.dev.ready_view =
        (w.dev.type, w.dev.frame_ready_buffers_mask ||| GM_REQUEST_FRAME_VIDEO,
          w.dev.depth_buf_ready, w.dev.video_buf_back, w.dev.depth_buf_back, some b) := by
  simp only [kinect_rgb_frame_locked, lock_swap_buffers, Prog.bind_apply, modify_world_apply,
    get_world_apply, Res.and_then_ok, World.modify_dev, Res.sat_and_then]
  refine Res.sat_mono (mem_pool_acquire_buffer_sat _ _ _ (by decide)) fun b w1 h1 => ?_
  refine Res.sat_mono (option_unref_sat _ _) fun _ w2 h2 => ⟨b, ?_⟩
  rw [h2]
  simp only [gm_device.ready_view, Prod.mk.injEq] at h1 ⊢
  obtain ⟨h1, h2, h3, h4, h5, h6⟩ := h1
  exact ⟨h1, by rw [h2], h3, h4, h5, trivial⟩

theorem tango_point_cloud_cb_sat (num_points : Nat) (points : List Nat) (timestamp : Nat)
    (pose : Option gm_pose) (w : World) (h : w.ready_slots_ok) :
    (tango_point_cloud_cb num_points points timestamp pose w).sat fun _ w1 =>
      w1.ready_slots_ok := by
  simp only [tango_point_cloud_cb, Prog.bind_apply, get_world_apply, Res.and_then_ok,
    Prog.ite_apply, Prog.pure_apply, Res.sat_ite, Res.sat_ok, Res.sat_and_then]
  refine ⟨fun _ => h, fun _ => ⟨fun _ => h, fun _ => ?_⟩⟩
  refine Res.sat_mono (mem_pool_acquire_buffer_sat _ _ _ (by decide)) fun b w1 h1 => ?_
  simp only [gm_assert_apply, Res.sat_ite, Res.sat_abort, Res.sat_ok, modify_world_apply]
  refine ⟨fun _ => ?_, fun _ => by decide⟩
  refine Res.sat_mono (tango_point_cloud_locked_sat _ _ _ _) fun _ w2 h2 => ?_
  refine unlock_and_notify_sat _ _ ?_
  refine World.ready_slots_ok_depth h b ?_
  rw [World.notified_view, h2]
  simp only [gm_device.ready_view, Prod.mk.injEq] at h1
  obtain ⟨e1, e2, e3, e4, e5, e6⟩ := h1
  simp only [World.copy_into, World.modify_buffer, World.set_buffer]
  rw [e1, e2, e4, e5, e6]

theorem copy_into_view (w : World) (b : Nat) (src : List Nat) :
    (w.copy_into b src).dev.ready_view = w.dev.ready_view := rfl

theorem tango_frame_available_cb_sat (format_nv12 : Bool) (luminance : List Nat)
    (timestamp : Nat) (w : World) (h : w.ready_slots_ok) :
    (tango_frame_available_cb format_nv12 luminance timestamp w).sat fun _ w1 =>
      w1.ready_slots_ok := by
  simp only [tango_frame_available_cb, Prog.bind_apply, get_world_apply, Res.and_then_ok,
    Prog.ite_apply, Prog.pure_apply, Res.sat_ite, Res.sat_ok, Res.sat_and_then,
    gm_assert_apply, Res.sat_abort, modify_world_apply]
  refine ⟨fun _ => h, fun _ => ⟨fun _ => h, fun _ => ⟨fun _ => ⟨fun _ => h, fun _ => ?_⟩,
    fun _ => by decide⟩⟩⟩
  refine Res.sat_mono (mem_pool_acquire_buffer_sat _ _ _ (by decide)) fun b w1 h1 => ?_
  refine Res.sat_mono (tango_frame_available_locked_sat _ _ _) fun _ w2 h2 => ?_
  refine unlock_and_notify_sat _ _ ?_
  refine World.ready_slots_ok_video h b ?_
  rw [World.notified_view, h2]
  simp only [gm_device.ready_view, Prod.mk.injEq] at h1
  obtain ⟨e1, e2, e3, e4, e5, e6⟩ := h1
  simp only [World.copy_into, World.modify_buffer, World.set_buffer]
  rw [e1, e2, e3, e5, e6]

theorem on_avf_video_cb_sat (intrinsics : gm_intrinsics) (stride : Nat) (video : List Nat)
    (time : Nat) (w : World) (h : w.ready_slots_ok) :
    (on_avf_video_cb intrinsics stride video time w).sat fun _ w1 => w1.ready_slots_ok := by
  simp only [on_avf_video_cb, Prog.bind_apply, get_world_apply, Res.and_then_ok,
    Prog.ite_apply, Prog.pure_apply, Res.sat_ite, Res.sat_ok, Res.sat_and_then,
    gm_assert_apply, Res.sat_abort, modify_world_apply]
  refine ⟨fun _ => h, fun _ => ⟨fun _ => h, fun _ => ⟨fun _ => ?_, fun _ => by decide⟩⟩⟩
  refine Res.sat_mono (mem_pool_acquire_buffer_sat _ _ _ (by decide)) fun b w1 h1 => ?_
  refine Res.sat_mono (on_avf_video_locked_sat _ _ _ _) fun _ w2 h2 => ?_
  refine unlock_and_notify_sat _ _ ?_
  refine World.ready_slots_ok_video h b ?_
  rw [World.notified_view, h2]
  simp only [gm_device.ready_view, Prod.mk.injEq] at h1
  obtain ⟨e1, e2, e3, e4, e5, e6⟩ := h1
  simp only [World.copy_into, World.modify_buffer, World.set_buffer]
  rw [e1, e2, e3, e5, e6]

theorem on_avf_depth_cb_sat (intrinsics : gm_intrinsics) (depth : List Nat) (time : Nat)
    (w : World) (h : w.ready_slots_ok) :
    (on_avf_depth_cb intrinsics depth time w).sat fun _ w1 => w1.ready_slots_ok := by
  simp only [on_avf_depth_cb, Prog.bind_apply, Res.sat_and_then]
  refine Res.sat_mono (mem_pool_acquire_buffer_sat _ _ _ (by decide)) fun b w1 h1 => ?_
  simp only [get_world_apply, Res.sat_ok, gm_assert_apply, Res.sat_ite, Res.sat_abort,
    modify_world_apply]
  refine ⟨fun _ => ?_, fun _ => by decide⟩
  refine Res.sat_mono (on_avf_depth_locked_sat _ _ _ _) fun _ w2 h2 => ?_
  refine unlock_and_notify_sat _ _ ?_
  refine World.ready_slots_ok_depth h b ?_
  rw [World.notified_view, h2]
  simp only [gm_device.ready_view, Prod.mk.injEq] at h1
  obtain ⟨e1, e2, e3, e4, e5, e6⟩ := h1
  simp only [World.copy_into, World.modify_buffer, World.set_buffer]
  rw [e1, e2, e4, e5, e6]

theorem kinect_depth_frame_cb_sat (time : Nat) (w : World) (h : w.ready_slots_ok)
    (ht : w.dev.type = .GM_DEVICE_KINECT) :
    (kinect_depth_frame_cb time w).sat fun _ w1 => w1.ready_slots_ok := by
  simp only [kinect_depth_frame_cb, Prog.bind_apply, get_world_apply, Res.and_then_ok,
    Prog.ite_apply, Prog.pure_apply, Res.sat_ite, Res.sat_ok, Res.sat_and_then]
  refine ⟨fun _ => h, fun _ => ?_⟩
  refine Res.sat_mono (kinect_depth_frame_locked_sat _ _) fun _ w2 h2 => ?_
  obtain ⟨b, h2⟩ := h2
  refine unlock_and_notify_sat _ _ ?_
  refine World.ready_slots_ok_kinect_depth h b ht ?_
  rw [World.notified_view, h2]

theorem kinect_rgb_frame_cb_sat (time : Nat) (w : World) (h : w.ready_slots_ok)
    (ht : w.dev.type = .GM_DEVICE_KINECT) :
    (kinect_rgb_frame_cb time w).sat fun _ w1 => w1.ready_slots_ok := by
  simp only [kinect_rgb_frame_cb, Prog.bind_apply, get_world_apply, Res.and_then_ok,
    Prog.ite_apply, Prog.pure_apply, Res.sat_ite, Res.sat_ok, Res.sat_and_then]
  refine ⟨fun _ => h, fun _ => ?_⟩
  refine Res.sat_mono (kinect_rgb_frame_locked_sat _ _) fun _ w2 h2 => ?_
  obtain ⟨b, h2⟩ := h2
  refine unlock_and_notify_sat _ _ ?_
  refine World.ready_slots_ok_kinect_video h b ht ?_
  rw [World.notified_view, h2]

theorem gm_device_request_frame_sat (buffers_mask : Nat) (w : World) (h : w.ready_slots_ok) :
    (gm_device_request_frame buffers_mask w).sat fun _ w1 => w1.ready_slots_ok := by
  by_cases hM : buffers_mask = 0
  · simp only [gm_device_request_frame, hM, if_true, Prog.pure_apply, Res.sat_ok]
    exact h
  · by_cases hz : (w.dev.frame_request_buffers_mask ||| buffers_mask) &&&
        w.dev.frame_ready_buffers_mask = 0
    · simp only [gm_device_request_frame, hM, if_false, lock_request_buffers_mask,
        unlock_request_buffers_mask, Prog.bind_apply, modify_world_apply, Res.and_then_ok,
        maybe_notify_frame_locked_eq, World.modify_dev, hz, ne_eq, not_true_eq_false,
        Res.sat_ok]
      exact World.ready_slots_ok_of_view h rfl
    · simp only [gm_device_request_frame, hM, if_false, lock_request_buffers_mask,
        unlock_request_buffers_mask, Prog.bind_apply, modify_world_apply, Res.and_then_ok,
        maybe_notify_frame_locked_eq, World.modify_dev, hz, ne_eq, not_false_eq_true, if_true,
        notify_frame_locked, Res.sat_ok]
      exact World.ready_slots_ok_of_view h rfl

theorem pure_unit_sat (w : World) :
    ((pure () : Prog Unit) w).sat fun _ w1 => w1.dev.ready_view = w.dev.ready_view := rfl

theorem swap_recorded_buffer_sat (depth : Bool) (buffer : Nat) (intrinsics : gm_intrinsics)
    (w : World) (h : w.ready_slots_ok) :
    (swap_recorded_buffer depth buffer intrinsics w).sat fun _ w1 => w1.ready_slots_ok := by
  cases depth
  · simp only [swap_recorded_buffer, Bool.false_eq_true, if_false, Prog.bind_apply,
      modify_world_apply, Res.and_then_ok, gm_assert_apply, Res.sat_and_then, Res.sat_ite,
      Res.sat_abort, Res.sat_ok]
    refine ⟨fun _ => ?_, fun _ => by decide⟩
    generalize hW : World.modify_dev w _ = W
    have hWv : W.dev.ready_view = w.dev.ready_view := by rw [← hW]; rfl
    clear hW
    simp only [get_world_apply, Res.sat_ok]
    generalize W.dev.recording.last_video_buf = o
    cases o <;>
    · simp only [Prog.bind_apply, Res.sat_and_then]
      first
        | refine Res.sat_mono (gm_buffer_unref_sat _ _) fun _ w1 h1 => ?_
        | refine Res.sat_mono (pure_unit_sat _) fun _ w1 h1 => ?_
      refine Res.sat_mono (gm_buffer_ref_sat _ _) fun r w2 h2 => ?_
      simp only [modify_world_apply, Res.sat_ok, get_world_apply, Prog.ite_apply,
        Prog.pure_apply, Res.sat_ite, Prog.bind_apply, Res.sat_and_then]
      have hv : w2.dev.ready_view = w.dev.ready_view := by rw [h2, h1, hWv]
      refine ⟨fun _ => ?_, fun _ => World.ready_slots_ok_of_view h hv⟩
      refine Res.sat_mono (gm_buffer_ref_sat _ _) fun r2 w3 h3 => ?_
      refine Res.sat_mono (option_unref_sat _ _) fun _ w4 h4 => ?_
      have hv3 : w3.dev.ready_view = w.dev.ready_view := by rw [h3]; exact hv
      simp only [gm_device.ready_view, Prod.mk.injEq] at hv3
      obtain ⟨e1, e2, e3, e4, e5, e6⟩ := hv3
      refine World.ready_slots_ok_video h r2 ?_
      rw [h4]
      simp only [World.modify_dev, gm_device.ready_view]
      rw [e1, e2, e3, e5, e6]
  · simp only [swap_recorded_buffer, if_true, Prog.bind_apply,
      modify_world_apply, Res.and_then_ok, gm_assert_apply, Res.sat_and_then, Res.sat_ite,
      Res.sat_abort, Res.sat_ok]
    refine ⟨fun _ => ?_, fun _ => by decide⟩
    generalize hW : World.modify_dev w _ = W
    have hWv : W.dev.ready_view = w.dev.ready_view := by rw [← hW]; rfl
    clear hW
    simp only [get_world_apply, Res.sat_ok]
    generalize W.dev.recording.last_depth_buf = o
    cases o <;>
    · simp only [Prog.bind_apply, Res.sat_and_then]
      first
        | refine Res.sat_mono (gm_buffer_unref_sat _ _) fun _ w1 h1 => ?_
        | refine Res.sat_mono (pure_unit_sat _) fun _ w1 h1 => ?_
      refine Res.sat_mono (gm_buffer_ref_sat _ _) fun r w2 h2 => ?_
      simp only [modify_world_apply, Res.sat_ok, get_world_apply, Prog.ite_apply,
        Prog.pure_apply, Res.sat_ite, Prog.bind_apply, Res.sat_and_then]
      have hv : w2.dev.ready_view = w.dev.ready_view := by rw [h2, h1, hWv]
      refine ⟨fun _ => ?_, fun _ => World.ready_slots_ok_of_view h hv⟩
      refine Res.sat_mono (gm_buffer_ref_sat _ _) fun r2 w3 h3 => ?_
      refine Res.sat_mono (option_unref_sat _ _) fun _ w4 h4 => ?_
      have hv3 : w3.dev.ready_view = w.dev.ready_view := by rw [h3]; exact hv
      simp only [gm_device.ready_view, Prod.mk.injEq] at hv3
      obtain ⟨e1, e2, e3, e4, e5, e6⟩ := hv3
      refine World.ready_slots_ok_depth h r2 ?_
      rw [h4]
      simp only [World.modify_dev, gm_device.ready_view]
      rw [e1, e2, e4, e5, e6]

theorem swap_recorded_frame_sat (timestamp : Nat) (pose : gm_pose) (camera_rotation : Int)
    (depth_buffer : Option Nat) (depth_intrinsics : gm_intrinsics)
    (video_buffer : Option Nat) (video_intrinsics : gm_intrinsics) (w : World)
    (h : w.ready_slots_ok) :
    (swap_recorded_frame timestamp pose camera_rotation depth_buffer depth_intrinsics
      video_buffer video_intrinsics w).sat fun _ w1 => w1.ready_slots_ok := by
  simp only [swap_recorded_frame, swap_recorded_frame_locked, lock_swap_buffers,
    Prog.bind_apply, modify_world_apply, Res.and_then_ok, Res.sat_and_then]
  have h0 : (World.modify_dev (World.modify_dev w fun d => { d with swap_buffers_lock := true })
      fun d =>
        { d with
          recording := { d.recording with last_camera_rotation := camera_rotation }
          camera_rotation := camera_rotation
          frame_time := timestamp
          frame_pose := pose }).ready_slots_ok := World.ready_slots_ok_of_view h rfl
  generalize World.modify_dev (World.modify_dev w _) _ = W at h0 ⊢
  have video_part : ∀ w0 : World, w0.ready_slots_ok →
      ((match video_buffer with
        | some buffer => swap_recorded_buffer false buffer video_intrinsics
        | none => (pure () : Prog Unit)) w0).sat fun _ w1 =>
          (unlock_and_notify w1).sat fun _ w2 => w2.ready_slots_ok := by
    intro w0 hw0
    have fin : ∀ w1 : World, w1.ready_slots_ok →
        (unlock_and_notify w1).sat fun _ w2 => w2.ready_slots_ok := fun w1 hw1 =>
      unlock_and_notify_sat _ _ (World.ready_slots_ok_of_view hw1 (World.notified_view w1))
    cases video_buffer with
    | none => exact fin w0 hw0
    | some b => exact Res.sat_mono (swap_recorded_buffer_sat _ _ _ _ hw0) fun _ w1 => fin w1
  cases depth_buffer with
  | none =>
    simp only [Prog.bind_apply, Prog.pure_apply, Res.and_then_ok]
    exact video_part W h0
  | some b =>
    simp only [Prog.bind_apply, Res.sat_and_then]
    exact Res.sat_mono (swap_recorded_buffer_sat _ _ _ _ h0) fun _ w1 => video_part w1

theorem World.ready_slots_ok_cleared {w w1 : World} (h : w.ready_slots_ok)
    (hv : w1.dev.ready_view =
      (w.dev.type, 0, none, none, w.dev.depth_buf_back, w.dev.video_buf_back)) :
    w1.ready_slots_ok := by
  simp only [gm_device.ready_view, Prod.mk.injEq] at hv
  obtain ⟨h1, h2, h3, h4, h5, h6⟩ := hv
  unfold World.ready_slots_ok
  rw [h1, h2, h3, h4, h5, h6]
  exact ⟨by simp, by simp, h.2.2⟩

theorem World.freshly_opened_ok {w : World} (h : w.freshly_opened) : w.ready_slots_ok := by
  obtain ⟨h1, h2, h3, h4⟩ := h
  unfold World.ready_slots_ok
  rw [h1, h2, h3]
  exact ⟨by simp, by simp, h4⟩

theorem reachable_ready_slots_ok (w : World) (h : reachable w) : w.ready_slots_ok := by
  induction h with
  | opened w h => exact World.freshly_opened_ok h
  | request w w1 m _ e ih => exact Res.sat_of_eq_ok (gm_device_request_frame_sat m w ih) e
  | recorded w w1 t p c d di v vi _ _ e ih =>
    exact Res.sat_of_eq_ok (swap_recorded_frame_sat t p c d di v vi w ih) e
  | kinect_depth w w1 t _ ht e ih =>
    exact Res.sat_of_eq_ok (kinect_depth_frame_cb_sat t w ih ht) e
  | kinect_rgb w w1 t _ ht e ih =>
    exact Res.sat_of_eq_ok (kinect_rgb_frame_cb_sat t w ih ht) e
  | tango_point_cloud w w1 n ps t p _ _ e ih =>
    exact Res.sat_of_eq_ok (tango_point_cloud_cb_sat n ps t p w ih) e
  | tango_frame w w1 f l t _ _ e ih =>
    exact Res.sat_of_eq_ok (tango_frame_available_cb_sat f l t w ih) e
  | avf_video w w1 i s v t _ _ e ih =>
    exact Res.sat_of_eq_ok (on_avf_video_cb_sat i s v t w ih) e
  | avf_depth w w1 i d t _ _ e ih =>
    exact Res.sat_of_eq_ok (on_avf_depth_cb_sat i d t w ih) e
  | latest w w1 f _ e ih =>
    exact World.ready_slots_ok_cleared ih
      (Res.sat_of_eq_ok (gm_device_get_latest_frame_sat w ih) e)

theorem first_swap_world_reachable : reachable first_swap_world :=
  reachable.recorded (gm_device_request_frame GM_REQUEST_FRAME_DEPTH first_read_world).world
    first_swap_world 1000 ⟨true, [], []⟩ 0 (some 0) ⟨2, 2, []⟩ none ⟨2, 2, []⟩
    (reachable.request first_read_world _ GM_REQUEST_FRAME_DEPTH
      (reachable.opened _ ⟨rfl, rfl, rfl, fun h => absurd h (by decide)⟩)
      (Res.eq_ok_of_value (by decide)))
    (by decide) (Res.eq_ok_of_value (by decide))

/-- Claim C26: in every device state reachable from a freshly opened device
through `gm_device_request_frame`, the producer updates of the device's
backend (`swap_recorded_frame`, the Kinect, Tango and AVF callbacks) and
`gm_device_get_latest_frame`, the depth bit of `frame_ready_buffers_mask` is
set exactly when `depth_buf_ready` is not null and the video bit exactly when
`video_buf_ready` is not null; and a call of `gm_device_get_latest_frame` in
such a state does not abort on either "ready flag set but buffer missing"
assertion. -/
theorem C26_ready_slot_invariant (w : World) (h : reachable w) :
    (w.dev.frame_ready_buffers_mask &&& GM_REQUEST_FRAME_DEPTH ≠ 0 ↔
      w.dev.depth_buf_ready ≠ none) ∧
    (w.dev.frame_ready_buffers_mask &&& GM_REQUEST_FRAME_VIDEO ≠ 0 ↔
      w.dev.video_buf_ready ≠ none) ∧
    ∀ msg w1, gm_device_get_latest_frame w = .abort msg w1 →
      msg ≠ "Depth ready flag set but buffer missing" ∧
      msg ≠ "Video ready flag set but buffer missing" := by
  have ok := reachable_ready_slots_ok w h
  refine ⟨ok.1, ok.2.1, fun msg w1 e => ?_⟩
  have := Res.sat_of_eq_abort (gm_device_get_latest_frame_sat w ok) e
  unfold ready_buffer_missing at this
  exact ⟨fun e1 => this (Or.inl e1), fun e2 => this (Or.inr e2)⟩

/-- Witness of C26: a recording device after a depth request and one
`swap_recorded_frame`; the depth bit is set and the depth slot holds buffer
0, the video bit is clear and the video slot is null. -/
theorem C26_ready_slot_invariant_witness :
    reachable first_swap_world ∧
    first_swap_world.dev.frame_ready_buffers_mask = 1 ∧
    first_swap_world.dev.depth_buf_ready = some 0 ∧
    first_swap_world.dev.video_buf_ready = none ∧
    ((first_swap_world.dev.frame_ready_buffers_mask &&& GM_REQUEST_FRAME_DEPTH ≠ 0 ↔
      first_swap_world.dev.depth_buf_ready ≠ none) ∧
    (first_swap_world.dev.frame_ready_buffers_mask &&& GM_REQUEST_FRAME_VIDEO ≠ 0 ↔
      first_swap_world.dev.video_buf_ready ≠ none) ∧
    ∀ msg w1, gm_device_get_latest_frame first_swap_world = .abort msg w1 →
      msg ≠ "Depth ready flag set but buffer missing" ∧
      msg ≠ "Video ready flag set but buffer missing") :=
  ⟨first_swap_world_reachable, by decide, by decide, by decide,
    C26_ready_slot_invariant first_swap_world first_swap_world_reachable⟩

/-! ## Reading a recorded payload -/

theorem mem_pool_acquire_buffer_returns (p : pool_id) (crumb : String) (w : World)
    (hp : p ≠ .frame_pool)
    (hfree : ∀ b rest, (w.pool p).available = b :: rest → w.buffer_ref b = 0)
    (hcap : (w.pool p).available = [] → (w.pool p).n_allocated < (w.pool p).max_size) :
    ∃ b w1, mem_pool_acquire_buffer p crumb w = .ok b w1 ∧
      w1.buffer_ref b = 1 ∧
      (∀ x, x ≠ b → w1.buffers x = w.buffers x) ∧
      (w.buffer_ref b = 0 ∨ b = w.next_buffer) ∧
      w1.dev.without_pools = w.dev.without_pools := by
  rcases ha : (w.pool p).available with _ | ⟨b, rest⟩
  · obtain ⟨w1, h1, h2, -, -, h5, -, -, -, h9⟩ :=
      mem_pool_acquire_buffer_fresh p crumb w hp ha (hcap ha)
    exact ⟨_, w1, h1, h2, h5, Or.inr rfl, h9⟩
  · refine ⟨b, _, mem_pool_acquire_buffer_reuse p crumb w b rest ha (hfree b rest ha), ?_, ?_,
      Or.inl (hfree b rest ha), ?_⟩
    · cases p <;>
        simp [World.set_pool, World.modify_buffer, World.set_buffer, World.buffer_ref]
    · intro x hx
      cases p <;>
        simp [World.set_pool, World.modify_buffer, World.set_buffer, Function.update_noteq hx]
    · cases p <;>
        simp [World.set_pool, World.modify_buffer, World.set_buffer, gm_device.without_pools,
          World.pool]

/-- Claim C25, refuted.  When the payload file is shorter than the declared
length, `read_frame_buffer` returns no buffer, but the buffer it hands back to
the pool still has count 1: it sits at the head of the pool's free list, and
the next `mem_pool_acquire_buffer` from that pool aborts on the "<pool name>
buffer was used after last free" assertion. -/
theorem C25_short_payload_poisons_pool (frame : frame_payload) (bytes : List Nat)
    (intrinsics_prop : String) (pool : pool_id) (w : World)
    (hp : pool ≠ .frame_pool) (hfile : frame.file = .content bytes)
    (hshort : bytes.length < frame.len)
    (hfree : ∀ b rest, (w.pool pool).available = b :: rest → w.buffer_ref b = 0)
    (hcap : (w.pool pool).available = [] →
      (w.pool pool).n_allocated < (w.pool pool).max_size) :
    ∃ b w1 rest, read_frame_buffer frame intrinsics_prop pool w = .ok none w1 ∧
      (w1.pool pool).available = b :: rest ∧ w1.buffer_ref b = 1 ∧
      ∀ crumb, (mem_pool_acquire_buffer pool crumb w1).failure? =
        some (mem_pool_get_name pool ++ " buffer was used after last free") := by
  obtain ⟨b, w1, e, hb, -, -, -⟩ :=
    mem_pool_acquire_buffer_returns pool "recording buffer" w hp hfree hcap
  have hlen : (List.take frame.len bytes).length ≠ frame.len := by
    rw [List.length_take]; omega
  have e1 : read_frame_buffer frame intrinsics_prop pool w =
      .ok none ((w1.copy_into b (bytes.take frame.len)).set_pool pool
        { (w1.copy_into b (bytes.take frame.len)).pool pool with
          available := b :: ((w1.copy_into b (bytes.take frame.len)).pool pool).available }) := by
    simp only [read_frame_buffer, hfile, Prog.bind_apply, e, Res.and_then_ok,
      modify_world_apply, Prog.ite_apply, if_pos hlen, mem_pool_recycle_resource,
      Prog.pure_apply]
  have ha : ∀ W : World, ((W.set_pool pool
      { W.pool pool with available := b :: (W.pool pool).available }).pool pool).available =
      b :: (W.pool pool).available := by
    intro W; cases pool <;> rfl
  have hr : ∀ (W : World) (x : gm_mem_pool), (W.set_pool pool x).buffer_ref b = W.buffer_ref b := by
    intro W x; cases pool <;> rfl
  have hc : (w1.copy_into b (bytes.take frame.len)).buffer_ref b = 1 := by
    rw [← hb]
    simp [World.copy_into, World.modify_buffer, World.set_buffer, World.buffer_ref]
  refine ⟨b, _, _, e1, ha _, (hr _ _).trans hc, fun crumb => ?_⟩
  rw [mem_pool_acquire_buffer_used pool crumb _ b _ (ha _) (by rw [hr, hc]; decide)]
  rfl

/-- Witness of C25: a 3-byte depth payload declared as 8 bytes, read on a
freshly opened recording device. -/
theorem C25_short_payload_poisons_pool_witness :
    ∃ b w1 rest, read_frame_buffer short_payload "depth_intrinsics" .depth_buf_pool
        opened_world = .ok none w1 ∧
      (w1.pool .depth_buf_pool).available = b :: rest ∧ w1.buffer_ref b = 1 ∧
      ∀ crumb, (mem_pool_acquire_buffer .depth_buf_pool crumb w1).failure? =
        some "depth buffer was used after last free" :=
  C25_short_payload_poisons_pool short_payload [1, 2, 3] "depth_intrinsics" .depth_buf_pool
    opened_world (by decide) rfl (by decide) (by intro b rest h; cases h) (by intro _; decide)

/-! ## Ownership accounting on the playback thread

States are taken between the thread's passes: a pass acquires its buffers,
calls `swap_recorded_frame` and drops the thread's own references. -/

/-- Claim C27, refuted.  On a freshly opened recording device with depth and
video requested, one pass of the playback thread (`recording_emit`) that
reads a whole depth payload and a video payload shorter than its declared
length returns normally.  The depth buffer 0 is accounted for: its count 2 is
the number of pointers to it (the depth ready slot and `last_depth_buf`).
The video buffer 1 is not: its count is 1 although no ready slot, no
last-buffer slot and no frame points to it, and it is in the video pool's free
list with that count. -/
theorem C27_failed_read_breaks_accounting :
    (recording_emit 1000 ⟨true, [], []⟩ 0 whole_payload short_payload
      (gm_device_request_frame 3 opened_world).world).value? = some () ∧
    (recording_emit 1000 ⟨true, [], []⟩ 0 whole_payload short_payload
      (gm_device_request_frame 3 opened_world).world).world.dev.depth_buf_ready = some 0 ∧
    (recording_emit 1000 ⟨true, [], []⟩ 0 whole_payload short_payload
      (gm_device_request_frame 3 opened_world).world).world.dev.recording.last_depth_buf =
      some 0 ∧
    (recording_emit 1000 ⟨true, [], []⟩ 0 whole_payload short_payload
      (gm_device_request_frame 3 opened_world).world).world.buffer_ref 0 = 2 ∧
    (recording_emit 1000 ⟨true, [], []⟩ 0 whole_payload short_payload
      (gm_device_request_frame 3 opened_world).world).world.owners 0 = 2 ∧
    (recording_emit 1000 ⟨true, [], []⟩ 0 whole_payload short_payload
      (gm_device_request_frame 3 opened_world).world).world.buffer_ref 1 = 1 ∧
    (recording_emit 1000 ⟨true, [], []⟩ 0 whole_payload short_payload
      (gm_device_request_frame 3 opened_world).world).world.owners 1 = 0 ∧
    (recording_emit 1000 ⟨true, [], []⟩ 0 whole_payload short_payload
      (gm_device_request_frame 3 opened_world).world).world.dev.video_buf_pool.available =
      [1] := by
  decide

/-! ## The pause loop: fresh copies at a fixed interval -/

theorem Res.world_of_ok {α : Type} {r : Res α} {a : α} {w1 : World} (h : r = .ok a w1) :
    r.world = w1 := by
  rw [h]; rfl

theorem mem_pool_acquire_buffer_fresh_next (p : pool_id) (crumb : String) (w : World)
    (hp : p ≠ .frame_pool)
    (ha : (w.pool p).available = []) (hn : (w.pool p).n_allocated < (w.pool p).max_size) :
    (mem_pool_acquire_buffer p crumb w).world.next_buffer = w.next_buffer + 1 := by
  cases p
  · simp_all [mem_pool_acquire_buffer, mem_pool_acquire_resource, World.pool, World.set_pool,
      World.modify_buffer, World.set_buffer, gm_buffer_add_breadcrumb,
      device_buffer_add_breadcrumb, pool_alloc_mem, device_video_buf_alloc, Res.world]
  · simp_all [mem_pool_acquire_buffer, mem_pool_acquire_resource, World.pool, World.set_pool,
      World.modify_buffer, World.set_buffer, gm_buffer_add_breadcrumb,
      device_buffer_add_breadcrumb, pool_alloc_mem, device_depth_buf_alloc, Res.world]
  · exact absurd rfl hp

theorem mem_pool_acquire_buffer_fresh_pools (p : pool_id) (crumb : String) (w : World)
    (hp : p ≠ .frame_pool)
    (ha : (w.pool p).available = []) (hn : (w.pool p).n_allocated < (w.pool p).max_size)
    (q : pool_id) (hq : q ≠ p) :
    (mem_pool_acquire_buffer p crumb w).world.pool q = w.pool q := by
  cases p
  · cases q <;>
    simp_all [mem_pool_acquire_buffer, mem_pool_acquire_resource, World.pool, World.set_pool,
      World.modify_buffer, World.set_buffer, gm_buffer_add_breadcrumb,
      device_buffer_add_breadcrumb, pool_alloc_mem, device_video_buf_alloc, Res.world]
  · cases q <;>
    simp_all [mem_pool_acquire_buffer, mem_pool_acquire_resource, World.pool, World.set_pool,
      World.modify_buffer, World.set_buffer, gm_buffer_add_breadcrumb,
      device_buffer_add_breadcrumb, pool_alloc_mem, device_depth_buf_alloc, Res.world]
  · exact absurd rfl hp

theorem mem_pool_acquire_buffer_full (p : pool_id) (crumb : String) (w : World)
    (hp : p ≠ .frame_pool) (hpool : w.pool_ok p) :
    ∃ b w1, mem_pool_acquire_buffer p crumb w = .ok b w1 ∧
      w1.buffer_ref b = 1 ∧ (w1.buffers b).pool = p ∧
      (∀ x, x ≠ b → w1.buffers x = w.buffers x) ∧
      (w.buffer_ref b = 0 ∧ (w.buffers b).pool = p ∧ b < w.next_buffer ∧
          w1.next_buffer = w.next_buffer ∨
        b = w.next_buffer ∧ w1.next_buffer = w.next_buffer + 1) ∧
      w1.dev.without_pools = w.dev.without_pools ∧
      (∀ q, q ≠ p → w1.pool q = w.pool q) := by
  obtain ⟨hfree, hcap⟩ := hpool
  rcases ha : (w.pool p).available with _ | ⟨b, rest⟩
  · have hn := hcap ha
    obtain ⟨w1, h1, h2, h3, -, h5, -, -, -, h9⟩ :=
      mem_pool_acquire_buffer_fresh p crumb w hp ha hn
    have hw := Res.world_of_ok h1
    refine ⟨_, w1, h1, h2, h3, h5, Or.inr ⟨rfl, ?_⟩, h9, ?_⟩
    · rw [← hw]; exact mem_pool_acquire_buffer_fresh_next p crumb w hp ha hn
    · intro q hq
      rw [← hw]; exact mem_pool_acquire_buffer_fresh_pools p crumb w hp ha hn q hq
  · obtain ⟨h0, hlt, hpl⟩ := hfree b rest ha
    refine ⟨b, _, mem_pool_acquire_buffer_reuse p crumb w b rest ha h0, ?_, ?_, ?_,
      Or.inl ⟨h0, hpl, hlt, ?_⟩, ?_, ?_⟩
    · cases p <;>
        simp [World.set_pool, World.modify_buffer, World.set_buffer, World.buffer_ref]
    · cases p <;>
        simp_all [World.set_pool, World.modify_buffer, World.set_buffer]
    · intro x hx
      cases p <;>
        simp [World.set_pool, World.modify_buffer, World.set_buffer, Function.update_noteq hx]
    · cases p <;> rfl
    · cases p <;>
        simp [World.set_pool, World.modify_buffer, World.set_buffer, gm_device.without_pools,
          World.pool]
    · intro q hq
      cases p <;> cases q <;> simp_all [World.set_pool, World.modify_buffer, World.set_buffer,
        World.pool]

theorem take_copy_prefix (n : Nat) (src dst : List Nat) (h : n ≤ src.length) :
    (src.take n ++ dst.drop (src.take n).length).take n = src.take n := by
  rw [List.take_append_of_le_length (by rw [List.length_take]; omega)]
  rw [List.take_take, min_self]

theorem copy_device_buffer_spec (B : Nat) (p : pool_id) (w : World) (hp : p ≠ .frame_pool)
    (hB : w.buffer_ok B p) (hpool : w.pool_ok p) :
    ∃ c w1, copy_device_buffer B w = .ok c w1 ∧ copy_post B p w c w1 := by
  obtain ⟨h1, h2, h3, h4⟩ := hB
  obtain ⟨c, wa, e, a1, a2, a3, a4, a5, a6⟩ :=
    mem_pool_acquire_buffer_full p "paused recording buffer" w hp hpool
  have hcB : c ≠ B := by
    rcases a4 with ⟨z, -, -, -⟩ | ⟨z, -⟩
    · intro e0; rw [e0] at z; omega
    · intro e0; rw [e0] at z; omega
  have hBa : wa.buffers B = w.buffers B := a3 B (Ne.symm hcB)
  have e1 : copy_device_buffer B w = .ok c
      ((wa.modify_buffer c fun b =>
          { b with base := { b.base with len := (w.buffers B).base.len } }).copy_into c
        ((w.buffers B).base.data.take (w.buffers B).base.len)) := by
    simp only [copy_device_buffer, Prog.bind_apply, get_world_apply, Res.and_then_ok, h3, e,
      modify_world_apply, Prog.pure_apply]
    have hm : ∀ f : gm_device_buffer → gm_device_buffer,
        (wa.modify_buffer c f).buffers B = w.buffers B := by
      intro f
      simp [World.modify_buffer, World.set_buffer, Function.update_noteq (Ne.symm hcB), hBa]
    rw [hBa, hm]
  simp only [World.buffer_ref] at a1 a4
  refine ⟨c, _, e1, hcB, ?_, ?_, ?_, ?_, ?_, a4, a5, a6⟩
  · simp [World.copy_into, World.modify_buffer, World.set_buffer, a1, World.buffer_ref]
  · simp [World.copy_into, World.modify_buffer, World.set_buffer, a2]
  · simp [World.copy_into, World.modify_buffer, World.set_buffer]
  · simp only [World.copy_into, World.modify_buffer, World.set_buffer, Function.update_same]
    exact take_copy_prefix _ _ _ h4
  · intro x hx
    simp [World.copy_into, World.modify_buffer, World.set_buffer, Function.update_noteq hx,
      a3 x hx]

theorem copy_post.next_le {B : Nat} {p : pool_id} {w : World} {c : Nat} {w1 : World}
    (h : copy_post B p w c w1) : w.next_buffer ≤ w1.next_buffer ∧ c < w1.next_buffer := by
  rcases h.origin with ⟨-, -, h3, h4⟩ | ⟨h3, h4⟩ <;> omega

theorem copy_post.kept {B : Nat} {p : pool_id} {w : World} {c : Nat} {w1 : World}
    (h : copy_post B p w c w1) (x : Nat) (hx : (w.buffers x).pool ≠ p)
    (hlt : x < w.next_buffer) : w1.buffers x = w.buffers x := by
  apply h.others
  rcases h.origin with ⟨-, h2, -, -⟩ | ⟨h3, -⟩
  · intro e; rw [e] at hx; exact hx h2
  · omega

theorem copy_post.buffer_ok_other {B : Nat} {p : pool_id} {w : World} {c : Nat} {w1 : World}
    (h : copy_post B p w c w1) (x : Nat) (q : pool_id) (hq : q ≠ p) (hx : w.buffer_ok x q) :
    w1.buffer_ok x q := by
  obtain ⟨h1, h2, h3, h4⟩ := hx
  have e := h.kept x (by rw [h3]; exact hq) h2
  unfold World.buffer_ok World.buffer_ref at *
  rw [e]
  exact ⟨h1, by have := h.next_le.1; omega, h3, h4⟩

theorem copy_post.pool_ok_other {B : Nat} {p : pool_id} {w : World} {c : Nat} {w1 : World}
    (h : copy_post B p w c w1) (q : pool_id) (hq : q ≠ p) (hx : w.pool_ok q) :
    w1.pool_ok q := by
  obtain ⟨h1, h2⟩ := hx
  unfold World.pool_ok
  rw [h.pools q hq]
  refine ⟨fun b rest hb => ?_, h2⟩
  obtain ⟨z1, z2, z3⟩ := h1 b rest hb
  have e := h.kept b (by rw [z3]; exact hq) z2
  unfold World.buffer_ref at *
  rw [e]
  exact ⟨z1, by have := h.next_le.1; omega, z3⟩

theorem last_bufs_of_without_pools {d d1 : gm_device}
    (h : d1.without_pools = d.without_pools) :
    d1.recording = d.recording ∧ d1.depth_intrinsics = d.depth_intrinsics ∧
    d1.video_intrinsics = d.video_intrinsics := by
  have h1 := congrArg gm_device.recording h
  have h2 := congrArg gm_device.depth_intrinsics h
  have h3 := congrArg gm_device.video_intrinsics h
  exact ⟨h1, h2, h3⟩

theorem pause_copies_spec (w : World) (h : w.pause_ready) :
    ∃ cd cv w1, pause_copies w = .ok (cd, cv) w1 ∧
      w1.dev.without_pools = w.dev.without_pools ∧
      w.is_copy_of w1 w.dev.recording.last_depth_buf cd ∧
      w.is_copy_of w1 w.dev.recording.last_video_buf cv := by
  obtain ⟨hd, hv, hpd, hpv⟩ := h
  rcases hld : w.dev.recording.last_depth_buf with _ | d
  · rcases hlv : w.dev.recording.last_video_buf with _ | v
    · refine ⟨none, none, w, ?_, rfl, rfl, rfl⟩
      simp only [pause_copies, Prog.bind_apply, get_world_apply, Res.and_then_ok, hld, hlv,
        Prog.pure_apply]
    · obtain ⟨c, w1, e, hc⟩ := copy_device_buffer_spec v .video_buf_pool w (by decide)
        (hv v hlv) hpv
      refine ⟨none, some c, w1, ?_, hc.dev, rfl, ?_⟩
      · simp only [pause_copies, Prog.bind_apply, get_world_apply, Res.and_then_ok, hld, hlv,
          Prog.pure_apply, e]
      · exact ⟨c, rfl, hc.ne, hc.ref, hc.len, hc.bytes, hc.others v (Ne.symm hc.ne)⟩
  · obtain ⟨c, w1, e, hc⟩ := copy_device_buffer_spec d .depth_buf_pool w (by decide)
      (hd d hld) hpd
    have hrec := (last_bufs_of_without_pools hc.dev).1
    have hdk : w1.buffers d = w.buffers d := hc.others d (Ne.symm hc.ne)
    rcases hlv : w.dev.recording.last_video_buf with _ | v
    · refine ⟨some c, none, w1, ?_, hc.dev, ?_, rfl⟩
      · simp only [pause_copies, Prog.bind_apply, get_world_apply, Res.and_then_ok, hld,
          Prog.pure_apply, e, hrec, hlv]
      · exact ⟨c, rfl, hc.ne, hc.ref, hc.len, hc.bytes, hdk⟩
    · have hv1 := hc.buffer_ok_other v .video_buf_pool (by decide) (hv v hlv)
      have hpv1 := hc.pool_ok_other .video_buf_pool (by decide) hpv
      obtain ⟨c2, w2, e2, hc2⟩ := copy_device_buffer_spec v .video_buf_pool w1 (by decide)
        hv1 hpv1
      have hvk : w1.buffers v = w.buffers v :=
        hc.kept v (by rw [(hv v hlv).2.2.1]; decide) (hv v hlv).2.1
      have hck : w2.buffers c = w1.buffers c :=
        hc2.kept c (by rw [hc.pool]; decide) hc.next_le.2
      have hdk2 : w2.buffers d = w1.buffers d :=
        hc2.kept d (by rw [hdk, (hd d hld).2.2.1]; decide)
          (by have := hc.next_le.1; have := (hd d hld).2.1; omega)
      refine ⟨some c, some c2, w2, ?_, hc2.dev.trans hc.dev, ?_, ?_⟩
      · simp only [pause_copies, Prog.bind_apply, get_world_apply, Res.and_then_ok, hld,
          Prog.pure_apply, e, hrec, hlv, e2]
      · refine ⟨c, rfl, hc.ne, ?_, ?_, ?_, hdk2.trans hdk⟩
        · unfold World.buffer_ref; rw [hck]; exact hc.ref
        · rw [hck]; exact hc.len
        · rw [hck]; exact hc.bytes
      · refine ⟨c2, rfl, hc2.ne, hc2.ref, ?_, ?_, (hc2.others v (Ne.symm hc2.ne)).trans hvk⟩
        · rw [hc2.len, hvk]
        · rw [← hvk]; exact hc2.bytes

theorem pause_tick_eq (monotonic_clock : Nat) (pose : gm_pose) (w : World)
    (cd cv : Option Nat) (w1 : World) (e : pause_copies w = .ok (cd, cv) w1) :
    pause_tick monotonic_clock pose w =
      (swap_recorded_frame (add64 monotonic_clock 16000000) pose
        w1.dev.recording.last_camera_rotation cd w1.dev.depth_intrinsics
        cv w1.dev.video_intrinsics w1).and_then fun _ => unref_thread_buffers cd cv := by
  simp only [pause_tick, Prog.bind_apply, e, Res.and_then_ok, get_world_apply]

theorem pause_loop_left (actions : List ui_action) (dev : gm_device) (l : playback_locals)
    (h : (pause_loop actions dev l).2.2.2 = false) :
    ((pause_loop actions dev l).1.running && !(pause_loop actions dev l).1.recording.loop &&
      !(pause_loop actions dev l).1.recording.ignore_loop) = false := by
  induction actions generalizing dev l with
  | nil =>
    rw [pause_loop] at h ⊢
    exact h
  | cons a rest ih =>
    by_cases hc : (dev.running && !dev.recording.loop && !dev.recording.ignore_loop) = true
    · rw [pause_loop_cons a rest dev l hc] at h ⊢
      exact ih _ _ h
    · rw [pause_loop_stop a rest dev l hc]
      simpa using hc

theorem pause_loop_deltas (actions : List ui_action) (dev : gm_device) (l : playback_locals) :
    ∀ e ∈ (pause_loop actions dev l).2.2.1,
      e.delta = 16000000 ∧ e.timestamp = add64 e.clock_before 16000000 := by
  induction actions generalizing dev l with
  | nil => intro e he; cases he
  | cons a rest ih =>
    by_cases hc : (dev.running && !dev.recording.loop && !dev.recording.ignore_loop) = true
    · rw [pause_loop_cons a rest dev l hc]
      intro e he
      rcases List.mem_cons.mp he with rfl | he
      · exact ⟨rfl, rfl⟩
      · exact ih _ _ e he
    · rw [pause_loop_stop a rest dev l hc]
      intro e he; cases he

/-- Claim C24: in a state where the recording's last buffers are live and the
buffer pools can hand out a buffer, a pass of the pause loop makes its copies
and calls `swap_recorded_frame` with them and with the clock advanced by
16,000,000 ns; for each kind that has a last buffer the buffer passed is
another buffer than the last one, with the same `len` and the same first `len`
bytes, and for a kind without a last buffer none is passed.  Every call made
by the pause loop starts from the clock the previous one left and carries that
clock plus 16,000,000 (modulo 2^64); a pass is made whenever the device runs
with `loop` and `ignore_loop` false; and when the loop has been left, the
device is not running, or `loop` is true, or `ignore_loop` is true. -/
theorem C24_pause_loop_copies (w : World) (monotonic_clock : Nat) (pose : gm_pose)
    (actions : List ui_action) (dev : gm_device) (l : playback_locals)
    (h : w.pause_ready) :
    (∃ cd cv w1, pause_copies w = .ok (cd, cv) w1 ∧
      pause_tick monotonic_clock pose w =
        (swap_recorded_frame (add64 monotonic_clock 16000000) pose
          w.dev.recording.last_camera_rotation cd w.dev.depth_intrinsics
          cv w.dev.video_intrinsics w1).and_then (fun _ => unref_thread_buffers cd cv) ∧
      w.is_copy_of w1 w.dev.recording.last_depth_buf cd ∧
      w.is_copy_of w1 w.dev.recording.last_video_buf cv) ∧
    trace_ok l.monotonic_clock l.loop_prev_frame_timestamp (pause_loop actions dev l).2.2.1 ∧
    (∀ e ∈ (pause_loop actions dev l).2.2.1,
      e.paused = true ∧ e.delta = 16000000 ∧
      e.timestamp = add64 e.clock_before 16000000 ∧
      (e.clock_before + 16000000 < 2 ^ 64 → e.timestamp = e.clock_before + 16000000)) ∧
    ((dev.running && !dev.recording.loop && !dev.recording.ignore_loop) = true →
      ∀ a, ∃ e rest, (pause_loop (a :: actions) dev l).2.2.1 = e :: rest ∧
        e.clock_before = l.monotonic_clock) ∧
    ((pause_loop actions dev l).2.2.2 = false →
      (pause_loop actions dev l).1.running = false ∨
      (pause_loop actions dev l).1.recording.loop = true ∨
      (pause_loop actions dev l).1.recording.ignore_loop = true) := by
  refine ⟨?_, (pause_loop_trace actions dev l).1, ?_, ?_, ?_⟩
  · obtain ⟨cd, cv, w1, e, hdev, h1, h2⟩ := pause_copies_spec w h
    obtain ⟨r1, r2, r3⟩ := last_bufs_of_without_pools hdev
    refine ⟨cd, cv, w1, e, ?_, h1, h2⟩
    rw [pause_tick_eq monotonic_clock pose w cd cv w1 e, r1, r2, r3]
  · intro e he
    obtain ⟨d1, d2⟩ := pause_loop_deltas actions dev l e he
    refine ⟨pause_loop_paused actions dev l e he, d1, d2, fun hlt => ?_⟩
    rw [d2, add64_eq_of_lt hlt]
  · intro hc a
    rw [pause_loop_cons a actions dev l hc]
    exact ⟨_, _, rfl, rfl⟩
  · intro hleft
    have := pause_loop_left actions dev l hleft
    generalize (pause_loop actions dev l).1 = d at this
    cases hr : d.running <;> cases hl : d.recording.loop <;>
      cases hi : d.recording.ignore_loop <;> simp_all

theorem paused_world_ready : paused_world.pause_ready :=
  ⟨fun d hd => by cases hd; exact ⟨by decide, by decide, rfl, by decide⟩,
    fun v hv => by cases hv; exact ⟨by decide, by decide, rfl, by decide⟩,
    ⟨fun b rest hb => (by cases hb), fun _ => (by decide)⟩,
    ⟨fun b rest hb => (by cases hb), fun _ => (by decide)⟩⟩

/-- Witness of C24: the paused device `paused_world` at clock 1000.  The pass
returns; it leaves copy 2 of depth buffer 0 and copy 3 of video buffer 1 as the
recording's last buffers, stamped 16,001,000. -/
theorem C24_pause_loop_copies_witness :
    paused_world.pause_ready ∧
    (pause_tick 1000 ⟨true, [], []⟩ paused_world).value? = some () ∧
    (pause_tick 1000 ⟨true, [], []⟩ paused_world).world.dev.recording.last_depth_buf =
      some 2 ∧
    (pause_tick 1000 ⟨true, [], []⟩ paused_world).world.dev.recording.last_video_buf =
      some 3 ∧
    (pause_tick 1000 ⟨true, [], []⟩ paused_world).world.dev.frame_time = 16001000 ∧
    ((pause_tick 1000 ⟨true, [], []⟩ paused_world).world.buffers 2).base.data.take 4 =
      [1, 2, 3, 4] ∧
    ((pause_tick 1000 ⟨true, [], []⟩ paused_world).world.buffers 3).base.len = 2 ∧
    (∃ cd cv w1, pause_copies paused_world = .ok (cd, cv) w1 ∧
      pause_tick 1000 ⟨true, [], []⟩ paused_world =
        (swap_recorded_frame (add64 1000 16000000) ⟨true, [], []⟩
          paused_world.dev.recording.last_camera_rotation cd paused_world.dev.depth_intrinsics
          cv paused_world.dev.video_intrinsics w1).and_then
          (fun _ => unref_thread_buffers cd cv) ∧
      paused_world.is_copy_of w1 paused_world.dev.recording.last_depth_buf cd ∧
      paused_world.is_copy_of w1 paused_world.dev.recording.last_video_buf cv) :=
  ⟨paused_world_ready, by with_unfolding_all decide, by with_unfolding_all decide,
    by with_unfolding_all decide, by with_unfolding_all decide, by with_unfolding_all decide,
    by with_unfolding_all decide,
    (C24_pause_loop_copies paused_world 1000 ⟨true, [], []⟩ [] paused_world.dev
      ⟨1000, 0, 0, ⟨true, [], []⟩⟩
      paused_world_ready).1⟩

end Glimpse
